import Mathlib

/-!
# HinaOS kernel: tasks, scheduler, IPC and memory

A shallow embedding of `kernel/task.c`, `kernel/ipc.c`, `kernel/memory.c`,
`kernel/riscv32/vm.c` and of the system calls of `kernel/syscall.c` over them (with
the pieces of `kernel/interrupt.c`, `libs/common/types.h`, `libs/common/message.h`
and `buildconfig.h` they rely on).

Conventions of the embedding

* `struct task *` is a `task_ptr`: either `&tasks[i]` or `&idle_tasks[cpu]`.
* The intrusive lists (`runqueue`, `active_tasks`, `task.senders`) are Lean lists of
  `task_ptr`, head first.  A task has one `waitqueue_next` link, so it is on at most
  one of the wait lists (the run queue or one sender queue) at a time.
* C `int` values (`task_t`, `error_t`, `state`) are `Int`; `unsigned` flags and
  `notifications_t` (32 bit) are `Nat`, with the width made explicit where a
  complement is taken.
* A kernel entry runs with the big kernel lock held, so every function is a
  transformer of the whole kernel state.  A function that calls `task_switch` while
  its caller is blocked stops there with the outcome `blocked`; the code after the
  `task_switch` call is a second function (`*_resume`) that runs from whatever state
  the kernel is in when the task is scheduled again.
* `DEBUG_ASSERT` is a check that changes no state; in the task and IPC code the
  asserted conditions appear as hypotheses of the theorems that need them.
* The address space and the page frames (`arch_vm_*`, `pm_*`) are not part of the
  `kernel` state: where the task code calls them only their outcome is taken, as an
  argument.  They live in a second state, `memory`: the zones with their `struct page`
  arrays, the page list of every task, `vm.table` of every task, and the physical
  memory that holds the page tables, read and written by 32-bit words at byte
  addresses (`arch_paddr_to_vaddr` is the identity).
* The memory code returns `Except fault`: a failed `ASSERT` / `DEBUG_ASSERT`, a read
  or write outside an array, or the use of a null pointer ends the call with a
  `fault`; everything else is `Except.ok` of what the C function returns.
* `size_t`, `paddr_t`, `uaddr_t` and `pte_t` are 32 bits wide; sums and shifts that
  can leave that range are truncated with `u32`.
-/

namespace HinaOS

/-! ## Constants -/

/-- `buildconfig.h`: `NUM_TASKS_MAX`. -/
def NUM_TASKS_MAX : Nat := 16
/-- `buildconfig.h`: `NUM_CPUS_MAX`. -/
def NUM_CPUS_MAX : Nat := 4
/-- `buildconfig.h`: `TICK_HZ`. -/
def TICK_HZ : Nat := 1000
/-- `task.h`: `TASK_QUANTUM`, 20 ms in ticks. -/
def TASK_QUANTUM : Nat := 20 * (TICK_HZ / 1000)

def TASK_UNUSED : Int := 0
def TASK_RUNNABLE : Int := 1
def TASK_BLOCKED : Int := 2

def IPC_ANY : Int := 0
def IPC_DENY : Int := -1

def IPC_SEND : Nat := 1 <<< 16
def IPC_RECV : Nat := 1 <<< 17
def IPC_NOBLOCK : Nat := 1 <<< 18
def IPC_KERNEL : Nat := 1 <<< 19

def NOTIFY_TIMER : Nat := 1 <<< 0
def NOTIFY_IRQ : Nat := 1 <<< 1
def NOTIFY_ABORTED : Nat := 1 <<< 2

def FROM_KERNEL : Int := -1

def OK : Int := 0
def ERR_NO_MEMORY : Int := -1
def ERR_STILL_USED : Int := -6
def ERR_INVALID_ARG : Int := -11
def ERR_INVALID_TASK : Int := -12
def ERR_INVALID_UADDR : Int := -15
def ERR_TOO_MANY_TASKS : Int := -16
def ERR_WOULD_BLOCK : Int := -19
def ERR_ABORTED : Int := -21
def ERR_DEAD_LOCK : Int := -24

def PAGE_SIZE : Nat := 4096
/-- `arch_types.h`: `KERNEL_BASE`. -/
def KERNEL_BASE : Nat := 0x80000000

/-- Modelled from the spec: the message type id of the notification message
(`NOTIFY_MSG`), which the generated header `ipcstub.h` defines; the spec only says
that the type is reserved for notification delivery, and nothing below depends on
the number. -/
def NOTIFY_MSG : Int := 1

/-! ## Data model -/

/-- A `struct task *`: a slot of `tasks[]` or the idle task of a CPU. -/
inductive task_ptr where
  | slot (i : Nat)
  | idle (cpu : Nat)
  deriving DecidableEq, Repr

/-- The payload union of `struct message`.  The kernel itself only ever writes the
`notify.notifications` member; every other member is carried as raw bytes. -/
inductive payload where
  | data (bytes : List Nat)
  | notify (notifications : Nat)
  deriving DecidableEq, Repr

/-- `struct message`. -/
structure message where
  type : Int
  src : Int
  body : payload
  deriving DecidableEq, Repr

/-- `struct task` (without the architecture part and the page list). -/
structure task where
  tid : Int
  name : String
  state : Int
  destroyed : Bool
  pager : Option task_ptr
  timeout : Nat
  ref_count : Int
  quantum : Nat
  senders : List task_ptr
  wait_for : Int
  notifications : Nat
  m : message
  deriving DecidableEq, Repr

/-- A zero-filled `struct task`, as in the static arrays before initialisation. -/
def task.zero : task :=
  { tid := 0, name := "", state := TASK_UNUSED, destroyed := false, pager := none,
    timeout := 0, ref_count := 0, quantum := 0, senders := [], wait_for := 0,
    notifications := 0, m := { type := 0, src := 0, body := payload.data [] } }

instance : Inhabited task := ⟨task.zero⟩

/-- The part of `struct cpuvar` the task code uses. -/
structure cpuvar where
  id : Nat
  online : Bool
  current_task : task_ptr
  idle_task : task_ptr
  deriving DecidableEq, Repr

instance : Inhabited cpuvar :=
  ⟨{ id := 0, online := false, current_task := task_ptr.idle 0, idle_task := task_ptr.idle 0 }⟩

/-- The kernel state seen by the CPU `hart` that holds the big kernel lock. -/
structure kernel where
  tasks : List task
  idle_tasks : List task
  runqueue : List task_ptr
  active_tasks : List task_ptr
  cpuvars : List cpuvar
  hart : Nat
  deriving DecidableEq, Repr

/-- `CPUVAR`: the per-CPU variables of the executing CPU. -/
def CPUVAR (k : kernel) : cpuvar := k.cpuvars.getD k.hart default

/-- `CURRENT_TASK`. -/
def CURRENT_TASK (k : kernel) : task_ptr := (CPUVAR k).current_task

/-- `IDLE_TASK`. -/
def IDLE_TASK (k : kernel) : task_ptr := (CPUVAR k).idle_task

/-- `CURRENT_TASK = next`. -/
def set_current_task (k : kernel) (next : task_ptr) : kernel :=
  { k with cpuvars := k.cpuvars.set k.hart { CPUVAR k with current_task := next } }

/-- Read through a task pointer. -/
def deref (k : kernel) : task_ptr → task
  | task_ptr.slot i => k.tasks.getD i default
  | task_ptr.idle c => k.idle_tasks.getD c default

/-- Write through a task pointer. -/
def update (k : kernel) (p : task_ptr) (f : task → task) : kernel :=
  match p with
  | task_ptr.slot i => { k with tasks := k.tasks.set i (f (k.tasks.getD i default)) }
  | task_ptr.idle c => { k with idle_tasks := k.idle_tasks.set c (f (k.idle_tasks.getD c default)) }

/-- The pointer points into one of the two task arrays. -/
def valid (k : kernel) : task_ptr → Prop
  | task_ptr.slot i => i < k.tasks.length
  | task_ptr.idle c => c < k.idle_tasks.length

instance (k : kernel) (p : task_ptr) : Decidable (valid k p) := by
  cases p <;> unfold valid <;> infer_instance

/-- Slot `i` of `tasks[]` is in use (`state != TASK_UNUSED`). -/
def in_use (k : kernel) (i : Nat) : Prop := (deref k (task_ptr.slot i)).state ≠ TASK_UNUSED

instance (k : kernel) (i : Nat) : Decidable (in_use k i) := by
  unfold in_use; infer_instance

/-! ## Intrusive lists (`libs/common/list.h`) -/

/-- Modelled from the spec: `list_push_back` of `libs/common/list.c`, appending the
entry at the tail of the FIFO. -/
def list_push_back (l : List task_ptr) (e : task_ptr) : List task_ptr := l ++ [e]

/-- Modelled from the spec: `list_contains` of `libs/common/list.c`. -/
def list_contains (l : List task_ptr) (e : task_ptr) : Bool := decide (e ∈ l)

/-- Modelled from the spec: `list_remove(&task->waitqueue_next)` of
`libs/common/list.c`: the entry is unlinked from the wait list it is on (the run
queue or a sender queue); an entry that is not linked is left alone. -/
def waitqueue_remove (k : kernel) (p : task_ptr) : kernel :=
  { k with
    runqueue := k.runqueue.erase p
    tasks := k.tasks.map (fun t => { t with senders := t.senders.erase p })
    idle_tasks := k.idle_tasks.map (fun t => { t with senders := t.senders.erase p }) }

/-- `list_push_back(&active_tasks, &task->next)`. -/
def active_push (k : kernel) (p : task_ptr) : kernel :=
  { k with active_tasks := list_push_back k.active_tasks p }

/-- Modelled from the spec: `list_remove(&task->next)` of `libs/common/list.c` on the
list of active tasks. -/
def active_remove (k : kernel) (p : task_ptr) : kernel :=
  { k with active_tasks := k.active_tasks.erase p }

/-! ## Scheduler and task lifecycle (`kernel/task.c`) -/

/-- `scheduler`: the head of the run queue (popped), else the running task when it is
runnable and not being destroyed, else the idle task of this CPU. -/
def scheduler (k : kernel) : kernel × task_ptr :=
  match k.runqueue with
  | next :: rest => ({ k with runqueue := rest }, next)
  | [] =>
    if (deref k (CURRENT_TASK k)).state = TASK_RUNNABLE
        ∧ (deref k (CURRENT_TASK k)).destroyed = false then
      (k, CURRENT_TASK k)
    else
      (k, IDLE_TASK k)

/-- `task_switch`, up to the architecture's context swap: on return `CURRENT_TASK` is
the task that runs next on this CPU. -/
def task_switch (k : kernel) : kernel :=
  let prev := CURRENT_TASK k
  let (k1, next) := scheduler k
  let k2 := if next ≠ IDLE_TASK k1 then
      update k1 next (fun t => { t with quantum := TASK_QUANTUM })
    else k1
  if next = prev then
    k2
  else
    let k3 := if (deref k2 prev).state = TASK_RUNNABLE then
        { k2 with runqueue := list_push_back k2.runqueue prev }
      else k2
    set_current_task k3 next

/-- The loop of `alloc_tid`, `n` iterations left, at index `i`. -/
def alloc_tid_loop (k : kernel) : Nat → Nat → Int
  | 0, _ => 0
  | n + 1, i =>
    if (k.tasks.getD i default).state = TASK_UNUSED then
      (i : Int) + 1
    else
      alloc_tid_loop k n (i + 1)

/-- `alloc_tid`: `for (i = 0; i < NUM_TASKS_MAX; i++) if (tasks[i] unused) return i + 1;`
and `0` when the loop finds nothing. -/
def alloc_tid (k : kernel) : Int := alloc_tid_loop k NUM_TASKS_MAX 0

/-- What `task_find` evaluates to: `NULL`, a pointer into the table, or no value at
all because the function indexed `tasks[]` outside `0 .. NUM_TASKS_MAX - 1`. -/
inductive find_result where
  | null
  | found (p : task_ptr)
  | out_of_bounds (index : Int)
  deriving DecidableEq, Repr

/-- `task_find`. -/
def task_find (k : kernel) (tid : Int) : find_result :=
  if tid < 0 ∨ tid ≥ (NUM_TASKS_MAX : Int) then
    find_result.null
  else if tid - 1 < 0 ∨ tid - 1 ≥ (NUM_TASKS_MAX : Int) then
    -- `&tasks[tid - 1]` lies outside the array and `task->state` reads through it
    find_result.out_of_bounds (tid - 1)
  else if (deref k (task_ptr.slot (tid - 1).toNat)).state = TASK_UNUSED then
    find_result.null
  else
    find_result.found (task_ptr.slot (tid - 1).toNat)

/-- `task_block`. -/
def task_block (k : kernel) (task : task_ptr) : kernel :=
  update k task (fun t => { t with state := TASK_BLOCKED })

/-- `task_resume`. -/
def task_resume (k : kernel) (task : task_ptr) : kernel :=
  let k1 := update k task (fun t => { t with state := TASK_RUNNABLE })
  { k1 with runqueue := list_push_back k1.runqueue task }

/-- `init_task_struct`.  `vm_ok` and `stack_ok` say whether the page allocations of
`arch_vm_init` and `arch_task_init` succeed; each of the two returns `ERR_NO_MEMORY`
otherwise.  The fields are written in the order of the source, so a failed call
leaves the slot `TASK_UNUSED` with the fields written so far.  `list_elem_init` of the
two links of the task changes no list (the slot is on none), `list_init` empties the
sender queue; `notifications` and `m` are not written. -/
def init_task_struct (k : kernel) (task : task_ptr) (tid : Int) (name : String)
    (pager : Option task_ptr) (vm_ok stack_ok : Bool) : kernel × Int :=
  let k1 := update k task (fun t =>
    { t with tid := tid, destroyed := false, quantum := 0, timeout := 0,
             wait_for := IPC_DENY, ref_count := 0, pager := pager,
             name := name, senders := [] })
  if vm_ok = false then
    (k1, ERR_NO_MEMORY)
  else if stack_ok = false then
    (k1, ERR_NO_MEMORY)
  else
    let k2 := match pager with
      | some pg => update k1 pg (fun t => { t with ref_count := t.ref_count + 1 })
      | none => k1
    (update k2 task (fun t => { t with state := TASK_BLOCKED }), OK)

/-- `task_create`; returns the new task id or a negative error. -/
def task_create (k : kernel) (name : String) (_ip : Nat) (pager : Option task_ptr)
    (vm_ok stack_ok : Bool) : kernel × Int :=
  let tid := alloc_tid k
  if tid = 0 then
    (k, ERR_TOO_MANY_TASKS)
  else
    let task := task_ptr.slot (tid - 1).toNat
    let (k1, err) := init_task_struct k task tid name pager vm_ok stack_ok
    if err ≠ OK then
      (k1, err)
    else
      let k2 := active_push k1 task
      (task_resume k2 task, tid)

/-! ## Notifications (`kernel/ipc.c`) -/

/-- `notify`. -/
def notify (k : kernel) (dst : task_ptr) (notifications : Nat) : kernel :=
  if (deref k dst).state = TASK_BLOCKED ∧ (deref k dst).wait_for = IPC_ANY then
    let k1 := update k dst (fun t =>
      { t with m := { type := NOTIFY_MSG, src := FROM_KERNEL,
                      body := payload.notify (t.notifications ||| notifications) },
               notifications := 0 })
    task_resume k1 dst
  else
    update k dst (fun t => { t with notifications := t.notifications ||| notifications })

/-- `task_destroy`.  The result is `none` in the two cases this sequential state
cannot follow: the wait loop finds the task runnable and off the run queue (it is
running on another CPU, and the loop goes on sending `IPI_RESCHEDULE` with the lock
released), and `task->pager` is `NULL` at `task->pager->ref_count--`. -/
def task_destroy (k : kernel) (task : task_ptr) : Option (kernel × Int) :=
  if (deref k task).tid = 1 then
    some (k, ERR_INVALID_ARG)
  else if (deref k task).ref_count > 0 then
    some (k, ERR_STILL_USED)
  else
    let k1 := update k task (fun t => { t with destroyed := true })
    if (deref k1 task).state ≠ TASK_RUNNABLE ∨ list_contains k1.runqueue task = true then
      let k2 := (deref k1 task).senders.foldl (fun s sender => notify s sender NOTIFY_ABORTED) k1
      let k3 := active_remove k2 task
      let k4 := waitqueue_remove k3 task
      let k5 := update k4 task (fun t => { t with state := TASK_UNUSED })
      match (deref k5 task).pager with
      | some pg => some (update k5 pg (fun t => { t with ref_count := t.ref_count - 1 }), OK)
      | none => none
    else
      none

/-! ## Message passing (`kernel/ipc.c`, `kernel/syscall.c`) -/

/-- `arch_is_mappable_uaddr`. -/
def arch_is_mappable_uaddr (uaddr : Nat) : Bool :=
  decide (PAGE_SIZE ≤ uaddr ∧ uaddr < KERNEL_BASE)

/-- `memcpy_from_user` for a `struct message`: `um` is the message stored at the user
address `usrc` (the pages are resident, so the copy itself does not fault). -/
def memcpy_from_user (usrc : Nat) (um : message) : Except Int message :=
  if arch_is_mappable_uaddr usrc = false then Except.error ERR_INVALID_UADDR
  else Except.ok um

/-- `memcpy_to_user` for a `struct message`: the error code and the message stored at
the user address, if one was stored. -/
def memcpy_to_user (udst : Nat) (km : message) : Int × Option message :=
  if arch_is_mappable_uaddr udst = false then (ERR_INVALID_UADDR, none)
  else (OK, some km)

/-- How a kernel entry that may park its caller ends: it returns an error code, or
the caller is left at the `task_switch` call inside it. -/
inductive outcome where
  | ret (err : Int)
  | blocked
  deriving DecidableEq, Repr

/-- The tail of `send_message` (`memcpy(&dst->m, ...)` to `return OK`). -/
def send_deliver (k : kernel) (current dst : task_ptr) (copied_m : message)
    (flags : Nat) : kernel × Int :=
  let k1 := update k dst (fun t => { t with m := copied_m })
  let k2 := update k1 dst (fun t =>
    { t with m := { t.m with src := if flags &&& IPC_KERNEL ≠ 0 then FROM_KERNEL
                                    else (deref k1 current).tid } })
  (task_resume k2 dst, OK)

/-- `send_message` up to its return or up to the `task_switch` call of the park path.
`m` is the pointer argument and `um` the message it points to. -/
def send_message (k : kernel) (dst : task_ptr) (m : Nat) (um : message)
    (flags : Nat) : kernel × outcome :=
  let current := CURRENT_TASK k
  if dst = current then
    (k, outcome.ret ERR_INVALID_ARG)
  else
    match (if flags &&& IPC_KERNEL ≠ 0 then Except.ok um else memcpy_from_user m um) with
    | Except.error err => (k, outcome.ret err)
    | Except.ok copied_m =>
      if (deref k dst).state = TASK_BLOCKED
          ∧ ((deref k dst).wait_for = IPC_ANY
              ∨ (deref k dst).wait_for = (deref k current).tid) then
        let r := send_deliver k current dst copied_m flags
        (r.1, outcome.ret r.2)
      else if flags &&& IPC_NOBLOCK ≠ 0 then
        (k, outcome.ret ERR_WOULD_BLOCK)
      else if (deref k current).senders.any
          (fun t => decide ((deref k t).tid = (deref k dst).tid)) = true then
        (k, outcome.ret ERR_DEAD_LOCK)
      else
        let k1 := update k dst (fun t => { t with senders := list_push_back t.senders current })
        let k2 := task_block k1 current
        (task_switch k2, outcome.blocked)

/-- `send_message` from the return of `task_switch` in the park path: it runs in the
state the kernel is in when the parked sender `current` is scheduled again, with the
locals `dst`, `copied_m` and `flags` of the parked call. -/
def send_message_resume (k : kernel) (current dst : task_ptr) (copied_m : message)
    (flags : Nat) : kernel × Int :=
  if (deref k current).notifications &&& NOTIFY_ABORTED ≠ 0 then
    (update k current (fun t =>
      { t with notifications := t.notifications &&& (0xFFFFFFFF ^^^ NOTIFY_ABORTED) }),
     ERR_ABORTED)
  else
    send_deliver k current dst copied_m flags

/-- The loop of `recv_message` over the sender queue: the first parked sender that
matches `src`. -/
def recv_find_sender (k : kernel) (src : Int) : List task_ptr → Option task_ptr
  | [] => none
  | sender :: rest =>
    if src = IPC_ANY ∨ src = (deref k sender).tid then some sender
    else recv_find_sender k src rest

/-- The end of `recv_message`: the copy of the received message to the caller. -/
def recv_copy_out (k : kernel) (copied_m : message) (m : Nat) (flags : Nat) :
    kernel × outcome × Option message :=
  if flags &&& IPC_KERNEL ≠ 0 then
    (k, outcome.ret OK, some copied_m)
  else
    let r := memcpy_to_user m copied_m
    (k, outcome.ret r.1, r.2)

/-- `recv_message` up to its return or up to its `task_switch` call.  The third
component is the message stored through the pointer `m`, if any. -/
def recv_message (k : kernel) (src : Int) (m : Nat) (flags : Nat) :
    kernel × outcome × Option message :=
  let current := CURRENT_TASK k
  if src = IPC_ANY ∧ (deref k current).notifications ≠ 0 then
    let copied_m : message :=
      { type := NOTIFY_MSG, src := FROM_KERNEL,
        body := payload.notify (deref k current).notifications }
    let k1 := update k current (fun t => { t with notifications := 0 })
    recv_copy_out k1 copied_m m flags
  else if flags &&& IPC_NOBLOCK ≠ 0 then
    (k, outcome.ret ERR_WOULD_BLOCK, none)
  else
    let found : kernel × Int :=
      match recv_find_sender k src (deref k current).senders with
      | some sender =>
        let k1 := task_resume (waitqueue_remove k sender) sender
        (k1, (deref k1 sender).tid)
      | none => (k, src)
    let k2 := update found.1 current (fun t => { t with wait_for := found.2 })
    let k3 := task_block k2 current
    (task_switch k3, outcome.blocked, none)

/-- `recv_message` from the return of `task_switch`: it runs when the receiver
`current` is scheduled again. -/
def recv_message_resume (k : kernel) (current : task_ptr) (m : Nat) (flags : Nat) :
    kernel × outcome × Option message :=
  let k1 := update k current (fun t => { t with wait_for := IPC_DENY })
  recv_copy_out k1 (deref k1 current).m m flags

/-! ## Machine words and alignment (`libs/common/types.h`) -/

/-- `UINT_MAX`: `size_t`, `paddr_t`, `vaddr_t`, `pte_t` and `unsigned` are 32 bits wide
on this target. -/
def UINT_MAX : Nat := 4294967295

/-- Truncation of a value to 32 bits. -/
def u32 (x : Nat) : Nat := x % (UINT_MAX + 1)

/-- `IS_ALIGNED(value, align)`, the builtin `__builtin_is_aligned` on 32-bit values:
no bit of `align - 1` is set in `value`.  For a power of two this is divisibility by
`align`; for any other `align` the builtin is used outside its contract and this mask
test is what it computes. -/
def IS_ALIGNED (value align : Nat) : Bool :=
  decide (value &&& u32 (align + UINT_MAX) = 0)

/-- `ALIGN_DOWN(value, align)`, the builtin `__builtin_align_down`: `value` with the
bits of `align - 1` cleared. -/
def ALIGN_DOWN (value align : Nat) : Nat :=
  value &&& (UINT_MAX ^^^ u32 (align + UINT_MAX))

/-- `ALIGN_UP(value, align)`, the builtin `__builtin_align_up`:
`(value + align - 1) & ~(align - 1)` in 32-bit arithmetic. -/
def ALIGN_UP (value align : Nat) : Nat :=
  u32 (value + u32 (align + UINT_MAX)) &&& (UINT_MAX ^^^ u32 (align + UINT_MAX))

/-- `PADDR2PFN`. -/
def PADDR2PFN (paddr : Nat) : Nat := paddr >>> 12

def PM_ALLOC_UNINITIALIZED : Nat := 0
def PM_ALLOC_ZEROED : Nat := 1 <<< 0
def PM_ALLOC_ALIGNED : Nat := 1 <<< 1

def PAGE_READABLE : Nat := 1 <<< 1
def PAGE_WRITABLE : Nat := 1 <<< 2
def PAGE_EXECUTABLE : Nat := 1 <<< 3
def PAGE_USER : Nat := 1 <<< 4

def ERR_ALREADY_EXISTS : Int := -3
def ERR_NOT_FOUND : Int := -7
def ERR_INVALID_PADDR : Int := -14

/-! ## Outcomes that are not a return -/

/-- What stops a kernel function short of its return: a failed assertion (the kernel
panics), an array indexed outside its bounds, a null pointer dereferenced. -/
inductive fault where
  | assertion
  | out_of_bounds
  | null_pointer
  deriving DecidableEq, Repr

/-- Modelled from the spec: `ASSERT` and `DEBUG_ASSERT` of the missing
`libs/common/print.h`; the specification has the kernel assert these conditions, so a
false condition stops the function. -/
def ASSERT (c : Bool) : Except fault Unit :=
  if c then Except.ok () else Except.error fault.assertion

/-- The fault a call ended with, if it did. -/
def fault_of {α : Type} : Except fault α → Option fault
  | Except.ok _ => none
  | Except.error f => some f

/-- The value a call returned, if it did. -/
def value_of {α : Type} : Except fault α → Option α
  | Except.ok a => some a
  | Except.error _ => none

/-! ## Physical memory manager (`kernel/memory.c`) -/

/-- Modelled from the spec: `enum memory_zone_type` of the missing `kernel/memory.h`
(zones are Free RAM or MMIO). -/
inductive memory_zone_type where
  | MEMORY_ZONE_FREE
  | MEMORY_ZONE_MMIO
  deriving DecidableEq, Repr

/-- Modelled from the spec: `struct page` of the missing `kernel/memory.h`: the owner
task (`NULL` for the kernel) and the reference count; the list link `next` is kept as
membership of the page in a task's page list. -/
structure page where
  owner : Option task_ptr
  ref_count : Nat
  deriving DecidableEq, Repr

instance : Inhabited page := ⟨{ owner := none, ref_count := 0 }⟩

/-- Modelled from the spec: `struct memory_zone` of the missing `kernel/memory.h`: type,
base address, number of frames and the inline array `pages[num_pages]`. -/
structure memory_zone where
  type : memory_zone_type
  base : Nat
  num_pages : Nat
  pages : List page
  deriving DecidableEq, Repr

instance : Inhabited memory_zone :=
  ⟨{ type := memory_zone_type.MEMORY_ZONE_MMIO, base := 0, num_pages := 0, pages := [] }⟩

/-- A `struct page *`: `&zone->pages[index]` of the zone at position `zone` of the zone
list. -/
structure page_ptr where
  zone : Nat
  index : Nat
  deriving DecidableEq, Repr

/-- The state of the memory manager: the zone list, the page list `task->pages` and
the page table root `task->vm.table` of every task, and the 32-bit words of physical
memory (read for page tables), by byte address. -/
structure memory where
  zones : List memory_zone
  pages : task_ptr → List page_ptr
  table : task_ptr → Nat
  ram : Nat → Nat

/-- Read through a page pointer. -/
def page_deref (mm : memory) (p : page_ptr) : page :=
  ((mm.zones.getD p.zone default).pages.getD p.index default)

/-- Write through a page pointer. -/
def page_update (mm : memory) (p : page_ptr) (f : page → page) : memory :=
  let z := mm.zones.getD p.zone default
  let z1 : memory_zone := { z with pages := z.pages.set p.index (f (page_deref mm p)) }
  { mm with zones := mm.zones.set p.zone z1 }

/-- `list_push_back(&task->pages, &page->next)`. -/
def pages_push_back (mm : memory) (t : task_ptr) (p : page_ptr) : memory :=
  { mm with pages := Function.update mm.pages t (mm.pages t ++ [p]) }

/-- Modelled from the spec: `list_remove(&page->next)` of `libs/common/list.c`: the page
is unlinked from the page list it is on; a page that is not linked is left alone. -/
def pages_remove (mm : memory) (p : page_ptr) : memory :=
  { mm with pages := fun t => (mm.pages t).erase p }

/-- `memset((void *) paddr, 0, len)` on the words of physical memory. -/
def memset_zero (mm : memory) (paddr len : Nat) : memory :=
  { mm with ram := fun a => if paddr ≤ a ∧ a < paddr + len then 0 else mm.ram a }

/-- The loop of `find_page_by_paddr` over the zone list, at zone number `zi`. -/
def find_page_by_paddr_loop (paddr : Nat) :
    List memory_zone → Nat → Option (page_ptr × memory_zone_type)
  | [], _ => none
  | zone :: rest, zi =>
    if zone.base ≤ paddr ∧ paddr < u32 (zone.base + zone.num_pages * PAGE_SIZE) then
      some ({ zone := zi, index := (paddr - zone.base) / PAGE_SIZE }, zone.type)
    else
      find_page_by_paddr_loop paddr rest (zi + 1)

/-- `find_page_by_paddr`: the page structure of the frame at `paddr` and the type of
its zone, or `NULL`. -/
def find_page_by_paddr (mm : memory) (paddr : Nat) :
    Except fault (Option (page_ptr × memory_zone_type)) := do
  ASSERT (IS_ALIGNED paddr PAGE_SIZE)
  pure (find_page_by_paddr_loop paddr mm.zones 0)

/-- The loop of `is_contiguously_free`, `n` iterations left, at `i`.  Reading
`zone->pages[start + i]` with `start + i` not below `num_pages` is outside the
array. -/
def is_contiguously_free_loop (zone : memory_zone) (start : Nat) :
    Nat → Nat → Except fault Bool
  | 0, _ => Except.ok true
  | n + 1, i =>
    if start + i < zone.num_pages then
      if (zone.pages.getD (start + i) default).ref_count ≠ 0 then
        Except.ok false
      else
        is_contiguously_free_loop zone start n (i + 1)
    else
      Except.error fault.out_of_bounds

/-- `is_contiguously_free`. -/
def is_contiguously_free (zone : memory_zone) (start num_pages : Nat) : Except fault Bool :=
  is_contiguously_free_loop zone start num_pages 0

/-- The loop of `pm_alloc` over the start indices of one zone, `n` iterations left, at
`start`: the first start index that passes the alignment test and begins a free
run. -/
def pm_alloc_scan (zone : memory_zone) (aligned_size num_pages flags : Nat) :
    Nat → Nat → Except fault (Option Nat)
  | 0, _ => Except.ok none
  | n + 1, start =>
    if flags &&& PM_ALLOC_ALIGNED ≠ 0
        ∧ IS_ALIGNED (u32 (zone.base + start * PAGE_SIZE)) aligned_size = false then
      pm_alloc_scan zone aligned_size num_pages flags n (start + 1)
    else
      match is_contiguously_free zone start num_pages with
      | Except.error f => Except.error f
      | Except.ok true => Except.ok (some start)
      | Except.ok false => pm_alloc_scan zone aligned_size num_pages flags n (start + 1)

/-- The loop of `pm_alloc` that takes the frames of the run found, `n` iterations left,
at `i`. -/
def pm_alloc_take (zi start : Nat) (owner : Option task_ptr) : Nat → Nat → memory → memory
  | 0, _, mm => mm
  | n + 1, i, mm =>
    let pg : page_ptr := { zone := zi, index := start + i }
    let mm1 := page_update mm pg (fun p => { p with ref_count := 1, owner := owner })
    let mm2 := match owner with
      | some o => pages_push_back mm1 o pg
      | none => mm1
    pm_alloc_take zi start owner n (i + 1) mm2

/-- The loop of `pm_alloc` over the zone list, at zone number `zi`. -/
def pm_alloc_zones (mm : memory) (aligned_size num_pages : Nat) (owner : Option task_ptr)
    (flags : Nat) : List memory_zone → Nat → Except fault (memory × Nat)
  | [], _ => Except.ok (mm, 0)
  | zone :: rest, zi =>
    if zone.type ≠ memory_zone_type.MEMORY_ZONE_FREE then
      pm_alloc_zones mm aligned_size num_pages owner flags rest (zi + 1)
    else
      match pm_alloc_scan zone aligned_size num_pages flags zone.num_pages 0 with
      | Except.error f => Except.error f
      | Except.ok (some start) =>
        let paddr := u32 (zone.base + start * PAGE_SIZE)
        let mm1 := pm_alloc_take zi start owner num_pages 0 mm
        let mm2 := if flags &&& PM_ALLOC_ZEROED ≠ 0 then
            memset_zero mm1 paddr (PAGE_SIZE * num_pages)
          else mm1
        Except.ok (mm2, paddr)
      | Except.ok none => pm_alloc_zones mm aligned_size num_pages owner flags rest (zi + 1)

/-- `pm_alloc`: the physical address of the run allocated, or `0`. -/
def pm_alloc (mm : memory) (size : Nat) (owner : Option task_ptr) (flags : Nat) :
    Except fault (memory × Nat) :=
  let aligned_size := ALIGN_UP size PAGE_SIZE
  let num_pages := aligned_size / PAGE_SIZE
  pm_alloc_zones mm aligned_size num_pages owner flags mm.zones 0

/-- `free_page`. -/
def free_page (mm : memory) (pg : page_ptr) : Except fault memory := do
  ASSERT (decide ((page_deref mm pg).ref_count > 0))
  let mm1 := page_update mm pg (fun p => { p with ref_count := p.ref_count - 1 })
  if (page_deref mm1 pg).ref_count = 0 then
    pure (pages_remove mm1 pg)
  else
    pure mm1

/-- The loop of `pm_free`, `n` iterations left, at `offset`. -/
def pm_free_loop (paddr : Nat) : Nat → Nat → memory → Except fault memory
  | 0, _, mm => Except.ok mm
  | n + 1, offset, mm =>
    match find_page_by_paddr mm (u32 (paddr + offset)) with
    | Except.error f => Except.error f
    | Except.ok none => Except.error fault.assertion
    | Except.ok (some (pg, _)) =>
      match free_page mm pg with
      | Except.error f => Except.error f
      | Except.ok mm1 => pm_free_loop paddr n (offset + PAGE_SIZE) mm1

/-- `pm_free`: `for (offset = 0; offset < size; offset += PAGE_SIZE)`, that is
`ceil(size / PAGE_SIZE)` iterations. -/
def pm_free (mm : memory) (paddr size : Nat) : Except fault memory := do
  ASSERT (IS_ALIGNED size PAGE_SIZE)
  pm_free_loop paddr ((size + PAGE_SIZE - 1) / PAGE_SIZE) 0 mm

/-! ## Page tables (`kernel/riscv32/vm.c`) -/

/-- Modelled from the spec: the Sv32 page table entry bits of the missing
`kernel/riscv32/vm.h` (valid, readable, writable, executable, user). -/
def PTE_V : Nat := 1 <<< 0
def PTE_R : Nat := 1 <<< 1
def PTE_W : Nat := 1 <<< 2
def PTE_X : Nat := 1 <<< 3
def PTE_U : Nat := 1 <<< 4

/-- Modelled from the spec: `PTE_PADDR_MASK` of the missing `kernel/riscv32/vm.h`, the
bits of a page frame address. -/
def PTE_PADDR_MASK : Nat := 0xfffff000

/-- Modelled from the spec: `PTE_INDEX(level, vaddr)` of the missing
`kernel/riscv32/vm.h`: the ten index bits of `vaddr` for the table of that level of the
two-level page table. -/
def PTE_INDEX (level vaddr : Nat) : Nat := (vaddr >>> (12 + level * 10)) &&& 0x3ff

/-- Modelled from the spec: `PTE_PADDR(pte)` of the missing `kernel/riscv32/vm.h`: the
physical address held in an entry, the inverse of the shifts of `construct_pte`. -/
def PTE_PADDR (pte : Nat) : Nat := u32 ((pte >>> 10) <<< 12)

/-- Modelled from the spec: the `satp` fields of the missing `kernel/riscv32/asm.h`
(Sv32 mode bit, page number shift and mask). -/
def SATP_MODE_SV32 : Nat := 1 <<< 31
def SATP_PPN_SHIFT : Nat := 12
def SATP_PPN_MASK : Nat := 0x3fffff

/-- The value `arch_task_switch` writes to `satp` for a page table at `table`. -/
def satp_of (table : Nat) : Nat := SATP_MODE_SV32 ||| (table >>> SATP_PPN_SHIFT)

/-- `page_attrs_to_pte_flags`. -/
def page_attrs_to_pte_flags (attrs : Nat) : Nat :=
  (if attrs &&& PAGE_READABLE ≠ 0 then PTE_R else 0)
  ||| (if attrs &&& PAGE_WRITABLE ≠ 0 then PTE_W else 0)
  ||| (if attrs &&& PAGE_EXECUTABLE ≠ 0 then PTE_X else 0)
  ||| (if attrs &&& PAGE_USER ≠ 0 then PTE_U else 0)

/-- The store `*pte = value` of a page table entry at the physical address `pte`. -/
def write_pte (mm : memory) (pte value : Nat) : memory :=
  { mm with ram := Function.update mm.ram pte value }

/-- `construct_pte`. -/
def construct_pte (paddr flags : Nat) : Except fault Nat := do
  ASSERT (decide (paddr &&& (UINT_MAX ^^^ PTE_PADDR_MASK) = 0))
  pure (((paddr >>> 12) <<< 10) ||| flags)

/-- `walk`: the error code and, on `OK`, the address of the entry for `vaddr` in the
second-level table.  `base` is the physical address of the first-level table. -/
def walk (mm : memory) (base vaddr : Nat) (alloc : Bool) : Except fault (memory × Int × Nat) := do
  ASSERT (IS_ALIGNED vaddr PAGE_SIZE)
  let l1 := u32 (base + 4 * PTE_INDEX 1 vaddr)
  if mm.ram l1 = 0 then
    if alloc = false then
      pure (mm, ERR_NOT_FOUND, 0)
    else
      match pm_alloc mm PAGE_SIZE none PM_ALLOC_ZEROED with
      | Except.error f => Except.error f
      | Except.ok (mm1, paddr) =>
        if paddr = 0 then
          pure (mm1, ERR_NO_MEMORY, 0)
        else
          match construct_pte paddr PTE_V with
          | Except.error f => Except.error f
          | Except.ok pte =>
            let mm2 := write_pte mm1 l1 pte
            pure (mm2, OK, u32 (PTE_PADDR (mm2.ram l1) + 4 * PTE_INDEX 0 vaddr))
  else
    pure (mm, OK, u32 (PTE_PADDR (mm.ram l1) + 4 * PTE_INDEX 0 vaddr))

/-- `arch_vm_map` on the page table at `table` (`vm->table`).  The TLB fence and the
`IPI_TLB_FLUSH` round change no state kept here. -/
def arch_vm_map (mm : memory) (table vaddr paddr attrs : Nat) : Except fault (memory × Int) := do
  ASSERT (IS_ALIGNED vaddr PAGE_SIZE)
  ASSERT (IS_ALIGNED paddr PAGE_SIZE)
  match walk mm table vaddr true with
  | Except.error f => Except.error f
  | Except.ok (mm1, err, pte) =>
    if err ≠ OK then
      pure (mm1, err)
    else do
      ASSERT (decide (pte ≠ 0))
      if mm1.ram pte &&& PTE_V ≠ 0 then
        pure (mm1, ERR_ALREADY_EXISTS)
      else
        match construct_pte paddr (page_attrs_to_pte_flags attrs ||| PTE_V) with
        | Except.error f => Except.error f
        | Except.ok e => pure (write_pte mm1 pte e, OK)

/-- `arch_vm_unmap` on the page table at `table`. -/
def arch_vm_unmap (mm : memory) (table vaddr : Nat) : Except fault (memory × Int) :=
  match walk mm table vaddr false with
  | Except.error f => Except.error f
  | Except.ok (mm1, err, pte) =>
    if err ≠ OK then
      Except.ok (mm1, err)
    else if pte = 0 ∨ mm1.ram pte &&& PTE_V = 0 then
      Except.ok (mm1, ERR_NOT_FOUND)
    else
      let paddr := PTE_PADDR (mm1.ram pte)
      let mm2 := write_pte mm1 pte 0
      match pm_free mm2 paddr PAGE_SIZE with
      | Except.error f => Except.error f
      | Except.ok mm3 => Except.ok (mm3, OK)

/-- `riscv32_is_mapped`. -/
def riscv32_is_mapped (mm : memory) (satp vaddr : Nat) : Except fault Bool :=
  match walk mm (u32 ((satp &&& SATP_PPN_MASK) <<< SATP_PPN_SHIFT))
      (ALIGN_DOWN vaddr PAGE_SIZE) false with
  | Except.error f => Except.error f
  | Except.ok (mm1, err, pte) =>
    Except.ok (decide (err = OK ∧ pte ≠ 0 ∧ mm1.ram pte &&& PTE_V ≠ 0))

/-! ## Mapping and unmapping (`kernel/memory.c`) -/

/-- `vm_map`.  The owner's pager is read from the task table `k`. -/
def vm_map (k : kernel) (mm : memory) (task : task_ptr) (uaddr paddr attrs : Nat) :
    Except fault (memory × Int) :=
  match find_page_by_paddr mm paddr with
  | Except.error f => Except.error f
  | Except.ok none => Except.ok (mm, ERR_INVALID_PADDR)
  | Except.ok (some (pg, zone_type)) =>
    let permission : Except fault Bool :=
      match zone_type with
      | memory_zone_type.MEMORY_ZONE_FREE =>
        if (page_deref mm pg).ref_count = 0 then
          Except.ok false
        else
          match (page_deref mm pg).owner with
          | none => Except.error fault.null_pointer
          | some owner =>
            if owner ≠ task ∧ (deref k owner).pager ≠ some task then Except.ok false
            else Except.ok true
      | memory_zone_type.MEMORY_ZONE_MMIO =>
        if (page_deref mm pg).ref_count > 0 then Except.ok false else Except.ok true
    match permission with
    | Except.error f => Except.error f
    | Except.ok false => Except.ok (mm, ERR_INVALID_PADDR)
    | Except.ok true =>
      match arch_vm_map mm (mm.table task) uaddr paddr attrs with
      | Except.error f => Except.error f
      | Except.ok (mm1, err) =>
        if err ≠ OK then
          Except.ok (mm1, err)
        else
          let mm2 := if zone_type = memory_zone_type.MEMORY_ZONE_MMIO then
              pages_push_back mm1 task pg
            else mm1
          Except.ok (page_update mm2 pg (fun p => { p with ref_count := u32 (p.ref_count + 1) }),
                     OK)

/-- `vm_unmap`. -/
def vm_unmap (mm : memory) (task : task_ptr) (uaddr : Nat) : Except fault (memory × Int) :=
  if arch_is_mappable_uaddr uaddr = false then
    Except.ok (mm, ERR_INVALID_ARG)
  else
    match arch_vm_unmap mm (mm.table task) uaddr with
    | Except.error f => Except.error f
    | Except.ok (mm1, err) => if err ≠ OK then Except.ok (mm1, err) else Except.ok (mm1, OK)

/-! ## System calls (`kernel/syscall.c`) -/

/-- `sys_pm_alloc`: the page frame number allocated, or a negative error. -/
def sys_pm_alloc (k : kernel) (mm : memory) (tid : Int) (size flags : Nat) :
    Except fault (memory × Int) :=
  if flags &&& (UINT_MAX ^^^ (PM_ALLOC_ZEROED ||| PM_ALLOC_ALIGNED)) ≠ 0 then
    Except.ok (mm, ERR_INVALID_ARG)
  else
    match task_find k tid with
    | find_result.out_of_bounds _ => Except.error fault.out_of_bounds
    | find_result.null => Except.ok (mm, ERR_INVALID_TASK)
    | find_result.found task =>
      if task ≠ CURRENT_TASK k ∧ (deref k task).pager ≠ some (CURRENT_TASK k) then
        Except.ok (mm, ERR_INVALID_TASK)
      else
        match pm_alloc mm size (some task) (flags ||| PM_ALLOC_ZEROED) with
        | Except.error f => Except.error f
        | Except.ok (mm1, paddr) =>
          if paddr = 0 then Except.ok (mm1, ERR_NO_MEMORY)
          else Except.ok (mm1, (PADDR2PFN paddr : Int))

/-- `sys_vm_map`. -/
def sys_vm_map (k : kernel) (mm : memory) (tid : Int) (uaddr paddr attrs : Nat) :
    Except fault (memory × Int) :=
  match task_find k tid with
  | find_result.out_of_bounds _ => Except.error fault.out_of_bounds
  | find_result.null => Except.ok (mm, ERR_INVALID_TASK)
  | find_result.found task =>
    if attrs &&& (UINT_MAX ^^^ (PAGE_WRITABLE ||| PAGE_READABLE ||| PAGE_EXECUTABLE)) ≠ 0 then
      Except.ok (mm, ERR_INVALID_ARG)
    else if IS_ALIGNED uaddr PAGE_SIZE = false ∨ IS_ALIGNED paddr PAGE_SIZE = false then
      Except.ok (mm, ERR_INVALID_ARG)
    else if arch_is_mappable_uaddr uaddr = false then
      Except.ok (mm, ERR_INVALID_UADDR)
    else
      vm_map k mm task uaddr paddr (attrs ||| PAGE_USER)

/-- The receive half of `ipc`. -/
def ipc_recv (k : kernel) (src : Int) (m : Nat) (flags : Nat) :
    kernel × outcome × Option message :=
  if flags &&& IPC_RECV ≠ 0 then
    recv_message k src m flags
  else
    (k, outcome.ret OK, none)

/-- `ipc` up to its return or up to the first `task_switch` that parks the caller.
`dst` is `NULL` when `sys_ipc` is called without `IPC_SEND`. -/
def ipc (k : kernel) (dst : Option task_ptr) (src : Int) (m : Nat) (um : message)
    (flags : Nat) : Except fault (kernel × outcome × Option message) :=
  if flags &&& IPC_SEND ≠ 0 then
    match dst with
    | none => Except.error fault.null_pointer
    | some d =>
      match send_message k d m um flags with
      | (k1, outcome.blocked) => Except.ok (k1, outcome.blocked, none)
      | (k1, outcome.ret err) =>
        if err ≠ OK then Except.ok (k1, outcome.ret err, none)
        else Except.ok (ipc_recv k1 src m flags)
  else
    Except.ok (ipc_recv k src m flags)

/-- `sys_ipc` after its two argument checks: the lookup of the destination and the
call of `ipc`. -/
def sys_ipc_dispatch (k : kernel) (dst src : Int) (m : Nat) (um : message) (flags : Nat) :
    Except fault (kernel × outcome × Option message) :=
  if flags &&& IPC_SEND ≠ 0 then
    match task_find k dst with
    | find_result.out_of_bounds _ => Except.error fault.out_of_bounds
    | find_result.null => Except.ok (k, outcome.ret ERR_INVALID_TASK, none)
    | find_result.found dst_task => ipc k (some dst_task) src m um flags
  else
    ipc k none src m um flags

/-- `sys_ipc`. -/
def sys_ipc (k : kernel) (dst src : Int) (m : Nat) (um : message) (flags : Nat) :
    Except fault (kernel × outcome × Option message) :=
  if flags &&& (UINT_MAX ^^^ (IPC_SEND ||| IPC_RECV ||| IPC_NOBLOCK)) ≠ 0 then
    Except.ok (k, outcome.ret ERR_INVALID_ARG, none)
  else if src < 0 ∨ src > (NUM_TASKS_MAX : Int) then
    Except.ok (k, outcome.ret ERR_INVALID_ARG, none)
  else
    sys_ipc_dispatch k dst src m um flags

/-! ## Timer and uptime (`kernel/interrupt.c`, `kernel/syscall.c`) -/

/-- The body of the loop of `handle_timer_interrupt` over the active tasks. -/
def timer_tick_task (ticks : Nat) (k : kernel) (task : task_ptr) : kernel :=
  if (deref k task).timeout > 0 then
    let k1 := update k task (fun t => { t with timeout := t.timeout - min t.timeout ticks })
    if (deref k1 task).timeout = 0 then notify k1 task NOTIFY_TIMER else k1
  else k

/-- `handle_timer_interrupt`; the global `uptime_ticks` is passed in and returned. -/
def handle_timer_interrupt (k : kernel) (uptime_ticks ticks : Nat) : kernel × Nat :=
  let uptime := u32 (uptime_ticks + ticks)
  let k1 := if (CPUVAR k).id = 0 then k.active_tasks.foldl (timer_tick_task ticks) k else k
  let current := CURRENT_TASK k1
  let k2 := update k1 current (fun t => { t with quantum := t.quantum - min ticks t.quantum })
  let k3 := if (deref k2 current).quantum = 0 then task_switch k2 else k2
  (k3, uptime)

/-- `sys_uptime`, on the value of the global `uptime_ticks`. -/
def sys_uptime (uptime_ticks : Nat) : Int := ((uptime_ticks / TICK_HZ : Nat) : Int)

/-! ## Serial output (`kernel/syscall.c`) -/

/-- `memcpy_from_user(kbuf, usrc, len)` for bytes: the error code and `kbuf` after the
call.  `umem` is the user memory by byte address. -/
def memcpy_bytes_from_user (umem : Nat → Nat) (kbuf : List Nat) (usrc len : Nat) :
    Int × List Nat :=
  if arch_is_mappable_uaddr usrc = false then
    (ERR_INVALID_UADDR, kbuf)
  else
    (OK, (List.range len).map (fun i => umem (usrc + i)) ++ kbuf.drop len)

/-- The `while (remaining > 0)` loop of `sys_serial_write`, with at most `fuel`
iterations: the bytes passed to `arch_serial_write` so far are `out`.  `none` when the
fuel runs out first. -/
def sys_serial_write_loop (umem : Nat → Nat) (buf : Nat) :
    Nat → Nat → List Nat → List Nat → Option (List Nat)
  | 0, remaining, _, out => if remaining > 0 then none else some out
  | fuel + 1, remaining, kbuf, out =>
    if remaining > 0 then
      let copy_len := min remaining 512
      let kbuf1 := (memcpy_bytes_from_user umem kbuf buf copy_len).2
      sys_serial_write_loop umem buf fuel (remaining - copy_len) kbuf1
        (out ++ kbuf1.take copy_len)
    else
      some out

/-- `sys_serial_write`: the value returned and the bytes written to the serial port.
`kbuf` is what the 512 bytes of the staging buffer hold on entry; every iteration
writes at least one byte, so `written_len` iterations are enough. -/
def sys_serial_write (umem : Nat → Nat) (kbuf : List Nat) (buf buf_len : Nat) :
    Option (Int × List Nat) :=
  let written_len := min buf_len 4096
  (sys_serial_write_loop umem buf written_len written_len kbuf []).map
    (fun out => ((written_len : Int), out))

/-! ## Interrupt listeners (`kernel/interrupt.c`) -/

/-- `arch_types.h`: `IRQ_MAX`. -/
def IRQ_MAX : Nat := 32
def ERR_ALREADY_USED : Int := -4
def ERR_NOT_ALLOWED : Int := -8

/-- The table `irq_listeners[IRQ_MAX]` before the first `irq_listen`. -/
def no_listeners : List (Option task_ptr) := List.replicate IRQ_MAX none

/-- `irq_listen`; `arch_err` is what `arch_irq_enable(irq)` returns. -/
def irq_listen (irq_listeners : List (Option task_ptr)) (task : task_ptr) (irq : Nat)
    (arch_err : Int) : List (Option task_ptr) × Int :=
  if irq ≥ IRQ_MAX then
    (irq_listeners, ERR_INVALID_ARG)
  else if irq_listeners.getD irq none ≠ none then
    (irq_listeners, ERR_ALREADY_USED)
  else if arch_err ≠ OK then
    (irq_listeners, arch_err)
  else
    (irq_listeners.set irq (some task), OK)

/-- `irq_unlisten`; `arch_err` is what `arch_irq_disable(irq)` returns. -/
def irq_unlisten (irq_listeners : List (Option task_ptr)) (task : task_ptr) (irq : Nat)
    (arch_err : Int) : List (Option task_ptr) × Int :=
  if irq ≥ IRQ_MAX then
    (irq_listeners, ERR_INVALID_ARG)
  else if irq_listeners.getD irq none ≠ some task then
    (irq_listeners, ERR_NOT_ALLOWED)
  else if arch_err ≠ OK then
    (irq_listeners, arch_err)
  else
    (irq_listeners.set irq none, OK)

/-- `handle_interrupt`. -/
def handle_interrupt (k : kernel) (irq_listeners : List (Option task_ptr)) (irq : Nat) :
    kernel :=
  if irq ≥ IRQ_MAX then
    k
  else
    match irq_listeners.getD irq none with
    | none => k
    | some task => notify k task NOTIFY_IRQ

/-! ## Memory copies (`libs/common/string.c`) -/

/-- The loop `while (len-- > 0) { *d = *s; d++; s++; }` of `memcpy` on a memory of
bytes, `n` iterations left. -/
def memcpy_loop : Nat → Nat → Nat → (Nat → Nat) → (Nat → Nat)
  | 0, _, _, mem => mem
  | n + 1, d, s, mem => memcpy_loop n (u32 (d + 1)) (u32 (s + 1)) (Function.update mem d (mem s))

/-- `memcpy`: the memory after the call. -/
def memcpy (mem : Nat → Nat) (dst src len : Nat) : Except fault (Nat → Nat) := do
  ASSERT (decide (len < 256 * 1024 * 1024))
  pure (memcpy_loop len dst src mem)

/-- The loop `while (len-- > 0) { *d = *s; --d; --s; }` of the second branch of
`memmove`, `n` iterations left. -/
def memmove_down_loop : Nat → Nat → Nat → (Nat → Nat) → (Nat → Nat)
  | 0, _, _, mem => mem
  | n + 1, d, s, mem =>
    memmove_down_loop n (u32 (d + UINT_MAX)) (u32 (s + UINT_MAX)) (Function.update mem d (mem s))

/-- `memmove`: the memory after the call. -/
def memmove (mem : Nat → Nat) (dst src len : Nat) : Except fault (Nat → Nat) := do
  ASSERT (decide (len < 256 * 1024 * 1024))
  if dst ≤ src then
    memcpy mem dst src len
  else
    pure (memmove_down_loop len (u32 (dst + len)) (u32 (src + len)) mem)

/-! ## Address space teardown (`kernel/riscv32/vm.c`) -/

/-- The inner loop of `arch_vm_destroy` over the entries `j` of the second-level table
at `l2table`, `n` iterations left. -/
def arch_vm_destroy_l2 (l2table : Nat) : Nat → Nat → memory → Except fault memory
  | 0, _, mm => Except.ok mm
  | n + 1, j, mm =>
    let pte2 := mm.ram (u32 (l2table + 4 * j))
    if pte2 &&& (PTE_V ||| PTE_U) ≠ (PTE_V ||| PTE_U) then
      arch_vm_destroy_l2 l2table n (j + 1) mm
    else
      match pm_free mm (PTE_PADDR pte2) PAGE_SIZE with
      | Except.error f => Except.error f
      | Except.ok mm1 => arch_vm_destroy_l2 l2table n (j + 1) mm1

/-- The outer loop of `arch_vm_destroy` over the entries `i` of the first-level table
at `table`, `n` iterations left. -/
def arch_vm_destroy_l1 (table : Nat) : Nat → Nat → memory → Except fault memory
  | 0, _, mm => Except.ok mm
  | n + 1, i, mm =>
    let pte1 := mm.ram (u32 (table + 4 * i))
    if pte1 &&& PTE_V = 0 then
      arch_vm_destroy_l1 table n (i + 1) mm
    else
      match arch_vm_destroy_l2 (PTE_PADDR pte1) 512 0 mm with
      | Except.error f => Except.error f
      | Except.ok mm1 => arch_vm_destroy_l1 table n (i + 1) mm1

/-- `arch_vm_destroy` of the page table at `table` (`vm->table`). -/
def arch_vm_destroy (mm : memory) (table : Nat) : Except fault memory :=
  match arch_vm_destroy_l1 table 512 0 mm with
  | Except.error f => Except.error f
  | Except.ok mm1 => pm_free mm1 table PAGE_SIZE

/-! ## HinaVM tasks (`kernel/task.c`) -/

/-- `hinavm_create`; returns the new task id or a negative error.  As in
`init_task_struct`, the page allocations are taken by their outcome: `page_ok` says
whether `pm_alloc` of the `struct hinavm` succeeds. -/
def hinavm_create (k : kernel) (name : String) (pager : Option task_ptr)
    (page_ok vm_ok stack_ok : Bool) : kernel × Int :=
  let tid := alloc_tid k
  if tid = 0 then
    (k, ERR_TOO_MANY_TASKS)
  else
    let task := task_ptr.slot (tid - 1).toNat
    if page_ok = false then
      (k, ERR_NO_MEMORY)
    else
      let (k1, err) := init_task_struct k task tid name pager vm_ok stack_ok
      if err ≠ OK then
        (k1, err)
      else
        let k2 := active_push k1 task
        (task_resume k2 task, tid)

/-! ## Well-formed memory states -/

/-- Well-formed zones: the `pages` array of every zone has `num_pages` entries. -/
def zones_wf (zones : List memory_zone) : Bool :=
  zones.all (fun z => decide (z.pages.length = z.num_pages))

/-- A pointer into the `pages` array of one of the zones. -/
def page_valid (mm : memory) (pg : page_ptr) : Prop :=
  pg.zone < mm.zones.length ∧ pg.index < (mm.zones.getD pg.zone default).pages.length

/-- What `find_page_by_paddr` and the scans of `pm_alloc` read of a zone apart from its
`pages` array. -/
def zone_shape (z : memory_zone) : memory_zone_type × Nat × Nat := (z.type, z.base, z.num_pages)

/-- Whether `pg` is the page structure of one of the `n` frames at `paddr`,
`paddr + PAGE_SIZE`, ... (32-bit addresses). -/
def covers (zones : List memory_zone) : Nat → Nat → page_ptr → Bool
  | _, 0, _ => false
  | paddr, n + 1, pg =>
    decide ((find_page_by_paddr_loop (u32 paddr) zones 0).map Prod.fst = some pg)
      || covers zones (paddr + PAGE_SIZE) n pg

/-- The state after `free_page` on a valid page structure with a positive count. -/
def free_page_result (mm : memory) (pg : page_ptr) : memory :=
  if (page_deref mm pg).ref_count = 1 then
    pages_remove (page_update mm pg (fun p => { p with ref_count := p.ref_count - 1 })) pg
  else page_update mm pg (fun p => { p with ref_count := p.ref_count - 1 })

/-- The addresses of the frames of the RAM zones whose `ref_count` is 0. -/
def free_frames (zones : List memory_zone) : List Nat :=
  zones.flatMap (fun z =>
    if z.type = memory_zone_type.MEMORY_ZONE_FREE then
      (List.range z.num_pages).filterMap (fun i =>
        if (z.pages.getD i default).ref_count = 0 then some (u32 (z.base + i * PAGE_SIZE))
        else none)
    else [])

/-- The second-level tables of the page table at `table`: the frame addresses in its
non-zero first-level entries. -/
def l2_tables (mm : memory) (table : Nat) : List Nat :=
  (List.range 1024).filterMap (fun j =>
    if mm.ram (table + 4 * j) = 0 then none else some (PTE_PADDR (mm.ram (table + 4 * j))))

/-- A page table of a running system: the first-level table is page-aligned, it is not
one of its own second-level tables, and neither it nor a second-level table lies in a
free frame. -/
def page_table_wf (mm : memory) (table : Nat) : Prop :=
  IS_ALIGNED table PAGE_SIZE = true ∧ table ≤ UINT_MAX
  ∧ table ∉ l2_tables mm table
  ∧ ∀ q ∈ free_frames mm.zones, q ≠ table ∧ q ∉ l2_tables mm table

/-- The lookup of `riscv32_is_mapped` in the page table at `base` for a page-aligned
`vaddr`, on the physical memory `ram`: the first-level entry is not 0 and the
second-level entry it leads to is valid. -/
def pte_lookup (ram : Nat → Nat) (base vaddr : Nat) : Bool :=
  decide (ram (u32 (base + 4 * PTE_INDEX 1 vaddr)) ≠ 0
    ∧ u32 (PTE_PADDR (ram (u32 (base + 4 * PTE_INDEX 1 vaddr))) + 4 * PTE_INDEX 0 vaddr) ≠ 0
    ∧ ram (u32 (PTE_PADDR (ram (u32 (base + 4 * PTE_INDEX 1 vaddr)))
        + 4 * PTE_INDEX 0 vaddr)) &&& PTE_V ≠ 0)

/-! ## Concrete kernel states

States of the kind the scenarios of the specification describe; the closed theorems
below evaluate the kernel functions on them. -/

/-- A task in use. -/
def mk_task (tid : Int) (name : String) (state wait_for : Int) (pager : Option task_ptr)
    (ref_count : Int) (senders : List task_ptr) (notifications : Nat) : task :=
  { task.zero with tid := tid, name := name, state := state, wait_for := wait_for,
                   pager := pager, ref_count := ref_count, senders := senders,
                   notifications := notifications }

/-- The idle task a CPU gets from `task_init_percpu`. -/
def idle_task : task := mk_task 0 "(idle)" TASK_BLOCKED IPC_DENY none 0 [] 0

/-- A kernel with the given first slots in use and the rest of `tasks[]` unused; CPU 0
holds the lock and runs `current`, the other CPUs idle. -/
def mk_kernel (used : List task) (runqueue : List task_ptr) (current : task_ptr) : kernel :=
  { tasks := used ++ List.replicate (NUM_TASKS_MAX - used.length) task.zero
    idle_tasks := List.replicate NUM_CPUS_MAX idle_task
    runqueue := runqueue
    active_tasks := (List.range used.length).map task_ptr.slot
    cpuvars := (List.range NUM_CPUS_MAX).map (fun c =>
      { id := c, online := true,
        current_task := if c = 0 then current else task_ptr.idle c,
        idle_task := task_ptr.idle c })
    hart := 0 }

/-- A message of type 7, as in scenario 1 of the specification. -/
def msg7 : message := { type := 7, src := 0, body := payload.data [1, 2, 3] }

/-- Scenario 1: task 1 runs and task 2 waits in an open receive. -/
def handoff_state : kernel :=
  mk_kernel
    [ mk_task 1 "vm" TASK_RUNNABLE IPC_DENY none 1 [] 0,
      mk_task 2 "b" TASK_BLOCKED IPC_ANY (some (task_ptr.slot 0)) 0 [] 0 ]
    [] (task_ptr.slot 0)

/-- Scenario 3: task 2 runs; task 3 is parked in the sender queue of task 2. -/
def deadlock_state : kernel :=
  mk_kernel
    [ mk_task 1 "vm" TASK_BLOCKED IPC_ANY none 2 [] 0,
      mk_task 2 "b" TASK_RUNNABLE IPC_DENY (some (task_ptr.slot 0)) 0 [task_ptr.slot 2] 0,
      mk_task 3 "a" TASK_BLOCKED IPC_DENY (some (task_ptr.slot 0)) 0 [] 0 ]
    [] (task_ptr.slot 1)

/-- Task 2 runs with a timer notification pending while task 3 is parked in its
sender queue. -/
def notified_state : kernel :=
  mk_kernel
    [ mk_task 1 "vm" TASK_BLOCKED IPC_ANY none 2 [] 0,
      mk_task 2 "b" TASK_RUNNABLE IPC_DENY (some (task_ptr.slot 0)) 0 [task_ptr.slot 2]
        NOTIFY_TIMER,
      mk_task 3 "a" TASK_BLOCKED IPC_DENY (some (task_ptr.slot 0)) 0 [] 0 ]
    [] (task_ptr.slot 1)

/-- Task 2 runs; tasks 3, 4, 5 and 6 are parked in its sender queue, in this order. -/
def queue_state : kernel :=
  mk_kernel
    [ mk_task 1 "vm" TASK_BLOCKED IPC_ANY none 5 [] 0,
      mk_task 2 "b" TASK_RUNNABLE IPC_DENY (some (task_ptr.slot 0)) 0
        [task_ptr.slot 2, task_ptr.slot 3, task_ptr.slot 4, task_ptr.slot 5] 0,
      mk_task 3 "s3" TASK_BLOCKED IPC_DENY (some (task_ptr.slot 0)) 0 [] 0,
      mk_task 4 "s4" TASK_BLOCKED IPC_DENY (some (task_ptr.slot 0)) 0 [] 0,
      mk_task 5 "s5" TASK_BLOCKED IPC_DENY (some (task_ptr.slot 0)) 0 [] 0,
      mk_task 6 "s6" TASK_BLOCKED IPC_DENY (some (task_ptr.slot 0)) 0 [] 0 ]
    [] (task_ptr.slot 1)

/-- Scenario 4: task 1 (the pager) runs, task 2 is runnable on the run queue, and task 3
is parked in the sender queue of task 2. -/
def abort_state : kernel :=
  mk_kernel
    [ mk_task 1 "vm" TASK_RUNNABLE IPC_DENY none 2 [] 0,
      mk_task 2 "b" TASK_RUNNABLE IPC_DENY (some (task_ptr.slot 0)) 0 [task_ptr.slot 2] 0,
      mk_task 3 "a" TASK_BLOCKED IPC_DENY (some (task_ptr.slot 0)) 0 [] 0 ]
    [task_ptr.slot 1] (task_ptr.slot 0)

/-- All sixteen slots in use: task 1 runs, tasks 2 to 16 (paged by task 1) wait in an
open receive. -/
def full_state : kernel :=
  mk_kernel
    (mk_task 1 "vm" TASK_RUNNABLE IPC_DENY none 15 [] 0
      :: (List.range 15).map (fun i =>
            mk_task ((i : Int) + 2) "t" TASK_BLOCKED IPC_ANY (some (task_ptr.slot 0)) 0 [] 0))
    [] (task_ptr.slot 0)

/-- Fifteen tasks in use, the last slot of the table free. -/
def fifteen_state : kernel :=
  mk_kernel
    (mk_task 1 "vm" TASK_RUNNABLE IPC_DENY none 14 [] 0
      :: (List.range 14).map (fun i =>
            mk_task ((i : Int) + 2) "t" TASK_BLOCKED IPC_ANY (some (task_ptr.slot 0)) 0 [] 0))
    [] (task_ptr.slot 0)

/-- Task 1 (the pager) runs; task 2 is blocked outside a receive (as after `task_exit`)
with a timer notification pending. -/
def exited_state : kernel :=
  mk_kernel
    [ mk_task 1 "vm" TASK_RUNNABLE IPC_DENY none 1 [] 0,
      mk_task 2 "b" TASK_BLOCKED IPC_DENY (some (task_ptr.slot 0)) 0 [] NOTIFY_TIMER ]
    [] (task_ptr.slot 0)

/-- Task 2 runs (and is about to call `irq_listen`); task 1, its pager, is on the run
queue. -/
def driver_state : kernel :=
  mk_kernel
    [ mk_task 1 "vm" TASK_RUNNABLE IPC_DENY none 1 [] 0,
      mk_task 2 "drv" TASK_RUNNABLE IPC_DENY (some (task_ptr.slot 0)) 0 [] 0 ]
    [task_ptr.slot 0] (task_ptr.slot 1)

/-- The listener table after task 2, running in `driver_state`, has called
`irq_listen` for IRQ 5. -/
def driver_listeners : List (Option task_ptr) :=
  (irq_listen no_listeners (CURRENT_TASK driver_state) 5 OK).1

/-- The kernel after task 2 of `driver_state` was preempted and task 1 destroyed it. -/
def driver_destroyed_state : kernel :=
  ((task_destroy (task_switch driver_state) (task_ptr.slot 1)).map Prod.fst).getD driver_state

/-- The state `exited_state` after task 1 destroyed task 2. -/
def destroyed_state : kernel :=
  ((task_destroy exited_state (task_ptr.slot 1)).map Prod.fst).getD exited_state

/-- The state `destroyed_state` after task 1 created a task, which got slot 2. -/
def reborn_state : kernel :=
  (task_create destroyed_state "new" 0x10000 (some (task_ptr.slot 0)) true true).1

/-! ## The kernel as a transition system

One step is one kernel function run by the CPU that holds the lock, from its entry to
its return or to the point where it gives the lock away: the `task_switch` of a call
that parks its caller, the `arch_send_ipi` in the wait loop of `task_destroy` (which
releases the lock, `riscv32/mp.c`).  The steps are guarded by the checks of the
callers in `syscall.c` and by the assertions of the functions themselves. -/

/-- `sys_time`. -/
def sys_time (k : kernel) (timeout : Int) : kernel × Int :=
  if timeout < 0 then
    (k, ERR_INVALID_ARG)
  else
    (update k (CURRENT_TASK k) (fun t =>
      { t with timeout := if timeout = 0 then 0 else u32 (timeout.toNat * (TICK_HZ / 1000)) }),
     OK)

/-- `task_exit` after its `ipc` call: `task_block(CURRENT_TASK); task_switch();`. -/
def task_exit_switch (k : kernel) : kernel :=
  task_switch (task_block k (CURRENT_TASK k))

/-- `task_destroy` up to its wait loop: the two early returns, else `destroyed = true`. -/
def task_destroy_enter (k : kernel) (task : task_ptr) : kernel × Option Int :=
  if (deref k task).tid = 1 then
    (k, some ERR_INVALID_ARG)
  else if (deref k task).ref_count > 0 then
    (k, some ERR_STILL_USED)
  else
    (update k task (fun t => { t with destroyed := true }), none)

/-- The test of the wait loop of `task_destroy`: the loop is left when the task is not
runnable or is on the run queue; otherwise the caller sends `IPI_RESCHEDULE`, which
releases the kernel lock until the other CPUs have handled it, and tests again. -/
def task_destroy_ready (k : kernel) (task : task_ptr) : Bool :=
  decide ((deref k task).state ≠ TASK_RUNNABLE ∨ list_contains k.runqueue task = true)

/-- `task_destroy` from the exit of its wait loop.  The result is `none` when
`task->pager` is `NULL` at `task->pager->ref_count--`. -/
def task_destroy_finish (k : kernel) (task : task_ptr) : Option (kernel × Int) :=
  let k2 := (deref k task).senders.foldl (fun s sender => notify s sender NOTIFY_ABORTED) k
  let k3 := active_remove k2 task
  let k4 := waitqueue_remove k3 task
  let k5 := update k4 task (fun t => { t with state := TASK_UNUSED })
  match (deref k5 task).pager with
  | some pg => some (update k5 pg (fun t => { t with ref_count := t.ref_count - 1 }), OK)
  | none => none

/-- The kernel after `task_init_percpu` on every CPU, before `create_first_task`: no
slot in use, every CPU runs its idle task. -/
def boot_kernel : kernel := mk_kernel [] [] (task_ptr.idle 0)

/-- The task `scheduler` returns in the state `k`. -/
def next_task (k : kernel) : task_ptr := (scheduler k).2

/-- The task that runs on CPU `c` (`cpuvars[c].current_task`). -/
def current_of (k : kernel) (c : Nat) : task_ptr := (k.cpuvars.getD c default).current_task

/-- Some CPU runs `p`. -/
def is_current (k : kernel) (p : task_ptr) : Prop :=
  ∃ c, c < k.cpuvars.length ∧ current_of k c = p

instance (k : kernel) (p : task_ptr) : Decidable (is_current k p) := by
  unfold is_current; infer_instance

/-- The caller of a system call is the running task of the CPU, and it is runnable
(`task_block` asserts it of the task it blocks). -/
def caller_ok (k : kernel) : Prop := (deref k (CURRENT_TASK k)).state = TASK_RUNNABLE

instance (k : kernel) : Decidable (caller_ok k) := by
  unfold caller_ok; infer_instance

/-- The pager argument of `task_create` and `hinavm_create`: `NULL` (the kernel creating
the first task) or a task that `task_find` returned. -/
def pager_ok (k : kernel) (pager : Option task_ptr) : Prop :=
  ∀ pg, pager = some pg → ∃ j, pg = task_ptr.slot j ∧ in_use k j

/-- One step of the kernel. -/
inductive kernel_step : kernel → kernel → Prop where
  /-- Another CPU takes the kernel lock. -/
  | cpu (k : kernel) (c : Nat) (hc : c < k.cpuvars.length) :
      kernel_step k { k with hart := c }
  /-- `task_create` (from `create_first_task` and `sys_task_create`). -/
  | create (k : kernel) (name : String) (ip : Nat) (pager : Option task_ptr)
      (vm_ok stack_ok : Bool) (hp : pager_ok k pager) :
      kernel_step k (task_create k name ip pager vm_ok stack_ok).1
  /-- `hinavm_create` (from `sys_hinavm`). -/
  | hinavm (k : kernel) (name : String) (pager : Option task_ptr)
      (page_ok vm_ok stack_ok : Bool) (hp : pager_ok k pager) :
      kernel_step k (hinavm_create k name pager page_ok vm_ok stack_ok).1
  /-- `task_destroy` that finds its wait loop finished at the first test. -/
  | destroy (k : kernel) (i : Nat) (r : kernel × Int)
      (hcur : CURRENT_TASK k ≠ task_ptr.slot i) (huse : in_use k i)
      (h : task_destroy k (task_ptr.slot i) = some r) :
      kernel_step k r.1
  /-- `task_destroy` up to the wait loop. -/
  | destroy_enter (k : kernel) (i : Nat)
      (hcur : CURRENT_TASK k ≠ task_ptr.slot i) (huse : in_use k i) :
      kernel_step k (task_destroy_enter k (task_ptr.slot i)).1
  /-- `task_destroy` from the wait loop, once its test succeeds. -/
  | destroy_finish (k : kernel) (i : Nat) (r : kernel × Int)
      (hd : (deref k (task_ptr.slot i)).destroyed = true)
      (hready : task_destroy_ready k (task_ptr.slot i) = true)
      (h : task_destroy_finish k (task_ptr.slot i) = some r) :
      kernel_step k r.1
  /-- `send_message` to its return or to the `task_switch` that parks the caller. -/
  | send (k : kernel) (i : Nat) (m : Nat) (um : message) (flags : Nat) (hc : caller_ok k) :
      kernel_step k (send_message k (task_ptr.slot i) m um flags).1
  /-- `send_message` from the `task_switch` of the park path; `task_resume(dst)` asserts
  that `dst` is blocked. -/
  | send_resume (k : kernel) (i : Nat) (copied_m : message) (flags : Nat) (hc : caller_ok k)
      (hdst : (deref k (CURRENT_TASK k)).notifications &&& NOTIFY_ABORTED = 0 →
        (deref k (task_ptr.slot i)).state = TASK_BLOCKED) :
      kernel_step k (send_message_resume k (CURRENT_TASK k) (task_ptr.slot i) copied_m flags).1
  /-- `recv_message` to its return or to its `task_switch`; it asserts that the sender it
  takes from the queue is blocked. -/
  | recv (k : kernel) (src : Int) (m : Nat) (flags : Nat) (hc : caller_ok k)
      (hsender : ∀ s, recv_find_sender k src (deref k (CURRENT_TASK k)).senders = some s →
        (deref k s).state = TASK_BLOCKED) :
      kernel_step k (recv_message k src m flags).1
  /-- `recv_message` from its `task_switch`. -/
  | recv_resume (k : kernel) (m : Nat) (flags : Nat) (hc : caller_ok k) :
      kernel_step k (recv_message_resume k (CURRENT_TASK k) m flags).1
  /-- `notify` (from `sys_notify` and `handle_interrupt`). -/
  | notify (k : kernel) (i : Nat) (notifications : Nat) :
      kernel_step k (notify k (task_ptr.slot i) notifications)
  /-- `handle_timer_interrupt`. -/
  | timer (k : kernel) (uptime_ticks ticks : Nat) :
      kernel_step k (handle_timer_interrupt k uptime_ticks ticks).1
  /-- `sys_time`. -/
  | time (k : kernel) (timeout : Int) (hc : caller_ok k) :
      kernel_step k (sys_time k timeout).1
  /-- `task_block(CURRENT_TASK)` followed by `task_switch` (the end of `task_exit`). -/
  | exit (k : kernel) (hc : caller_ok k) :
      kernel_step k (task_exit_switch k)
  /-- `task_switch` (the idle loop, `IPI_RESCHEDULE`). -/
  | switch (k : kernel) :
      kernel_step k (task_switch k)
  /-- `task_resume`, which asserts that the task is blocked. -/
  | resume (k : kernel) (i : Nat) (hb : (deref k (task_ptr.slot i)).state = TASK_BLOCKED) :
      kernel_step k (task_resume k (task_ptr.slot i))

/-- The states the kernel can be in after boot. -/
def reachable (k : kernel) : Prop := Relation.ReflTransGen kernel_step boot_kernel k

/-- The scheduling invariant.  With `relaxed` the running task of the CPU that holds
the lock need not be runnable: this is the state between `task_block(CURRENT_TASK)` and
`task_switch`. -/
structure kernel_inv (relaxed : Bool) (k : kernel) : Prop where
  tasks_len : k.tasks.length = NUM_TASKS_MAX
  hart_lt : k.hart < k.cpuvars.length
  idle_ptr : ∀ c, c < k.cpuvars.length →
    (k.cpuvars.getD c default).idle_task = task_ptr.idle c
  idle_state : ∀ c, (deref k (task_ptr.idle c)).state ≠ TASK_RUNNABLE
    ∧ ((deref k (task_ptr.idle c)).state = TASK_BLOCKED →
        (deref k (task_ptr.idle c)).wait_for ≠ IPC_ANY)
  rq_nodup : k.runqueue.Nodup
  rq_runnable : ∀ p, p ∈ k.runqueue → (deref k p).state = TASK_RUNNABLE
  cur_ok : ∀ c, c < k.cpuvars.length → current_of k c = task_ptr.idle c ∨
    (((relaxed = true ∧ c = k.hart) ∨ (deref k (current_of k c)).state = TASK_RUNNABLE)
      ∧ current_of k c ∉ k.runqueue)
  cur_inj : ∀ c c', c < k.cpuvars.length → c' < k.cpuvars.length →
    current_of k c = current_of k c' → c = c'
  runnable_placed : ∀ p, (deref k p).state = TASK_RUNNABLE → p ∈ k.runqueue ∨ is_current k p
  senders_slot : ∀ p s, s ∈ (deref k p).senders → ∃ i, s = task_ptr.slot i
  no_mutual : ∀ x y, x ∈ (deref k y).senders → y ∉ (deref k x).senders

/-- The number of tasks in use, other than the one in slot `i`, that name the task in
slot `i` as their pager. -/
def pager_refs (k : kernel) (i : Nat) : Nat :=
  (List.range k.tasks.length).countP (fun j =>
    decide (j ≠ i ∧ in_use k j ∧ (deref k (task_ptr.slot j)).pager = some (task_ptr.slot i)))

/-- The pager invariant: the table is complete, the `ref_count` of every task in use is
the number of other tasks in use that name it as pager, and the pager of a task in use
is another task in use. -/
structure pager_inv (k : kernel) : Prop where
  tasks_len : k.tasks.length = NUM_TASKS_MAX
  count : ∀ i, in_use k i → (deref k (task_ptr.slot i)).ref_count = (pager_refs k i : Int)
  pager_used : ∀ i pg, in_use k i → (deref k (task_ptr.slot i)).pager = some pg →
    ∃ j, pg = task_ptr.slot j ∧ j ≠ i ∧ in_use k j

/-- The step from `k` to `k2` leaves the size of the table, and of every task the
`pager`, the `ref_count` and whether its slot is in use, as they were. -/
def same_pagers (k k2 : kernel) : Prop :=
  k2.tasks.length = k.tasks.length
  ∧ ∀ q, (deref k2 q).pager = (deref k q).pager
      ∧ (deref k2 q).ref_count = (deref k q).ref_count
      ∧ ((deref k2 q).state = TASK_UNUSED ↔ (deref k q).state = TASK_UNUSED)

/-! ## States reached from boot -/

/-- The kernel after boot has created four tasks (task 1 without pager, tasks 2, 3 and
4 paged by task 1) and has switched twice: task 2 runs, the run queue holds tasks 3, 4
and 1. -/
def four_tasks_state : kernel :=
  task_switch (task_switch
    (task_create
      (task_create
        (task_create
          (task_create boot_kernel "vm" 0x10000 none true true).1
          "a" 0x10000 (some (task_ptr.slot 0)) true true).1
        "b" 0x10000 (some (task_ptr.slot 0)) true true).1
      "c" 0x10000 (some (task_ptr.slot 0)) true true).1)

/-- Task 2 has sent to task 3, which was not receiving: task 2 is parked and task 3
runs. -/
def cycle_state_1 : kernel :=
  (send_message four_tasks_state (task_ptr.slot 2) 0x1000 msg7 IPC_SEND).1

/-- Then task 3 has sent to task 4: task 3 is parked and task 4 runs. -/
def cycle_state_2 : kernel :=
  (send_message cycle_state_1 (task_ptr.slot 3) 0x1000 msg7 IPC_SEND).1

/-- Then task 4 has sent to task 2: task 4 is parked too. -/
def cycle_state_3 : kernel :=
  (send_message cycle_state_2 (task_ptr.slot 1) 0x1000 msg7 IPC_SEND).1

/-- Two CPUs at work: after boot, task 1 (without pager) and task 2 (paged by task 1)
are created; CPU 0 switches to task 1, CPU 1 to task 2.  CPU 0 holds the lock. -/
def race_state_0 : kernel :=
  { task_switch
      { task_switch
          (task_create (task_create boot_kernel "vm" 0x10000 none true true).1
            "t" 0x10000 (some (task_ptr.slot 0)) true true).1
        with hart := 1 }
    with hart := 0 }

/-- Task 1 has called `task_destroy` on task 2: both checks have passed, `destroyed` is
set, and the wait loop has sent `IPI_RESCHEDULE`, giving the lock away. -/
def race_state_1 : kernel := (task_destroy_enter race_state_0 (task_ptr.slot 1)).1

/-- CPU 1 gets the lock first with a system call of task 2, which creates task 3 with
itself as the pager. -/
def race_state_2 : kernel :=
  (task_create { race_state_1 with hart := 1 } "u" 0x10000 (some (task_ptr.slot 1)) true true).1

/-- CPU 1 then handles `IPI_RESCHEDULE` with `task_switch`; CPU 0 takes the lock back. -/
def race_state_3 : kernel := { task_switch race_state_2 with hart := 0 }

/-- The wait loop of `task_destroy` finds task 2 on the run queue and the function
runs to its end. -/
def race_state_4 : kernel :=
  ((task_destroy_finish race_state_3 (task_ptr.slot 1)).map Prod.fst).getD race_state_3

/-- Task 1 creates one more task, which gets the slot task 2 had. -/
def race_state_5 : kernel :=
  (task_create race_state_4 "n" 0x10000 (some (task_ptr.slot 0)) true true).1

/-! ## Concrete memory states -/

/-- A free frame. -/
def free_frame : page := { owner := none, ref_count := 0 }

/-- Memory after boot with two tasks: one RAM zone of eight frames at `0x80200000` and
one MMIO zone of two frames at `0x10000000`.  Frames 0 and 1 of the RAM zone hold the
first-level page tables of tasks 1 and 2 (allocated by the kernel, no owner), frame 2
belongs to task 2, frames 3 to 7 are free; the page tables are empty. -/
def boot_memory : memory :=
  { zones :=
      [ { type := memory_zone_type.MEMORY_ZONE_FREE, base := 0x80200000, num_pages := 8,
          pages := [ { owner := none, ref_count := 1 }, { owner := none, ref_count := 1 },
                     { owner := some (task_ptr.slot 1), ref_count := 1 },
                     free_frame, free_frame, free_frame, free_frame, free_frame ] },
        { type := memory_zone_type.MEMORY_ZONE_MMIO, base := 0x10000000, num_pages := 2,
          pages := [free_frame, free_frame] } ]
    pages := fun t => if t = task_ptr.slot 1 then [{ zone := 0, index := 2 }] else []
    table := fun t => if t = task_ptr.slot 0 then 0x80200000 else 0x80201000
    ram := fun _ => 0 }

/-- User memory in which the byte at address `a` is `a % 251`. -/
def pattern_umem (a : Nat) : Nat := a % 251

/-- The memory after task 1 (the pager of task 2) has mapped the frame of task 2 at
`0x80202000` at its address `0x10000`. -/
def mapped_memory : memory :=
  ((value_of (vm_map handoff_state boot_memory (task_ptr.slot 0) 0x10000 0x80202000
    PAGE_READABLE)).map Prod.fst).getD boot_memory

/-- Memory for the teardown examples: task 2 has mapped its frame at `0x80202000` at
the user addresses `0x10000` and `0x200000`. -/
def teardown_memory : memory :=
  ((value_of (sys_vm_map handoff_state boot_memory 2 0x10000 0x80202000 PAGE_READABLE)).bind
    (fun r => value_of (sys_vm_map handoff_state r.1 2 0x200000 0x80202000 PAGE_READABLE))).elim
    boot_memory Prod.fst

/-- One RAM zone of four frames, all free. -/
def free_zone_memory : memory :=
  { zones := [ { type := memory_zone_type.MEMORY_ZONE_FREE, base := 0x80200000, num_pages := 4,
                 pages := [free_frame, free_frame, free_frame, free_frame] } ]
    pages := fun _ => []
    table := fun _ => 0
    ram := fun _ => 0 }

/-! # Theorems -/

/-! ## Reading and writing through task pointers -/

@[simp] theorem update_runqueue (k : kernel) (p : task_ptr) (f : task → task) :
    (update k p f).runqueue = k.runqueue := by cases p <;> rfl

@[simp] theorem update_active_tasks (k : kernel) (p : task_ptr) (f : task → task) :
    (update k p f).active_tasks = k.active_tasks := by cases p <;> rfl

@[simp] theorem update_cpuvars (k : kernel) (p : task_ptr) (f : task → task) :
    (update k p f).cpuvars = k.cpuvars := by cases p <;> rfl

@[simp] theorem update_hart (k : kernel) (p : task_ptr) (f : task → task) :
    (update k p f).hart = k.hart := by cases p <;> rfl

@[simp] theorem CURRENT_TASK_update (k : kernel) (p : task_ptr) (f : task → task) :
    CURRENT_TASK (update k p f) = CURRENT_TASK k := by
  simp [CURRENT_TASK, CPUVAR]

@[simp] theorem IDLE_TASK_update (k : kernel) (p : task_ptr) (f : task → task) :
    IDLE_TASK (update k p f) = IDLE_TASK k := by
  simp [IDLE_TASK, CPUVAR]

@[simp] theorem valid_update (k : kernel) (p q : task_ptr) (f : task → task) :
    valid (update k p f) q ↔ valid k q := by
  cases p <;> cases q <;> simp [valid, update]

theorem deref_update_same (k : kernel) (p : task_ptr) (f : task → task) (h : valid k p) :
    deref (update k p f) p = f (deref k p) := by
  cases p <;> simp [valid] at h <;> simp [deref, update, List.getD_eq_getElem?_getD, h]

theorem deref_update_ne (k : kernel) (p q : task_ptr) (f : task → task) (h : q ≠ p) :
    deref (update k p f) q = deref k q := by
  cases p <;> cases q <;> simp [deref, update, List.getD_eq_getElem?_getD]
  all_goals
    rename_i i j
    have : i ≠ j := by intro e; apply h; simp [e]
    simp [List.getElem?_set_ne this]

/-- A write through a pointer outside the arrays changes nothing. -/
theorem deref_update (k : kernel) (p q : task_ptr) (f : task → task) :
    deref (update k p f) q = if q = p ∧ valid k p then f (deref k q) else deref k q := by
  by_cases h : q = p
  · subst h
    by_cases hv : valid k q
    · simp [hv, deref_update_same]
    · simp only [hv, and_false, if_false]
      cases q <;> simp [valid] at hv <;>
        simp [deref, update, List.getD_eq_getElem?_getD, List.set_eq_of_length_le hv]
  · simp [h, deref_update_ne]

@[simp] theorem task_resume_runqueue (k : kernel) (p : task_ptr) :
    (task_resume k p).runqueue = k.runqueue ++ [p] := by
  simp [task_resume, list_push_back]

@[simp] theorem CURRENT_TASK_task_resume (k : kernel) (p : task_ptr) :
    CURRENT_TASK (task_resume k p) = CURRENT_TASK k := by
  simp [task_resume, CURRENT_TASK, CPUVAR]

theorem deref_task_resume (k : kernel) (p q : task_ptr) :
    deref (task_resume k p) q
      = deref (update k p (fun t => { t with state := TASK_RUNNABLE })) q := by
  cases q <;> cases p <;> rfl

@[simp] theorem deref_active_push (k : kernel) (a p : task_ptr) :
    deref (active_push k a) p = deref k p := by cases p <;> rfl

@[simp] theorem valid_active_push (k : kernel) (a p : task_ptr) :
    valid (active_push k a) p ↔ valid k p := by cases p <;> rfl

@[simp] theorem active_push_runqueue (k : kernel) (a : task_ptr) :
    (active_push k a).runqueue = k.runqueue := rfl

@[simp] theorem active_push_active_tasks (k : kernel) (a : task_ptr) :
    (active_push k a).active_tasks = k.active_tasks ++ [a] := rfl

@[simp] theorem deref_active_remove (k : kernel) (a p : task_ptr) :
    deref (active_remove k a) p = deref k p := by cases p <;> rfl

@[simp] theorem valid_active_remove (k : kernel) (a p : task_ptr) :
    valid (active_remove k a) p ↔ valid k p := by cases p <;> rfl

@[simp] theorem task_resume_active_tasks (k : kernel) (p : task_ptr) :
    (task_resume k p).active_tasks = k.active_tasks := by simp [task_resume]

theorem update_update (k : kernel) (p : task_ptr) (f g : task → task) :
    update (update k p f) p g = update k p (fun t => g (f t)) := by
  cases p <;> simp only [update] <;> congr 1
  all_goals
    rename_i i
    first
      | (by_cases h : i < k.tasks.length
         · simp [List.getD_eq_getElem?_getD, h, List.set_set]
         · simp [List.set_eq_of_length_le (not_lt.1 h)])
      | (by_cases h : i < k.idle_tasks.length
         · simp [List.getD_eq_getElem?_getD, h, List.set_set]
         · simp [List.set_eq_of_length_le (not_lt.1 h)])

@[simp] theorem task_resume_hart (k : kernel) (p : task_ptr) :
    (task_resume k p).hart = k.hart := by simp [task_resume]

@[simp] theorem task_resume_cpuvars (k : kernel) (p : task_ptr) :
    (task_resume k p).cpuvars = k.cpuvars := by simp [task_resume]

@[simp] theorem valid_task_resume (k : kernel) (s p : task_ptr) :
    valid (task_resume k s) p ↔ valid k p := by
  cases p <;> cases s <;> simp [valid, task_resume, update]

@[simp] theorem waitqueue_remove_hart (k : kernel) (p : task_ptr) :
    (waitqueue_remove k p).hart = k.hart := rfl

@[simp] theorem waitqueue_remove_cpuvars (k : kernel) (p : task_ptr) :
    (waitqueue_remove k p).cpuvars = k.cpuvars := rfl

@[simp] theorem CURRENT_TASK_waitqueue_remove (k : kernel) (s : task_ptr) :
    CURRENT_TASK (waitqueue_remove k s) = CURRENT_TASK k := rfl

@[simp] theorem valid_waitqueue_remove (k : kernel) (s p : task_ptr) :
    valid (waitqueue_remove k s) p ↔ valid k p := by
  cases p <;> simp [valid, waitqueue_remove]

/-- Unlinking `s` from its wait list takes `s` out of every sender queue and changes
nothing else of a task. -/
theorem deref_waitqueue_remove (k : kernel) (s p : task_ptr) :
    deref (waitqueue_remove k s) p
      = { deref k p with senders := (deref k p).senders.erase s } := by
  cases p <;> simp only [deref, waitqueue_remove, List.getD_eq_getElem?_getD, List.getElem?_map]
  all_goals
    rename_i i
    first
      | (cases h : k.tasks[i]? <;> simp; rfl)
      | (cases h : k.idle_tasks[i]? <;> simp; rfl)

theorem CURRENT_TASK_set_current_task (k : kernel) (next : task_ptr)
    (hhart : k.hart < k.cpuvars.length) :
    CURRENT_TASK (set_current_task k next) = next := by
  simp [CURRENT_TASK, CPUVAR, set_current_task, List.getD_eq_getElem?_getD, hhart]

/-! ## The scheduler touches nothing but `quantum` -/

theorem scheduler_deref (k : kernel) (p : task_ptr) :
    deref (scheduler k).1 p = deref k p := by
  unfold scheduler
  split
  · cases p <;> rfl
  · split <;> rfl

theorem deref_set_current_task (k : kernel) (next p : task_ptr) :
    deref (set_current_task k next) p = deref k p := by
  cases p <;> rfl

theorem deref_set_runqueue (k : kernel) (q : List task_ptr) (p : task_ptr) :
    deref { k with runqueue := q } p = deref k p := by
  cases p <;> rfl

/-- `task_switch` changes at most the `quantum` field of a task. -/
theorem task_switch_deref (k : kernel) (p : task_ptr) :
    ∃ q, deref (task_switch k) p = { deref k p with quantum := q } := by
  have hq : ∀ (n : task_ptr),
      ∃ q, deref (update (scheduler k).1 n (fun t => { t with quantum := TASK_QUANTUM })) p
        = { deref k p with quantum := q } := by
    intro n
    rw [deref_update, scheduler_deref]
    split
    · exact ⟨_, rfl⟩
    · exact ⟨(deref k p).quantum, rfl⟩
  have h0 : ∃ q, deref (scheduler k).1 p = { deref k p with quantum := q } :=
    ⟨(deref k p).quantum, by rw [scheduler_deref]⟩
  simp only [task_switch]
  by_cases h1 : (scheduler k).2 ≠ IDLE_TASK (scheduler k).1 <;>
    by_cases h2 : (scheduler k).2 = CURRENT_TASK k
  · simp only [if_pos h1, if_pos h2]; exact hq _
  · simp only [if_pos h1, if_neg h2, deref_set_current_task]
    split
    · rw [deref_set_runqueue]; exact hq _
    · exact hq _
  · simp only [if_neg h1, if_pos h2]; exact h0
  · simp only [if_neg h1, if_neg h2, deref_set_current_task]
    split
    · rw [deref_set_runqueue]; exact h0
    · exact h0

theorem task_switch_state (k : kernel) (p : task_ptr) :
    (deref (task_switch k) p).state = (deref k p).state := by
  obtain ⟨q, h⟩ := task_switch_deref k p; rw [h]

theorem task_switch_senders (k : kernel) (p : task_ptr) :
    (deref (task_switch k) p).senders = (deref k p).senders := by
  obtain ⟨q, h⟩ := task_switch_deref k p; rw [h]

theorem task_switch_wait_for (k : kernel) (p : task_ptr) :
    (deref (task_switch k) p).wait_for = (deref k p).wait_for := by
  obtain ⟨q, h⟩ := task_switch_deref k p; rw [h]

/-- A task on the run queue is still on it after `task_switch`, or is the task the
CPU switched to. -/
theorem task_switch_runqueue_mem (k : kernel) (s : task_ptr)
    (hhart : k.hart < k.cpuvars.length) (hs : s ∈ k.runqueue) :
    s ∈ (task_switch k).runqueue ∨ CURRENT_TASK (task_switch k) = s := by
  obtain ⟨next, rest, hrq⟩ : ∃ next rest, k.runqueue = next :: rest := by
    cases h : k.runqueue with
    | nil => rw [h] at hs; cases hs
    | cons a l => exact ⟨a, l, rfl⟩
  have hsch : scheduler k = ({ k with runqueue := rest }, next) := by
    simp [scheduler, hrq]
  rw [hrq] at hs
  simp only [task_switch, hsch]
  by_cases h2 : next = CURRENT_TASK k
  · simp only [if_pos h2]
    rcases List.mem_cons.1 hs with h | h
    · right
      split <;> simp [CURRENT_TASK, CPUVAR] <;> simp [h, h2, CURRENT_TASK, CPUVAR]
    · left
      split <;> simp [h]
  · simp only [if_neg h2]
    rcases List.mem_cons.1 hs with h | h
    · right
      rw [CURRENT_TASK_set_current_task]
      · exact h.symm
      · split <;> split <;> simpa using hhart
    · left
      simp only [set_current_task]
      split <;> split <;> simp [h, list_push_back]

/-! ## Copying the message in and out -/

/-- The copy into the kernel succeeds under `IPC_KERNEL` and from a mappable user
address. -/
theorem copy_in_ok (m : Nat) (um : message) (flags : Nat)
    (hcopy : flags &&& IPC_KERNEL ≠ 0 ∨ arch_is_mappable_uaddr m = true) :
    (if flags &&& IPC_KERNEL ≠ 0 then Except.ok um else memcpy_from_user m um)
      = Except.ok um := by
  rcases hcopy with h | h
  · simp [h]
  · simp [memcpy_from_user, h]

/-- The copy to the caller succeeds under `IPC_KERNEL` and to a mappable user
address. -/
theorem recv_copy_out_ok (k : kernel) (copied_m : message) (m flags : Nat)
    (hcopy : flags &&& IPC_KERNEL ≠ 0 ∨ arch_is_mappable_uaddr m = true) :
    recv_copy_out k copied_m m flags = (k, outcome.ret OK, some copied_m) := by
  unfold recv_copy_out
  by_cases hk : flags &&& IPC_KERNEL ≠ 0
  · rw [if_pos hk]
  · rcases hcopy with h | h
    · exact absurd h hk
    · rw [if_neg hk]; simp [memcpy_to_user, h]

/-- The copy into the kernel fails with `ERR_INVALID_UADDR` from an unmappable user
address. -/
theorem copy_in_fail (m : Nat) (um : message) (flags : Nat)
    (hcopy : ¬ (flags &&& IPC_KERNEL ≠ 0 ∨ arch_is_mappable_uaddr m = true)) :
    (if flags &&& IPC_KERNEL ≠ 0 then Except.ok um else memcpy_from_user m um)
      = Except.error ERR_INVALID_UADDR := by
  have h1 : ¬ (flags &&& IPC_KERNEL ≠ 0) := fun h => hcopy (Or.inl h)
  have h2 : arch_is_mappable_uaddr m = false := by
    cases h : arch_is_mappable_uaddr m
    · rfl
    · exact absurd (Or.inr h) hcopy
  rw [if_neg h1]
  simp [memcpy_from_user, h2]

/-- The copy to the caller fails with `ERR_INVALID_UADDR` to an unmappable user
address, and nothing is stored. -/
theorem recv_copy_out_fail (k : kernel) (copied_m : message) (m flags : Nat)
    (hcopy : ¬ (flags &&& IPC_KERNEL ≠ 0 ∨ arch_is_mappable_uaddr m = true)) :
    recv_copy_out k copied_m m flags = (k, outcome.ret ERR_INVALID_UADDR, none) := by
  have h1 : ¬ (flags &&& IPC_KERNEL ≠ 0) := fun h => hcopy (Or.inl h)
  have h2 : arch_is_mappable_uaddr m = false := by
    cases h : arch_is_mappable_uaddr m
    · rfl
    · exact absurd (Or.inr h) hcopy
  unfold recv_copy_out
  rw [if_neg h1]
  simp [memcpy_to_user, h2]

/-- The copy to the caller changes no kernel state. -/
theorem recv_copy_out_fst (k : kernel) (copied_m : message) (m flags : Nat) :
    (recv_copy_out k copied_m m flags).1 = k := by
  unfold recv_copy_out
  split <;> rfl

/-- The first rule of `recv_message`, up to the copy to the caller. -/
theorem recv_message_notification (k : kernel) (m flags : Nat)
    (hpending : (deref k (CURRENT_TASK k)).notifications ≠ 0) :
    recv_message k IPC_ANY m flags
      = recv_copy_out (update k (CURRENT_TASK k) (fun t => { t with notifications := 0 }))
          { type := NOTIFY_MSG, src := FROM_KERNEL,
            body := payload.notify (deref k (CURRENT_TASK k)).notifications } m flags := by
  have hrule : IPC_ANY = IPC_ANY ∧ (deref k (CURRENT_TASK k)).notifications ≠ 0 :=
    ⟨rfl, hpending⟩
  unfold recv_message
  rw [if_pos hrule]

/-- The first rule of `recv_message`: an open receive with notifications pending. -/
theorem recv_message_pending (k : kernel) (m flags : Nat)
    (hpending : (deref k (CURRENT_TASK k)).notifications ≠ 0)
    (hcopy : flags &&& IPC_KERNEL ≠ 0 ∨ arch_is_mappable_uaddr m = true) :
    recv_message k IPC_ANY m flags
      = (update k (CURRENT_TASK k) (fun t => { t with notifications := 0 }),
         outcome.ret OK,
         some { type := NOTIFY_MSG, src := FROM_KERNEL,
                body := payload.notify (deref k (CURRENT_TASK k)).notifications }) := by
  have hrule : IPC_ANY = IPC_ANY ∧ (deref k (CURRENT_TASK k)).notifications ≠ 0 :=
    ⟨rfl, hpending⟩
  unfold recv_message
  rw [if_pos hrule]
  exact recv_copy_out_ok _ _ _ _ hcopy

/-- The loop over the sender queue stops at the first sender that matches. -/
theorem recv_find_sender_append (k : kernel) (src : Int) (l₁ l₂ : List task_ptr)
    (s : task_ptr)
    (hfirst : ∀ x ∈ l₁, ¬ (src = IPC_ANY ∨ src = (deref k x).tid))
    (hmatch : src = IPC_ANY ∨ src = (deref k s).tid) :
    recv_find_sender k src (l₁ ++ s :: l₂) = some s := by
  induction l₁ with
  | nil => simp [recv_find_sender, hmatch]
  | cons a l ih =>
    have ha := hfirst a (List.mem_cons_self a l)
    simp only [List.cons_append, recv_find_sender, if_neg ha]
    exact ih (fun x hx => hfirst x (List.mem_cons_of_mem a hx))

/-- A task that is not blocked in an open receive only has the bits recorded. -/
theorem notify_pending (k : kernel) (t : task_ptr) (bits : Nat)
    (hopen : ¬ ((deref k t).state = TASK_BLOCKED ∧ (deref k t).wait_for = IPC_ANY)) :
    notify k t bits
      = update k t (fun x => { x with notifications := x.notifications ||| bits }) := by
  simp only [notify, if_neg hopen]

/-! ## Send -/

/-- C1 (ready-path send).  When the destination `dst` is another task than the
sender, is blocked, and waits for anybody or for the sender, and the message copy
succeeds (kernel flag, or a mappable user address), `send_message` returns `OK`
without parking the sender: the running task and every task other than `dst` are
unchanged, `dst.m` is the sent message with `src` overwritten by the sender's task id
(by `FROM_KERNEL` under `IPC_KERNEL`), `dst` is runnable and is the new tail of the
run queue, the pending notifications of `dst` are unchanged, and no sender queue
changes. -/
theorem send_ready_path (k : kernel) (dst : task_ptr) (m : Nat) (um : message) (flags : Nat)
    (hvalid : valid k dst)
    (hne : dst ≠ CURRENT_TASK k)
    (hblocked : (deref k dst).state = TASK_BLOCKED)
    (hwait : (deref k dst).wait_for = IPC_ANY
      ∨ (deref k dst).wait_for = (deref k (CURRENT_TASK k)).tid)
    (hcopy : flags &&& IPC_KERNEL ≠ 0 ∨ arch_is_mappable_uaddr m = true) :
    (send_message k dst m um flags).2 = outcome.ret OK
    ∧ CURRENT_TASK (send_message k dst m um flags).1 = CURRENT_TASK k
    ∧ (∀ p, p ≠ dst → deref (send_message k dst m um flags).1 p = deref k p)
    ∧ (deref (send_message k dst m um flags).1 dst).m =
        { um with src := if flags &&& IPC_KERNEL ≠ 0 then FROM_KERNEL
                         else (deref k (CURRENT_TASK k)).tid }
    ∧ (deref (send_message k dst m um flags).1 dst).state = TASK_RUNNABLE
    ∧ (send_message k dst m um flags).1.runqueue = k.runqueue ++ [dst]
    ∧ (deref (send_message k dst m um flags).1 dst).notifications
        = (deref k dst).notifications
    ∧ (∀ p, (deref (send_message k dst m um flags).1 p).senders = (deref k p).senders) := by
  have hcopied := copy_in_ok m um flags hcopy
  have hready : (deref k dst).state = TASK_BLOCKED
      ∧ ((deref k dst).wait_for = IPC_ANY
          ∨ (deref k dst).wait_for = (deref k (CURRENT_TASK k)).tid) := ⟨hblocked, hwait⟩
  have hsend : send_message k dst m um flags
      = ((send_deliver k (CURRENT_TASK k) dst um flags).1, outcome.ret OK) := by
    simp only [send_message, if_neg hne, hcopied, if_pos hready]
    rfl
  rw [hsend]
  have hcur : CURRENT_TASK k ≠ dst := fun h => hne h.symm
  refine ⟨rfl, ?_, ?_, ?_, ?_, ?_, ?_, ?_⟩
  · simp [send_deliver]
  · intro p hp
    simp [send_deliver, deref_task_resume, deref_update_ne _ _ _ _ hp]
  · simp [send_deliver, deref_task_resume, deref_update_same, hvalid,
      deref_update_ne _ _ _ _ hcur]
  · simp [send_deliver, deref_task_resume, deref_update_same, hvalid]
  · simp [send_deliver]
  · simp [send_deliver, deref_task_resume, deref_update_same, hvalid]
  · intro p
    by_cases hp : p = dst
    · subst hp
      simp [send_deliver, deref_task_resume, deref_update_same, hvalid]
    · simp [send_deliver, deref_task_resume, deref_update_ne _ _ _ _ hp]

/-- Scenario 1 of the specification through `send_ready_path`: task 1 sends a message
of type 7 to task 2, which is in an open receive; the send returns `OK`, task 2 holds
the message with `src = 1`, is runnable and alone on the run queue. -/
theorem send_ready_path_witness :
    (send_message handoff_state (task_ptr.slot 1) 0x1000 msg7 0).2 = outcome.ret OK
    ∧ (deref (send_message handoff_state (task_ptr.slot 1) 0x1000 msg7 0).1
        (task_ptr.slot 1)).m = { type := 7, src := 1, body := payload.data [1, 2, 3] }
    ∧ (deref (send_message handoff_state (task_ptr.slot 1) 0x1000 msg7 0).1
        (task_ptr.slot 1)).state = TASK_RUNNABLE
    ∧ (send_message handoff_state (task_ptr.slot 1) 0x1000 msg7 0).1.runqueue
        = [task_ptr.slot 1] :=
  have h := send_ready_path handoff_state (task_ptr.slot 1) 0x1000 msg7 0
    (by decide) (by decide) (by decide) (by decide) (by decide)
  ⟨h.1, h.2.2.2.1, h.2.2.2.2.1, h.2.2.2.2.2.1⟩

/-- C4 (deadlock detection), as amended.  Take a blocking send (no `IPC_NOBLOCK`) to
another task `dst` that is not ready to receive from the caller and is parked in the
caller's own sender queue.  When the message copy succeeds (kernel flag, or a mappable
user address) the send returns `ERR_DEAD_LOCK`; when it does not, the send returns
`ERR_INVALID_UADDR`.  Either way the kernel state is as it was: the caller is not
queued and not blocked. -/
theorem send_deadlock (k : kernel) (dst : task_ptr) (m : Nat) (um : message) (flags : Nat)
    (hne : dst ≠ CURRENT_TASK k)
    (hnotready : ¬ ((deref k dst).state = TASK_BLOCKED
      ∧ ((deref k dst).wait_for = IPC_ANY
          ∨ (deref k dst).wait_for = (deref k (CURRENT_TASK k)).tid)))
    (hblock : flags &&& IPC_NOBLOCK = 0)
    (hparked : dst ∈ (deref k (CURRENT_TASK k)).senders) :
    ((flags &&& IPC_KERNEL ≠ 0 ∨ arch_is_mappable_uaddr m = true) →
      send_message k dst m um flags = (k, outcome.ret ERR_DEAD_LOCK))
    ∧ (¬ (flags &&& IPC_KERNEL ≠ 0 ∨ arch_is_mappable_uaddr m = true) →
      send_message k dst m um flags = (k, outcome.ret ERR_INVALID_UADDR)) := by
  have hany : (deref k (CURRENT_TASK k)).senders.any
      (fun t => decide ((deref k t).tid = (deref k dst).tid)) = true := by
    rw [List.any_eq_true]
    exact ⟨dst, hparked, by simp⟩
  constructor
  · intro hcopy
    have hcopied := copy_in_ok m um flags hcopy
    simp only [send_message, if_neg hne, hcopied, if_neg hnotready, hblock, ne_eq,
      not_true_eq_false, if_false, hany, if_true]
  · intro hcopy
    have hcopied := copy_in_fail m um flags hcopy
    simp only [send_message, if_neg hne, hcopied]

/-- Scenario 3 of the specification through `send_deadlock`: task 3 is parked sending
to task 2, task 2 sends to task 3 and gets `ERR_DEAD_LOCK` in an unchanged state. -/
theorem send_deadlock_witness :
    send_message deadlock_state (task_ptr.slot 2) 0x1000 msg7 0
      = (deadlock_state, outcome.ret ERR_DEAD_LOCK) :=
  (send_deadlock deadlock_state (task_ptr.slot 2) 0x1000 msg7 0
    (by decide) (by decide) (by decide) (by decide)).1 (by decide)

/-- C4 as stated fails when the message pointer is not a mappable user address: in
the state of scenario 3 the blocking send of task 2 to task 3 (parked in the queue of
task 2, not ready) with the message at user address 0 returns `ERR_INVALID_UADDR`,
not `ERR_DEAD_LOCK`. -/
theorem send_deadlock_unmappable_message :
    task_ptr.slot 2 ∈ (deref deadlock_state (CURRENT_TASK deadlock_state)).senders
    ∧ ¬ ((deref deadlock_state (task_ptr.slot 2)).state = TASK_BLOCKED
      ∧ ((deref deadlock_state (task_ptr.slot 2)).wait_for = IPC_ANY
          ∨ (deref deadlock_state (task_ptr.slot 2)).wait_for
              = (deref deadlock_state (CURRENT_TASK deadlock_state)).tid))
    ∧ (0 : Nat) &&& IPC_NOBLOCK = 0
    ∧ (send_message deadlock_state (task_ptr.slot 2) 0 msg7 0).2
        = outcome.ret ERR_INVALID_UADDR
    ∧ (send_message deadlock_state (task_ptr.slot 2) 0 msg7 0).2
        ≠ outcome.ret ERR_DEAD_LOCK := by
  decide

/-- C5 (send to self).  For every message, message pointer and flags, a send whose
destination is the running task returns `ERR_INVALID_ARG` with the kernel state
unchanged, whether or not the message could have been copied; and no send, to any
destination, changes the sender queue of the task that sends, so a task is never put
on its own sender queue. -/
theorem send_to_self (k : kernel) (m : Nat) (um : message) (flags : Nat) :
    send_message k (CURRENT_TASK k) m um flags = (k, outcome.ret ERR_INVALID_ARG)
    ∧ ∀ dst, (deref (send_message k dst m um flags).1 (CURRENT_TASK k)).senders
        = (deref k (CURRENT_TASK k)).senders := by
  refine ⟨by simp [send_message], ?_⟩
  intro dst
  by_cases hne : dst = CURRENT_TASK k
  · subst hne; simp [send_message]
  have hcur : CURRENT_TASK k ≠ dst := fun h => hne h.symm
  simp only [send_message, if_neg hne]
  split
  · rfl
  · split
    · simp [send_deliver, deref_task_resume, deref_update_ne _ _ _ _ hcur]
    · split
      · rfl
      · split
        · rfl
        · simp only [task_switch_senders, task_block]
          rw [deref_update]
          split <;> simp [deref_update_ne _ _ _ _ hcur]

/-! ## Receive -/

/-- C2 (notification-first open receive), as amended.  When the running task has
notifications pending, `recv_message` with `src = IPC_ANY` does not block.  When the
copy to the caller succeeds (kernel flag, or a mappable user address) it returns `OK`
and the message received is `NOTIFY_MSG` from `FROM_KERNEL` carrying exactly the
pending bits; when the copy fails it returns `ERR_INVALID_UADDR` and no message.
Either way the pending set of the caller is then empty, and every sender queue (the
caller's too, with whoever is parked in it), every task state, every other task, the
run queue and the running task are unchanged. -/
theorem recv_notification_first (k : kernel) (m : Nat) (flags : Nat)
    (hvalid : valid k (CURRENT_TASK k))
    (hpending : (deref k (CURRENT_TASK k)).notifications ≠ 0) :
    ((flags &&& IPC_KERNEL ≠ 0 ∨ arch_is_mappable_uaddr m = true) →
      (recv_message k IPC_ANY m flags).2
        = (outcome.ret OK,
           some { type := NOTIFY_MSG, src := FROM_KERNEL,
                  body := payload.notify (deref k (CURRENT_TASK k)).notifications }))
    ∧ (¬ (flags &&& IPC_KERNEL ≠ 0 ∨ arch_is_mappable_uaddr m = true) →
      (recv_message k IPC_ANY m flags).2 = (outcome.ret ERR_INVALID_UADDR, none))
    ∧ (deref (recv_message k IPC_ANY m flags).1 (CURRENT_TASK k)).notifications = 0
    ∧ (∀ p, (deref (recv_message k IPC_ANY m flags).1 p).senders = (deref k p).senders)
    ∧ (∀ p, (deref (recv_message k IPC_ANY m flags).1 p).state = (deref k p).state)
    ∧ (∀ p, p ≠ CURRENT_TASK k → deref (recv_message k IPC_ANY m flags).1 p = deref k p)
    ∧ (recv_message k IPC_ANY m flags).1.runqueue = k.runqueue
    ∧ CURRENT_TASK (recv_message k IPC_ANY m flags).1 = CURRENT_TASK k := by
  rw [recv_message_notification k m flags hpending]
  refine ⟨?_, ?_, ?_, ?_, ?_, ?_, ?_, ?_⟩
  · intro hcopy; rw [recv_copy_out_ok _ _ _ _ hcopy]
  · intro hcopy; rw [recv_copy_out_fail _ _ _ _ hcopy]
  · simp [recv_copy_out_fst, deref_update_same, hvalid]
  · intro p; rw [recv_copy_out_fst, deref_update]; split <;> rfl
  · intro p; rw [recv_copy_out_fst, deref_update]; split <;> rfl
  · intro p hp; rw [recv_copy_out_fst]; exact deref_update_ne _ _ _ _ hp
  · simp [recv_copy_out_fst]
  · simp [recv_copy_out_fst]

/-- Task 2, with a timer notification pending and task 3 parked in its sender queue,
does an open receive into a mappable buffer: it gets the notification, and task 3
stays parked. -/
theorem recv_notification_first_witness :
    (recv_message notified_state IPC_ANY 0x1000 0).2
        = (outcome.ret OK,
           some { type := NOTIFY_MSG, src := FROM_KERNEL,
                  body := payload.notify NOTIFY_TIMER })
    ∧ (deref (recv_message notified_state IPC_ANY 0x1000 0).1
        (task_ptr.slot 1)).notifications = 0
    ∧ (deref (recv_message notified_state IPC_ANY 0x1000 0).1
        (task_ptr.slot 1)).senders = [task_ptr.slot 2] :=
  have h := recv_notification_first notified_state 0x1000 0 (by decide) (by decide)
  ⟨h.1 (by decide), h.2.2.1, h.2.2.2.1 (task_ptr.slot 1)⟩

/-- C2 as stated fails when the receive buffer is not a mappable user address: with a
timer notification pending, `recv_message` with `src = IPC_ANY` and the buffer at user
address 0 returns `ERR_INVALID_UADDR`, not `OK`; no message is received, and the
pending set has been cleared all the same. -/
theorem recv_notification_unmappable_buffer :
    (deref notified_state (CURRENT_TASK notified_state)).notifications ≠ 0
    ∧ (recv_message notified_state IPC_ANY 0 0).2.1 = outcome.ret ERR_INVALID_UADDR
    ∧ (recv_message notified_state IPC_ANY 0 0).2.1 ≠ outcome.ret OK
    ∧ (recv_message notified_state IPC_ANY 0 0).2.2 = none
    ∧ (deref (recv_message notified_state IPC_ANY 0 0).1
        (CURRENT_TASK notified_state)).notifications = 0 := by
  decide

/-- C6 (non-blocking receive), as amended.  When the notification rule does not apply
(`src` is not `IPC_ANY`, or nothing is pending), `recv_message` with `IPC_NOBLOCK`
returns `ERR_WOULD_BLOCK` and leaves the kernel state unchanged, whatever the sender
queue of the caller holds: a parked sender that matches `src` stays parked. -/
theorem recv_noblock (k : kernel) (src : Int) (m : Nat) (flags : Nat)
    (hrule : ¬ (src = IPC_ANY ∧ (deref k (CURRENT_TASK k)).notifications ≠ 0))
    (hnb : flags &&& IPC_NOBLOCK ≠ 0) :
    recv_message k src m flags = (k, outcome.ret ERR_WOULD_BLOCK, none) := by
  simp only [recv_message, if_neg hrule, if_pos hnb]

/-- Task 2 does a non-blocking closed receive from task 3, which is parked in its
sender queue, and gets `ERR_WOULD_BLOCK`. -/
theorem recv_noblock_witness :
    recv_message deadlock_state 3 0x1000 IPC_NOBLOCK
      = (deadlock_state, outcome.ret ERR_WOULD_BLOCK, none) :=
  recv_noblock deadlock_state 3 0x1000 IPC_NOBLOCK (by decide) (by decide)

/-- C6 as stated fails: with no notification pending and task 3, which matches
`IPC_ANY`, parked in the sender queue of the running task, `recv_message` with
`IPC_NOBLOCK` returns `ERR_WOULD_BLOCK` and task 3 is still in the queue. -/
theorem recv_noblock_with_parked_sender :
    ¬ (IPC_ANY = IPC_ANY
        ∧ (deref deadlock_state (CURRENT_TASK deadlock_state)).notifications ≠ 0)
    ∧ IPC_NOBLOCK &&& IPC_NOBLOCK ≠ 0
    ∧ recv_find_sender deadlock_state IPC_ANY
        (deref deadlock_state (CURRENT_TASK deadlock_state)).senders = some (task_ptr.slot 2)
    ∧ (recv_message deadlock_state IPC_ANY 0x1000 IPC_NOBLOCK).2.1
        = outcome.ret ERR_WOULD_BLOCK
    ∧ (deref (recv_message deadlock_state IPC_ANY 0x1000 IPC_NOBLOCK).1
        (CURRENT_TASK deadlock_state)).senders = [task_ptr.slot 2] := by
  decide

/-- C7 (receive picks the oldest matching sender).  In a blocking receive to which the
notification rule does not apply, let the sender queue of the caller be
`l₁ ++ s :: l₂` where `s` matches `src` (`src` is `IPC_ANY` or the task id of `s`) and
nothing in `l₁` does.  Then the receive parks the caller at its `task_switch` with: the
sender queue of the caller equal to `l₁ ++ l₂` (only `s` removed, the others in their
order), `s` runnable and either on the run queue or the task the CPU switched to, the
caller's `wait_for` equal to the task id of `s`, and the caller blocked.  The pointers
are valid and the parked sender `s` is another task than the caller, as in every state
the kernel reaches. -/
theorem recv_oldest_sender (k : kernel) (src : Int) (m : Nat) (flags : Nat)
    (l₁ l₂ : List task_ptr) (s : task_ptr)
    (hcur : valid k (CURRENT_TASK k))
    (hs : valid k s)
    (hhart : k.hart < k.cpuvars.length)
    (hsc : s ≠ CURRENT_TASK k)
    (hrule : ¬ (src = IPC_ANY ∧ (deref k (CURRENT_TASK k)).notifications ≠ 0))
    (hblock : flags &&& IPC_NOBLOCK = 0)
    (hq : (deref k (CURRENT_TASK k)).senders = l₁ ++ s :: l₂)
    (hfirst : ∀ x ∈ l₁, ¬ (src = IPC_ANY ∨ src = (deref k x).tid))
    (hmatch : src = IPC_ANY ∨ src = (deref k s).tid) :
    (recv_message k src m flags).2.1 = outcome.blocked
    ∧ (deref (recv_message k src m flags).1 (CURRENT_TASK k)).senders = l₁ ++ l₂
    ∧ (deref (recv_message k src m flags).1 s).state = TASK_RUNNABLE
    ∧ (s ∈ (recv_message k src m flags).1.runqueue
        ∨ CURRENT_TASK (recv_message k src m flags).1 = s)
    ∧ (deref (recv_message k src m flags).1 (CURRENT_TASK k)).wait_for = (deref k s).tid
    ∧ (deref (recv_message k src m flags).1 (CURRENT_TASK k)).state = TASK_BLOCKED := by
  have hcs : CURRENT_TASK k ≠ s := fun h => hsc h.symm
  have hnot : s ∉ l₁ := fun h => hfirst s h hmatch
  have hfind : recv_find_sender k src (deref k (CURRENT_TASK k)).senders = some s := by
    rw [hq]; exact recv_find_sender_append k src l₁ l₂ s hfirst hmatch
  have hnb : ¬ (flags &&& IPC_NOBLOCK ≠ 0) := fun h => h hblock
  have herase : (l₁ ++ s :: l₂).erase s = l₁ ++ l₂ := by
    rw [List.erase_append_right _ hnot, List.erase_cons_head]
  have htid : (deref (task_resume (waitqueue_remove k s) s) s).tid = (deref k s).tid := by
    rw [deref_task_resume, deref_update_same _ _ _ (by simpa using hs), deref_waitqueue_remove]
  have hrecv : recv_message k src m flags
      = (task_switch (task_block (update (task_resume (waitqueue_remove k s) s)
          (CURRENT_TASK k) (fun t => { t with wait_for := (deref k s).tid }))
          (CURRENT_TASK k)), outcome.blocked, none) := by
    unfold recv_message
    rw [if_neg hrule, if_neg hnb]
    simp only [hfind, htid]
  rw [hrecv]
  have hv1 : valid (update (task_resume (waitqueue_remove k s) s) (CURRENT_TASK k)
      (fun t => { t with wait_for := (deref k s).tid })) (CURRENT_TASK k) := by
    simpa using hcur
  have hv2 : valid (task_resume (waitqueue_remove k s) s) (CURRENT_TASK k) := by
    simpa using hcur
  have hv3 : valid (waitqueue_remove k s) s := by simpa using hs
  refine ⟨rfl, ?_, ?_, ?_, ?_, ?_⟩
  · rw [task_switch_senders, task_block, deref_update_same _ _ _ hv1,
      deref_update_same _ _ _ hv2, deref_task_resume, deref_update_ne _ _ _ _ hcs,
      deref_waitqueue_remove]
    simp [hq, herase]
  · rw [task_switch_state, task_block, deref_update_ne _ _ _ _ hsc,
      deref_update_ne _ _ _ _ hsc, deref_task_resume, deref_update_same _ _ _ hv3]
  · apply task_switch_runqueue_mem
    · simpa [task_block] using hhart
    · simp [task_block]
  · rw [task_switch_wait_for, task_block, deref_update_same _ _ _ hv1,
      deref_update_same _ _ _ hv2]
  · rw [task_switch_state, task_block, deref_update_same _ _ _ hv1]

/-- Task 2 has tasks 3, 4, 5, 6 parked in this order and receives from task 5: task 5
alone leaves the queue and is runnable, task 2 is blocked with `wait_for = 5`. -/
theorem recv_oldest_sender_witness :
    (recv_message queue_state 5 0x1000 0).2.1 = outcome.blocked
    ∧ (deref (recv_message queue_state 5 0x1000 0).1 (task_ptr.slot 1)).senders
        = [task_ptr.slot 2, task_ptr.slot 3, task_ptr.slot 5]
    ∧ (deref (recv_message queue_state 5 0x1000 0).1 (task_ptr.slot 4)).state = TASK_RUNNABLE
    ∧ (deref (recv_message queue_state 5 0x1000 0).1 (task_ptr.slot 1)).wait_for = 5
    ∧ (deref (recv_message queue_state 5 0x1000 0).1 (task_ptr.slot 1)).state
        = TASK_BLOCKED :=
  have h := recv_oldest_sender queue_state 5 0x1000 0
    [task_ptr.slot 2, task_ptr.slot 3] [task_ptr.slot 5] (task_ptr.slot 4)
    (by decide) (by decide) (by decide) (by decide) (by decide) (by decide) (by decide)
    (by decide) (by decide)
  ⟨h.1, h.2.1, h.2.2.1, h.2.2.2.2.1, h.2.2.2.2.2⟩

/-! ## Notifications -/

/-- C8 (notification fold), as amended.  For a task `t` that is not blocked in an open
receive, `notify(t, b1); notify(t, b2)` leaves the kernel in the same state as
`notify(t, b1 | b2)`: `t` is not woken and its pending set is the old one with `b1`
and `b2` OR-ed in.  When that set is not empty, the next open receive of `t` (in any
later state `k2` where `t` runs with that pending set) whose copy to the caller
succeeds returns `OK` with one `NOTIFY_MSG` from `FROM_KERNEL` carrying
`pending | b1 | b2`, and clears the set. -/
theorem notify_fold (k : kernel) (t : task_ptr) (b1 b2 : Nat)
    (hopen : ¬ ((deref k t).state = TASK_BLOCKED ∧ (deref k t).wait_for = IPC_ANY)) :
    notify (notify k t b1) t b2 = notify k t (b1 ||| b2)
    ∧ (deref (notify (notify k t b1) t b2) t).state = (deref k t).state
    ∧ (valid k t →
        (deref (notify (notify k t b1) t b2) t).notifications
          = (deref k t).notifications ||| b1 ||| b2)
    ∧ ∀ (k2 : kernel) (m flags : Nat),
        valid k2 t → CURRENT_TASK k2 = t →
        (deref k2 t).notifications = (deref k t).notifications ||| b1 ||| b2 →
        (deref k t).notifications ||| b1 ||| b2 ≠ 0 →
        (flags &&& IPC_KERNEL ≠ 0 ∨ arch_is_mappable_uaddr m = true) →
        (recv_message k2 IPC_ANY m flags).2
          = (outcome.ret OK,
             some { type := NOTIFY_MSG, src := FROM_KERNEL,
                    body := payload.notify ((deref k t).notifications ||| b1 ||| b2) })
          ∧ (deref (recv_message k2 IPC_ANY m flags).1 t).notifications = 0 := by
  have h1 := notify_pending k t b1 hopen
  have hopen1 : ¬ ((deref (notify k t b1) t).state = TASK_BLOCKED
      ∧ (deref (notify k t b1) t).wait_for = IPC_ANY) := by
    rw [h1, deref_update]
    split <;> exact hopen
  have h2 := notify_pending (notify k t b1) t b2 hopen1
  have h12 := notify_pending k t (b1 ||| b2) hopen
  have hfold : notify (notify k t b1) t b2
      = update k t (fun x => { x with notifications := x.notifications ||| b1 ||| b2 }) := by
    rw [h2, h1, update_update]
  refine ⟨?_, ?_, ?_, ?_⟩
  · rw [hfold, h12]
    congr 1
    funext x
    simp [Nat.lor_assoc]
  · rw [hfold, deref_update]; split <;> rfl
  · intro hv
    rw [hfold, deref_update_same _ _ _ hv]
  · intro k2 m flags hv hcur hn hnz hcopy
    subst hcur
    have hpending : (deref k2 (CURRENT_TASK k2)).notifications ≠ 0 := by
      rw [hn]; exact hnz
    rw [recv_message_pending k2 m flags hpending hcopy]
    exact ⟨by simp only [hn], by simp [deref_update_same, hv]⟩

/-- Task 1 runs and is notified of the timer and then of an interrupt: the state is
that of one notification with both bits, and its next open receive returns both. -/
theorem notify_fold_witness :
    notify (notify handoff_state (task_ptr.slot 0) NOTIFY_TIMER) (task_ptr.slot 0) NOTIFY_IRQ
      = notify handoff_state (task_ptr.slot 0) (NOTIFY_TIMER ||| NOTIFY_IRQ)
    ∧ (recv_message
        (notify (notify handoff_state (task_ptr.slot 0) NOTIFY_TIMER) (task_ptr.slot 0)
          NOTIFY_IRQ) IPC_ANY 0x1000 0).2
        = (outcome.ret OK,
           some { type := NOTIFY_MSG, src := FROM_KERNEL, body := payload.notify 3 }) :=
  have h := notify_fold handoff_state (task_ptr.slot 0) NOTIFY_TIMER NOTIFY_IRQ (by decide)
  ⟨h.1, (h.2.2.2
    (notify (notify handoff_state (task_ptr.slot 0) NOTIFY_TIMER) (task_ptr.slot 0) NOTIFY_IRQ)
    0x1000 0 (by decide) (by decide) (by decide) (by decide) (by decide)).1⟩

/-- C8 as stated fails in its last part.  Task 1 runs with nothing pending and is not
in an open receive.  Notified twice with no bit, its next open receive (into a
mappable buffer) returns no `NOTIFY_MSG` but parks the task.  Notified of the timer
and of an interrupt, its next open receive into the buffer at user address 0 returns
`ERR_INVALID_UADDR` and no message. -/
theorem notify_fold_next_recv_fails :
    ¬ ((deref handoff_state (task_ptr.slot 0)).state = TASK_BLOCKED
        ∧ (deref handoff_state (task_ptr.slot 0)).wait_for = IPC_ANY)
    ∧ CURRENT_TASK (notify (notify handoff_state (task_ptr.slot 0) 0) (task_ptr.slot 0) 0)
        = task_ptr.slot 0
    ∧ (recv_message (notify (notify handoff_state (task_ptr.slot 0) 0) (task_ptr.slot 0) 0)
        IPC_ANY 0x1000 0).2 = (outcome.blocked, none)
    ∧ (recv_message
        (notify (notify handoff_state (task_ptr.slot 0) NOTIFY_TIMER) (task_ptr.slot 0)
          NOTIFY_IRQ) IPC_ANY 0 0).2 = (outcome.ret ERR_INVALID_UADDR, none) := by
  decide

/-! ## Task table -/

theorem in_use_valid (k : kernel) (i : Nat) (h : in_use k i) : valid k (task_ptr.slot i) := by
  by_contra hv
  simp only [valid, not_lt] at hv
  apply h
  simp [deref, List.getD_eq_getElem?_getD, List.getElem?_eq_none hv]
  rfl

theorem alloc_tid_loop_found (k : kernel) (j : Nat) :
    ∀ n i, i ≤ j → j < i + n → (∀ l, i ≤ l → l < j → in_use k l) → ¬ in_use k j →
      alloc_tid_loop k n i = (j : Int) + 1 := by
  intro n
  induction n with
  | zero => intro i h1 h2; omega
  | succ n ih =>
    intro i h1 h2 hbefore hj
    unfold alloc_tid_loop
    by_cases hi : (k.tasks.getD i default).state = TASK_UNUSED
    · rw [if_pos hi]
      have : i = j := by
        by_contra hne
        exact hbefore i (le_refl i) (by omega) hi
      rw [this]
    · rw [if_neg hi]
      have hne : i ≠ j := by
        intro e; subst e; exact hj hi
      exact ih (i + 1) (by omega) (by omega) (fun l h3 h4 => hbefore l (by omega) h4) hj

theorem alloc_tid_loop_none (k : kernel) :
    ∀ n i, (∀ l, i ≤ l → l < i + n → in_use k l) → alloc_tid_loop k n i = 0 := by
  intro n
  induction n with
  | zero => intro i _; rfl
  | succ n ih =>
    intro i h
    unfold alloc_tid_loop
    have hi : ¬ (k.tasks.getD i default).state = TASK_UNUSED := h i (le_refl i) (by omega)
    rw [if_neg hi]
    exact ih (i + 1) (fun l h1 h2 => h l (by omega) (by omega))

theorem alloc_tid_loop_nonneg (k : kernel) :
    ∀ n i, 0 ≤ alloc_tid_loop k n i := by
  intro n
  induction n with
  | zero => intro i; exact le_refl _
  | succ n ih =>
    intro i
    unfold alloc_tid_loop
    split
    · omega
    · exact ih (i + 1)

theorem alloc_tid_loop_zero (k : kernel) :
    ∀ n i, alloc_tid_loop k n i = 0 → ∀ l, i ≤ l → l < i + n → in_use k l := by
  intro n
  induction n with
  | zero => intro i _ l h1 h2; omega
  | succ n ih =>
    intro i h l h1 h2
    unfold alloc_tid_loop at h
    by_cases hi : (k.tasks.getD i default).state = TASK_UNUSED
    · rw [if_pos hi] at h; omega
    · rw [if_neg hi] at h
      by_cases hl : l = i
      · subst hl; exact hi
      · exact ih (i + 1) h l (by omega) (by omega)

/-- `alloc_tid` returns `0` exactly when every slot is in use. -/
theorem alloc_tid_eq_zero (k : kernel) :
    alloc_tid k = 0 ↔ ∀ i, i < NUM_TASKS_MAX → in_use k i := by
  constructor
  · intro h i hi
    exact alloc_tid_loop_zero k NUM_TASKS_MAX 0 h i (Nat.zero_le i) (by omega)
  · intro h
    exact alloc_tid_loop_none k NUM_TASKS_MAX 0 (fun l _ h2 => h l (by omega))

/-- `alloc_tid` returns the index of the first unused slot, plus one. -/
theorem alloc_tid_first_unused (k : kernel) (i : Nat) (hi : i < NUM_TASKS_MAX)
    (hunused : ¬ in_use k i) (hbefore : ∀ j, j < i → in_use k j) :
    alloc_tid k = (i : Int) + 1 :=
  alloc_tid_loop_found k i NUM_TASKS_MAX 0 (Nat.zero_le i) (by omega)
    (fun l _ h => hbefore l h) hunused

/-- What a `task_create` that gets slot `i` and its memory leaves behind. -/
theorem task_create_slot (k : kernel) (name : String) (ip : Nat) (pager : Option task_ptr)
    (i : Nat) (hv : valid k (task_ptr.slot i)) (halloc : alloc_tid k = (i : Int) + 1) :
    (task_create k name ip pager true true).2 = (i : Int) + 1
    ∧ (deref (task_create k name ip pager true true).1 (task_ptr.slot i)).state
        = TASK_RUNNABLE
    ∧ (deref (task_create k name ip pager true true).1 (task_ptr.slot i)).tid = (i : Int) + 1
    ∧ (task_create k name ip pager true true).1.active_tasks
        = k.active_tasks ++ [task_ptr.slot i]
    ∧ (task_create k name ip pager true true).1.runqueue
        = k.runqueue ++ [task_ptr.slot i] := by
  have hne : ¬ ((i : Int) + 1 = 0) := by omega
  have hslot : ((i : Int) + 1 - 1).toNat = i := by simp
  have hok : ¬ (OK ≠ OK) := fun h => h rfl
  cases pager with
  | none =>
    simp only [task_create, halloc, if_neg hne, hslot, init_task_struct, Bool.true_eq_false,
      if_false, if_neg hok]
    refine ⟨trivial, ?_, ?_, ?_, ?_⟩
    · rw [deref_task_resume, deref_update_same _ _ _ (by simpa using hv)]
    · rw [deref_task_resume]
      simp [deref_update, hv]
    · simp
    · simp
  | some pg =>
    simp only [task_create, halloc, if_neg hne, hslot, init_task_struct, Bool.true_eq_false,
      if_false, if_neg hok]
    refine ⟨trivial, ?_, ?_, ?_, ?_⟩
    · rw [deref_task_resume, deref_update_same _ _ _ (by simpa using hv)]
    · rw [deref_task_resume]
      simp only [deref_update, deref_active_push, valid_update, valid_active_push, hv,
        and_true, if_true, true_and]
      split <;> simp
    · simp
    · simp

/-! ## Destroying a task -/

@[simp] theorem valid_notify (k : kernel) (d p : task_ptr) (bits : Nat) :
    valid (notify k d bits) p ↔ valid k p := by
  unfold notify; split <;> simp

theorem notify_in_use (k : kernel) (d p : task_ptr) (bits : Nat)
    (h : (deref k p).state ≠ TASK_UNUSED) :
    (deref (notify k d bits) p).state ≠ TASK_UNUSED := by
  unfold notify
  split
  · rw [deref_task_resume, deref_update]
    split
    · exact (by decide : TASK_RUNNABLE ≠ TASK_UNUSED)
    · rw [deref_update]; split <;> exact h
  · rw [deref_update]; split <;> exact h

theorem foldl_notify_valid (l : List task_ptr) (bits : Nat) (p : task_ptr) :
    ∀ k, valid (l.foldl (fun s sender => notify s sender bits) k) p ↔ valid k p := by
  induction l with
  | nil => intro k; rfl
  | cons a l ih => intro k; simp only [List.foldl_cons]; rw [ih]; simp

theorem foldl_notify_in_use (l : List task_ptr) (bits : Nat) (p : task_ptr) :
    ∀ k, (deref k p).state ≠ TASK_UNUSED →
      (deref (l.foldl (fun s sender => notify s sender bits) k) p).state ≠ TASK_UNUSED := by
  induction l with
  | nil => intro k h; exact h
  | cons a l ih =>
    intro k h
    simp only [List.foldl_cons]
    exact ih _ (notify_in_use k a p bits h)

/-- A successful `task_destroy` frees the slot of the task and no other slot. -/
theorem task_destroy_slots (k k' : kernel) (i : Nat)
    (hv : valid k (task_ptr.slot i))
    (h : task_destroy k (task_ptr.slot i) = some (k', OK)) :
    (deref k' (task_ptr.slot i)).state = TASK_UNUSED
    ∧ (∀ p, p ≠ task_ptr.slot i → (deref k p).state ≠ TASK_UNUSED →
        (deref k' p).state ≠ TASK_UNUSED)
    ∧ ∀ p, valid k' p ↔ valid k p := by
  unfold task_destroy at h
  split at h
  · simp [OK, ERR_INVALID_ARG] at h
  split at h
  · simp [OK, ERR_STILL_USED] at h
  simp only [] at h
  split at h
  · split at h
    · rename_i pg hpg
      simp only [Option.some.injEq, Prod.mk.injEq, and_true] at h
      subst h
      refine ⟨?_, ?_, ?_⟩
      rotate_left 2
      · intro p
        simp [foldl_notify_valid]
      · rw [deref_update]
        split
        · rw [deref_update_same]
          simp [foldl_notify_valid, hv]
        · rw [deref_update_same]
          simp [foldl_notify_valid, hv]
      · intro p hp hin
        have h1 : (deref (update k (task_ptr.slot i) (fun t => { t with destroyed := true }))
            p).state ≠ TASK_UNUSED := by
          rw [deref_update_ne _ _ _ _ hp]; exact hin
        have h2 := foldl_notify_in_use
          (deref (update k (task_ptr.slot i) (fun t => { t with destroyed := true }))
            (task_ptr.slot i)).senders NOTIFY_ABORTED p _ h1
        rw [deref_update]
        split
        · rw [deref_update_ne _ _ _ _ hp, deref_waitqueue_remove, deref_active_remove]
          exact h2
        · rw [deref_update_ne _ _ _ _ hp, deref_waitqueue_remove, deref_active_remove]
          exact h2
    · simp at h
  · simp at h

/-- C9 (task id allocation).  With the table of `NUM_TASKS_MAX` slots:
(1) when slot `i` is the first unused one and the address space and the kernel stack
can be allocated, `task_create` returns the task id `i + 1` (the smallest id whose slot
is unused) and leaves that task runnable, with this id, at the tail of the list of
active tasks and of the run queue;
(2) whatever the allocations would do, `task_create` returns `ERR_TOO_MANY_TASKS`
exactly when all slots are in use, and then the kernel state is unchanged;
(3) when all slots are in use and `task_destroy` of the task in slot `i` (whose id is
`i + 1`) succeeds, the next `task_create` returns the id of the destroyed task and the
new task is runnable. -/
theorem task_create_alloc (k : kernel) (name : String) (ip : Nat) (pager : Option task_ptr)
    (hlen : k.tasks.length = NUM_TASKS_MAX) :
    (∀ i, i < NUM_TASKS_MAX → ¬ in_use k i → (∀ j, j < i → in_use k j) →
        (task_create k name ip pager true true).2 = (i : Int) + 1
        ∧ (deref (task_create k name ip pager true true).1 (task_ptr.slot i)).state
            = TASK_RUNNABLE
        ∧ (deref (task_create k name ip pager true true).1 (task_ptr.slot i)).tid
            = (i : Int) + 1
        ∧ (task_create k name ip pager true true).1.active_tasks
            = k.active_tasks ++ [task_ptr.slot i]
        ∧ (task_create k name ip pager true true).1.runqueue
            = k.runqueue ++ [task_ptr.slot i])
    ∧ (∀ vm_ok stack_ok,
        (task_create k name ip pager vm_ok stack_ok).2 = ERR_TOO_MANY_TASKS
          ↔ ∀ i, i < NUM_TASKS_MAX → in_use k i)
    ∧ (∀ vm_ok stack_ok, (∀ i, i < NUM_TASKS_MAX → in_use k i) →
        (task_create k name ip pager vm_ok stack_ok).1 = k)
    ∧ (∀ i k', i < NUM_TASKS_MAX → (∀ j, j < NUM_TASKS_MAX → in_use k j) →
        (deref k (task_ptr.slot i)).tid = (i : Int) + 1 →
        task_destroy k (task_ptr.slot i) = some (k', OK) →
        (task_create k' name ip pager true true).2 = (deref k (task_ptr.slot i)).tid
        ∧ (deref (task_create k' name ip pager true true).1 (task_ptr.slot i)).state
            = TASK_RUNNABLE) := by
  refine ⟨?_, ?_, ?_, ?_⟩
  · intro i hi hunused hbefore
    have hv : valid k (task_ptr.slot i) := by simp only [valid, hlen]; exact hi
    exact task_create_slot k name ip pager i hv (alloc_tid_first_unused k i hi hunused hbefore)
  · intro vm_ok stack_ok
    rw [← alloc_tid_eq_zero]
    constructor
    · intro h
      by_contra hne
      have hpos : 0 < alloc_tid k :=
        lt_of_le_of_ne (alloc_tid_loop_nonneg k NUM_TASKS_MAX 0) (Ne.symm hne)
      simp only [task_create, if_neg hne, init_task_struct] at h
      cases vm_ok <;> cases stack_ok <;> simp [ERR_NO_MEMORY, ERR_TOO_MANY_TASKS, OK] at h
      omega
    · intro h
      simp [task_create, h]
  · intro vm_ok stack_ok hall
    have h0 := (alloc_tid_eq_zero k).2 hall
    simp [task_create, h0]
  · intro i k' hi hall htid hdestroy
    have hv : valid k (task_ptr.slot i) := in_use_valid k i (hall i hi)
    obtain ⟨hfree, hkeep, hvalid⟩ := task_destroy_slots k k' i hv hdestroy
    have hv' : valid k' (task_ptr.slot i) := (hvalid _).2 hv
    have halloc : alloc_tid k' = (i : Int) + 1 :=
      alloc_tid_first_unused k' i hi (fun h => h hfree)
        (fun j hj => hkeep (task_ptr.slot j) (by simp; omega) (hall j (by omega)))
    have hc := task_create_slot k' name ip pager i hv' halloc
    exact ⟨by rw [hc.1, htid], hc.2.1⟩

/-- With two tasks in use `task_create` returns id 3; with sixteen it returns
`ERR_TOO_MANY_TASKS` and changes nothing; after task 5 is destroyed there it returns
id 5. -/
theorem task_create_alloc_witness :
    (task_create handoff_state "c" 0x10000 (some (task_ptr.slot 0)) true true).2 = 3
    ∧ ((task_create full_state "c" 0x10000 (some (task_ptr.slot 0)) true true).2
        = ERR_TOO_MANY_TASKS)
    ∧ (task_create full_state "c" 0x10000 (some (task_ptr.slot 0)) true true).1 = full_state
    ∧ (task_create ((task_destroy full_state (task_ptr.slot 4)).getD (full_state, 0)).1
        "c" 0x10000 (some (task_ptr.slot 0)) true true).2 = 5 :=
  have h1 := task_create_alloc handoff_state "c" 0x10000 (some (task_ptr.slot 0)) (by decide)
  have h2 := task_create_alloc full_state "c" 0x10000 (some (task_ptr.slot 0)) (by decide)
  ⟨(h1.1 2 (by decide) (by decide) (by decide)).1,
   (h2.2.1 true true).2 (by decide),
   h2.2.2.1 true true (by decide),
   (h2.2.2.2 4 ((task_destroy full_state (task_ptr.slot 4)).getD (full_state, 0)).1
      (by decide) (by decide) (by decide) (by decide)).1⟩

/-- `notify` does not wake a task that is blocked with `wait_for = IPC_DENY`, whoever
is notified. -/
theorem notify_blocked_deny (k : kernel) (d p : task_ptr) (bits : Nat)
    (hstate : (deref k p).state = TASK_BLOCKED) (hdeny : (deref k p).wait_for = IPC_DENY) :
    (deref (notify k d bits) p).state = TASK_BLOCKED
    ∧ (deref (notify k d bits) p).wait_for = IPC_DENY
    ∧ (p ∈ (notify k d bits).runqueue → p ∈ k.runqueue) := by
  unfold notify
  split
  · rename_i hopen
    have hpd : p ≠ d := by
      intro e
      rw [← e, hdeny] at hopen
      exact absurd hopen.2 (by decide)
    refine ⟨?_, ?_, ?_⟩
    · rw [deref_task_resume, deref_update_ne _ _ _ _ hpd, deref_update_ne _ _ _ _ hpd]
      exact hstate
    · rw [deref_task_resume, deref_update_ne _ _ _ _ hpd, deref_update_ne _ _ _ _ hpd]
      exact hdeny
    · intro h
      simp only [task_resume_runqueue, update_runqueue, List.mem_append,
        List.mem_singleton] at h
      rcases h with h | h
      · exact h
      · exact absurd h hpd
  · refine ⟨?_, ?_, ?_⟩
    · rw [deref_update]; split <;> exact hstate
    · rw [deref_update]; split <;> exact hdeny
    · simp

theorem foldl_notify_blocked_deny (l : List task_ptr) (bits : Nat) (p : task_ptr) :
    ∀ k, (deref k p).state = TASK_BLOCKED → (deref k p).wait_for = IPC_DENY →
      (deref (l.foldl (fun s sender => notify s sender bits) k) p).state = TASK_BLOCKED
      ∧ (p ∈ (l.foldl (fun s sender => notify s sender bits) k).runqueue → p ∈ k.runqueue) := by
  induction l with
  | nil => intro k h _; exact ⟨h, id⟩
  | cons a l ih =>
    intro k h1 h2
    simp only [List.foldl_cons]
    obtain ⟨n1, n2, n3⟩ := notify_blocked_deny k a p bits h1 h2
    obtain ⟨i1, i2⟩ := ih (notify k a bits) n1 n2
    exact ⟨i1, fun h => n3 (i2 h)⟩

/-- A task that is parked as a sender (blocked, `wait_for = IPC_DENY`) is still blocked
after any successful `task_destroy` of another task, and is not put on the run
queue. -/
theorem task_destroy_keeps_parked (k k' : kernel) (task a : task_ptr)
    (hne : a ≠ task)
    (hstate : (deref k a).state = TASK_BLOCKED) (hdeny : (deref k a).wait_for = IPC_DENY)
    (h : task_destroy k task = some (k', OK)) :
    (deref k' a).state = TASK_BLOCKED ∧ (a ∈ k'.runqueue → a ∈ k.runqueue) := by
  unfold task_destroy at h
  split at h
  · simp [OK, ERR_INVALID_ARG] at h
  split at h
  · simp [OK, ERR_STILL_USED] at h
  simp only [] at h
  split at h
  · split at h
    · rename_i pg hpg
      simp only [Option.some.injEq, Prod.mk.injEq, and_true] at h
      subst h
      have h1 : (deref (update k task (fun t => { t with destroyed := true })) a).state
          = TASK_BLOCKED := by rw [deref_update_ne _ _ _ _ hne]; exact hstate
      have h2 : (deref (update k task (fun t => { t with destroyed := true })) a).wait_for
          = IPC_DENY := by rw [deref_update_ne _ _ _ _ hne]; exact hdeny
      obtain ⟨f1, f2⟩ := foldl_notify_blocked_deny
        (deref (update k task (fun t => { t with destroyed := true })) task).senders
        NOTIFY_ABORTED a _ h1 h2
      constructor
      · rw [deref_update]
        split
        · rw [deref_update_ne _ _ _ _ hne, deref_waitqueue_remove, deref_active_remove]
          exact f1
        · rw [deref_update_ne _ _ _ _ hne, deref_waitqueue_remove, deref_active_remove]
          exact f1
      · intro hin
        simp only [update_runqueue, waitqueue_remove, active_remove] at hin
        have := f2 (List.mem_of_mem_erase hin)
        simpa using this
    · simp at h
  · simp at h

/-! ## Lookup and teardown at the failing inputs -/

/-- C3 (abort on destroy) evaluated on scenario 4 of the specification.  Task 3 is
parked in the sender queue of task 2 (blocked, `wait_for = IPC_DENY`) and task 1
destroys task 2.  `task_destroy` returns `OK` and frees the slot of task 2, but task 3
is still blocked and the run queue is empty: `notify` only recorded `NOTIFY_ABORTED` in
its pending set, because task 3 is not in an open receive.  Had task 3 been resumed,
its send would have returned `ERR_ABORTED` with the bit cleared. -/
theorem task_destroy_leaves_sender_parked :
    task_ptr.slot 2 ∈ (deref abort_state (task_ptr.slot 1)).senders
    ∧ (deref abort_state (task_ptr.slot 2)).state = TASK_BLOCKED
    ∧ (deref abort_state (task_ptr.slot 2)).wait_for = IPC_DENY
    ∧ (task_destroy abort_state (task_ptr.slot 1)).map
        (fun r => (r.2, (deref r.1 (task_ptr.slot 1)).state,
                   (deref r.1 (task_ptr.slot 2)).state,
                   (deref r.1 (task_ptr.slot 2)).notifications,
                   r.1.runqueue))
        = some (OK, TASK_UNUSED, TASK_BLOCKED, NOTIFY_ABORTED, [])
    ∧ (task_destroy abort_state (task_ptr.slot 1)).map
        (fun r => ((send_message_resume r.1 (task_ptr.slot 2) (task_ptr.slot 1) msg7 0).2,
                   (deref (send_message_resume r.1 (task_ptr.slot 2) (task_ptr.slot 1) msg7 0).1
                      (task_ptr.slot 2)).notifications))
        = some (ERR_ABORTED, 0) := by
  decide

/-- C10 (task lookup) evaluated on the ids at the two ends of `1 .. NUM_TASKS_MAX`.
In every state `task_find(NUM_TASKS_MAX)` is `NULL` and `task_find(0)` passes the
range check and reads `tasks[-1]`.  In particular, when fifteen tasks are in use
`task_create` returns the id 16 for the task it puts in `tasks[15]`, and
`task_find(16)` in the resulting state is `NULL`. -/
theorem task_find_off_by_one :
    (∀ k, task_find k (NUM_TASKS_MAX : Int) = find_result.null)
    ∧ (∀ k, task_find k 0 = find_result.out_of_bounds (-1))
    ∧ (task_create fifteen_state "c" 0x10000 (some (task_ptr.slot 0)) true true).2 = 16
    ∧ (deref (task_create fifteen_state "c" 0x10000 (some (task_ptr.slot 0)) true true).1
        (task_ptr.slot 15)).state = TASK_RUNNABLE
    ∧ (deref (task_create fifteen_state "c" 0x10000 (some (task_ptr.slot 0)) true true).1
        (task_ptr.slot 15)).tid = 16
    ∧ task_find (task_create fifteen_state "c" 0x10000 (some (task_ptr.slot 0)) true true).1 16
        = find_result.null := by
  refine ⟨fun k => by simp [task_find], fun k => ?_, by decide, by decide, by decide, by decide⟩
  simp [task_find, NUM_TASKS_MAX]

/-- `task_find` on the ids it handles: below `NUM_TASKS_MAX` and at least 1 it returns
the slot `tid - 1` when that slot is in use and `NULL` when it is not; negative ids and
ids from `NUM_TASKS_MAX` up give `NULL`. -/
theorem task_find_spec (k : kernel) (tid : Int) :
    (1 ≤ tid → tid < (NUM_TASKS_MAX : Int) →
      task_find k tid = if in_use k (tid - 1).toNat
        then find_result.found (task_ptr.slot (tid - 1).toNat) else find_result.null)
    ∧ (tid < 0 → task_find k tid = find_result.null)
    ∧ ((NUM_TASKS_MAX : Int) ≤ tid → task_find k tid = find_result.null) := by
  refine ⟨?_, ?_, ?_⟩
  · intro h1 h2
    have hg : ¬ (tid < 0 ∨ tid ≥ (NUM_TASKS_MAX : Int)) := by omega
    have hb : ¬ (tid - 1 < 0 ∨ tid - 1 ≥ (NUM_TASKS_MAX : Int)) := by omega
    simp only [task_find, if_neg hg, if_neg hb, in_use]
    split <;> simp_all
  · intro h; simp [task_find, h]
  · intro h
    have : tid < 0 ∨ tid ≥ (NUM_TASKS_MAX : Int) := Or.inr h
    simp [task_find, this]

/-! ## Memory and system calls -/

theorem unmappable_uaddr (uaddr : Nat) (hu : uaddr = 0 ∨ KERNEL_BASE ≤ uaddr) :
    arch_is_mappable_uaddr uaddr = false := by
  simp only [arch_is_mappable_uaddr, PAGE_SIZE, KERNEL_BASE, decide_eq_false_iff_not] at *
  omega

/-- C17 (as amended): for a task id that `task_find` resolves and attributes within
Readable|Writable|Executable, `sys_vm_map` with a `uaddr` that is 0 or not below
`KERNEL_BASE` returns `ERR_INVALID_UADDR` when `uaddr` and `paddr` are both page-aligned
and `ERR_INVALID_ARG` when one of them is not; in both cases the memory state (page
tables, frames, page lists) is returned unchanged. -/
theorem sys_vm_map_unmappable (k : kernel) (mm : memory) (tid : Int) (task : task_ptr)
    (uaddr paddr attrs : Nat)
    (htask : task_find k tid = find_result.found task)
    (hattrs : attrs &&& (UINT_MAX ^^^ (PAGE_WRITABLE ||| PAGE_READABLE ||| PAGE_EXECUTABLE)) = 0)
    (hu : uaddr = 0 ∨ KERNEL_BASE ≤ uaddr) :
    (IS_ALIGNED uaddr PAGE_SIZE = true ∧ IS_ALIGNED paddr PAGE_SIZE = true →
      sys_vm_map k mm tid uaddr paddr attrs = Except.ok (mm, ERR_INVALID_UADDR))
    ∧ (IS_ALIGNED uaddr PAGE_SIZE = false ∨ IS_ALIGNED paddr PAGE_SIZE = false →
      sys_vm_map k mm tid uaddr paddr attrs = Except.ok (mm, ERR_INVALID_ARG)) := by
  have hm := unmappable_uaddr uaddr hu
  constructor
  · rintro ⟨h1, h2⟩
    simp [sys_vm_map, htask, hattrs, h1, h2, hm]
  · intro h
    simp only [sys_vm_map, htask]
    rw [if_neg (by simp [hattrs]), if_pos h]

theorem sys_vm_map_unmappable_witness :
    (IS_ALIGNED 0 PAGE_SIZE = true ∧ IS_ALIGNED 0x80202000 PAGE_SIZE = true →
      sys_vm_map handoff_state boot_memory 1 0 0x80202000 PAGE_READABLE
        = Except.ok (boot_memory, ERR_INVALID_UADDR))
    ∧ (IS_ALIGNED 0 PAGE_SIZE = false ∨ IS_ALIGNED 0x80202000 PAGE_SIZE = false →
      sys_vm_map handoff_state boot_memory 1 0 0x80202000 PAGE_READABLE
        = Except.ok (boot_memory, ERR_INVALID_ARG)) :=
  sys_vm_map_unmappable handoff_state boot_memory 1 (task_ptr.slot 0) 0 0x80202000
    PAGE_READABLE (by decide) (by decide) (by decide)

/-- C17 (counterexample): task 1 exists, the attributes are Readable only; with
`uaddr = 0` and a `paddr` that is not page-aligned, and with a `uaddr` above
`KERNEL_BASE` that is not page-aligned, `sys_vm_map` returns `ERR_INVALID_ARG`, not
`ERR_INVALID_UADDR`. -/
theorem sys_vm_map_unaligned_is_invalid_arg :
    (value_of (sys_vm_map handoff_state boot_memory 1 0 0x80202001 PAGE_READABLE)).map
        Prod.snd = some ERR_INVALID_ARG
    ∧ (value_of (sys_vm_map handoff_state boot_memory 1 0x80000004 0x80202000
        PAGE_READABLE)).map Prod.snd = some ERR_INVALID_ARG
    ∧ ERR_INVALID_ARG ≠ ERR_INVALID_UADDR := by
  decide

/-- C18 (as amended): with flags within Send|Recv|NoBlock, `sys_ipc` returns
`ERR_INVALID_ARG` without touching the state for every `src < 0` (so also for
`src = -1`) and every `src > NUM_TASKS_MAX`, and for `0 ≤ src ≤ NUM_TASKS_MAX` it goes
on to the destination lookup and `ipc`. -/
theorem sys_ipc_src_range (k : kernel) (dst src : Int) (m : Nat) (um : message) (flags : Nat)
    (hflags : flags &&& (UINT_MAX ^^^ (IPC_SEND ||| IPC_RECV ||| IPC_NOBLOCK)) = 0) :
    (src < 0 ∨ src > (NUM_TASKS_MAX : Int) →
      sys_ipc k dst src m um flags = Except.ok (k, outcome.ret ERR_INVALID_ARG, none))
    ∧ (0 ≤ src ∧ src ≤ (NUM_TASKS_MAX : Int) →
      sys_ipc k dst src m um flags = sys_ipc_dispatch k dst src m um flags) := by
  constructor
  · intro h
    simp only [sys_ipc]
    rw [if_neg (by simp [hflags]), if_pos h]
  · intro h
    simp only [sys_ipc]
    rw [if_neg (by simp [hflags]), if_neg (by omega)]

theorem sys_ipc_src_range_witness :
    ((-1 : Int) < 0 ∨ (-1 : Int) > (NUM_TASKS_MAX : Int) →
      sys_ipc notified_state 0 (-1) 0x1000 msg7 IPC_RECV
        = Except.ok (notified_state, outcome.ret ERR_INVALID_ARG, none))
    ∧ (0 ≤ (-1 : Int) ∧ (-1 : Int) ≤ (NUM_TASKS_MAX : Int) →
      sys_ipc notified_state 0 (-1) 0x1000 msg7 IPC_RECV
        = sys_ipc_dispatch notified_state 0 (-1) 0x1000 msg7 IPC_RECV) :=
  sys_ipc_src_range notified_state 0 (-1) 0x1000 msg7 IPC_RECV (by decide)

/-- C18 (counterexample): a receive with `src = -1` (`IPC_DENY`) and the flag `Recv`
only is rejected by the range check of `sys_ipc` with `ERR_INVALID_ARG`, while the same
call with `src = 0` passes it and returns the pending notification. -/
theorem sys_ipc_rejects_deny :
    (value_of (sys_ipc notified_state 0 (-1) 0x1000 msg7 IPC_RECV)).map
        (fun r => r.2.1) = some (outcome.ret ERR_INVALID_ARG)
    ∧ (value_of (sys_ipc notified_state 0 0 0x1000 msg7 IPC_RECV)).map
        (fun r => r.2.1) = some (outcome.ret OK)
    ∧ IPC_DENY = -1 := by
  decide

theorem handle_timer_interrupt_uptime (k : kernel) (uptime_ticks ticks : Nat) :
    (handle_timer_interrupt k uptime_ticks ticks).2 = u32 (uptime_ticks + ticks) := by
  simp [handle_timer_interrupt]

/-- C19: `sys_uptime` returns `uptime_ticks / TICK_HZ`, the whole seconds since boot:
after timer interrupts that add up to 1500 ticks (1.5 s at `TICK_HZ = 1000`) it returns
1, where the milliseconds since boot, `uptime_ticks * 1000 / TICK_HZ`, are 1500. -/
theorem sys_uptime_is_seconds :
    (∀ t : Nat, sys_uptime t = ((t / 1000 : Nat) : Int))
    ∧ (handle_timer_interrupt
        (handle_timer_interrupt handoff_state 0 1000).1
        (handle_timer_interrupt handoff_state 0 1000).2 500).2 = 1500
    ∧ sys_uptime 1500 = 1
    ∧ 1500 * 1000 / TICK_HZ = 1500 := by
  refine ⟨fun t => rfl, ?_, by decide, by decide⟩
  rw [handle_timer_interrupt_uptime, handle_timer_interrupt_uptime]
  decide

set_option maxRecDepth 100000 in
/-- C20: with 600 bytes at the mappable address `0x1000`, `sys_serial_write` returns
600 but the serial port receives the first 512 bytes of the buffer followed by its
first 88 bytes again (the user pointer is not advanced between the chunks), which is
not the first 600 bytes of the buffer; and with an unmappable buffer the failed copy
is ignored and the previous contents of the staging buffer are written. -/
theorem sys_serial_write_repeats_first_chunk :
    sys_serial_write pattern_umem (List.replicate 512 0) 0x1000 600
      = some (600, (List.range 512).map (fun i => pattern_umem (0x1000 + i))
                    ++ (List.range 88).map (fun i => pattern_umem (0x1000 + i)))
    ∧ (sys_serial_write pattern_umem (List.replicate 512 0) 0x1000 600).map Prod.snd
      ≠ some ((List.range 600).map (fun i => pattern_umem (0x1000 + i)))
    ∧ sys_serial_write pattern_umem (List.replicate 512 7) 0 3 = some (3, [7, 7, 7]) := by
  decide

/-- C11: in the RAM zone of eight frames whose last five frames (3 to 7) are free, a
request for six frames (`size = 0x6000`) has no free run, and `pm_alloc` does not return
0: at start index 3 `is_contiguously_free` finds frames 3 to 7 free and goes on to read
`zone->pages[8]`, past the end of the array.  And a request of `0xFFFFF001` bytes, whose
size rounded up to a page wraps to 0, returns the base of the zone (a frame that is in
use) and allocates nothing. -/
theorem pm_alloc_reads_past_zone_end :
    fault_of (pm_alloc boot_memory 0x6000 none PM_ALLOC_UNINITIALIZED)
      = some fault.out_of_bounds
    ∧ ALIGN_UP 0xFFFFF001 PAGE_SIZE = 0
    ∧ (value_of (pm_alloc boot_memory 0xFFFFF001 (some (task_ptr.slot 1))
          PM_ALLOC_UNINITIALIZED)).map (fun r => (r.2, r.1.zones, r.1.pages (task_ptr.slot 1)))
        = some (0x80200000, boot_memory.zones, boot_memory.pages (task_ptr.slot 1))
    ∧ (page_deref boot_memory { zone := 0, index := 0 }).ref_count = 1 := by
  decide

/-- C12: with the flag Aligned, a request of `0x3000` bytes (three pages, already a
multiple of the page size) in the RAM zone at `0x80200000` succeeds with the address
`0x80204000`, which passes the mask test `paddr & (0x3000 - 1) == 0` of `IS_ALIGNED`
but is not a multiple of `0x3000` (the remainder is `0x2000`). -/
theorem pm_alloc_aligned_not_multiple :
    (value_of (pm_alloc boot_memory 0x3000 none PM_ALLOC_ALIGNED)).map Prod.snd
      = some 0x80204000
    ∧ ALIGN_UP 0x3000 PAGE_SIZE = 0x3000
    ∧ IS_ALIGNED 0x80204000 0x3000 = true
    ∧ 0x80204000 % ALIGN_UP 0x3000 PAGE_SIZE = 0x2000 := by
  decide

theorem find_page_by_paddr_aligned (mm : memory) (paddr : Nat)
    (h : IS_ALIGNED paddr PAGE_SIZE = true) :
    find_page_by_paddr mm paddr = Except.ok (find_page_by_paddr_loop paddr mm.zones 0) := by
  simp [find_page_by_paddr, ASSERT, h]

/-- C14: for a page-aligned `paddr`: when `paddr` belongs to no zone `vm_map` returns
`ERR_INVALID_PADDR`; when it is a frame of a free-RAM zone owned by the task `o`, then
`vm_map` by `task` returns `ERR_INVALID_PADDR` if the frame is not allocated
(`ref_count = 0`) or if `o` is neither `task` nor paged by `task`, and it returns `OK`
only if the frame is allocated and `o` is `task` or is paged by `task`.  Every
`ERR_INVALID_PADDR` return hands back the memory state (page tables, frames, lists)
unchanged. -/
theorem vm_map_ram_permission (k : kernel) (mm : memory) (task : task_ptr)
    (uaddr paddr attrs : Nat) (haligned : IS_ALIGNED paddr PAGE_SIZE = true) :
    (find_page_by_paddr_loop paddr mm.zones 0 = none →
      vm_map k mm task uaddr paddr attrs = Except.ok (mm, ERR_INVALID_PADDR))
    ∧ (∀ (pg : page_ptr) (o : task_ptr),
        find_page_by_paddr_loop paddr mm.zones 0
          = some (pg, memory_zone_type.MEMORY_ZONE_FREE) →
        (page_deref mm pg).owner = some o →
        ((page_deref mm pg).ref_count = 0 ∨ (o ≠ task ∧ (deref k o).pager ≠ some task) →
          vm_map k mm task uaddr paddr attrs = Except.ok (mm, ERR_INVALID_PADDR))
        ∧ (∀ mm1, vm_map k mm task uaddr paddr attrs = Except.ok (mm1, OK) →
            (page_deref mm pg).ref_count > 0 ∧ (o = task ∨ (deref k o).pager = some task))) := by
  have hf := find_page_by_paddr_aligned mm paddr haligned
  refine ⟨?_, ?_⟩
  · intro hnone
    simp [vm_map, hf, hnone]
  · intro pg o hsome howner
    have hinv : ((page_deref mm pg).ref_count = 0 ∨ (o ≠ task ∧ (deref k o).pager ≠ some task)) →
        vm_map k mm task uaddr paddr attrs = Except.ok (mm, ERR_INVALID_PADDR) := by
      intro h
      rcases h with h | h
      · simp [vm_map, hf, hsome, h]
      · by_cases hr : (page_deref mm pg).ref_count = 0
        · simp [vm_map, hf, hsome, hr]
        · simp [vm_map, hf, hsome, hr, howner, h.1, h.2]
    refine ⟨hinv, ?_⟩
    intro mm1 hok
    by_contra hcon
    have h : (page_deref mm pg).ref_count = 0 ∨ (o ≠ task ∧ (deref k o).pager ≠ some task) := by
      by_cases hr : (page_deref mm pg).ref_count = 0
      · exact Or.inl hr
      · right
        have hpos : (page_deref mm pg).ref_count > 0 := Nat.pos_of_ne_zero hr
        constructor
        · intro ho
          exact hcon ⟨hpos, Or.inl ho⟩
        · intro hp
          exact hcon ⟨hpos, Or.inr hp⟩
    rw [hinv h] at hok
    simp [ERR_INVALID_PADDR, OK] at hok

theorem vm_map_ram_permission_witness :
    (find_page_by_paddr_loop 0x80202000 boot_memory.zones 0 = none →
      vm_map handoff_state boot_memory (task_ptr.slot 0) 0x10000 0x80202000 PAGE_READABLE
        = Except.ok (boot_memory, ERR_INVALID_PADDR))
    ∧ (∀ (pg : page_ptr) (o : task_ptr),
        find_page_by_paddr_loop 0x80202000 boot_memory.zones 0
          = some (pg, memory_zone_type.MEMORY_ZONE_FREE) →
        (page_deref boot_memory pg).owner = some o →
        ((page_deref boot_memory pg).ref_count = 0
            ∨ (o ≠ task_ptr.slot 0 ∧ (deref handoff_state o).pager ≠ some (task_ptr.slot 0)) →
          vm_map handoff_state boot_memory (task_ptr.slot 0) 0x10000 0x80202000 PAGE_READABLE
            = Except.ok (boot_memory, ERR_INVALID_PADDR))
        ∧ (∀ mm1, vm_map handoff_state boot_memory (task_ptr.slot 0) 0x10000 0x80202000
              PAGE_READABLE = Except.ok (mm1, OK) →
            (page_deref boot_memory pg).ref_count > 0
            ∧ (o = task_ptr.slot 0 ∨ (deref handoff_state o).pager = some (task_ptr.slot 0)))) :=
  vm_map_ram_permission handoff_state boot_memory (task_ptr.slot 0) 0x10000 0x80202000
    PAGE_READABLE (by decide)

/-- C15: task 2 maps the free MMIO frame at `0x10000000`: `vm_map` returns `OK`, the
frame has `ref_count` 1 and is linked at the tail of the page list of task 2, a second
`vm_map` of the frame (by task 1) returns `ERR_INVALID_PADDR`, but the owner of the frame
is still null: `vm_map` never stores `task` in `page->owner`. -/
theorem vm_map_mmio_owner_not_recorded :
    find_page_by_paddr_loop 0x10000000 boot_memory.zones 0
      = some ({ zone := 1, index := 0 }, memory_zone_type.MEMORY_ZONE_MMIO)
    ∧ (value_of (vm_map handoff_state boot_memory (task_ptr.slot 1) 0x10000 0x10000000
        (PAGE_READABLE ||| PAGE_WRITABLE))).map
        (fun r => (r.2, (page_deref r.1 { zone := 1, index := 0 }).ref_count,
                   r.1.pages (task_ptr.slot 1)))
      = some (OK, 1, [{ zone := 0, index := 2 }, { zone := 1, index := 0 }])
    ∧ (value_of (vm_map handoff_state boot_memory (task_ptr.slot 1) 0x10000 0x10000000
        (PAGE_READABLE ||| PAGE_WRITABLE))).bind
        (fun r => (value_of (vm_map handoff_state r.1 (task_ptr.slot 0) 0x20000 0x10000000
                      PAGE_READABLE)).map Prod.snd)
      = some ERR_INVALID_PADDR
    ∧ (value_of (vm_map handoff_state boot_memory (task_ptr.slot 1) 0x10000 0x10000000
        (PAGE_READABLE ||| PAGE_WRITABLE))).map
        (fun r => (page_deref r.1 { zone := 1, index := 0 }).owner)
      = some none := by
  decide

/-! ## Freeing frames -/

theorem is_aligned_page (x : Nat) : IS_ALIGNED x PAGE_SIZE = true ↔ x % 4096 = 0 := by
  have h : u32 (PAGE_SIZE + UINT_MAX) = 2 ^ 12 - 1 := by decide
  simp only [IS_ALIGNED, h, Nat.and_pow_two_sub_one_eq_mod, decide_eq_true_eq]

theorem u32_le (x : Nat) : u32 x ≤ x := Nat.mod_le _ _

theorem u32_lt (x : Nat) : u32 x < 4294967296 := Nat.mod_lt _ (by decide)

theorem u32_eq (x : Nat) : u32 x = x % 4294967296 := rfl

theorem u32_of_lt (x : Nat) (h : x < 4294967296) : u32 x = x := Nat.mod_eq_of_lt h

/-! ### Page structures -/

theorem page_deref_page_update (mm : memory) (pg q : page_ptr) (f : page → page)
    (hv : page_valid mm pg) :
    page_deref (page_update mm pg f) q = if q = pg then f (page_deref mm pg) else page_deref mm q := by
  obtain ⟨hz, hi⟩ := hv
  cases pg with | mk pz pi =>
  cases q with | mk qz qi =>
  simp only [page_ptr.mk.injEq]
  simp only [page_deref, page_update, List.getD_eq_getElem?_getD, List.getElem?_set] at *
  by_cases h1 : pz = qz
  · subst h1
    simp only [hz, if_true, true_and, Option.getD_some, List.getElem?_set]
    by_cases h2 : pi = qi
    · subst h2
      simp [hi]
    · have h3 : ¬ qi = pi := fun h => h2 h.symm
      simp [h2, h3]
  · have h3 : ¬ qz = pz := fun h => h1 h.symm
    simp [h1, h3]

theorem page_update_zones_shape (mm : memory) (pg : page_ptr) (f : page → page) :
    (page_update mm pg f).zones.map zone_shape = mm.zones.map zone_shape := by
  simp only [page_update]
  apply List.ext_getElem?
  intro i
  simp only [List.getElem?_map, List.getElem?_set, List.getD_eq_getElem?_getD]
  by_cases h : pg.zone = i
  · subst h
    by_cases h2 : pg.zone < mm.zones.length
    · simp [h2, List.getElem?_eq_getElem h2, zone_shape]
    · simp [h2, List.getElem?_eq_none (Nat.le_of_not_lt h2)]
  · simp [h]

theorem find_page_by_paddr_loop_shape (paddr : Nat) :
    ∀ (zs zs1 : List memory_zone) (zi : Nat), zs1.map zone_shape = zs.map zone_shape →
      find_page_by_paddr_loop paddr zs1 zi = find_page_by_paddr_loop paddr zs zi := by
  intro zs
  induction zs with
  | nil =>
    intro zs1 zi h
    cases zs1 with
    | nil => rfl
    | cons a l => simp at h
  | cons z rest ih =>
    intro zs1 zi h
    cases zs1 with
    | nil => simp at h
    | cons z1 rest1 =>
      simp only [List.map_cons, List.cons.injEq, zone_shape, Prod.mk.injEq] at h
      obtain ⟨⟨ht, hb, hn⟩, hrest⟩ := h
      simp only [find_page_by_paddr_loop, ht, hb, hn, ih rest1 (zi + 1) hrest]

theorem zones_wf_page_update (mm : memory) (pg : page_ptr) (f : page → page)
    (hwf : zones_wf mm.zones = true) : zones_wf (page_update mm pg f).zones = true := by
  simp only [zones_wf, List.all_eq_true, decide_eq_true_eq] at *
  intro z hz
  simp only [page_update] at hz
  rcases List.mem_or_eq_of_mem_set hz with h | h
  · exact hwf z h
  · subst h
    simp only [List.length_set]
    by_cases h2 : pg.zone < mm.zones.length
    · apply hwf
      rw [List.getD_eq_getElem _ _ h2]
      exact List.getElem_mem _
    · rw [List.getD_eq_default _ _ (Nat.le_of_not_lt h2)]
      rfl

theorem page_valid_page_update (mm : memory) (pg q : page_ptr) (f : page → page)
    (hq : page_valid mm q) : page_valid (page_update mm pg f) q := by
  obtain ⟨hz, hi⟩ := hq
  refine ⟨by simpa [page_update] using hz, ?_⟩
  simp only [page_update, List.getD_eq_getElem?_getD, List.getElem?_set] at *
  by_cases h : pg.zone = q.zone
  · by_cases h2 : pg.zone < mm.zones.length
    · simp only [h, if_true, h ▸ h2, Option.getD_some, List.length_set]
      exact hi
    · exact absurd (h ▸ hz) h2
  · simpa [h] using hi

/-- The zone that contains the frame of a page structure found by address. -/
theorem find_page_by_paddr_loop_spec (paddr : Nat) :
    ∀ (zs : List memory_zone) (zi : Nat) (pg : page_ptr) (ty : memory_zone_type),
      find_page_by_paddr_loop paddr zs zi = some (pg, ty) →
      ∃ z, zs[pg.zone - zi]? = some z ∧ zi ≤ pg.zone ∧ z.type = ty
        ∧ z.base ≤ paddr ∧ paddr < z.base + z.num_pages * PAGE_SIZE
        ∧ pg.index = (paddr - z.base) / PAGE_SIZE := by
  intro zs
  induction zs with
  | nil => intro zi pg ty h; simp [find_page_by_paddr_loop] at h
  | cons z rest ih =>
    intro zi pg ty h
    simp only [find_page_by_paddr_loop] at h
    split at h
    · rename_i hc
      simp only [Option.some.injEq, Prod.mk.injEq] at h
      obtain ⟨hpg, hty⟩ := h
      subst hpg
      refine ⟨z, by simp, le_refl _, hty, hc.1, lt_of_lt_of_le hc.2 (u32_le _), rfl⟩
    · obtain ⟨z1, h1, h2, h3⟩ := ih (zi + 1) pg ty h
      refine ⟨z1, ?_, by omega, h3⟩
      have : pg.zone - zi = (pg.zone - (zi + 1)) + 1 := by omega
      rw [this, List.getElem?_cons_succ]
      exact h1

theorem find_page_by_paddr_loop_valid (mm : memory) (paddr : Nat) (pg : page_ptr)
    (ty : memory_zone_type) (hwf : zones_wf mm.zones = true)
    (h : find_page_by_paddr_loop paddr mm.zones 0 = some (pg, ty)) : page_valid mm pg := by
  obtain ⟨z, hz, _, _, hb, hlt, hidx⟩ := find_page_by_paddr_loop_spec paddr mm.zones 0 pg ty h
  simp only [Nat.sub_zero] at hz
  have hlen : pg.zone < mm.zones.length := by
    by_contra hcon
    rw [List.getElem?_eq_none (Nat.le_of_not_lt hcon)] at hz
    cases hz
  have hmem : z ∈ mm.zones := List.getElem?_mem hz
  have hzl : z.pages.length = z.num_pages := by
    simp only [zones_wf, List.all_eq_true, decide_eq_true_eq] at hwf
    exact hwf z hmem
  refine ⟨hlen, ?_⟩
  rw [List.getD_eq_getElem?_getD, hz, Option.getD_some, hzl, hidx]
  rw [Nat.div_lt_iff_lt_mul (by decide)]
  omega

/-- Two page-aligned addresses with the same page structure are the same address. -/
theorem find_page_by_paddr_loop_inj (zs : List memory_zone) (a b : Nat) (pg : page_ptr)
    (ta tb : memory_zone_type) (ha : a % 4096 = 0) (hb : b % 4096 = 0)
    (h1 : find_page_by_paddr_loop a zs 0 = some (pg, ta))
    (h2 : find_page_by_paddr_loop b zs 0 = some (pg, tb)) : a = b := by
  obtain ⟨z, hz, _, _, hba, _, hia⟩ := find_page_by_paddr_loop_spec a zs 0 pg ta h1
  obtain ⟨z1, hz1, _, _, hbb, _, hib⟩ := find_page_by_paddr_loop_spec b zs 0 pg tb h2
  rw [hz] at hz1
  cases hz1
  rw [hia] at hib
  simp only [PAGE_SIZE] at hib
  omega

theorem covers_iff (zs : List memory_zone) (q : page_ptr) :
    ∀ (n paddr : Nat), covers zs paddr n q = true ↔
      ∃ i, i < n ∧ (find_page_by_paddr_loop (u32 (paddr + i * PAGE_SIZE)) zs 0).map Prod.fst
        = some q := by
  intro n
  induction n with
  | zero => intro paddr; simp [covers]
  | succ n ih =>
    intro paddr
    simp only [covers, Bool.or_eq_true, decide_eq_true_eq, ih]
    constructor
    · rintro (h | ⟨i, hi, h⟩)
      · exact ⟨0, by omega, by simpa using h⟩
      · refine ⟨i + 1, by omega, ?_⟩
        have : paddr + (i + 1) * PAGE_SIZE = paddr + PAGE_SIZE + i * PAGE_SIZE := by ring
        rw [this]; exact h
    · rintro ⟨i, hi, h⟩
      cases i with
      | zero => left; simpa using h
      | succ i =>
        right
        refine ⟨i, by omega, ?_⟩
        have : paddr + (i + 1) * PAGE_SIZE = paddr + PAGE_SIZE + i * PAGE_SIZE := by ring
        rw [← this]; exact h

theorem covers_shape (zs zs1 : List memory_zone) (q : page_ptr)
    (h : zs1.map zone_shape = zs.map zone_shape) :
    ∀ (n paddr : Nat), covers zs1 paddr n q = covers zs paddr n q := by
  intro n
  induction n with
  | zero => intro paddr; rfl
  | succ n ih =>
    intro paddr
    simp only [covers, ih, find_page_by_paddr_loop_shape _ zs zs1 0 h]

theorem free_page_ok (mm : memory) (pg : page_ptr) (hv : page_valid mm pg)
    (hrc : 0 < (page_deref mm pg).ref_count) :
    free_page mm pg = Except.ok (free_page_result mm pg) := by
  simp only [free_page, free_page_result, ASSERT, hrc, decide_True, if_true,
    page_deref_page_update mm pg pg _ hv]
  by_cases h : (page_deref mm pg).ref_count = 1
  · simp [h]
  · have h2 : (page_deref mm pg).ref_count - 1 ≠ 0 := by omega
    simp [h, h2]

theorem free_page_zero (mm : memory) (pg : page_ptr)
    (hrc : (page_deref mm pg).ref_count = 0) :
    free_page mm pg = Except.error fault.assertion := by
  simp [free_page, ASSERT, hrc]; rfl

theorem pm_free_loop_shift (paddr d : Nat) :
    ∀ (n off : Nat) (mm : memory),
      pm_free_loop paddr n (off + d) mm = pm_free_loop (paddr + d) n off mm := by
  intro n
  induction n with
  | zero => intro off mm; rfl
  | succ n ih =>
    intro off mm
    simp only [pm_free_loop]
    have h1 : paddr + (off + d) = paddr + d + off := by ring
    have h2 : off + d + PAGE_SIZE = off + PAGE_SIZE + d := by ring
    rw [h1, h2]
    simp only [ih]

theorem free_page_result_zones (mm : memory) (pg : page_ptr) :
    (free_page_result mm pg).zones
      = (page_update mm pg (fun p => { p with ref_count := p.ref_count - 1 })).zones := by
  simp only [free_page_result]
  split <;> rfl

theorem free_page_result_ram (mm : memory) (pg : page_ptr) :
    (free_page_result mm pg).ram = mm.ram ∧ (free_page_result mm pg).table = mm.table := by
  simp only [free_page_result]
  split <;> exact ⟨rfl, rfl⟩

theorem free_page_result_deref (mm : memory) (pg q : page_ptr) (hv : page_valid mm pg) :
    page_deref (free_page_result mm pg) q
      = if q = pg then { page_deref mm pg with ref_count := (page_deref mm pg).ref_count - 1 }
        else page_deref mm q := by
  have h : page_deref (free_page_result mm pg) q
      = page_deref (page_update mm pg (fun p => { p with ref_count := p.ref_count - 1 })) q := by
    simp only [page_deref, free_page_result_zones]
  rw [h, page_deref_page_update mm pg q _ hv]

theorem free_page_result_pages (mm : memory) (pg : page_ptr) (t : task_ptr) :
    (free_page_result mm pg).pages t
      = if (page_deref mm pg).ref_count = 1 then (mm.pages t).erase pg else mm.pages t := by
  simp only [free_page_result]
  split <;> rfl

theorem pm_free_loop_ok :
    ∀ (n paddr : Nat) (mm : memory),
      zones_wf mm.zones = true → (∀ t, (mm.pages t).Nodup) → paddr % 4096 = 0 →
      n * 4096 < 4294967296 →
      (∀ i, i < n → ∃ pg ty,
        find_page_by_paddr_loop (u32 (paddr + i * PAGE_SIZE)) mm.zones 0 = some (pg, ty)
        ∧ 0 < (page_deref mm pg).ref_count) →
      ∃ mm1, pm_free_loop paddr n 0 mm = Except.ok mm1
        ∧ mm1.zones.map zone_shape = mm.zones.map zone_shape
        ∧ zones_wf mm1.zones = true
        ∧ mm1.ram = mm.ram ∧ mm1.table = mm.table
        ∧ (∀ q, page_deref mm1 q
            = if covers mm.zones paddr n q = true then
                { page_deref mm q with ref_count := (page_deref mm q).ref_count - 1 }
              else page_deref mm q)
        ∧ (∀ t, mm1.pages t = (mm.pages t).filter (fun q =>
            !(covers mm.zones paddr n q && decide ((page_deref mm q).ref_count = 1)))) := by
  intro n
  induction n with
  | zero =>
    intro paddr mm hwf _ _ _ _
    refine ⟨mm, rfl, rfl, hwf, rfl, rfl, ?_, ?_⟩
    · intro q; simp [covers]
    · intro t; simp [covers]
  | succ n ih =>
    intro paddr mm hwf hnd hal hbound hgood
    obtain ⟨pg, ty, hfind, hrc⟩ := hgood 0 (by omega)
    simp only [Nat.zero_mul, Nat.add_zero] at hfind
    have hv : page_valid mm pg := find_page_by_paddr_loop_valid mm _ pg ty hwf hfind
    have hal0 : IS_ALIGNED (u32 paddr) PAGE_SIZE = true := by
      rw [is_aligned_page, u32_eq]; omega
    have hstep : pm_free_loop paddr (n + 1) 0 mm
        = pm_free_loop (paddr + PAGE_SIZE) n 0 (free_page_result mm pg) := by
      simp only [pm_free_loop, Nat.add_zero, find_page_by_paddr_aligned mm _ hal0, hfind,
        free_page_ok mm pg hv hrc]
      rw [← pm_free_loop_shift paddr PAGE_SIZE n 0]
    have hshape : (free_page_result mm pg).zones.map zone_shape = mm.zones.map zone_shape := by
      rw [free_page_result_zones]; exact page_update_zones_shape mm pg _
    have hwf1 : zones_wf (free_page_result mm pg).zones = true := by
      rw [free_page_result_zones]; exact zones_wf_page_update mm pg _ hwf
    have hnd1 : ∀ t, ((free_page_result mm pg).pages t).Nodup := by
      intro t
      rw [free_page_result_pages]
      split
      · exact (hnd t).erase pg
      · exact hnd t
    have hothers : ∀ i, i < n → ∀ q ty1,
        find_page_by_paddr_loop (u32 (paddr + PAGE_SIZE + i * PAGE_SIZE)) mm.zones 0
          = some (q, ty1) → q ≠ pg := by
      intro i hi q ty1 hq hqpg
      subst hqpg
      have := find_page_by_paddr_loop_inj mm.zones _ _ q ty1 ty
        (by rw [u32_eq]; simp only [PAGE_SIZE]; omega) (by rw [u32_eq]; omega) hq hfind
      simp only [u32_eq, PAGE_SIZE] at this
      omega
    have hgood1 : ∀ i, i < n → ∃ q ty1,
        find_page_by_paddr_loop (u32 (paddr + PAGE_SIZE + i * PAGE_SIZE))
          (free_page_result mm pg).zones 0 = some (q, ty1)
        ∧ 0 < (page_deref (free_page_result mm pg) q).ref_count := by
      intro i hi
      obtain ⟨q, ty1, hq, hqrc⟩ := hgood (i + 1) (by omega)
      have he : paddr + (i + 1) * PAGE_SIZE = paddr + PAGE_SIZE + i * PAGE_SIZE := by ring
      rw [he] at hq
      refine ⟨q, ty1, ?_, ?_⟩
      · rw [find_page_by_paddr_loop_shape _ mm.zones _ 0 hshape]; exact hq
      · rw [free_page_result_deref mm pg q hv, if_neg (hothers i hi q ty1 hq)]
        exact hqrc
    obtain ⟨mm1, hrun, hsh1, hwf2, hram, htable, hderef, hpages⟩ :=
      ih (paddr + PAGE_SIZE) (free_page_result mm pg) hwf1 hnd1
        (by simp only [PAGE_SIZE]; omega) (by omega) hgood1
    have hcov1 : ∀ q, covers (free_page_result mm pg).zones (paddr + PAGE_SIZE) n q
        = covers mm.zones (paddr + PAGE_SIZE) n q :=
      fun q => covers_shape mm.zones _ q hshape n _
    have hnotcov : covers mm.zones (paddr + PAGE_SIZE) n pg = false := by
      by_contra hc
      simp only [Bool.not_eq_false] at hc
      obtain ⟨i, hi, hq⟩ := (covers_iff mm.zones pg n _).1 hc
      cases hres : find_page_by_paddr_loop (u32 (paddr + PAGE_SIZE + i * PAGE_SIZE)) mm.zones 0 with
      | none => rw [hres] at hq; simp at hq
      | some r =>
        rw [hres] at hq
        simp only [Option.map_some', Option.some.injEq] at hq
        have hr : r = (pg, r.2) := by rw [← hq]
        rw [hr] at hres
        exact hothers i hi pg r.2 hres rfl
    have hfst : (find_page_by_paddr_loop (u32 paddr) mm.zones 0).map Prod.fst = some pg := by
      rw [hfind]; rfl
    have hcovS : ∀ q, covers mm.zones paddr (n + 1) q
        = (decide (q = pg) || covers mm.zones (paddr + PAGE_SIZE) n q) := by
      intro q
      simp only [covers, hfst, Option.some.injEq]
      congr 1
      by_cases h : q = pg
      · simp [h]
      · have h1 : ¬ pg = q := fun e => h e.symm
        simp [h, h1]
    refine ⟨mm1, by rw [hstep]; exact hrun, by rw [hsh1, hshape], hwf2,
      by rw [hram]; exact (free_page_result_ram mm pg).1,
      by rw [htable]; exact (free_page_result_ram mm pg).2, ?_, ?_⟩
    · intro q
      rw [hderef q, hcov1 q, hcovS q, free_page_result_deref mm pg q hv]
      by_cases hq : q = pg
      · subst hq
        simp [hnotcov]
      · simp [hq]
    · intro t
      rw [hpages t, free_page_result_pages]
      by_cases h1 : (page_deref mm pg).ref_count = 1
      · rw [if_pos h1, (hnd t).erase_eq_filter pg, List.filter_filter]
        apply List.filter_congr
        intro q _
        rw [hcov1 q, hcovS q, free_page_result_deref mm pg q hv]
        by_cases hq : q = pg
        · subst hq
          simp [hnotcov, h1]
        · simp [hq]
      · rw [if_neg h1]
        apply List.filter_congr
        intro q _
        rw [hcov1 q, hcovS q, free_page_result_deref mm pg q hv]
        by_cases hq : q = pg
        · subst hq
          simp [hnotcov, h1]
        · simp [hq]

theorem pm_free_loop_fault :
    ∀ (n paddr : Nat) (mm : memory),
      zones_wf mm.zones = true → paddr % 4096 = 0 →
      (∃ i, i < n ∧ ∀ pg ty,
        find_page_by_paddr_loop (u32 (paddr + i * PAGE_SIZE)) mm.zones 0 = some (pg, ty) →
        (page_deref mm pg).ref_count = 0) →
      pm_free_loop paddr n 0 mm = Except.error fault.assertion := by
  intro n
  induction n with
  | zero =>
    intro paddr mm _ _ h
    obtain ⟨i, hi, _⟩ := h
    omega
  | succ n ih =>
    intro paddr mm hwf hal hbad
    have hal0 : IS_ALIGNED (u32 paddr) PAGE_SIZE = true := by
      rw [is_aligned_page, u32_eq]; omega
    cases hfind : find_page_by_paddr_loop (u32 paddr) mm.zones 0 with
    | none =>
      simp only [pm_free_loop, Nat.add_zero, find_page_by_paddr_aligned mm _ hal0, hfind]
    | some r =>
      obtain ⟨pg, ty⟩ := r
      by_cases hrc : (page_deref mm pg).ref_count = 0
      · simp only [pm_free_loop, Nat.add_zero, find_page_by_paddr_aligned mm _ hal0, hfind,
          free_page_zero mm pg hrc]
      · have hv : page_valid mm pg := find_page_by_paddr_loop_valid mm _ pg ty hwf hfind
        have hstep : pm_free_loop paddr (n + 1) 0 mm
            = pm_free_loop (paddr + PAGE_SIZE) n 0 (free_page_result mm pg) := by
          simp only [pm_free_loop, Nat.add_zero, find_page_by_paddr_aligned mm _ hal0, hfind,
            free_page_ok mm pg hv (Nat.pos_of_ne_zero hrc)]
          rw [← pm_free_loop_shift paddr PAGE_SIZE n 0]
        have hshape : (free_page_result mm pg).zones.map zone_shape
            = mm.zones.map zone_shape := by
          rw [free_page_result_zones]; exact page_update_zones_shape mm pg _
        have hwf1 : zones_wf (free_page_result mm pg).zones = true := by
          rw [free_page_result_zones]; exact zones_wf_page_update mm pg _ hwf
        rw [hstep]
        apply ih (paddr + PAGE_SIZE) (free_page_result mm pg) hwf1
          (by simp only [PAGE_SIZE]; omega)
        obtain ⟨i, hi, hb⟩ := hbad
        cases i with
        | zero =>
          simp only [Nat.zero_mul, Nat.add_zero] at hb
          exact absurd (hb pg ty hfind) hrc
        | succ j =>
          refine ⟨j, by omega, ?_⟩
          intro q ty1 hq
          rw [find_page_by_paddr_loop_shape _ mm.zones _ 0 hshape] at hq
          have he : paddr + (j + 1) * PAGE_SIZE = paddr + PAGE_SIZE + j * PAGE_SIZE := by ring
          have hz := hb q ty1 (by rw [he]; exact hq)
          have hne : q ≠ pg := by
            intro e; subst e; exact hrc hz
          rw [free_page_result_deref mm pg q hv, if_neg hne]
          exact hz

/-- C13: for page-aligned `paddr` and `size` in well-formed zones (every `pages` array
has `num_pages` entries, no page structure is linked twice in a page list): when every
one of the `size / PAGE_SIZE` frames covering `[paddr, paddr + size)` is a frame of a
zone with `ref_count > 0`, `pm_free` returns; these frames are pairwise distinct, each
has its `ref_count` lowered by one and keeps its owner, every other page structure is
unchanged, every page list loses exactly the covered frames whose count was 1 (now 0)
and keeps the rest in order, and the zones' extents, the page tables and the physical
memory are unchanged.  When one of the covered frames has `ref_count = 0` (or is in no
zone) the call ends in a failed assertion. -/
theorem pm_free_spec (mm : memory) (paddr size : Nat)
    (hwf : zones_wf mm.zones = true) (hnd : ∀ t, (mm.pages t).Nodup)
    (hpaddr : IS_ALIGNED paddr PAGE_SIZE = true) (hsize : IS_ALIGNED size PAGE_SIZE = true)
    (hsize32 : size ≤ UINT_MAX) :
    ((∀ i, i < size / PAGE_SIZE → ∃ pg ty,
        find_page_by_paddr_loop (u32 (paddr + i * PAGE_SIZE)) mm.zones 0 = some (pg, ty)
        ∧ 0 < (page_deref mm pg).ref_count) →
      ∃ mm1, pm_free mm paddr size = Except.ok mm1
        ∧ (∀ q, covers mm.zones paddr (size / PAGE_SIZE) q = true →
            (page_deref mm1 q).ref_count = (page_deref mm q).ref_count - 1
            ∧ (page_deref mm1 q).owner = (page_deref mm q).owner)
        ∧ (∀ q, covers mm.zones paddr (size / PAGE_SIZE) q = false →
            page_deref mm1 q = page_deref mm q)
        ∧ (∀ t, mm1.pages t = (mm.pages t).filter (fun q =>
            !(covers mm.zones paddr (size / PAGE_SIZE) q
              && decide ((page_deref mm q).ref_count = 1))))
        ∧ (∀ i j, i < size / PAGE_SIZE → j < size / PAGE_SIZE →
            find_page_by_paddr_loop (u32 (paddr + i * PAGE_SIZE)) mm.zones 0
              = find_page_by_paddr_loop (u32 (paddr + j * PAGE_SIZE)) mm.zones 0 → i = j)
        ∧ mm1.zones.map zone_shape = mm.zones.map zone_shape
        ∧ mm1.ram = mm.ram ∧ mm1.table = mm.table)
    ∧ ((∃ i, i < size / PAGE_SIZE ∧ ∀ pg ty,
        find_page_by_paddr_loop (u32 (paddr + i * PAGE_SIZE)) mm.zones 0 = some (pg, ty) →
        (page_deref mm pg).ref_count = 0) →
      pm_free mm paddr size = Except.error fault.assertion) := by
  rw [is_aligned_page] at hpaddr
  have hs := (is_aligned_page size).1 hsize
  have hn : (size + PAGE_SIZE - 1) / PAGE_SIZE = size / PAGE_SIZE := by
    simp only [PAGE_SIZE]; omega
  have hrun : pm_free mm paddr size = pm_free_loop paddr (size / PAGE_SIZE) 0 mm := by
    simp only [pm_free, ASSERT, hsize, if_true, hn]
    rfl
  have hbound : size / PAGE_SIZE * 4096 < 4294967296 := by
    simp only [PAGE_SIZE, UINT_MAX] at *; omega
  constructor
  · intro hgood
    obtain ⟨mm1, h1, hshape, _, hram, htable, hderef, hpages⟩ :=
      pm_free_loop_ok (size / PAGE_SIZE) paddr mm hwf hnd hpaddr hbound hgood
    refine ⟨mm1, by rw [hrun]; exact h1, ?_, ?_, hpages, ?_, hshape, hram, htable⟩
    · intro q hq
      rw [hderef q, if_pos hq]
      exact ⟨rfl, rfl⟩
    · intro q hq
      rw [hderef q, if_neg (by simp [hq])]
    · intro i j hi hj he
      obtain ⟨pg, ty, hfi, _⟩ := hgood i hi
      rw [hfi] at he
      have := find_page_by_paddr_loop_inj mm.zones _ _ pg ty ty
        (by rw [u32_eq]; simp only [PAGE_SIZE]; omega)
        (by rw [u32_eq]; simp only [PAGE_SIZE]; omega) hfi he.symm
      simp only [u32_eq, PAGE_SIZE] at this hi hj
      simp only [PAGE_SIZE, UINT_MAX] at hbound hsize32
      omega
  · intro hbad
    rw [hrun]
    exact pm_free_loop_fault (size / PAGE_SIZE) paddr mm hwf hpaddr hbad

theorem boot_memory_pages_nodup (t : task_ptr) : (boot_memory.pages t).Nodup := by
  simp only [boot_memory]
  split <;> simp

/-- Freeing the frame of task 2 at `0x80202000` (count 1) brings its count to 0 and
unlinks it from the page list of task 2; freeing the free frame at `0x80203000` fails
the assertion. -/
theorem pm_free_spec_witness :
    (∃ mm1, pm_free boot_memory 0x80202000 0x1000 = Except.ok mm1
      ∧ (page_deref mm1 { zone := 0, index := 2 }).ref_count = 0
      ∧ (page_deref mm1 { zone := 0, index := 1 }) = { owner := none, ref_count := 1 }
      ∧ mm1.pages (task_ptr.slot 1) = [])
    ∧ pm_free boot_memory 0x80203000 0x1000 = Except.error fault.assertion := by
  have h := (pm_free_spec boot_memory 0x80202000 0x1000 (by decide) boot_memory_pages_nodup
    (by decide) (by decide) (by decide)).1
    (by
      intro i hi
      have hi0 : i = 0 := by
        have : (0x1000 : Nat) / PAGE_SIZE = 1 := by decide
        omega
      subst hi0
      exact ⟨{ zone := 0, index := 2 }, memory_zone_type.MEMORY_ZONE_FREE, by decide, by decide⟩)
  have h2 := (pm_free_spec boot_memory 0x80203000 0x1000 (by decide) boot_memory_pages_nodup
    (by decide) (by decide) (by decide)).2
    ⟨0, by decide, by
      intro pg ty hf
      have hpg : pg = { zone := 0, index := 3 } := by
        have : find_page_by_paddr_loop (u32 (0x80203000 + 0 * PAGE_SIZE)) boot_memory.zones 0
            = some ({ zone := 0, index := 3 }, memory_zone_type.MEMORY_ZONE_FREE) := by decide
        rw [this] at hf
        simp only [Option.some.injEq, Prod.mk.injEq] at hf
        exact hf.1.symm
      subst hpg
      decide⟩
  obtain ⟨mm1, hok, hcov, hnot, hpages, _⟩ := h
  refine ⟨⟨mm1, hok, ?_, ?_, ?_⟩, h2⟩
  · rw [(hcov { zone := 0, index := 2 } (by decide)).1]
    decide
  · rw [hnot { zone := 0, index := 1 } (by decide)]
    decide
  · rw [hpages]
    decide

/-! ## Mapping and unmapping -/

/-! ### Page table entries -/

theorem PTE_INDEX_lt (level vaddr : Nat) : PTE_INDEX level vaddr < 1024 := by
  have h := Nat.and_pow_two_sub_one_eq_mod (vaddr >>> (12 + level * 10)) 10
  simp only [PTE_INDEX]
  have h2 : (0x3ff : Nat) = 2 ^ 10 - 1 := by decide
  rw [h2, h]
  exact Nat.mod_lt _ (by decide)

theorem PTE_PADDR_aligned (pte : Nat) : PTE_PADDR pte % 4096 = 0 ∧ PTE_PADDR pte < 4294967296 := by
  simp only [PTE_PADDR, u32_eq, Nat.shiftLeft_eq]
  omega

theorem construct_pte_ok (paddr flags : Nat) (ha : paddr % 4096 = 0) :
    construct_pte paddr flags = Except.ok (((paddr >>> 12) <<< 10) ||| flags) := by
  have hm : UINT_MAX ^^^ PTE_PADDR_MASK = 2 ^ 12 - 1 := by decide
  simp only [construct_pte, ASSERT, hm, Nat.and_pow_two_sub_one_eq_mod]
  simp [ha]

theorem pte_paddr_construct (paddr flags : Nat) (ha : paddr % 4096 = 0)
    (hlt : paddr < 4294967296) (hf : flags < 1024) :
    PTE_PADDR (((paddr >>> 12) <<< 10) ||| flags) = paddr := by
  have h1 : ((paddr >>> 12) <<< 10) ||| flags = 2 ^ 10 * (paddr >>> 12) + flags := by
    rw [Nat.shiftLeft_eq, Nat.mul_comm]
    exact (Nat.mul_add_lt_is_or hf _).symm
  rw [PTE_PADDR, h1]
  simp only [Nat.shiftRight_eq_div_pow, Nat.shiftLeft_eq, u32_eq]
  omega

theorem pte_valid_construct (paddr flags : Nat) :
    (((paddr >>> 12) <<< 10) ||| (flags ||| PTE_V)) &&& PTE_V ≠ 0 := by
  intro h
  have h1 := congrArg (fun x => x.testBit 0) h
  simp [PTE_V, Nat.testBit_and, Nat.testBit_or] at h1

theorem pte_construct_ne_zero (paddr : Nat) : ((paddr >>> 12) <<< 10) ||| PTE_V ≠ 0 := by
  intro h
  have h1 := congrArg (fun x => x.testBit 0) h
  simp [PTE_V, Nat.testBit_or] at h1

theorem page_attrs_to_pte_flags_lt (attrs : Nat) : page_attrs_to_pte_flags attrs ||| PTE_V < 1024 := by
  simp only [page_attrs_to_pte_flags]
  split <;> split <;> split <;> split <;> decide

theorem satp_of_table (table : Nat) (ha : table % 4096 = 0) (hlt : table < 4294967296) :
    u32 ((satp_of table &&& SATP_PPN_MASK) <<< SATP_PPN_SHIFT) = table := by
  have hx : table >>> 12 < 2 ^ 31 := by
    rw [Nat.shiftRight_eq_div_pow]; omega
  have h1 : SATP_MODE_SV32 ||| (table >>> 12) = 2 ^ 31 * 1 + table >>> 12 := by
    rw [Nat.mul_add_lt_is_or hx 1]
    rfl
  have hm : SATP_PPN_MASK = 2 ^ 22 - 1 := by decide
  rw [satp_of, SATP_PPN_SHIFT, h1, hm, Nat.and_pow_two_sub_one_eq_mod]
  simp only [Nat.shiftRight_eq_div_pow, Nat.shiftLeft_eq, u32_eq]
  omega

/-! ### Allocation of one frame -/

theorem pm_alloc_scan_page (zone : memory_zone) :
    ∀ (n start s : Nat),
      pm_alloc_scan zone PAGE_SIZE 1 PM_ALLOC_ZEROED n start = Except.ok (some s) →
      s < zone.num_pages ∧ (zone.pages.getD s default).ref_count = 0 := by
  intro n
  induction n with
  | zero => intro start s h; simp [pm_alloc_scan] at h
  | succ n ih =>
    intro start s h
    have hf : ¬ (PM_ALLOC_ZEROED &&& PM_ALLOC_ALIGNED ≠ 0
        ∧ IS_ALIGNED (u32 (zone.base + start * PAGE_SIZE)) PAGE_SIZE = false) := by
      intro hc; exact hc.1 (by decide)
    simp only [pm_alloc_scan, if_neg hf, is_contiguously_free, is_contiguously_free_loop,
      Nat.add_zero] at h
    by_cases h1 : start < zone.num_pages
    · simp only [h1, if_true] at h
      by_cases h2 : (zone.pages.getD start default).ref_count = 0
      · simp only [h2, ne_eq, not_true_eq_false, if_false, Except.ok.injEq,
          Option.some.injEq] at h
        subst h
        exact ⟨h1, h2⟩
      · simp only [ne_eq, h2, not_false_eq_true, if_true] at h
        exact ih (start + 1) s h
    · simp [h1] at h

theorem pm_alloc_zones_page (mm : memory) (mmP : memory) (q : Nat) :
    ∀ (zs : List memory_zone) (zi : Nat),
      (∀ j z, zs[j]? = some z → mm.zones[zi + j]? = some z) →
      pm_alloc_zones mm PAGE_SIZE 1 none PM_ALLOC_ZEROED zs zi = Except.ok (mmP, q) →
      q ≠ 0 →
      ∃ zidx z s, mm.zones[zidx]? = some z ∧ z.type = memory_zone_type.MEMORY_ZONE_FREE
        ∧ s < z.num_pages ∧ (z.pages.getD s default).ref_count = 0
        ∧ q = u32 (z.base + s * PAGE_SIZE)
        ∧ mmP = memset_zero
            (page_update mm { zone := zidx, index := s }
              (fun p => { p with ref_count := 1, owner := none })) q PAGE_SIZE := by
  intro zs
  induction zs with
  | nil =>
    intro zi _ h hq
    simp only [pm_alloc_zones, Except.ok.injEq, Prod.mk.injEq] at h
    exact absurd h.2.symm hq
  | cons z rest ih =>
    intro zi hz h hq
    have hrest : ∀ j z1, rest[j]? = some z1 → mm.zones[zi + 1 + j]? = some z1 := by
      intro j z1 hj
      have := hz (j + 1) z1 (by simpa using hj)
      rw [← this]
      congr 1
      omega
    simp only [pm_alloc_zones] at h
    by_cases ht : z.type = memory_zone_type.MEMORY_ZONE_FREE
    · simp only [ht, ne_eq, not_true_eq_false, if_false] at h
      cases hs : pm_alloc_scan z PAGE_SIZE 1 PM_ALLOC_ZEROED z.num_pages 0 with
      | error f => rw [hs] at h; simp at h
      | ok r =>
        rw [hs] at h
        cases r with
        | none => exact ih (zi + 1) hrest h hq
        | some s =>
          simp only [Except.ok.injEq, Prod.mk.injEq] at h
          obtain ⟨hmm, hqe⟩ := h
          obtain ⟨h1, h2⟩ := pm_alloc_scan_page z _ _ s hs
          refine ⟨zi, z, s, by simpa using hz 0 z (by simp), ht, h1, h2, hqe.symm, ?_⟩
          rw [← hmm, hqe]
          simp [pm_alloc_take, PM_ALLOC_ZEROED]
    · simp only [ne_eq, ht, not_false_eq_true, if_true] at h
      exact ih (zi + 1) hrest h hq

theorem align_up_page : ALIGN_UP PAGE_SIZE PAGE_SIZE = PAGE_SIZE := by decide

/-- What a successful `pm_alloc(PAGE_SIZE, NULL, PM_ALLOC_ZEROED)` does: it takes one
free frame of a RAM zone and zeroes it. -/
theorem pm_alloc_page (mm mmP : memory) (q : Nat) (hwf : zones_wf mm.zones = true)
    (h : pm_alloc mm PAGE_SIZE none PM_ALLOC_ZEROED = Except.ok (mmP, q)) (hq : q ≠ 0) :
    ∃ pgq, page_valid mm pgq ∧ (page_deref mm pgq).ref_count = 0
      ∧ (mm.zones.getD pgq.zone default).type = memory_zone_type.MEMORY_ZONE_FREE
      ∧ q ∈ free_frames mm.zones ∧ q < 4294967296
      ∧ mmP = memset_zero
          (page_update mm pgq (fun p => { p with ref_count := 1, owner := none })) q
          PAGE_SIZE := by
  have h0 : pm_alloc mm PAGE_SIZE none PM_ALLOC_ZEROED
      = pm_alloc_zones mm PAGE_SIZE 1 none PM_ALLOC_ZEROED mm.zones 0 := by
    simp only [pm_alloc, align_up_page]
    rfl
  rw [h0] at h
  obtain ⟨zidx, z, s, hz, ht, hs, hrc, hqe, hmm⟩ :=
    pm_alloc_zones_page mm mmP q mm.zones 0 (by intro j z hj; simpa using hj) h hq
  have hlen : zidx < mm.zones.length := by
    by_contra hcon
    rw [List.getElem?_eq_none (Nat.le_of_not_lt hcon)] at hz
    cases hz
  have hmem : z ∈ mm.zones := List.getElem?_mem hz
  have hzl : z.pages.length = z.num_pages := by
    simp only [zones_wf, List.all_eq_true, decide_eq_true_eq] at hwf
    exact hwf z hmem
  have hget : mm.zones.getD zidx default = z := by
    rw [List.getD_eq_getElem?_getD, hz]; rfl
  refine ⟨{ zone := zidx, index := s }, ⟨hlen, ?_⟩, ?_, ?_, ?_, by rw [hqe]; exact u32_lt _,
    hmm⟩
  · simp only [hget, hzl]; exact hs
  · simp only [page_deref, hget]; exact hrc
  · simp only [hget]; exact ht
  · simp only [free_frames, List.mem_flatMap]
    refine ⟨z, hmem, ?_⟩
    simp only [ht, if_true, List.mem_filterMap, List.mem_range]
    exact ⟨s, hs, by rw [if_pos hrc, hqe]⟩

/-! ### Lookups after a map and an unmap -/

theorem pte_lookup_unmap_existing (R : Nat → Nat) (T i1 i0 : Nat)
    (hT : T % 4096 = 0) (hT32 : T < 4294967296) (hi1 : i1 < 1024) (hi0 : i0 < 1024)
    (hself : ∀ j, j < 1024 → R (T + 4 * j) ≠ 0 → PTE_PADDR (R (T + 4 * j)) ≠ T)
    (hl1 : R (T + 4 * i1) ≠ 0)
    (hV : R (PTE_PADDR (R (T + 4 * i1)) + 4 * i0) &&& PTE_V = 0) (v : Nat) :
    pte_lookup (Function.update R (PTE_PADDR (R (T + 4 * i1)) + 4 * i0) 0) T v
      = pte_lookup R T v := by
  have hj1 := PTE_INDEX_lt 1 v
  have hj0 := PTE_INDEX_lt 0 v
  obtain ⟨hLa, hLlt⟩ := PTE_PADDR_aligned (R (T + 4 * i1))
  have hLne := hself i1 hi1 hl1
  have ha1 : u32 (T + 4 * PTE_INDEX 1 v) = T + 4 * PTE_INDEX 1 v := u32_of_lt _ (by omega)
  have hne1 : T + 4 * PTE_INDEX 1 v ≠ PTE_PADDR (R (T + 4 * i1)) + 4 * i0 := by omega
  simp only [pte_lookup, Function.update_apply, ha1, if_neg hne1]
  by_cases h0 : R (T + 4 * PTE_INDEX 1 v) = 0
  · simp [h0]
  · obtain ⟨hMa, hMlt⟩ := PTE_PADDR_aligned (R (T + 4 * PTE_INDEX 1 v))
    have ha2 : u32 (PTE_PADDR (R (T + 4 * PTE_INDEX 1 v)) + 4 * PTE_INDEX 0 v)
        = PTE_PADDR (R (T + 4 * PTE_INDEX 1 v)) + 4 * PTE_INDEX 0 v :=
      u32_of_lt _ (by omega)
    rw [ha2]
    by_cases he : PTE_PADDR (R (T + 4 * PTE_INDEX 1 v)) + 4 * PTE_INDEX 0 v
        = PTE_PADDR (R (T + 4 * i1)) + 4 * i0
    · rw [if_pos he, he]
      simp [hV]
    · rw [if_neg he]

theorem pte_lookup_unmap_fresh (R : Nat → Nat) (T q e1 i1 i0 : Nat)
    (hT : T % 4096 = 0) (hT32 : T < 4294967296) (hi1 : i1 < 1024) (hi0 : i0 < 1024)
    (hq : q % 4096 = 0) (hq32 : q < 4294967296) (hqT : q ≠ T)
    (hl2 : ∀ j, j < 1024 → R (T + 4 * j) ≠ 0 →
      PTE_PADDR (R (T + 4 * j)) ≠ T ∧ PTE_PADDR (R (T + 4 * j)) ≠ q)
    (hl1 : R (T + 4 * i1) = 0) (he1 : e1 ≠ 0) (hp : PTE_PADDR e1 = q) (v : Nat) :
    pte_lookup
      (Function.update
        (Function.update (fun a => if q ≤ a ∧ a < q + PAGE_SIZE then 0 else R a)
          (T + 4 * i1) e1)
        (q + 4 * i0) 0) T v
      = pte_lookup R T v := by
  have hj1 := PTE_INDEX_lt 1 v
  have hj0 := PTE_INDEX_lt 0 v
  have ha1 : u32 (T + 4 * PTE_INDEX 1 v) = T + 4 * PTE_INDEX 1 v := u32_of_lt _ (by omega)
  have hne1 : T + 4 * PTE_INDEX 1 v ≠ q + 4 * i0 := by omega
  have hnm : ¬ (q ≤ T + 4 * PTE_INDEX 1 v ∧ T + 4 * PTE_INDEX 1 v < q + 4096) := by omega
  simp only [pte_lookup, Function.update_apply, ha1, if_neg hne1, PAGE_SIZE, if_neg hnm]
  by_cases hj : PTE_INDEX 1 v = i1
  · have ha2 : u32 (q + 4 * PTE_INDEX 0 v) = q + 4 * PTE_INDEX 0 v := u32_of_lt _ (by omega)
    have hne3 : q + 4 * PTE_INDEX 0 v ≠ T + 4 * i1 := by omega
    have hin : q ≤ q + 4 * PTE_INDEX 0 v ∧ q + 4 * PTE_INDEX 0 v < q + 4096 := by omega
    simp only [hj, if_true, hp, hl1, ha2, if_neg hne3, if_pos hin]
    simp
  · have hne2 : T + 4 * PTE_INDEX 1 v ≠ T + 4 * i1 := by omega
    simp only [if_neg hne2]
    by_cases h0 : R (T + 4 * PTE_INDEX 1 v) = 0
    · simp [h0]
    · obtain ⟨hMa, hMlt⟩ := PTE_PADDR_aligned (R (T + 4 * PTE_INDEX 1 v))
      obtain ⟨hM1, hM2⟩ := hl2 _ hj1 h0
      have ha2 : u32 (PTE_PADDR (R (T + 4 * PTE_INDEX 1 v)) + 4 * PTE_INDEX 0 v)
          = PTE_PADDR (R (T + 4 * PTE_INDEX 1 v)) + 4 * PTE_INDEX 0 v :=
        u32_of_lt _ (by omega)
      have hn1 : PTE_PADDR (R (T + 4 * PTE_INDEX 1 v)) + 4 * PTE_INDEX 0 v ≠ q + 4 * i0 := by
        omega
      have hn2 : PTE_PADDR (R (T + 4 * PTE_INDEX 1 v)) + 4 * PTE_INDEX 0 v ≠ T + 4 * i1 := by
        omega
      have hn3 : ¬ (q ≤ PTE_PADDR (R (T + 4 * PTE_INDEX 1 v)) + 4 * PTE_INDEX 0 v
          ∧ PTE_PADDR (R (T + 4 * PTE_INDEX 1 v)) + 4 * PTE_INDEX 0 v < q + 4096) := by omega
      simp only [ha2, if_neg hn1, if_neg hn2, if_neg hn3]

/-! ### Walks without allocation -/

theorem align_down_page_aligned (v : Nat) :
    IS_ALIGNED (ALIGN_DOWN v PAGE_SIZE) PAGE_SIZE = true := by
  have h1 : UINT_MAX ^^^ u32 (PAGE_SIZE + UINT_MAX) = 0xFFFFF000 := by decide
  have h2 : u32 (PAGE_SIZE + UINT_MAX) = 0xFFF := by decide
  have h3 : (0xFFFFF000 : Nat) &&& 0xFFF = 0 := by decide
  simp only [IS_ALIGNED, ALIGN_DOWN, decide_eq_true_eq]
  rw [h1, h2, Nat.land_assoc, h3]
  simp

theorem walk_no_alloc (mm : memory) (base vaddr : Nat)
    (hv : IS_ALIGNED vaddr PAGE_SIZE = true) :
    walk mm base vaddr false
      = if mm.ram (u32 (base + 4 * PTE_INDEX 1 vaddr)) = 0 then
          Except.ok (mm, ERR_NOT_FOUND, 0)
        else
          Except.ok (mm, OK, u32 (PTE_PADDR (mm.ram (u32 (base + 4 * PTE_INDEX 1 vaddr)))
            + 4 * PTE_INDEX 0 vaddr)) := by
  simp only [walk, ASSERT, hv, if_true]
  split <;> rfl

theorem riscv32_is_mapped_eq (mm : memory) (table v : Nat) (ha : table % 4096 = 0)
    (hlt : table < 4294967296) :
    riscv32_is_mapped mm (satp_of table) v
      = Except.ok (pte_lookup mm.ram table (ALIGN_DOWN v PAGE_SIZE)) := by
  simp only [riscv32_is_mapped, satp_of_table table ha hlt,
    walk_no_alloc mm table _ (align_down_page_aligned v), pte_lookup]
  by_cases h0 : mm.ram (u32 (table + 4 * PTE_INDEX 1 (ALIGN_DOWN v PAGE_SIZE))) = 0
  · simp [h0, ERR_NOT_FOUND, OK]
  · simp [h0]

theorem vm_map_ok_inv (k : kernel) (mm mm1 : memory) (t : task_ptr) (u p a : Nat)
    (h : vm_map k mm t u p a = Except.ok (mm1, OK)) :
    ∃ pg zt mmA, IS_ALIGNED p PAGE_SIZE = true
      ∧ find_page_by_paddr_loop p mm.zones 0 = some (pg, zt)
      ∧ (zt = memory_zone_type.MEMORY_ZONE_FREE → (page_deref mm pg).ref_count ≠ 0)
      ∧ (zt = memory_zone_type.MEMORY_ZONE_MMIO → (page_deref mm pg).ref_count = 0)
      ∧ arch_vm_map mm (mm.table t) u p a = Except.ok (mmA, OK)
      ∧ mm1 = page_update
          (if zt = memory_zone_type.MEMORY_ZONE_MMIO then pages_push_back mmA t pg else mmA)
          pg (fun p => { p with ref_count := u32 (p.ref_count + 1) }) := by
  by_cases hal : IS_ALIGNED p PAGE_SIZE = true
  · simp only [vm_map, find_page_by_paddr_aligned mm p hal] at h
    cases hf : find_page_by_paddr_loop p mm.zones 0 with
    | none => rw [hf] at h; simp [ERR_INVALID_PADDR, OK] at h
    | some r =>
      obtain ⟨pg, zt⟩ := r
      rw [hf] at h
      simp only [] at h
      cases zt with
      | MEMORY_ZONE_FREE =>
        simp only [] at h
        by_cases hrc : (page_deref mm pg).ref_count = 0
        · simp [hrc, ERR_INVALID_PADDR, OK] at h
        · simp only [hrc, if_false] at h
          cases ho : (page_deref mm pg).owner with
          | none => rw [ho] at h; simp at h
          | some o =>
            rw [ho] at h
            simp only [] at h
            by_cases hc : o ≠ t ∧ (deref k o).pager ≠ some t
            · simp [hc, ERR_INVALID_PADDR, OK] at h
            · simp only [hc, if_false] at h
              cases hm : arch_vm_map mm (mm.table t) u p a with
              | error f => rw [hm] at h; simp at h
              | ok r =>
                obtain ⟨mmA, err⟩ := r
                rw [hm] at h
                simp only [] at h
                by_cases he : err = OK
                · subst he
                  simp only [ne_eq, not_true_eq_false, if_false, Except.ok.injEq,
                    Prod.mk.injEq, and_true] at h
                  refine ⟨pg, _, mmA, hal, rfl, fun _ => hrc, (by intro hh; cases hh), rfl, ?_⟩
                  rw [← h]
                · simp [he] at h
      | MEMORY_ZONE_MMIO =>
        simp only [] at h
        by_cases hrc : (page_deref mm pg).ref_count > 0
        · simp [hrc, ERR_INVALID_PADDR, OK] at h
        · simp only [hrc, if_false] at h
          cases hm : arch_vm_map mm (mm.table t) u p a with
          | error f => rw [hm] at h; simp at h
          | ok r =>
            obtain ⟨mmA, err⟩ := r
            rw [hm] at h
            simp only [] at h
            by_cases he : err = OK
            · subst he
              simp only [ne_eq, not_true_eq_false, if_false, Except.ok.injEq,
                Prod.mk.injEq, and_true] at h
              refine ⟨pg, _, mmA, hal, rfl, (by intro hh; cases hh), fun _ => Nat.eq_zero_of_not_pos hrc, rfl, ?_⟩
              rw [← h]
              simp
            · simp [he] at h
  · simp [vm_map, find_page_by_paddr, ASSERT, hal] at h

theorem construct_pte_unaligned (paddr flags : Nat) (ha : paddr % 4096 ≠ 0) :
    construct_pte paddr flags = Except.error fault.assertion := by
  have hm : UINT_MAX ^^^ PTE_PADDR_MASK = 2 ^ 12 - 1 := by decide
  simp only [construct_pte, ASSERT, hm, Nat.and_pow_two_sub_one_eq_mod]
  simp [ha]

theorem arch_vm_map_ok_inv (mm mmA : memory) (T u p a : Nat)
    (h : arch_vm_map mm T u p a = Except.ok (mmA, OK)) :
    IS_ALIGNED u PAGE_SIZE = true ∧ IS_ALIGNED p PAGE_SIZE = true
    ∧ ∃ mmW pte, walk mm T u true = Except.ok (mmW, OK, pte) ∧ pte ≠ 0
      ∧ mmW.ram pte &&& PTE_V = 0
      ∧ mmA = write_pte mmW pte
          (((p >>> 12) <<< 10) ||| (page_attrs_to_pte_flags a ||| PTE_V)) := by
  by_cases hu : IS_ALIGNED u PAGE_SIZE = true
  · by_cases hp : IS_ALIGNED p PAGE_SIZE = true
    · refine ⟨hu, hp, ?_⟩
      simp only [arch_vm_map, ASSERT, hu, hp, if_true, bind, Except.bind, pure, Except.pure] at h
      cases hw : walk mm T u true with
      | error f => rw [hw] at h; simp at h
      | ok r =>
        obtain ⟨mmW, err, pte⟩ := r
        rw [hw] at h
        simp only [] at h
        by_cases he : err = OK
        · subst he
          by_cases hz : pte = 0
          · simp [pure, Except.pure, bind, Except.bind, hz] at h
          · by_cases hV : mmW.ram pte &&& PTE_V = 0
            · rw [construct_pte_ok p _ ((is_aligned_page p).1 hp)] at h
              simp [pure, Except.pure, bind, Except.bind, hz, hV] at h
              exact ⟨mmW, pte, rfl, hz, hV, h.symm⟩
            · simp [pure, Except.pure, bind, Except.bind, hz, hV, ERR_ALREADY_EXISTS, OK] at h
        · simp [pure, Except.pure, bind, Except.bind, he] at h
    · simp [pure, Except.pure, bind, Except.bind, arch_vm_map, ASSERT, hu, hp] at h
  · simp [pure, Except.pure, bind, Except.bind, arch_vm_map, ASSERT, hu] at h

theorem walk_alloc_inv (mm mmW : memory) (T u pte : Nat)
    (h : walk mm T u true = Except.ok (mmW, OK, pte)) :
    (mm.ram (u32 (T + 4 * PTE_INDEX 1 u)) ≠ 0 ∧ mmW = mm
      ∧ pte = u32 (PTE_PADDR (mm.ram (u32 (T + 4 * PTE_INDEX 1 u))) + 4 * PTE_INDEX 0 u))
    ∨ (mm.ram (u32 (T + 4 * PTE_INDEX 1 u)) = 0
      ∧ ∃ mmP q, pm_alloc mm PAGE_SIZE none PM_ALLOC_ZEROED = Except.ok (mmP, q) ∧ q ≠ 0
        ∧ q % 4096 = 0
        ∧ mmW = write_pte mmP (u32 (T + 4 * PTE_INDEX 1 u)) (((q >>> 12) <<< 10) ||| PTE_V)
        ∧ pte = u32 (PTE_PADDR (((q >>> 12) <<< 10) ||| PTE_V) + 4 * PTE_INDEX 0 u)) := by
  by_cases hu : IS_ALIGNED u PAGE_SIZE = true
  · simp only [walk, ASSERT, hu, if_true, bind, Except.bind, pure, Except.pure] at h
    by_cases h0 : mm.ram (u32 (T + 4 * PTE_INDEX 1 u)) = 0
    · right
      refine ⟨h0, ?_⟩
      simp only [h0, if_true] at h
      cases hp : pm_alloc mm PAGE_SIZE none PM_ALLOC_ZEROED with
      | error f => rw [hp] at h; simp at h
      | ok r =>
        obtain ⟨mmP, q⟩ := r
        rw [hp] at h
        simp only [] at h
        by_cases hq : q = 0
        · simp [pure, Except.pure, bind, Except.bind, hq, ERR_NO_MEMORY, OK] at h
        · by_cases hqa : q % 4096 = 0
          · rw [construct_pte_ok q _ hqa] at h
            simp [pure, Except.pure, bind, Except.bind, hq] at h
            refine ⟨mmP, q, rfl, hq, hqa, h.1.symm, ?_⟩
            rw [← h.2]
            simp [pure, Except.pure, bind, Except.bind, write_pte]
          · rw [construct_pte_unaligned q _ hqa] at h
            simp [hq] at h
    · left
      simp [pure, Except.pure, bind, Except.bind, h0] at h
      exact ⟨h0, h.1.symm, h.2.symm⟩
  · simp [pure, Except.pure, bind, Except.bind, walk, ASSERT, hu] at h

theorem mem_l2_tables (mm : memory) (T j : Nat) (hj : j < 1024) (h : mm.ram (T + 4 * j) ≠ 0) :
    PTE_PADDR (mm.ram (T + 4 * j)) ∈ l2_tables mm T := by
  simp only [l2_tables, List.mem_filterMap, List.mem_range]
  exact ⟨j, hj, by rw [if_neg h]⟩

/-- What a successful `arch_vm_map` leaves behind, in terms of the state before it. -/
theorem arch_vm_map_effect (mm mmA : memory) (T u p a : Nat)
    (hwf : zones_wf mm.zones = true) (hT : page_table_wf mm T)
    (hp32 : p < 4294967296)
    (h : arch_vm_map mm T u p a = Except.ok (mmA, OK)) :
    IS_ALIGNED u PAGE_SIZE = true ∧ IS_ALIGNED p PAGE_SIZE = true
    ∧ mmA.table = mm.table ∧ mmA.pages = mm.pages
    ∧ mmA.zones.map zone_shape = mm.zones.map zone_shape
    ∧ zones_wf mmA.zones = true
    ∧ (∀ pg, page_valid mm pg → page_valid mmA pg)
    ∧ (∀ pg, ¬ ((mm.zones.getD pg.zone default).type = memory_zone_type.MEMORY_ZONE_FREE
          ∧ (page_deref mm pg).ref_count = 0) → page_deref mmA pg = page_deref mm pg)
    ∧ ∃ pte, pte ≠ 0
      ∧ u32 (T + 4 * PTE_INDEX 1 u) ≠ pte
      ∧ mmA.ram (u32 (T + 4 * PTE_INDEX 1 u)) ≠ 0
      ∧ u32 (PTE_PADDR (mmA.ram (u32 (T + 4 * PTE_INDEX 1 u))) + 4 * PTE_INDEX 0 u) = pte
      ∧ mmA.ram pte &&& PTE_V ≠ 0
      ∧ PTE_PADDR (mmA.ram pte) = p
      ∧ (∀ v, pte_lookup (Function.update mmA.ram pte 0) T v = pte_lookup mm.ram T v) := by
  obtain ⟨hu, hp, mmW, pte, hw, hpte, hV, hA⟩ := arch_vm_map_ok_inv mm mmA T u p a h
  obtain ⟨hTa, hT32, hTself, hTfree⟩ := hT
  rw [is_aligned_page] at hTa
  have hT32' : T < 4294967296 := by simp only [UINT_MAX] at hT32; omega
  have hpa := (is_aligned_page p).1 hp
  have hi1 := PTE_INDEX_lt 1 u
  have hi0 := PTE_INDEX_lt 0 u
  have hl1 : u32 (T + 4 * PTE_INDEX 1 u) = T + 4 * PTE_INDEX 1 u := u32_of_lt _ (by omega)
  have hfl := page_attrs_to_pte_flags_lt a
  have hself : ∀ j, j < 1024 → mm.ram (T + 4 * j) ≠ 0 → PTE_PADDR (mm.ram (T + 4 * j)) ≠ T := by
    intro j hj hne he
    have hm := mem_l2_tables mm T j hj hne
    rw [he] at hm
    exact hTself hm
  refine ⟨hu, hp, ?_⟩
  rcases walk_alloc_inv mm mmW T u pte hw with ⟨hne, hmm, hpe⟩ | ⟨h0, mmP, q, hal, hq, hqa, hmm, hpe⟩
  · -- the second-level table exists
    subst hmm
    rw [hl1] at hne hpe
    obtain ⟨hLa, hLlt⟩ := PTE_PADDR_aligned (mmW.ram (T + 4 * PTE_INDEX 1 u))
    have hLne := hself _ hi1 hne
    have hpe2 : pte = PTE_PADDR (mmW.ram (T + 4 * PTE_INDEX 1 u)) + 4 * PTE_INDEX 0 u := by
      rw [hpe]; exact u32_of_lt _ (by omega)
    have hne1 : T + 4 * PTE_INDEX 1 u ≠ pte := by omega
    subst hA
    refine ⟨rfl, rfl, rfl, hwf, fun pg hv => hv, fun pg _ => rfl, pte, hpte,
      by rw [hl1]; exact hne1, ?_, ?_, ?_, ?_, ?_⟩
    · rw [hl1]; simp only [write_pte, Function.update_apply, if_neg hne1]; exact hne
    · rw [hl1]; simp only [write_pte, Function.update_apply, if_neg hne1]; exact hpe.symm
    · simp only [write_pte, Function.update_apply, if_true]
      exact pte_valid_construct p _
    · simp only [write_pte, Function.update_apply, if_true]
      exact pte_paddr_construct p _ hpa hp32 hfl
    · intro v
      simp only [write_pte, Function.update_idem]
      rw [hpe2]
      exact pte_lookup_unmap_existing mmW.ram T _ _ hTa hT32' hi1 hi0 hself hne
        (by rw [← hpe2]; exact hV) v
  · -- a second-level table is allocated
    rw [hl1] at h0 hmm
    obtain ⟨pgq, hvq, hrcq, htq, hqfree, hq32, hmmP⟩ := pm_alloc_page mm mmP q hwf hal hq
    obtain ⟨hqT, hql2⟩ := hTfree q hqfree
    have hpq : PTE_PADDR (((q >>> 12) <<< 10) ||| PTE_V) = q :=
      pte_paddr_construct q PTE_V hqa hq32 (by decide)
    have hpe2 : pte = q + 4 * PTE_INDEX 0 u := by
      rw [hpe, hpq]; exact u32_of_lt _ (by omega)
    have hne1 : T + 4 * PTE_INDEX 1 u ≠ pte := by omega
    have hl2 : ∀ j, j < 1024 → mm.ram (T + 4 * j) ≠ 0 →
        PTE_PADDR (mm.ram (T + 4 * j)) ≠ T ∧ PTE_PADDR (mm.ram (T + 4 * j)) ≠ q := by
      intro j hj hne
      refine ⟨hself j hj hne, fun he => ?_⟩
      have hm := mem_l2_tables mm T j hj hne
      rw [he] at hm
      exact hql2 hm
    subst hA
    subst hmm
    subst hmmP
    refine ⟨rfl, rfl,
      page_update_zones_shape mm pgq (fun p => { p with ref_count := 1, owner := none }),
      zones_wf_page_update mm pgq (fun p => { p with ref_count := 1, owner := none }) hwf,
      fun pg hv => page_valid_page_update mm pgq pg
        (fun p => { p with ref_count := 1, owner := none }) hv,
      ?_, pte, hpte, by rw [hl1]; exact hne1, ?_, ?_, ?_, ?_, ?_⟩
    · intro pg hpg
      have hne : pg ≠ pgq := by
        intro he; subst he; exact hpg ⟨htq, hrcq⟩
      have := page_deref_page_update mm pgq pg
        (fun p => { p with ref_count := 1, owner := none }) hvq
      rw [if_neg hne] at this
      exact this
    · rw [hl1]
      simp only [write_pte, Function.update_apply, if_neg hne1, if_true]
      exact pte_construct_ne_zero q
    · rw [hl1]
      simp only [write_pte, Function.update_apply, if_neg hne1, if_true]
      exact hpe.symm
    · simp only [write_pte, Function.update_apply, if_true]
      exact pte_valid_construct p _
    · simp only [write_pte, Function.update_apply, if_true]
      exact pte_paddr_construct p _ hpa hp32 hfl
    · intro v
      simp only [write_pte, Function.update_idem, memset_zero]
      rw [hpe2]
      exact pte_lookup_unmap_fresh mm.ram T q _ _ _ hTa hT32' hi1 hi0 hqa hq32 hqT hl2 h0
        (pte_construct_ne_zero q) hpq v

theorem find_page_by_paddr_loop_lt (paddr : Nat) :
    ∀ (zs : List memory_zone) (zi : Nat) (r : page_ptr × memory_zone_type),
      find_page_by_paddr_loop paddr zs zi = some r → paddr < 4294967296 := by
  intro zs
  induction zs with
  | nil => intro zi r h; simp [find_page_by_paddr_loop] at h
  | cons z rest ih =>
    intro zi r h
    simp only [find_page_by_paddr_loop] at h
    split at h
    · rename_i hc
      exact lt_trans hc.2 (u32_lt _)
    · exact ih (zi + 1) r h

theorem find_page_by_paddr_loop_type (mm : memory) (paddr : Nat) (pg : page_ptr)
    (ty : memory_zone_type) (h : find_page_by_paddr_loop paddr mm.zones 0 = some (pg, ty)) :
    (mm.zones.getD pg.zone default).type = ty := by
  obtain ⟨z, hz, _, hty, _⟩ := find_page_by_paddr_loop_spec paddr mm.zones 0 pg ty h
  simp only [Nat.sub_zero] at hz
  rw [List.getD_eq_getElem?_getD, hz]
  exact hty

/-- `pm_free` of one frame with a positive count. -/
theorem pm_free_page (mm : memory) (p : Nat) (pg : page_ptr) (ty : memory_zone_type)
    (hp : p % 4096 = 0) (hp32 : p < 4294967296)
    (hfind : find_page_by_paddr_loop p mm.zones 0 = some (pg, ty))
    (hv : page_valid mm pg) (hrc : 0 < (page_deref mm pg).ref_count) :
    pm_free mm p PAGE_SIZE = Except.ok (free_page_result mm pg) := by
  have hs : IS_ALIGNED PAGE_SIZE PAGE_SIZE = true := by decide
  have hn : (PAGE_SIZE + PAGE_SIZE - 1) / PAGE_SIZE = 1 := by decide
  have hu : u32 (p + 0) = p := u32_of_lt _ (by omega)
  have hal : IS_ALIGNED p PAGE_SIZE = true := (is_aligned_page p).2 hp
  simp only [pm_free, ASSERT, hs, if_true, hn, bind, Except.bind, pm_free_loop, hu,
    find_page_by_paddr_aligned mm p hal, hfind, free_page_ok mm pg hv hrc]

theorem align_down_of_aligned (u : Nat) (ha : u % 4096 = 0) (h32 : u < 4294967296) :
    ALIGN_DOWN u PAGE_SIZE = u := by
  have h1 : UINT_MAX ^^^ u32 (PAGE_SIZE + UINT_MAX) = 0xFFFFF000 := by decide
  simp only [ALIGN_DOWN]
  rw [h1]
  apply Nat.eq_of_testBit_eq
  intro i
  rw [Nat.testBit_and]
  by_cases hb : u.testBit i = true
  · have hi : 12 ≤ i ∧ i < 32 := by
      constructor
      · by_contra hlt
        have : u.testBit i = false := by
          have hmod : u % 2 ^ 12 = 0 := by simpa using ha
          have := Nat.testBit_mod_two_pow u 12 i
          rw [hmod] at this
          simp at this
          exact this (by omega)
        rw [this] at hb; cases hb
      · by_contra hge
        have : u.testBit i = false := Nat.testBit_lt_two_pow (lt_of_lt_of_le h32 (by
          have : (2:Nat) ^ 32 ≤ 2 ^ i := Nat.pow_le_pow_right (by decide) (by omega)
          simpa using this))
        rw [this] at hb; cases hb
    rw [hb, Bool.true_and]
    obtain ⟨h12, h32i⟩ := hi
    interval_cases i <;> decide
  · simp only [Bool.not_eq_true] at hb
    rw [hb, Bool.false_and]

theorem pte_lookup_mapped (R : Nat → Nat) (T u pte : Nat)
    (h1 : R (u32 (T + 4 * PTE_INDEX 1 u)) ≠ 0)
    (h2 : u32 (PTE_PADDR (R (u32 (T + 4 * PTE_INDEX 1 u))) + 4 * PTE_INDEX 0 u) = pte)
    (h3 : pte ≠ 0) (h4 : R pte &&& PTE_V ≠ 0) : pte_lookup R T u = true := by
  simp only [pte_lookup, h2, decide_eq_true_eq]
  exact ⟨h1, h3, h4⟩

/-- C16: in a well-formed memory state (zones with full `pages` arrays; the page table
of `t` page-aligned, not its own second-level table, and not in free frames; a frame
with `ref_count` 0 linked in no page list; no count at `UINT_MAX`), when `vm_map` of
the frame at `p` at the mappable address `u` of task `t` returns `OK`, then `u` was
not mapped before and is mapped after it, the count of the frame is one higher, and
the following `vm_unmap(t, u)` returns `OK` with the page structure of the frame
(count and owner) as before the `vm_map`, every page list as before, and
`riscv32_is_mapped` on the page table of `t` giving the same answer as before the
`vm_map` at every virtual address. -/
theorem vm_map_unmap_round_trip (k : kernel) (mm mm1 : memory) (t : task_ptr) (u p a : Nat)
    (hwf : zones_wf mm.zones = true)
    (hT : page_table_wf mm (mm.table t))
    (hlinked : ∀ pg zt, find_page_by_paddr_loop p mm.zones 0 = some (pg, zt) →
      (page_deref mm pg).ref_count = 0 → ∀ t1, pg ∉ mm.pages t1)
    (hcount : ∀ pg zt, find_page_by_paddr_loop p mm.zones 0 = some (pg, zt) →
      (page_deref mm pg).ref_count < UINT_MAX)
    (hu : arch_is_mappable_uaddr u = true)
    (hmap : vm_map k mm t u p a = Except.ok (mm1, OK)) :
    ∃ mm2, vm_unmap mm1 t u = Except.ok (mm2, OK)
      ∧ (∃ pg zt, find_page_by_paddr_loop p mm.zones 0 = some (pg, zt)
          ∧ (page_deref mm1 pg).ref_count = (page_deref mm pg).ref_count + 1
          ∧ page_deref mm2 pg = page_deref mm pg)
      ∧ mm2.pages = mm.pages
      ∧ mm2.table = mm.table
      ∧ riscv32_is_mapped mm (satp_of (mm.table t)) u = Except.ok false
      ∧ riscv32_is_mapped mm1 (satp_of (mm.table t)) u = Except.ok true
      ∧ ∀ v, riscv32_is_mapped mm2 (satp_of (mm.table t)) v
          = riscv32_is_mapped mm (satp_of (mm.table t)) v := by
  obtain ⟨pg, zt, mmA, hpal, hfind, hfree, hmmio, harch, hmm1⟩ :=
    vm_map_ok_inv k mm mm1 t u p a hmap
  have hp32 := find_page_by_paddr_loop_lt p mm.zones 0 _ hfind
  have hpa := (is_aligned_page p).1 hpal
  have hTa : mm.table t % 4096 = 0 := (is_aligned_page _).1 hT.1
  have hT32 : mm.table t < 4294967296 := by
    have := hT.2.1; simp only [UINT_MAX] at this; omega
  obtain ⟨hual, _, htab, hpages, hshape, hwfA, hvalid, hderef, pte, hpte, hne, hl1, hpe, hV, hpp,
    hlook⟩ := arch_vm_map_effect mm mmA (mm.table t) u p a hwf hT hp32 harch
  have hua := (is_aligned_page u).1 hual
  have hu32 : u < 4294967296 := by
    simp only [arch_is_mappable_uaddr, KERNEL_BASE, decide_eq_true_eq] at hu; omega
  have hv : page_valid mm pg := find_page_by_paddr_loop_valid mm p pg zt hwf hfind
  have hty := find_page_by_paddr_loop_type mm p pg zt hfind
  have hnotfree : ¬ ((mm.zones.getD pg.zone default).type = memory_zone_type.MEMORY_ZONE_FREE
      ∧ (page_deref mm pg).ref_count = 0) := by
    rintro ⟨h1, h2⟩
    rw [hty] at h1
    exact hfree h1 h2
  have hdA : page_deref mmA pg = page_deref mm pg := hderef pg hnotfree
  have hvA : page_valid mmA pg := hvalid pg hv
  have hc := hcount pg zt hfind
  have hinc : u32 ((page_deref mm pg).ref_count + 1) = (page_deref mm pg).ref_count + 1 :=
    u32_of_lt _ (by simp only [UINT_MAX] at hc; omega)
  -- the state between the two calls
  let mmB := if zt = memory_zone_type.MEMORY_ZONE_MMIO then pages_push_back mmA t pg else mmA
  have hmm1B : mm1 = page_update mmB pg (fun p => { p with ref_count := u32 (p.ref_count + 1) }) :=
    hmm1
  have hzB : mmB.zones = mmA.zones := by
    simp only [mmB]; split <;> rfl
  have hrB : mmB.ram = mmA.ram := by
    simp only [mmB]; split <;> rfl
  have htB : mmB.table = mmA.table := by
    simp only [mmB]; split <;> rfl
  have hvB : page_valid mmB pg := by
    simp only [page_valid, hzB]; exact hvA
  have hdB : page_deref mmB pg = page_deref mm pg := by
    rw [← hdA]; simp only [page_deref, hzB]
  have hd1 : page_deref mm1 pg
      = { page_deref mm pg with ref_count := (page_deref mm pg).ref_count + 1 } := by
    rw [hmm1B, page_deref_page_update mmB pg pg _ hvB, if_pos rfl, hdB, hinc]
  have hr1 : mm1.ram = mmA.ram := by rw [hmm1B]; exact hrB
  have ht1 : mm1.table = mm.table := by rw [hmm1B, ← htab]; exact htB
  have hp1 : mm1.pages = mmB.pages := by rw [hmm1B]; rfl
  have hs1 : mm1.zones.map zone_shape = mm.zones.map zone_shape := by
    rw [hmm1B, page_update_zones_shape, hzB, hshape]
  have hv1 : page_valid mm1 pg := by
    rw [hmm1B]; exact page_valid_page_update mmB pg pg _ hvB
  -- the unmap
  let mm2 := write_pte mm1 pte 0
  have hfind2 : find_page_by_paddr_loop p mm2.zones 0 = some (pg, zt) := by
    rw [find_page_by_paddr_loop_shape p mm.zones mm2.zones 0 hs1]; exact hfind
  have hv2 : page_valid mm2 pg := hv1
  have hd2 : page_deref mm2 pg = page_deref mm1 pg := rfl
  have hfree2 := pm_free_page mm2 p pg zt hpa hp32 hfind2 hv2 (by rw [hd2, hd1]; simp)
  have hunmap : vm_unmap mm1 t u = Except.ok (free_page_result mm2 pg, OK) := by
    have hw := walk_no_alloc mm1 (mm.table t) u hual
    rw [hr1, if_neg hl1, hpe] at hw
    have hc2 : ¬ (pte = 0 ∨ mm1.ram pte &&& PTE_V = 0) := by
      rw [hr1]; rintro (h | h)
      · exact hpte h
      · exact hV h
    have hpp1 : PTE_PADDR (mm1.ram pte) = p := by rw [hr1]; exact hpp
    simp only [vm_unmap, hu, ht1, arch_vm_unmap, hw, if_neg hc2, hpp1]
    simp only [mm2] at hfree2
    simp [hfree2]
  refine ⟨free_page_result mm2 pg, hunmap, ⟨pg, zt, hfind, by rw [hd1], ?_⟩, ?_, ?_, ?_, ?_, ?_⟩
  · rw [free_page_result_deref mm2 pg pg hv2, if_pos rfl, hd2, hd1]
    simp
  · funext t1
    rw [free_page_result_pages, hd2, hd1]
    show (if (page_deref mm pg).ref_count + 1 = 1 then (mm1.pages t1).erase pg
      else mm1.pages t1) = mm.pages t1
    rw [hp1]
    cases zt with
    | MEMORY_ZONE_FREE =>
      have h0 := hfree rfl
      rw [if_neg (by omega)]
      simp only [mmB]
      rw [if_neg (by decide), hpages]
    | MEMORY_ZONE_MMIO =>
      have h0 := hmmio rfl
      have hnl := hlinked pg _ hfind h0
      rw [if_pos (by omega)]
      simp only [mmB, if_true, pages_push_back, hpages]
      by_cases ht : t1 = t
      · subst ht
        rw [Function.update_same, List.erase_append_right _ (hnl t1)]
        simp
      · rw [Function.update_noteq ht, List.erase_of_not_mem (hnl t1)]
  · rw [(free_page_result_ram mm2 pg).2]; exact ht1
  · rw [riscv32_is_mapped_eq mm _ u hTa hT32, align_down_of_aligned u hua hu32, ← hlook u]
    simp only [pte_lookup, Function.update_apply, if_neg hne, hpe, if_true]
    simp
  · rw [riscv32_is_mapped_eq mm1 _ u hTa hT32, align_down_of_aligned u hua hu32, hr1,
      pte_lookup_mapped mmA.ram _ u pte hl1 hpe hpte hV]
  · intro v
    rw [riscv32_is_mapped_eq _ _ v hTa hT32, riscv32_is_mapped_eq _ _ v hTa hT32,
      (free_page_result_ram mm2 pg).1]
    show Except.ok (pte_lookup (Function.update mm1.ram pte 0) _ _) = _
    rw [hr1, hlook]

theorem boot_memory_l2_tables (T : Nat) : l2_tables boot_memory T = [] := by
  simp [l2_tables, boot_memory]

theorem boot_memory_page_table_wf : page_table_wf boot_memory (boot_memory.table (task_ptr.slot 0)) := by
  refine ⟨by decide, by decide, ?_, ?_⟩
  · rw [boot_memory_l2_tables]; simp
  · rw [boot_memory_l2_tables]
    have : ∀ q ∈ free_frames boot_memory.zones, q ≠ boot_memory.table (task_ptr.slot 0) := by
      decide
    intro q hq
    exact ⟨this q hq, by simp⟩

/-- Task 1 maps the frame of task 2 (which it pages) at `0x10000` and unmaps it
again. -/
theorem vm_map_unmap_round_trip_witness :
    ∃ mm2, vm_unmap mapped_memory (task_ptr.slot 0) 0x10000 = Except.ok (mm2, OK)
      ∧ (∃ pg zt, find_page_by_paddr_loop 0x80202000 boot_memory.zones 0 = some (pg, zt)
          ∧ (page_deref mapped_memory pg).ref_count = (page_deref boot_memory pg).ref_count + 1
          ∧ page_deref mm2 pg = page_deref boot_memory pg)
      ∧ mm2.pages = boot_memory.pages
      ∧ mm2.table = boot_memory.table
      ∧ riscv32_is_mapped boot_memory (satp_of (boot_memory.table (task_ptr.slot 0))) 0x10000
          = Except.ok false
      ∧ riscv32_is_mapped mapped_memory (satp_of (boot_memory.table (task_ptr.slot 0))) 0x10000
          = Except.ok true
      ∧ ∀ v, riscv32_is_mapped mm2 (satp_of (boot_memory.table (task_ptr.slot 0))) v
          = riscv32_is_mapped boot_memory (satp_of (boot_memory.table (task_ptr.slot 0))) v :=
  vm_map_unmap_round_trip handoff_state boot_memory mapped_memory (task_ptr.slot 0) 0x10000
    0x80202000 PAGE_READABLE (by decide) boot_memory_page_table_wf
    (by
      intro pg zt h hrc
      have hf : find_page_by_paddr_loop 0x80202000 boot_memory.zones 0
          = some ({ zone := 0, index := 2 }, memory_zone_type.MEMORY_ZONE_FREE) := by decide
      rw [hf] at h
      simp only [Option.some.injEq, Prod.mk.injEq] at h
      rw [← h.1] at hrc
      exact absurd hrc (by decide))
    (by
      intro pg zt h
      have hf : find_page_by_paddr_loop 0x80202000 boot_memory.zones 0
          = some ({ zone := 0, index := 2 }, memory_zone_type.MEMORY_ZONE_FREE) := by decide
      rw [hf] at h
      simp only [Option.some.injEq, Prod.mk.injEq] at h
      rw [← h.1]
      decide)
    (by decide) rfl

/-! ## What the flawed functions do guarantee -/

/-- A frame of an MMIO zone that is mapped cannot be mapped again. -/
theorem vm_map_mmio_busy (k : kernel) (mm : memory) (task : task_ptr) (uaddr paddr attrs : Nat)
    (pg : page_ptr) (haligned : IS_ALIGNED paddr PAGE_SIZE = true)
    (hfind : find_page_by_paddr_loop paddr mm.zones 0
      = some (pg, memory_zone_type.MEMORY_ZONE_MMIO))
    (hrc : 0 < (page_deref mm pg).ref_count) :
    vm_map k mm task uaddr paddr attrs = Except.ok (mm, ERR_INVALID_PADDR) := by
  simp [vm_map, find_page_by_paddr_aligned mm paddr haligned, hfind, hrc]

theorem pm_alloc_scan_aligned (zone : memory_zone) (aligned_size num_pages flags : Nat)
    (hflag : flags &&& PM_ALLOC_ALIGNED ≠ 0) :
    ∀ (n start s : Nat),
      pm_alloc_scan zone aligned_size num_pages flags n start = Except.ok (some s) →
      IS_ALIGNED (u32 (zone.base + s * PAGE_SIZE)) aligned_size = true := by
  intro n
  induction n with
  | zero => intro start s h; simp [pm_alloc_scan] at h
  | succ n ih =>
    intro start s h
    simp only [pm_alloc_scan] at h
    by_cases ha : IS_ALIGNED (u32 (zone.base + start * PAGE_SIZE)) aligned_size = true
    · have hc : ¬ (flags &&& PM_ALLOC_ALIGNED ≠ 0
          ∧ IS_ALIGNED (u32 (zone.base + start * PAGE_SIZE)) aligned_size = false) := by
        rw [ha]; simp
      rw [if_neg hc] at h
      cases hf : is_contiguously_free zone start num_pages with
      | error f => rw [hf] at h; simp at h
      | ok b =>
        rw [hf] at h
        cases b with
        | true =>
          simp only [Except.ok.injEq, Option.some.injEq] at h
          rw [← h]; exact ha
        | false => exact ih (start + 1) s h
    · have hc : flags &&& PM_ALLOC_ALIGNED ≠ 0
          ∧ IS_ALIGNED (u32 (zone.base + start * PAGE_SIZE)) aligned_size = false :=
        ⟨hflag, by simpa using ha⟩
      rw [if_pos hc] at h
      exact ih (start + 1) s h

theorem pm_alloc_zones_aligned (mm : memory) (aligned_size num_pages : Nat)
    (owner : Option task_ptr) (flags : Nat) (hflag : flags &&& PM_ALLOC_ALIGNED ≠ 0) :
    ∀ (zs : List memory_zone) (zi : Nat) (mm1 : memory) (paddr : Nat),
      pm_alloc_zones mm aligned_size num_pages owner flags zs zi = Except.ok (mm1, paddr) →
      IS_ALIGNED paddr aligned_size = true := by
  intro zs
  induction zs with
  | nil =>
    intro zi mm1 paddr h
    simp only [pm_alloc_zones, Except.ok.injEq, Prod.mk.injEq] at h
    rw [← h.2]
    simp [IS_ALIGNED]
  | cons z rest ih =>
    intro zi mm1 paddr h
    simp only [pm_alloc_zones] at h
    by_cases ht : z.type = memory_zone_type.MEMORY_ZONE_FREE
    · simp only [ht, ne_eq, not_true_eq_false, if_false] at h
      cases hs : pm_alloc_scan z aligned_size num_pages flags z.num_pages 0 with
      | error f => rw [hs] at h; simp at h
      | ok r =>
        rw [hs] at h
        cases r with
        | none => exact ih (zi + 1) mm1 paddr h
        | some s =>
          simp only [Except.ok.injEq, Prod.mk.injEq] at h
          rw [← h.2]
          exact pm_alloc_scan_aligned z aligned_size num_pages flags hflag _ _ s hs
    · simp only [ne_eq, ht, not_false_eq_true, if_true] at h
      exact ih (zi + 1) mm1 paddr h

/-- What the flag Aligned does guarantee: the address returned passes the mask test of
`IS_ALIGNED` against the rounded-up size, which is divisibility when that size is a
power of two. -/
theorem pm_alloc_aligned_mask (mm mm1 : memory) (size : Nat) (owner : Option task_ptr)
    (flags paddr : Nat) (hflag : flags &&& PM_ALLOC_ALIGNED ≠ 0)
    (h : pm_alloc mm size owner flags = Except.ok (mm1, paddr)) :
    IS_ALIGNED paddr (ALIGN_UP size PAGE_SIZE) = true
    ∧ ∀ j, j < 32 → ALIGN_UP size PAGE_SIZE = 2 ^ j → paddr % ALIGN_UP size PAGE_SIZE = 0 := by
  have h1 := pm_alloc_zones_aligned mm _ _ owner flags hflag mm.zones 0 mm1 paddr h
  refine ⟨h1, ?_⟩
  intro j hj he
  rw [he] at h1 ⊢
  have hpow : (2:Nat) ^ j < 2 ^ 32 := Nat.pow_lt_pow_right (by decide) hj
  have hpos : 0 < (2:Nat) ^ j := Nat.pos_pow_of_pos j (by decide)
  have hm : u32 (2 ^ j + UINT_MAX) = 2 ^ j - 1 := by
    simp only [u32_eq, UINT_MAX]
    have : (2:Nat) ^ 32 = 4294967296 := by decide
    omega
  simp only [IS_ALIGNED, hm, Nat.and_pow_two_sub_one_eq_mod, decide_eq_true_eq] at h1
  exact h1

/-- What `sys_serial_write` does get right: up to 512 bytes at a mappable address are
written once, in order. -/
theorem sys_serial_write_short (umem : Nat → Nat) (kbuf : List Nat) (buf len : Nat)
    (hlen : len ≤ 512) (hbuf : arch_is_mappable_uaddr buf = true) :
    sys_serial_write umem kbuf buf len
      = some ((len : Int), (List.range len).map (fun i => umem (buf + i))) := by
  have hmin : min len 4096 = len := by omega
  simp only [sys_serial_write, hmin]
  cases len with
  | zero => simp [sys_serial_write_loop]
  | succ n =>
    have hmin2 : min (n + 1) 512 = n + 1 := by omega
    simp only [sys_serial_write_loop, Nat.succ_pos, if_true, hmin2, memcpy_bytes_from_user,
      hbuf, Nat.sub_self]
    cases n with
    | zero => simp [sys_serial_write_loop]
    | succ m =>
      simp only [sys_serial_write_loop, lt_self_iff_false, if_false]
      simp

/-! ## Teardown, copies and stale state at the failing inputs -/

set_option maxRecDepth 100000 in
/-- C25: task 2 has its frame `0x80202000` mapped twice, at `0x10000` (entry 16 of the
second-level table) and at `0x200000` (entry 512 of the same table); before the
teardown the counts of frames 0 to 4 of the RAM zone are 1, 1, 3, 1, 0 (frame 1 the
first-level table of task 2, frame 3 its second-level table).  `arch_vm_destroy`
returns with the counts 1, 0, 2, 1, 0: the first-level table is freed and the mapping
at entry 16 is released, but the mapping at entry 512 is not (the inner loop stops at
`j < 512` of 1024 entries) and the second-level table keeps its count of 1 (no
`pm_free` is ever applied to it). -/
theorem arch_vm_destroy_leaks :
    (List.range 5).map (fun i => (page_deref teardown_memory { zone := 0, index := i }).ref_count)
      = [1, 1, 3, 1, 0]
    ∧ teardown_memory.table (task_ptr.slot 1) = 0x80201000
    ∧ PTE_INDEX 0 0x200000 = 512
    ∧ teardown_memory.ram (0x80203000 + 4 * 512) &&& (PTE_V ||| PTE_U) = PTE_V ||| PTE_U
    ∧ (value_of (arch_vm_destroy teardown_memory (teardown_memory.table (task_ptr.slot 1)))).map
        (fun m => (List.range 5).map
          (fun i => (page_deref m { zone := 0, index := i }).ref_count))
      = some [1, 0, 2, 1, 0] := by
  decide

/-- C26: with `dst > src` the second branch of `memmove` starts at `dst + len` and
`src + len` and post-decrements: four bytes moved from `0x1000` to `0x2000` leave the
byte at `0x2000` as it was, store the bytes of `0x1001 .. 0x1004` at `0x2001 .. 0x2004`,
and so change the byte at `0x2004`, outside `[dst, dst + len)`; the same with
overlapping ranges (`0x1000` to `0x1001`). -/
theorem memmove_down_off_by_one :
    (value_of (memmove pattern_umem 0x2000 0x1000 4)).map
        (fun m => (List.range 5).map (fun i => m (0x2000 + i)))
      = some [pattern_umem 0x2000, pattern_umem 0x1001, pattern_umem 0x1002,
              pattern_umem 0x1003, pattern_umem 0x1004]
    ∧ pattern_umem 0x2000 ≠ pattern_umem 0x1000
    ∧ pattern_umem 0x1004 ≠ pattern_umem 0x2004
    ∧ (value_of (memmove pattern_umem 0x1001 0x1000 4)).map
        (fun m => (List.range 5).map (fun i => m (0x1001 + i)))
      = some [pattern_umem 0x1001, pattern_umem 0x1001, pattern_umem 0x1002,
              pattern_umem 0x1003, pattern_umem 0x1004]
    ∧ pattern_umem 0x1001 ≠ pattern_umem 0x1000
    ∧ pattern_umem 0x1004 ≠ pattern_umem 0x1005 := by
  decide

theorem memcpy_loop_spec :
    ∀ (n d s : Nat) (mem : Nat → Nat), d ≤ s → s + n ≤ 4294967296 →
      (∀ i, i < n → memcpy_loop n d s mem (d + i) = mem (s + i))
      ∧ (∀ a, a < d ∨ d + n ≤ a → memcpy_loop n d s mem a = mem a) := by
  intro n
  induction n with
  | zero =>
    intro d s mem _ _
    exact ⟨fun i hi => by omega, fun a _ => rfl⟩
  | succ n ih =>
    intro d s mem hds hs
    by_cases hn : n = 0
    · subst hn
      simp only [memcpy_loop]
      constructor
      · intro i hi
        have hi0 : i = 0 := by omega
        subst hi0
        simp
      · intro a ha
        exact Function.update_noteq (by omega) _ _
    · have hd1 : u32 (d + 1) = d + 1 := u32_of_lt _ (by omega)
      have hs1 : u32 (s + 1) = s + 1 := u32_of_lt _ (by omega)
      obtain ⟨h1, h2⟩ :=
        ih (d + 1) (s + 1) (Function.update mem d (mem s)) (by omega) (by omega)
      simp only [memcpy_loop, hd1, hs1]
      constructor
      · intro i hi
        cases i with
        | zero =>
          show memcpy_loop n (d + 1) (s + 1) (Function.update mem d (mem s)) d = mem s
          rw [h2 d (Or.inl (by omega)), Function.update_same]
        | succ j =>
          have e1 : d + (j + 1) = d + 1 + j := by omega
          have e2 : s + (j + 1) = s + 1 + j := by omega
          rw [e1, h1 j (by omega), e2, Function.update_noteq (by omega)]
      · intro a ha
        rw [h2 a (by omega), Function.update_noteq (by omega)]

/-- What `memmove` does get right: with `dst ≤ src` (the `memcpy` branch) the `len`
bytes at `dst` are the `len` bytes that were at `src`, overlapping or not, and no
other byte changes. -/
theorem memmove_up (mem : Nat → Nat) (dst src len : Nat) (hlen : len < 256 * 1024 * 1024)
    (hle : dst ≤ src) (hsrc : src + len ≤ 4294967296) :
    ∃ mem1, memmove mem dst src len = Except.ok mem1
      ∧ (∀ i, i < len → mem1 (dst + i) = mem (src + i))
      ∧ (∀ a, a < dst ∨ dst + len ≤ a → mem1 a = mem a) := by
  refine ⟨memcpy_loop len dst src mem, ?_, memcpy_loop_spec len dst src mem hle hsrc⟩
  simp [memmove, memcpy, ASSERT, hlen, hle, bind, Except.bind, pure, Except.pure]

/-- C27: in a RAM zone of four frames, all free, a request for five pages does not
fail with 0: `pm_alloc` evaluates `is_contiguously_free(zone, 0, 5)`, a start index
with `start + n > num_pages`, and that reads `zone->pages[4]`, past the four frame
records of the zone. -/
theorem pm_alloc_leaves_zone :
    (free_zone_memory.zones.map (fun z => (z.num_pages, z.pages.length))) = [(4, 4)]
    ∧ ALIGN_UP 0x5000 PAGE_SIZE / PAGE_SIZE = 5
    ∧ fault_of (is_contiguously_free (free_zone_memory.zones.getD 0 default) 0 5)
        = some fault.out_of_bounds
    ∧ fault_of (pm_alloc free_zone_memory 0x5000 none PM_ALLOC_UNINITIALIZED)
        = some fault.out_of_bounds
    ∧ (value_of (pm_alloc free_zone_memory 0x5000 none PM_ALLOC_UNINITIALIZED)).map Prod.snd
        = none := by
  decide

theorem vm_map_null_owner (k : kernel) (mm : memory) (task : task_ptr)
    (uaddr paddr attrs : Nat) (pg : page_ptr) (haligned : IS_ALIGNED paddr PAGE_SIZE = true)
    (hfind : find_page_by_paddr_loop paddr mm.zones 0
      = some (pg, memory_zone_type.MEMORY_ZONE_FREE))
    (hrc : (page_deref mm pg).ref_count ≠ 0) (howner : (page_deref mm pg).owner = none) :
    vm_map k mm task uaddr paddr attrs = Except.error fault.null_pointer := by
  simp [vm_map, find_page_by_paddr_aligned mm paddr haligned, hfind, hrc, howner]

/-- C28: frame 0 of the RAM zone (`0x80200000`) is the page table of task 1, allocated
by the kernel: `ref_count` 1, owner null.  `vm_map` of that frame by task 1, directly
or through `sys_vm_map`, does not return `ERR_INVALID_PADDR`: the test
`page->owner != task && page->owner->pager != task` reads `pager` through the null
owner. -/
theorem vm_map_kernel_frame_null_deref :
    find_page_by_paddr_loop 0x80200000 boot_memory.zones 0
      = some ({ zone := 0, index := 0 }, memory_zone_type.MEMORY_ZONE_FREE)
    ∧ page_deref boot_memory { zone := 0, index := 0 } = { owner := none, ref_count := 1 }
    ∧ fault_of (vm_map handoff_state boot_memory (task_ptr.slot 0) 0x10000 0x80200000
        (PAGE_READABLE ||| PAGE_USER)) = some fault.null_pointer
    ∧ fault_of (sys_vm_map handoff_state boot_memory 1 0x10000 0x80200000 PAGE_READABLE)
        = some fault.null_pointer
    ∧ (value_of (sys_vm_map handoff_state boot_memory 1 0x10000 0x80200000
        PAGE_READABLE)).map Prod.snd = none := by
  decide

/-- C29: task 2 is blocked with `NOTIFY_TIMER` pending when its pager destroys it;
the next `task_create` returns tid 2 for the same slot, with `wait_for = IPC_DENY` and
`timeout = 0` but with `NOTIFY_TIMER` still pending (neither `task_destroy` nor
`init_task_struct` writes `notifications`), and the first open receive of the new
task returns a `NOTIFY_MSG` with that bit. -/
theorem task_create_inherits_notifications :
    (deref exited_state (task_ptr.slot 1)).notifications = NOTIFY_TIMER
    ∧ (task_destroy exited_state (task_ptr.slot 1)).map Prod.snd = some OK
    ∧ (deref destroyed_state (task_ptr.slot 1)).state = TASK_UNUSED
    ∧ (task_create destroyed_state "new" 0x10000 (some (task_ptr.slot 0)) true true).2 = 2
    ∧ (deref reborn_state (task_ptr.slot 1)).wait_for = IPC_DENY
    ∧ (deref reborn_state (task_ptr.slot 1)).timeout = 0
    ∧ (deref reborn_state (task_ptr.slot 1)).notifications = NOTIFY_TIMER
    ∧ CURRENT_TASK (task_switch reborn_state)
        = task_ptr.slot 1
    ∧ (recv_message (task_switch reborn_state)
        IPC_ANY 0x1000 IPC_RECV).2.1 = outcome.ret OK
    ∧ (recv_message (task_switch reborn_state)
        IPC_ANY 0x1000 IPC_RECV).2.2
      = some { type := NOTIFY_MSG, src := FROM_KERNEL,
               body := payload.notify NOTIFY_TIMER } := by
  decide

/-- Neither `init_task_struct` nor anything else in `task_create` writes the
`notifications` field of the slot it initialises. -/
theorem task_create_notifications (k : kernel) (name : String) (ip : Nat)
    (pager : Option task_ptr) (vm_ok stack_ok : Bool) (i : Nat)
    (halloc : alloc_tid k = (i : Int) + 1) :
    (deref (task_create k name ip pager vm_ok stack_ok).1 (task_ptr.slot i)).notifications
      = (deref k (task_ptr.slot i)).notifications := by
  have h0 : alloc_tid k ≠ 0 := by rw [halloc]; omega
  have hi : (alloc_tid k - 1).toNat = i := by rw [halloc]; simp
  simp only [task_create, h0, if_false, hi, init_task_struct]
  cases vm_ok <;> cases stack_ok <;> cases pager <;>
    simp [deref_task_resume, deref_update, OK, ERR_NO_MEMORY] <;>
    (repeat' split) <;> rfl

/-- C30: task 2 listens to IRQ 5 and is then destroyed by task 1: `task_destroy`
returns `OK` and the slot is unused, but entry 5 of the listener table still points to
it (`task_destroy` does not touch the table).  A later interrupt 5 raises `NOTIFY_IRQ`
on the unused slot; a task created afterwards in that slot (tid 2 again) has the bit
pending, and gets it on every interrupt 5, without having called `irq_listen`; and
`irq_listen(5)` by task 1 fails with `ERR_ALREADY_USED`. -/
theorem task_destroy_keeps_irq_listener :
    (irq_listen no_listeners (CURRENT_TASK driver_state) 5 OK).2 = OK
    ∧ driver_listeners.getD 5 none = some (task_ptr.slot 1)
    ∧ CURRENT_TASK (task_switch driver_state) = task_ptr.slot 0
    ∧ (task_destroy (task_switch driver_state) (task_ptr.slot 1)).map Prod.snd = some OK
    ∧ (deref driver_destroyed_state (task_ptr.slot 1)).state = TASK_UNUSED
    ∧ (deref (handle_interrupt driver_destroyed_state driver_listeners 5)
        (task_ptr.slot 1)).notifications = NOTIFY_IRQ
    ∧ (task_create driver_destroyed_state "new" 0x10000 (some (task_ptr.slot 0)) true true).2
        = 2
    ∧ (deref (handle_interrupt
          (task_create driver_destroyed_state "new" 0x10000 (some (task_ptr.slot 0))
            true true).1 driver_listeners 5) (task_ptr.slot 1)).notifications = NOTIFY_IRQ
    ∧ (irq_listen driver_listeners (task_ptr.slot 0) 5 OK).2 = ERR_ALREADY_USED := by
  decide

/-! ## The scheduler step -/

theorem scheduler_eq (k : kernel) :
    scheduler k
      = ({ k with runqueue := k.runqueue.tail },
         k.runqueue.head?.getD
           (if (deref k (CURRENT_TASK k)).state = TASK_RUNNABLE
               ∧ (deref k (CURRENT_TASK k)).destroyed = false then CURRENT_TASK k
            else IDLE_TASK k)) := by
  unfold scheduler
  cases h : k.runqueue with
  | nil =>
    have hk : { k with runqueue := ([] : List task_ptr).tail } = k := by
      cases k; simp at h; simp [h]
    simp only [hk, List.head?_nil, Option.getD_none]
    split <;> rfl
  | cons a l => simp

theorem runnable_valid (k : kernel) (p : task_ptr) (h : (deref k p).state = TASK_RUNNABLE) :
    valid k p := by
  by_contra hv
  have : deref k p = default := by
    cases p <;> simp only [valid, not_lt] at hv <;>
      simp [deref, List.getD_eq_getElem?_getD, List.getElem?_eq_none hv]
  rw [this] at h
  exact absurd h (by decide)

theorem next_task_eq (k : kernel) :
    next_task k = k.runqueue.head?.getD
      (if (deref k (CURRENT_TASK k)).state = TASK_RUNNABLE
          ∧ (deref k (CURRENT_TASK k)).destroyed = false then CURRENT_TASK k
       else IDLE_TASK k) := by
  rw [next_task, scheduler_eq]

theorem scheduler_next (k : kernel) :
    scheduler k = ({ k with runqueue := k.runqueue.tail }, next_task k) := by
  rw [next_task_eq]; exact scheduler_eq k

@[simp] theorem set_current_task_runqueue (k : kernel) (n : task_ptr) :
    (set_current_task k n).runqueue = k.runqueue := rfl

@[simp] theorem set_current_task_hart (k : kernel) (n : task_ptr) :
    (set_current_task k n).hart = k.hart := rfl

@[simp] theorem set_current_task_active_tasks (k : kernel) (n : task_ptr) :
    (set_current_task k n).active_tasks = k.active_tasks := rfl

theorem task_switch_form (k : kernel) :
    ∃ k2 : kernel, k2.runqueue = k.runqueue.tail ∧ k2.cpuvars = k.cpuvars ∧ k2.hart = k.hart
      ∧ k2.active_tasks = k.active_tasks ∧ k2.tasks.length = k.tasks.length
      ∧ (∀ p, deref k2 p = if p = next_task k ∧ next_task k ≠ IDLE_TASK k ∧ valid k (next_task k)
            then { deref k p with quantum := TASK_QUANTUM } else deref k p)
      ∧ task_switch k
        = if next_task k = CURRENT_TASK k then k2
          else set_current_task
            (if (deref k (CURRENT_TASK k)).state = TASK_RUNNABLE then
              { k2 with runqueue := list_push_back k2.runqueue (CURRENT_TASK k) } else k2)
            (next_task k) := by
  have hst : ∀ (k2 : kernel) (p : task_ptr),
      (deref k2 p = if p = next_task k ∧ next_task k ≠ IDLE_TASK k ∧ valid k (next_task k)
            then { deref k p with quantum := TASK_QUANTUM } else deref k p) →
      (deref k2 p).state = (deref k p).state := by
    intro k2 p h
    rw [h]; split <;> rfl
  by_cases h : next_task k ≠ IDLE_TASK k
  · refine ⟨update { k with runqueue := k.runqueue.tail } (next_task k)
        (fun t => { t with quantum := TASK_QUANTUM }), by simp, by simp, by simp, by simp,
        by cases next_task k <;> simp [update], ?_, ?_⟩
    · intro p
      rw [deref_update, deref_set_runqueue]
      have hv : valid { k with runqueue := k.runqueue.tail } (next_task k) ↔ valid k (next_task k) := by
        cases next_task k <;> rfl
      simp only [hv, h, ne_eq, not_false_eq_true, true_and]
    · have hd := hst (update { k with runqueue := k.runqueue.tail } (next_task k)
        (fun t => { t with quantum := TASK_QUANTUM })) (CURRENT_TASK k) (by
          rw [deref_update, deref_set_runqueue]
          have hv : valid { k with runqueue := k.runqueue.tail } (next_task k) ↔ valid k (next_task k) := by
            cases next_task k <;> rfl
          simp only [hv, h, ne_eq, not_false_eq_true, true_and])
      simp only [task_switch, scheduler_next]
      have hi : IDLE_TASK { k with runqueue := k.runqueue.tail } = IDLE_TASK k := rfl
      rw [hi, if_pos h, hd]
  · refine ⟨{ k with runqueue := k.runqueue.tail }, rfl, rfl, rfl, rfl, rfl, ?_, ?_⟩
    · intro p
      rw [deref_set_runqueue]
      simp [h]
    · simp only [task_switch, scheduler_next]
      have hi : IDLE_TASK { k with runqueue := k.runqueue.tail } = IDLE_TASK k := rfl
      rw [hi, if_neg h, deref_set_runqueue]

theorem task_switch_runqueue (k : kernel) :
    (task_switch k).runqueue
      = k.runqueue.tail ++ (if next_task k ≠ CURRENT_TASK k
            ∧ (deref k (CURRENT_TASK k)).state = TASK_RUNNABLE then [CURRENT_TASK k] else []) := by
  obtain ⟨k2, hrq, -, -, -, -, -, h⟩ := task_switch_form k
  rw [h]
  by_cases h1 : next_task k = CURRENT_TASK k
  · simp [h1, hrq]
  · by_cases h2 : (deref k (CURRENT_TASK k)).state = TASK_RUNNABLE
    · simp [h1, h2, hrq, list_push_back]
    · simp [h1, h2, hrq]

theorem task_switch_cpuvars (k : kernel) :
    (task_switch k).cpuvars
      = if next_task k = CURRENT_TASK k then k.cpuvars
        else k.cpuvars.set k.hart { CPUVAR k with current_task := next_task k } := by
  obtain ⟨k2, -, hcv, hh, -, -, -, h⟩ := task_switch_form k
  rw [h]
  by_cases h1 : next_task k = CURRENT_TASK k
  · simp [h1, hcv]
  · by_cases h2 : (deref k (CURRENT_TASK k)).state = TASK_RUNNABLE
    · simp [h1, h2, set_current_task, hcv, hh, CPUVAR]
    · simp [h1, h2, set_current_task, hcv, hh, CPUVAR]

@[simp] theorem task_switch_hart (k : kernel) : (task_switch k).hart = k.hart := by
  obtain ⟨k2, -, -, hh, -, -, -, h⟩ := task_switch_form k
  rw [h]
  split
  · exact hh
  · split <;> simp [hh]

@[simp] theorem task_switch_active_tasks (k : kernel) :
    (task_switch k).active_tasks = k.active_tasks := by
  obtain ⟨k2, -, -, -, ha, -, -, h⟩ := task_switch_form k
  rw [h]
  split
  · exact ha
  · split <;> simp [ha]

@[simp] theorem task_switch_tasks_length (k : kernel) :
    (task_switch k).tasks.length = k.tasks.length := by
  obtain ⟨k2, -, -, -, -, hl, -, h⟩ := task_switch_form k
  rw [h]
  split
  · exact hl
  · split <;> simp [set_current_task, hl]

theorem task_switch_deref_eq (k : kernel) (p : task_ptr) :
    deref (task_switch k) p
      = if p = next_task k ∧ next_task k ≠ IDLE_TASK k ∧ valid k (next_task k)
        then { deref k p with quantum := TASK_QUANTUM } else deref k p := by
  obtain ⟨k2, -, -, -, -, -, hd, h⟩ := task_switch_form k
  rw [h, ← hd]
  split
  · rfl
  · rw [deref_set_current_task]
    split
    · rw [deref_set_runqueue]
    · rfl

theorem CURRENT_TASK_task_switch (k : kernel) (hhart : k.hart < k.cpuvars.length) :
    CURRENT_TASK (task_switch k) = next_task k := by
  simp only [CURRENT_TASK, CPUVAR, task_switch_hart, task_switch_cpuvars]
  split
  · rename_i h; rw [h]
  · simp [List.getD_eq_getElem?_getD, hhart]

/-- C24: `scheduler` returns the head of the run queue when there is one and pops it,
else the running task when it is runnable and not being destroyed, else the idle task
of the CPU.  After `task_switch` that task is the current one; the run queue is the old
one without its head, with the outgoing task appended exactly when it differs from the
selected one and is runnable; a selected task other than the idle task has
`quantum = TASK_QUANTUM`; and an idle task that was not on the run queue is not on it
afterwards.  The state is one in which the queued tasks exist and no idle task is
runnable. -/
theorem task_switch_step (k : kernel) (hhart : k.hart < k.cpuvars.length)
    (hrq : ∀ p ∈ k.runqueue, valid k p)
    (hidle : ∀ c, (deref k (task_ptr.idle c)).state ≠ TASK_RUNNABLE) :
    (scheduler k).2 = k.runqueue.head?.getD
        (if (deref k (CURRENT_TASK k)).state = TASK_RUNNABLE
            ∧ (deref k (CURRENT_TASK k)).destroyed = false then CURRENT_TASK k
         else IDLE_TASK k)
    ∧ (scheduler k).1.runqueue = k.runqueue.tail
    ∧ CURRENT_TASK (task_switch k) = (scheduler k).2
    ∧ (task_switch k).runqueue
        = k.runqueue.tail ++ (if (scheduler k).2 ≠ CURRENT_TASK k
            ∧ (deref k (CURRENT_TASK k)).state = TASK_RUNNABLE then [CURRENT_TASK k] else [])
    ∧ ((scheduler k).2 ≠ IDLE_TASK k →
        (deref (task_switch k) (scheduler k).2).quantum = TASK_QUANTUM)
    ∧ (∀ c, task_ptr.idle c ∉ k.runqueue → task_ptr.idle c ∉ (task_switch k).runqueue) := by
  refine ⟨next_task_eq k, by rw [scheduler_eq], CURRENT_TASK_task_switch k hhart,
    task_switch_runqueue k, ?_, ?_⟩
  · intro hne
    have hne2 : next_task k ≠ IDLE_TASK k := hne
    have hv : valid k (next_task k) := by
      rw [next_task_eq] at hne2 ⊢
      cases hq : k.runqueue with
      | cons a l =>
        simp only [List.head?_cons, Option.getD_some]
        exact hrq a (by rw [hq]; exact List.mem_cons_self _ _)
      | nil =>
        rw [hq] at hne2
        simp only [List.head?_nil, Option.getD_none] at hne2 ⊢
        split
        · rename_i h; exact runnable_valid k _ h.1
        · rename_i h; rw [if_neg h] at hne2; exact absurd rfl hne2
    show (deref (task_switch k) (next_task k)).quantum = TASK_QUANTUM
    rw [task_switch_deref_eq, if_pos ⟨rfl, hne2, hv⟩]
  · intro c hc
    rw [task_switch_runqueue]
    intro hmem
    rcases List.mem_append.1 hmem with h | h
    · exact hc (List.mem_of_mem_tail h)
    · split at h
      · rename_i hh
        rw [List.mem_singleton] at h
        rw [← h] at hh
        exact hidle c hh.2
      · cases h

theorem mk_kernel_idle_state (used : List task) (rq : List task_ptr) (current : task_ptr)
    (c : Nat) : (deref (mk_kernel used rq current) (task_ptr.idle c)).state ≠ TASK_RUNNABLE := by
  simp only [deref, mk_kernel, List.getD_eq_getElem?_getD]
  by_cases h : c < NUM_CPUS_MAX
  · rw [List.getElem?_replicate, if_pos h]; decide
  · rw [List.getElem?_eq_none (by simpa using h)]; decide

theorem task_switch_step_witness :
    CURRENT_TASK (task_switch abort_state) = task_ptr.slot 1
    ∧ (task_switch abort_state).runqueue = [task_ptr.slot 0]
    ∧ (deref (task_switch abort_state) (task_ptr.slot 1)).quantum = TASK_QUANTUM :=
  have h := task_switch_step abort_state (by decide) (by decide)
    (mk_kernel_idle_state _ _ _)
  ⟨h.2.2.1.trans (by decide), h.2.2.2.1.trans (by decide),
    (by decide : (scheduler abort_state).2 = task_ptr.slot 1) ▸
      h.2.2.2.2.1 (by decide)⟩

/-! ## The scheduling invariant -/

theorem in_use_of_state (k : kernel) (p : task_ptr) (h : (deref k p).state ≠ TASK_UNUSED) :
    valid k p := by
  by_contra hv
  have : deref k p = default := by
    cases p <;> simp only [valid, not_lt] at hv <;>
      simp [deref, List.getD_eq_getElem?_getD, List.getElem?_eq_none hv]
  rw [this] at h
  exact h rfl

theorem is_current_congr (k k2 : kernel) (p : task_ptr) (hcv : k2.cpuvars = k.cpuvars) :
    is_current k2 p ↔ is_current k p := by
  simp [is_current, current_of, hcv]

/-- A state with the same CPUs, run queue and task states satisfies the invariant as
soon as its idle tasks and sender queues do. -/
theorem kernel_inv_of_view (r : Bool) (k k2 : kernel) (h : kernel_inv r k)
    (hlen : k2.tasks.length = k.tasks.length) (hcv : k2.cpuvars = k.cpuvars)
    (hh : k2.hart = k.hart) (hrq : k2.runqueue = k.runqueue)
    (hst : ∀ p, (deref k2 p).state = (deref k p).state)
    (hwf : ∀ c, (deref k2 (task_ptr.idle c)).state = TASK_BLOCKED →
      (deref k2 (task_ptr.idle c)).wait_for ≠ IPC_ANY)
    (hss : ∀ p s, s ∈ (deref k2 p).senders → ∃ i, s = task_ptr.slot i)
    (hnm : ∀ x y, x ∈ (deref k2 y).senders → y ∉ (deref k2 x).senders) :
    kernel_inv r k2 where
  tasks_len := by rw [hlen]; exact h.tasks_len
  hart_lt := by rw [hh, hcv]; exact h.hart_lt
  idle_ptr := by rw [hcv]; exact h.idle_ptr
  idle_state := fun c => ⟨by rw [hst]; exact (h.idle_state c).1, hwf c⟩
  rq_nodup := by rw [hrq]; exact h.rq_nodup
  rq_runnable := fun p hp => by rw [hst]; exact h.rq_runnable p (by rwa [hrq] at hp)
  cur_ok := by
    intro c hc
    have e : current_of k2 c = current_of k c := by simp [current_of, hcv]
    rw [e, hst, hrq, hh]
    exact h.cur_ok c (by rwa [hcv] at hc)
  cur_inj := by
    intro c c2 hc hc2
    simp only [current_of, hcv]
    exact h.cur_inj c c2 (by rwa [hcv] at hc) (by rwa [hcv] at hc2)
  runnable_placed := by
    intro p hp
    rw [hst] at hp
    rw [hrq, is_current_congr k k2 p hcv]
    exact h.runnable_placed p hp
  senders_slot := hss
  no_mutual := hnm

/-- Sender queues that only lose entries keep their two properties. -/
theorem senders_of_le (r : Bool) (k k2 : kernel) (h : kernel_inv r k)
    (hs : ∀ p s, s ∈ (deref k2 p).senders → s ∈ (deref k p).senders) :
    (∀ p s, s ∈ (deref k2 p).senders → ∃ i, s = task_ptr.slot i)
    ∧ (∀ x y, x ∈ (deref k2 y).senders → y ∉ (deref k2 x).senders) :=
  ⟨fun p s hm => h.senders_slot p s (hs p s hm),
   fun x y hx hy => h.no_mutual x y (hs y x hx) (hs x y hy)⟩

theorem kernel_inv_of_same (r : Bool) (k k2 : kernel) (h : kernel_inv r k)
    (hlen : k2.tasks.length = k.tasks.length) (hcv : k2.cpuvars = k.cpuvars)
    (hh : k2.hart = k.hart) (hrq : k2.runqueue = k.runqueue)
    (hst : ∀ p, (deref k2 p).state = (deref k p).state)
    (hwf : ∀ c, (deref k2 (task_ptr.idle c)).state = TASK_BLOCKED →
      (deref k2 (task_ptr.idle c)).wait_for ≠ IPC_ANY)
    (hs : ∀ p s, s ∈ (deref k2 p).senders → s ∈ (deref k p).senders) :
    kernel_inv r k2 :=
  kernel_inv_of_view r k k2 h hlen hcv hh hrq hst hwf
    (senders_of_le r k k2 h hs).1 (senders_of_le r k k2 h hs).2

@[simp] theorem update_tasks_length (k : kernel) (p : task_ptr) (f : task → task) :
    (update k p f).tasks.length = k.tasks.length := by
  cases p <;> simp [update]

/-- A write that keeps the state of the task and adds no sender keeps the invariant;
the `wait_for` of an idle task must stay other than `IPC_ANY`. -/
theorem kernel_inv_update (r : Bool) (k : kernel) (p : task_ptr) (f : task → task)
    (h : kernel_inv r k)
    (hst : (f (deref k p)).state = (deref k p).state)
    (hwf : (∃ i, p = task_ptr.slot i)
      ∨ ((f (deref k p)).state = TASK_BLOCKED → (f (deref k p)).wait_for ≠ IPC_ANY))
    (hs : ∀ s, s ∈ (f (deref k p)).senders → s ∈ (deref k p).senders) :
    kernel_inv r (update k p f) := by
  refine kernel_inv_of_same r k _ h (by simp) (by simp) (by simp) (by simp) ?_ ?_ ?_
  · intro q
    rw [deref_update]
    split
    · rename_i hq; rw [hq.1]; exact hst
    · rfl
  · intro c
    rw [deref_update]
    by_cases hq : task_ptr.idle c = p ∧ valid k p
    · rw [if_pos hq]
      rcases hwf with ⟨i, hi⟩ | hwf
      · rw [hi] at hq; exact absurd hq.1 (by simp)
      · rw [hq.1]; exact hwf
    · rw [if_neg hq]; exact (h.idle_state c).2
  · intro q s
    rw [deref_update]
    split
    · rename_i hq; rw [hq.1]; exact hs s
    · exact id

theorem not_current_of_not_runnable (r : Bool) (k : kernel) (i : Nat) (h : kernel_inv r k)
    (hne : task_ptr.slot i ≠ CURRENT_TASK k)
    (hb : (deref k (task_ptr.slot i)).state ≠ TASK_RUNNABLE) :
    ¬ is_current k (task_ptr.slot i) := by
  rintro ⟨c, hc, hcur⟩
  rcases h.cur_ok c hc with hi | ⟨hr, -⟩
  · rw [hcur] at hi; cases hi
  · rcases hr with ⟨-, hch⟩ | hr
    · apply hne
      rw [← hcur, hch]; rfl
    · rw [hcur] at hr; exact hb hr

theorem not_current_of_blocked (k : kernel) (i : Nat) (h : kernel_inv false k)
    (hb : (deref k (task_ptr.slot i)).state ≠ TASK_RUNNABLE) :
    ¬ is_current k (task_ptr.slot i) := by
  rintro ⟨c, hc, hcur⟩
  rcases h.cur_ok c hc with hi | ⟨hr, -⟩
  · rw [hcur] at hi; cases hi
  · rcases hr with ⟨hf, -⟩ | hr
    · cases hf
    · rw [hcur] at hr; exact hb hr

/-- `task_resume` of a blocked task keeps the invariant. -/
theorem kernel_inv_task_resume (k : kernel) (i : Nat) (h : kernel_inv false k)
    (hb : (deref k (task_ptr.slot i)).state = TASK_BLOCKED) :
    kernel_inv false (task_resume k (task_ptr.slot i)) := by
  have hnr : (deref k (task_ptr.slot i)).state ≠ TASK_RUNNABLE := by rw [hb]; decide
  have hv : valid k (task_ptr.slot i) := in_use_of_state k _ (by rw [hb]; decide)
  have hnq : task_ptr.slot i ∉ k.runqueue := fun hm => hnr (h.rq_runnable _ hm)
  have hnc : ¬ is_current k (task_ptr.slot i) := not_current_of_blocked k i h hnr
  have hd : ∀ q, deref (task_resume k (task_ptr.slot i)) q
      = if q = task_ptr.slot i then { deref k q with state := TASK_RUNNABLE } else deref k q := by
    intro q
    rw [deref_task_resume, deref_update]
    simp only [hv, and_true]
  have hst : ∀ q, q ≠ task_ptr.slot i →
      (deref (task_resume k (task_ptr.slot i)) q).state = (deref k q).state := by
    intro q hq; rw [hd, if_neg hq]
  have hsd : ∀ q, (deref (task_resume k (task_ptr.slot i)) q).senders = (deref k q).senders := by
    intro q; rw [hd]; split <;> rfl
  have hwf : ∀ q, (deref (task_resume k (task_ptr.slot i)) q).wait_for = (deref k q).wait_for := by
    intro q; rw [hd]; split <;> rfl
  have hlen : (task_resume k (task_ptr.slot i)).tasks.length = k.tasks.length := by
    simp [task_resume]
  have hcur : ∀ c, current_of (task_resume k (task_ptr.slot i)) c = current_of k c := by
    intro c; simp [current_of]
  refine
    { tasks_len := by rw [hlen]; exact h.tasks_len
      hart_lt := by simpa using h.hart_lt
      idle_ptr := by simpa using h.idle_ptr
      idle_state := fun c => ⟨by rw [hst _ (by simp)]; exact (h.idle_state c).1,
        by rw [hwf, hst _ (by simp)]; exact (h.idle_state c).2⟩
      rq_nodup := ?_
      rq_runnable := ?_
      cur_ok := ?_
      cur_inj := ?_
      runnable_placed := ?_
      senders_slot := fun p s hm => h.senders_slot p s (by rwa [hsd] at hm)
      no_mutual := fun x y hx hy => h.no_mutual x y (by rwa [hsd] at hx) (by rwa [hsd] at hy) }
  · rw [task_resume_runqueue]
    exact List.Nodup.append h.rq_nodup (List.nodup_singleton _)
      (by
        intro a ha hb2
        rw [List.mem_singleton] at hb2
        exact hnq (hb2 ▸ ha))
  · intro p hp
    rw [task_resume_runqueue, List.mem_append, List.mem_singleton] at hp
    rw [hd]
    split
    · rfl
    · rename_i hne
      rcases hp with hp | hp
      · exact h.rq_runnable p hp
      · exact absurd hp hne
  · intro c hc
    rw [task_resume_cpuvars] at hc
    rw [hcur]
    rcases h.cur_ok c hc with hi | ⟨hr, hq⟩
    · exact Or.inl hi
    · right
      have hne : current_of k c ≠ task_ptr.slot i := fun e => hnc ⟨c, hc, e⟩
      refine ⟨?_, ?_⟩
      · rcases hr with hf | hr
        · exact Or.inl ⟨hf.1, by simpa using hf.2⟩
        · right; rw [hst _ hne]; exact hr
      · rw [task_resume_runqueue, List.mem_append, List.mem_singleton]
        rintro (hm | hm)
        · exact hq hm
        · exact hne hm
  · intro c c2 hc hc2
    rw [task_resume_cpuvars] at hc hc2
    rw [hcur, hcur]
    exact h.cur_inj c c2 hc hc2
  · intro p hp
    rw [task_resume_runqueue, List.mem_append, List.mem_singleton]
    by_cases hpe : p = task_ptr.slot i
    · exact Or.inl (Or.inr hpe)
    · rw [hst _ hpe] at hp
      rcases h.runnable_placed p hp with hm | hm
      · exact Or.inl (Or.inl hm)
      · exact Or.inr ((is_current_congr k _ p (by simp)).2 hm)

theorem CURRENT_TASK_eq_current_of (k : kernel) : CURRENT_TASK k = current_of k k.hart := rfl

theorem IDLE_TASK_eq (r : Bool) (k : kernel) (h : kernel_inv r k) :
    IDLE_TASK k = task_ptr.idle k.hart := h.idle_ptr k.hart h.hart_lt

theorem current_not_queued (r : Bool) (k : kernel) (h : kernel_inv r k) :
    CURRENT_TASK k ∉ k.runqueue := by
  intro hm
  rcases h.cur_ok k.hart h.hart_lt with hi | ⟨-, hq⟩
  · have := h.rq_runnable _ hm
    rw [CURRENT_TASK_eq_current_of, hi] at this
    exact (h.idle_state k.hart).1 this
  · exact hq hm

/-- `task_block(CURRENT_TASK)` leads to the relaxed invariant. -/
theorem kernel_inv_task_block (k : kernel) (h : kernel_inv false k)
    (hslot : ∃ j, CURRENT_TASK k = task_ptr.slot j) :
    kernel_inv true (task_block k (CURRENT_TASK k)) := by
  have hidle : ∀ c, task_ptr.idle c ≠ CURRENT_TASK k := by
    intro c e
    obtain ⟨j, hj⟩ := hslot
    rw [hj] at e; cases e
  have hd : ∀ q, deref (task_block k (CURRENT_TASK k)) q
      = if q = CURRENT_TASK k ∧ valid k (CURRENT_TASK k)
        then { deref k q with state := TASK_BLOCKED } else deref k q := by
    intro q; rw [task_block, deref_update]
  have hst : ∀ q, q ≠ CURRENT_TASK k →
      (deref (task_block k (CURRENT_TASK k)) q).state = (deref k q).state := by
    intro q hq; rw [hd, if_neg (fun hh => hq hh.1)]
  have hst2 : ∀ q, (deref (task_block k (CURRENT_TASK k)) q).state = TASK_RUNNABLE →
      (deref k q).state = TASK_RUNNABLE ∧ q ≠ CURRENT_TASK k := by
    intro q hq
    rw [hd] at hq
    split at hq
    · exact absurd hq (by show TASK_BLOCKED ≠ TASK_RUNNABLE; decide)
    · rename_i hne
      refine ⟨hq, fun e => hne ⟨e, ?_⟩⟩
      rw [← e]; exact runnable_valid k q hq
  have hsd : ∀ q, (deref (task_block k (CURRENT_TASK k)) q).senders = (deref k q).senders := by
    intro q; rw [hd]; split <;> rfl
  have hwf : ∀ q, (deref (task_block k (CURRENT_TASK k)) q).wait_for = (deref k q).wait_for := by
    intro q; rw [hd]; split <;> rfl
  have hcur : ∀ c, current_of (task_block k (CURRENT_TASK k)) c = current_of k c := by
    intro c; simp [current_of, task_block]
  have hrq : (task_block k (CURRENT_TASK k)).runqueue = k.runqueue := by simp [task_block]
  have hcv : (task_block k (CURRENT_TASK k)).cpuvars = k.cpuvars := by simp [task_block]
  have hh : (task_block k (CURRENT_TASK k)).hart = k.hart := by simp [task_block]
  refine
    { tasks_len := by rw [task_block, update_tasks_length]; exact h.tasks_len
      hart_lt := by rw [hh, hcv]; exact h.hart_lt
      idle_ptr := by rw [hcv]; exact h.idle_ptr
      idle_state := fun c => ⟨fun hr => (h.idle_state c).1 (hst2 _ hr).1,
        by rw [hwf, hst _ (hidle c)]; exact (h.idle_state c).2⟩
      rq_nodup := by rw [hrq]; exact h.rq_nodup
      rq_runnable := ?_
      cur_ok := ?_
      cur_inj := ?_
      runnable_placed := ?_
      senders_slot := fun p s hm => h.senders_slot p s (by rwa [hsd] at hm)
      no_mutual := fun x y hx hy => h.no_mutual x y (by rwa [hsd] at hx) (by rwa [hsd] at hy) }
  · intro p hp
    rw [hrq] at hp
    rw [hst p (fun e => current_not_queued false k h (e ▸ hp))]
    exact h.rq_runnable p hp
  · intro c hc
    rw [hcv] at hc
    rw [hcur, hrq, hh]
    rcases h.cur_ok c hc with hi | ⟨hr, hq⟩
    · exact Or.inl hi
    · right
      refine ⟨?_, hq⟩
      by_cases hch : c = k.hart
      · exact Or.inl ⟨rfl, hch⟩
      · right
        rcases hr with hf | hr
        · exact absurd hf.1 (by simp)
        · rw [hst _ (fun e => hch (h.cur_inj c k.hart hc h.hart_lt e))]
          exact hr
  · intro c c2 hc hc2
    rw [hcv] at hc hc2
    rw [hcur, hcur]
    exact h.cur_inj c c2 hc hc2
  · intro p hp
    rw [hrq, is_current_congr k _ p hcv]
    exact h.runnable_placed p (hst2 p hp).1

theorem current_of_task_switch (k : kernel) (hhart : k.hart < k.cpuvars.length) (c : Nat) :
    current_of (task_switch k) c = if c = k.hart then next_task k else current_of k c := by
  simp only [current_of, task_switch_cpuvars]
  by_cases hn : next_task k = CURRENT_TASK k
  · rw [if_pos hn]
    split
    · rename_i hc; rw [hc, hn]; rfl
    · rfl
  · rw [if_neg hn]
    by_cases hc : c = k.hart
    · subst hc
      simp [List.getD_eq_getElem?_getD, hhart]
    · have hc2 : k.hart ≠ c := fun e => hc e.symm
      simp [List.getD_eq_getElem?_getD, List.getElem?_set_ne hc2, hc]

theorem idle_task_task_switch (k : kernel) (c : Nat) :
    ((task_switch k).cpuvars.getD c default).idle_task = (k.cpuvars.getD c default).idle_task := by
  simp only [task_switch_cpuvars]
  split
  · rfl
  · by_cases hc : c = k.hart
    · subst hc
      by_cases hl : k.hart < k.cpuvars.length
      · simp [List.getD_eq_getElem?_getD, hl, CPUVAR]
      · simp [List.getD_eq_getElem?_getD, List.set_eq_of_length_le (not_lt.1 hl)]
    · have hc2 : k.hart ≠ c := fun e => hc e.symm
      simp [List.getD_eq_getElem?_getD, List.getElem?_set_ne hc2]

theorem cpuvars_length_task_switch (k : kernel) :
    (task_switch k).cpuvars.length = k.cpuvars.length := by
  simp only [task_switch_cpuvars]
  split <;> simp

theorem idle_not_queued (r : Bool) (k : kernel) (h : kernel_inv r k) (c : Nat) :
    task_ptr.idle c ∉ k.runqueue :=
  fun hm => (h.idle_state c).1 (h.rq_runnable _ hm)

theorem queued_not_current (r : Bool) (k : kernel) (h : kernel_inv r k) (p : task_ptr)
    (hp : p ∈ k.runqueue) (c : Nat) (hc : c < k.cpuvars.length) : current_of k c ≠ p := by
  intro e
  rcases h.cur_ok c hc with hi | ⟨-, hq⟩
  · rw [e] at hi; rw [hi] at hp; exact idle_not_queued r k h c hp
  · rw [e] at hq; exact hq hp

/-- What the invariant says about the task `scheduler` picks. -/
theorem next_task_props (r : Bool) (k : kernel) (h : kernel_inv r k) :
    next_task k ∉ k.runqueue.tail
    ∧ (next_task k = task_ptr.idle k.hart ∨ (deref k (next_task k)).state = TASK_RUNNABLE)
    ∧ (∀ c, c < k.cpuvars.length → c ≠ k.hart → current_of k c ≠ next_task k)
    ∧ (∀ p, p ∈ k.runqueue → p ∈ k.runqueue.tail ∨ p = next_task k) := by
  rw [next_task_eq]
  cases hq : k.runqueue with
  | cons a l =>
    have hnd := h.rq_nodup
    rw [hq] at hnd
    have ha : a ∈ k.runqueue := by rw [hq]; exact List.mem_cons_self _ _
    simp only [List.head?_cons, Option.getD_some, List.tail_cons]
    refine ⟨(List.nodup_cons.1 hnd).1, Or.inr (h.rq_runnable a ha),
      fun c hc _ => queued_not_current r k h a ha c hc, ?_⟩
    intro p hp
    rcases List.mem_cons.1 hp with e | hm
    · exact Or.inr e
    · exact Or.inl hm
  | nil =>
    simp only [List.head?_nil, Option.getD_none, List.tail_nil]
    refine ⟨?_, ?_, ?_, fun p hp => by cases hp⟩
    · exact List.not_mem_nil _
    · split
      · rename_i hc; exact Or.inr hc.1
      · exact Or.inl (IDLE_TASK_eq r k h)
    · intro c hc hne
      split
      · intro e
        exact hne (h.cur_inj c k.hart hc h.hart_lt e)
      · rw [IDLE_TASK_eq r k h]
        intro e
        rcases h.cur_ok c hc with hi | ⟨hr, -⟩
        · rw [e] at hi
          simp only [task_ptr.idle.injEq] at hi
          exact hne hi.symm
        · rcases hr with hf | hr
          · exact hne hf.2
          · rw [e] at hr; exact (h.idle_state k.hart).1 hr

/-- `task_switch` re-establishes the invariant, also from the relaxed one. -/
theorem kernel_inv_task_switch (r : Bool) (k : kernel) (h : kernel_inv r k) :
    kernel_inv false (task_switch k) := by
  obtain ⟨hn1, hn2, hn3, hn4⟩ := next_task_props r k h
  have hcur := current_of_task_switch k h.hart_lt
  have hlen := cpuvars_length_task_switch k
  have hprev : CURRENT_TASK k ∉ k.runqueue := current_not_queued r k h
  have hx : ∀ p, p ∈ (if next_task k ≠ CURRENT_TASK k
        ∧ (deref k (CURRENT_TASK k)).state = TASK_RUNNABLE then [CURRENT_TASK k] else []) →
      p = CURRENT_TASK k ∧ next_task k ≠ CURRENT_TASK k
        ∧ (deref k (CURRENT_TASK k)).state = TASK_RUNNABLE := by
    intro p hp
    split at hp
    · rename_i hc
      rw [List.mem_singleton] at hp
      exact ⟨hp, hc⟩
    · cases hp
  refine
    { tasks_len := by rw [task_switch_tasks_length]; exact h.tasks_len
      hart_lt := by rw [task_switch_hart, hlen]; exact h.hart_lt
      idle_ptr := fun c hc => by
        rw [idle_task_task_switch]; exact h.idle_ptr c (by rwa [hlen] at hc)
      idle_state := fun c => ⟨by rw [task_switch_state]; exact (h.idle_state c).1,
        by rw [task_switch_wait_for, task_switch_state]; exact (h.idle_state c).2⟩
      rq_nodup := ?_
      rq_runnable := ?_
      cur_ok := ?_
      cur_inj := ?_
      runnable_placed := ?_
      senders_slot := fun p s hm => h.senders_slot p s (by rwa [task_switch_senders] at hm)
      no_mutual := fun x y hx2 hy => h.no_mutual x y (by rwa [task_switch_senders] at hx2)
        (by rwa [task_switch_senders] at hy) }
  · rw [task_switch_runqueue]
    refine List.Nodup.append (List.Nodup.sublist (List.tail_sublist _) h.rq_nodup) ?_ ?_
    · split
      · exact List.nodup_singleton _
      · exact List.nodup_nil
    · intro a ha hb
      have := (hx a hb).1
      rw [this] at ha
      exact hprev (List.mem_of_mem_tail ha)
  · intro p hp
    rw [task_switch_state]
    rw [task_switch_runqueue, List.mem_append] at hp
    rcases hp with hp | hp
    · exact h.rq_runnable p (List.mem_of_mem_tail hp)
    · obtain ⟨e, -, hr⟩ := hx p hp
      rw [e]; exact hr
  · intro c hc
    rw [hlen] at hc
    rw [hcur, task_switch_state, task_switch_runqueue]
    by_cases hch : c = k.hart
    · rw [if_pos hch]
      rcases hn2 with hi | hr
      · left; rw [hi, hch]
      · right
        refine ⟨Or.inr hr, ?_⟩
        rw [List.mem_append]
        rintro (hm | hm)
        · exact hn1 hm
        · obtain ⟨e, hne, -⟩ := hx _ hm
          exact hne e
    · rw [if_neg hch]
      rcases h.cur_ok c hc with hi | ⟨hr, hq⟩
      · exact Or.inl hi
      · right
        refine ⟨?_, ?_⟩
        · rcases hr with hf | hr
          · exact absurd hf.2 hch
          · exact Or.inr hr
        · rw [List.mem_append]
          rintro (hm | hm)
          · exact hq (List.mem_of_mem_tail hm)
          · obtain ⟨e, -, -⟩ := hx _ hm
            exact hch (h.cur_inj c k.hart hc h.hart_lt e)
  · intro c c2 hc hc2
    rw [hlen] at hc hc2
    rw [hcur, hcur]
    by_cases hch : c = k.hart <;> by_cases hch2 : c2 = k.hart
    · intro _; rw [hch, hch2]
    · rw [if_pos hch, if_neg hch2]
      intro e
      exact absurd e.symm (hn3 c2 hc2 hch2)
    · rw [if_neg hch, if_pos hch2]
      intro e
      exact absurd e (hn3 c hc hch)
    · rw [if_neg hch, if_neg hch2]
      exact h.cur_inj c c2 hc hc2
  · intro p hp
    rw [task_switch_state] at hp
    rw [task_switch_runqueue, List.mem_append]
    have hcurrent : is_current (task_switch k) (next_task k) :=
      ⟨k.hart, by rw [hlen]; exact h.hart_lt, by rw [hcur, if_pos rfl]⟩
    rcases h.runnable_placed p hp with hm | ⟨c, hc, e⟩
    · rcases hn4 p hm with ht | hnx
      · exact Or.inl (Or.inl ht)
      · right; rw [hnx]; exact hcurrent
    · by_cases hch : c = k.hart
      · have hpp : p = CURRENT_TASK k := by rw [← e, hch]; rfl
        by_cases hnp : next_task k = CURRENT_TASK k
        · right; rw [hpp, ← hnp]; exact hcurrent
        · left; right
          rw [if_pos ⟨hnp, hpp ▸ hp⟩, hpp]
          exact List.mem_singleton_self _
      · right
        exact ⟨c, by rw [hlen]; exact hc, by rw [hcur, if_neg hch]; exact e⟩

/-- Taking a task that runs on no CPU off the run queue and writing a state other
than runnable to it keeps the invariant.  `k1` is the state with the task unlinked. -/
theorem kernel_inv_retire (r : Bool) (k k1 : kernel) (i : Nat) (f : task → task)
    (h : kernel_inv r k)
    (hlen : k1.tasks.length = k.tasks.length) (hcv : k1.cpuvars = k.cpuvars)
    (hh : k1.hart = k.hart) (hrq : k1.runqueue = k.runqueue.erase (task_ptr.slot i))
    (hst : ∀ p, (deref k1 p).state = (deref k p).state)
    (hwf : ∀ c, (deref k1 (task_ptr.idle c)).state = TASK_BLOCKED →
      (deref k1 (task_ptr.idle c)).wait_for ≠ IPC_ANY)
    (hs : ∀ p s, s ∈ (deref k1 p).senders → s ∈ (deref k p).senders)
    (hnc : ¬ is_current k (task_ptr.slot i))
    (hf : (f (deref k1 (task_ptr.slot i))).state ≠ TASK_RUNNABLE)
    (hfs : ∀ s, s ∈ (f (deref k1 (task_ptr.slot i))).senders →
      s ∈ (deref k1 (task_ptr.slot i)).senders) :
    kernel_inv r (update k1 (task_ptr.slot i) f) := by
  have hd : ∀ q, deref (update k1 (task_ptr.slot i) f) q
      = if q = task_ptr.slot i ∧ valid k1 (task_ptr.slot i) then f (deref k1 q)
        else deref k1 q := fun q => deref_update k1 _ q f
  have hne : ∀ q, q ≠ task_ptr.slot i →
      deref (update k1 (task_ptr.slot i) f) q = deref k1 q := by
    intro q hq; rw [hd, if_neg (fun hh => hq hh.1)]
  have hrun : ∀ q, (deref (update k1 (task_ptr.slot i) f) q).state = TASK_RUNNABLE →
      (deref k q).state = TASK_RUNNABLE ∧ (q ≠ task_ptr.slot i ∨ ¬ valid k1 (task_ptr.slot i)) := by
    intro q hq
    rw [hd] at hq
    split at hq
    · rename_i hc; rw [hc.1] at hq; exact absurd hq hf
    · rename_i hc
      rw [hst] at hq
      refine ⟨hq, ?_⟩
      by_cases e : q = task_ptr.slot i
      · exact Or.inr (fun hv => hc ⟨e, hv⟩)
      · exact Or.inl e
  have hv1 : ∀ q, (deref k q).state = TASK_RUNNABLE → q = task_ptr.slot i →
      valid k1 (task_ptr.slot i) := by
    intro q hq e
    rw [e] at hq
    have := runnable_valid k _ hq
    simpa [valid, hlen] using this
  have hss : ∀ p s, s ∈ (deref (update k1 (task_ptr.slot i) f) p).senders →
      s ∈ (deref k p).senders := by
    intro p s hm
    rw [hd] at hm
    split at hm
    · rename_i hc; rw [hc.1] at hm ⊢; exact hs _ s (hfs s hm)
    · exact hs p s hm
  have hcur : ∀ c, current_of (update k1 (task_ptr.slot i) f) c = current_of k c := by
    intro c; simp [current_of, hcv]
  refine
    { tasks_len := by rw [update_tasks_length, hlen]; exact h.tasks_len
      hart_lt := by rw [update_hart, update_cpuvars, hh, hcv]; exact h.hart_lt
      idle_ptr := by rw [update_cpuvars, hcv]; exact h.idle_ptr
      idle_state := fun c => ⟨by rw [hne _ (by simp), hst]; exact (h.idle_state c).1,
        by rw [hne _ (by simp)]; exact hwf c⟩
      rq_nodup := by rw [update_runqueue, hrq]; exact h.rq_nodup.erase _
      rq_runnable := ?_
      cur_ok := ?_
      cur_inj := ?_
      runnable_placed := ?_
      senders_slot := (senders_of_le r k _ h hss).1
      no_mutual := (senders_of_le r k _ h hss).2 }
  · intro p hp
    rw [update_runqueue, hrq] at hp
    have hpne : p ≠ task_ptr.slot i := fun e => by
      rw [e] at hp; exact (List.Nodup.not_mem_erase h.rq_nodup) hp
    rw [hne p hpne, hst]
    exact h.rq_runnable p (List.mem_of_mem_erase hp)
  · intro c hc
    rw [update_cpuvars, hcv] at hc
    rw [hcur, update_runqueue, update_hart, hrq, hh]
    rcases h.cur_ok c hc with hi | ⟨hr, hq⟩
    · exact Or.inl hi
    · right
      have hcne : current_of k c ≠ task_ptr.slot i := fun e => hnc ⟨c, hc, e⟩
      refine ⟨?_, fun hm => hq (List.mem_of_mem_erase hm)⟩
      rcases hr with hf2 | hr
      · exact Or.inl hf2
      · right; rw [hne _ hcne, hst]; exact hr
  · intro c c2 hc hc2
    rw [update_cpuvars, hcv] at hc hc2
    rw [hcur, hcur]
    exact h.cur_inj c c2 hc hc2
  · intro p hp
    obtain ⟨hp1, hp2⟩ := hrun p hp
    have hpne : p ≠ task_ptr.slot i := by
      rcases hp2 with e | e
      · exact e
      · exact fun e2 => e (hv1 p hp1 e2)
    rw [update_runqueue, hrq, is_current_congr k _ p (by rw [update_cpuvars, hcv])]
    rcases h.runnable_placed p hp1 with hm | hm
    · exact Or.inl ((List.mem_erase_of_ne hpne).2 hm)
    · exact Or.inr hm

/-- A write of a state other than runnable to a task that is neither queued nor
running keeps the invariant. -/
theorem kernel_inv_update_off (r : Bool) (k : kernel) (i : Nat) (f : task → task)
    (h : kernel_inv r k) (hnq : task_ptr.slot i ∉ k.runqueue)
    (hnc : ¬ is_current k (task_ptr.slot i))
    (hf : (f (deref k (task_ptr.slot i))).state ≠ TASK_RUNNABLE)
    (hfs : ∀ s, s ∈ (f (deref k (task_ptr.slot i))).senders →
      s ∈ (deref k (task_ptr.slot i)).senders) :
    kernel_inv r (update k (task_ptr.slot i) f) :=
  kernel_inv_retire r k k i f h rfl rfl rfl (List.erase_of_not_mem hnq).symm (fun _ => rfl)
    (fun c => (h.idle_state c).2) (fun _ _ hm => hm) hnc hf hfs

/-- `list_remove(&task->waitqueue_next)` followed by a write of a state other than
runnable, for a task that runs on no CPU. -/
theorem kernel_inv_unlink (r : Bool) (k : kernel) (i : Nat) (f : task → task)
    (h : kernel_inv r k) (hnc : ¬ is_current k (task_ptr.slot i))
    (hf : (f (deref (waitqueue_remove k (task_ptr.slot i)) (task_ptr.slot i))).state
      ≠ TASK_RUNNABLE)
    (hfs : ∀ s, s ∈ (f (deref (waitqueue_remove k (task_ptr.slot i)) (task_ptr.slot i))).senders →
      s ∈ (deref (waitqueue_remove k (task_ptr.slot i)) (task_ptr.slot i)).senders) :
    kernel_inv r (update (waitqueue_remove k (task_ptr.slot i)) (task_ptr.slot i) f) := by
  refine kernel_inv_retire r k _ i f h (by simp [waitqueue_remove]) rfl rfl rfl ?_ ?_ ?_ hnc hf hfs
  · intro p; rw [deref_waitqueue_remove]
  · intro c; rw [deref_waitqueue_remove]; exact (h.idle_state c).2
  · intro p s hm
    rw [deref_waitqueue_remove] at hm
    exact List.mem_of_mem_erase hm

/-- `list_remove(&task->waitqueue_next)` of a task that is not on the run queue. -/
theorem kernel_inv_waitqueue_remove (r : Bool) (k : kernel) (p : task_ptr)
    (h : kernel_inv r k) (hnq : p ∉ k.runqueue) :
    kernel_inv r (waitqueue_remove k p) := by
  refine kernel_inv_of_same r k _ h (by simp [waitqueue_remove]) rfl rfl
    (List.erase_of_not_mem hnq) ?_ ?_ ?_
  · intro q; rw [deref_waitqueue_remove]
  · intro c; rw [deref_waitqueue_remove]; exact (h.idle_state c).2
  · intro q s hm
    rw [deref_waitqueue_remove] at hm
    exact List.mem_of_mem_erase hm

theorem kernel_inv_active_push (r : Bool) (k : kernel) (p : task_ptr) (h : kernel_inv r k) :
    kernel_inv r (active_push k p) :=
  kernel_inv_of_same r k _ h rfl rfl rfl rfl (fun q => by simp)
    (fun c => by simpa using (h.idle_state c).2) (fun q s hm => by simpa using hm)

theorem kernel_inv_active_remove (r : Bool) (k : kernel) (p : task_ptr) (h : kernel_inv r k) :
    kernel_inv r (active_remove k p) :=
  kernel_inv_of_same r k _ h rfl rfl rfl rfl (fun q => by simp)
    (fun c => by simpa using (h.idle_state c).2) (fun q s hm => by simpa using hm)

theorem kernel_inv_hart (k : kernel) (c : Nat) (hc : c < k.cpuvars.length)
    (h : kernel_inv false k) : kernel_inv false { k with hart := c } where
  tasks_len := h.tasks_len
  hart_lt := hc
  idle_ptr := h.idle_ptr
  idle_state := h.idle_state
  rq_nodup := h.rq_nodup
  rq_runnable := h.rq_runnable
  cur_ok := fun c2 hc2 => by
    rcases h.cur_ok c2 hc2 with hi | ⟨hr, hq⟩
    · exact Or.inl hi
    · rcases hr with hf | hr
      · exact absurd hf.1 (by simp)
      · exact Or.inr ⟨Or.inr hr, hq⟩
  cur_inj := h.cur_inj
  runnable_placed := h.runnable_placed
  senders_slot := h.senders_slot
  no_mutual := h.no_mutual

/-- A write that keeps `state`, `wait_for` and `senders` keeps the invariant. -/
theorem kernel_inv_update_keep (r : Bool) (k : kernel) (p : task_ptr) (f : task → task)
    (h : kernel_inv r k)
    (hst : (f (deref k p)).state = (deref k p).state)
    (hw : (f (deref k p)).wait_for = (deref k p).wait_for)
    (hs : (f (deref k p)).senders = (deref k p).senders) :
    kernel_inv r (update k p f) := by
  refine kernel_inv_update r k p f h hst ?_ (fun s hm => by rwa [hs] at hm)
  cases p with
  | slot i => exact Or.inl ⟨i, rfl⟩
  | idle c => right; rw [hw, hst]; exact (h.idle_state c).2

theorem blocked_any_is_slot (r : Bool) (k : kernel) (p : task_ptr) (h : kernel_inv r k)
    (hb : (deref k p).state = TASK_BLOCKED)
    (hw : (deref k p).wait_for = IPC_ANY) : ∃ i, p = task_ptr.slot i := by
  cases p with
  | slot i => exact ⟨i, rfl⟩
  | idle c => exact absurd hw ((h.idle_state c).2 hb)

/-- `notify` keeps the invariant, whatever it is called on. -/
theorem kernel_inv_notify (k : kernel) (dst : task_ptr) (n : Nat) (h : kernel_inv false k) :
    kernel_inv false (notify k dst n) := by
  unfold notify
  split
  · rename_i hc
    obtain ⟨i, hi⟩ := blocked_any_is_slot false k dst h hc.1 hc.2
    subst hi
    have hv : valid k (task_ptr.slot i) := in_use_of_state k _ (by rw [hc.1]; decide)
    refine kernel_inv_task_resume _ i (kernel_inv_update_keep false k _ _ h rfl rfl rfl) ?_
    rw [deref_update_same k _ _ hv]
    exact hc.1
  · exact kernel_inv_update_keep false k _ _ h rfl rfl rfl

theorem kernel_inv_foldl_notify (n : Nat) (l : List task_ptr) :
    ∀ (k : kernel), kernel_inv false k →
      kernel_inv false (l.foldl (fun s sender => notify s sender n) k) := by
  induction l with
  | nil => intro k h; exact h
  | cons a l ih =>
    intro k h
    rw [List.foldl_cons]
    exact ih _ (kernel_inv_notify k a n h)

theorem kernel_inv_timer_tick_task (ticks : Nat) (k : kernel) (task : task_ptr)
    (h : kernel_inv false k) : kernel_inv false (timer_tick_task ticks k task) := by
  unfold timer_tick_task
  split
  · have h1 := kernel_inv_update_keep false k task
      (fun t => { t with timeout := t.timeout - min t.timeout ticks }) h rfl rfl rfl
    simp only
    split
    · exact kernel_inv_notify _ _ _ h1
    · exact h1
  · exact h

theorem kernel_inv_foldl_timer (ticks : Nat) (l : List task_ptr) :
    ∀ (k : kernel), kernel_inv false k →
      kernel_inv false (l.foldl (timer_tick_task ticks) k) := by
  induction l with
  | nil => intro k h; exact h
  | cons a l ih =>
    intro k h
    rw [List.foldl_cons]
    exact ih _ (kernel_inv_timer_tick_task ticks k a h)

theorem kernel_inv_handle_timer_interrupt (k : kernel) (uptime_ticks ticks : Nat)
    (h : kernel_inv false k) :
    kernel_inv false (handle_timer_interrupt k uptime_ticks ticks).1 := by
  have h1 : kernel_inv false
      (if (CPUVAR k).id = 0 then k.active_tasks.foldl (timer_tick_task ticks) k else k) := by
    split
    · exact kernel_inv_foldl_timer ticks _ k h
    · exact h
  have key : ∀ k1 : kernel, kernel_inv false k1 →
      kernel_inv false
        (if (deref (update k1 (CURRENT_TASK k1)
              (fun t => { t with quantum := t.quantum - min ticks t.quantum }))
              (CURRENT_TASK k1)).quantum = 0
         then task_switch (update k1 (CURRENT_TASK k1)
              (fun t => { t with quantum := t.quantum - min ticks t.quantum }))
         else update k1 (CURRENT_TASK k1)
              (fun t => { t with quantum := t.quantum - min ticks t.quantum })) := by
    intro k1 hk1
    have h2 := kernel_inv_update_keep false k1 (CURRENT_TASK k1)
      (fun t => { t with quantum := t.quantum - min ticks t.quantum }) hk1 rfl rfl rfl
    split
    · exact kernel_inv_task_switch false _ h2
    · exact h2
  exact key _ h1

theorem kernel_inv_sys_time (k : kernel) (timeout : Int) (h : kernel_inv false k) :
    kernel_inv false (sys_time k timeout).1 := by
  unfold sys_time
  split
  · exact h
  · dsimp only
    refine kernel_inv_update_keep false k _ _ h ?_ ?_ ?_ <;> rfl

theorem caller_is_slot (r : Bool) (k : kernel) (h : kernel_inv r k) (hc : caller_ok k) :
    ∃ j, CURRENT_TASK k = task_ptr.slot j := by
  unfold caller_ok at hc
  cases hcur : CURRENT_TASK k with
  | slot j => exact ⟨j, rfl⟩
  | idle c => rw [hcur] at hc; exact absurd hc (h.idle_state c).1

theorem kernel_inv_task_exit_switch (k : kernel) (h : kernel_inv false k) (hc : caller_ok k) :
    kernel_inv false (task_exit_switch k) :=
  kernel_inv_task_switch true _ (kernel_inv_task_block k h (caller_is_slot false k h hc))

theorem alloc_tid_loop_some (k : kernel) :
    ∀ n i, alloc_tid_loop k n i ≠ 0 →
      ∃ j, i ≤ j ∧ j < i + n ∧ alloc_tid_loop k n i = (j : Int) + 1 ∧ ¬ in_use k j
        ∧ ∀ l, i ≤ l → l < j → in_use k l := by
  intro n
  induction n with
  | zero => intro i h; exact absurd rfl h
  | succ n ih =>
    intro i h
    unfold alloc_tid_loop at h ⊢
    by_cases hi : (k.tasks.getD i default).state = TASK_UNUSED
    · rw [if_pos hi]
      exact ⟨i, le_refl i, by omega, rfl, fun hu => hu hi, fun l h1 h2 => by omega⟩
    · rw [if_neg hi] at h ⊢
      obtain ⟨j, h1, h2, h3, h4, h5⟩ := ih (i + 1) h
      refine ⟨j, by omega, by omega, h3, h4, ?_⟩
      intro l hl1 hl2
      by_cases hli : l = i
      · subst hli; exact hi
      · exact h5 l (by omega) hl2

/-- A non-zero result of `alloc_tid` is the index of the first unused slot, plus one. -/
theorem alloc_tid_some (k : kernel) (h : alloc_tid k ≠ 0) :
    ∃ j, j < NUM_TASKS_MAX ∧ alloc_tid k = (j : Int) + 1 ∧ ¬ in_use k j
      ∧ ∀ l, l < j → in_use k l := by
  obtain ⟨j, -, h2, h3, h4, h5⟩ := alloc_tid_loop_some k NUM_TASKS_MAX 0 h
  exact ⟨j, by omega, h3, h4, fun l hl => h5 l (Nat.zero_le l) hl⟩

theorem deref_update_state (k : kernel) (p q : task_ptr) (f : task → task)
    (hst : (f (deref k p)).state = (deref k p).state) :
    (deref (update k p f) q).state = (deref k q).state := by
  rw [deref_update]
  split
  · rename_i hc; rw [hc.1]; exact hst
  · rfl

/-- `init_task_struct` on an unused slot keeps the invariant and, when it succeeds,
leaves the slot blocked. -/
theorem kernel_inv_init_task_struct (k : kernel) (i : Nat) (tid : Int) (name : String)
    (pager : Option task_ptr) (vm_ok stack_ok : Bool) (h : kernel_inv false k)
    (hv : valid k (task_ptr.slot i)) (hu : ¬ in_use k i) :
    kernel_inv false (init_task_struct k (task_ptr.slot i) tid name pager vm_ok stack_ok).1
    ∧ ((init_task_struct k (task_ptr.slot i) tid name pager vm_ok stack_ok).2 = OK →
        (deref (init_task_struct k (task_ptr.slot i) tid name pager vm_ok stack_ok).1
          (task_ptr.slot i)).state = TASK_BLOCKED) := by
  have hu2 : (deref k (task_ptr.slot i)).state = TASK_UNUSED := by
    by_contra hne; exact hu hne
  have h1 : kernel_inv false (update k (task_ptr.slot i) (fun t =>
      { t with tid := tid, destroyed := false, quantum := 0, timeout := 0,
               wait_for := IPC_DENY, ref_count := 0, pager := pager,
               name := name, senders := [] })) :=
    kernel_inv_update false k _ _ h rfl (Or.inl ⟨i, rfl⟩) (fun s hs => by cases hs)
  have hs1 : (deref (update k (task_ptr.slot i) (fun t =>
      { t with tid := tid, destroyed := false, quantum := 0, timeout := 0,
               wait_for := IPC_DENY, ref_count := 0, pager := pager,
               name := name, senders := [] })) (task_ptr.slot i)).state = TASK_UNUSED := by
    rw [deref_update_state _ _ _ _ rfl]; exact hu2
  unfold init_task_struct
  simp only
  split
  · exact ⟨h1, fun he => absurd he (by show ERR_NO_MEMORY ≠ OK; decide)⟩
  split
  · exact ⟨h1, fun he => absurd he (by show ERR_NO_MEMORY ≠ OK; decide)⟩
  have key : ∀ k2 : kernel, kernel_inv false k2 → valid k2 (task_ptr.slot i) →
      (deref k2 (task_ptr.slot i)).state = TASK_UNUSED →
      kernel_inv false (update k2 (task_ptr.slot i) (fun t => { t with state := TASK_BLOCKED }))
      ∧ (deref (update k2 (task_ptr.slot i) (fun t => { t with state := TASK_BLOCKED }))
          (task_ptr.slot i)).state = TASK_BLOCKED := by
    intro k2 hk2 hv2 hs2
    have hnr : (deref k2 (task_ptr.slot i)).state ≠ TASK_RUNNABLE := by rw [hs2]; decide
    refine ⟨kernel_inv_update_off false k2 i _ hk2 (fun hm => hnr (hk2.rq_runnable _ hm))
      (not_current_of_blocked k2 i hk2 hnr) (by show TASK_BLOCKED ≠ TASK_RUNNABLE; decide)
      (fun s hs => hs), ?_⟩
    rw [deref_update_same _ _ _ hv2]
  cases pager with
  | none =>
    obtain ⟨a, b⟩ := key _ h1 (by simpa using hv) hs1
    exact ⟨a, fun _ => b⟩
  | some pg =>
    obtain ⟨a, b⟩ := key _
      (kernel_inv_update_keep false _ pg (fun t => { t with ref_count := t.ref_count + 1 })
        h1 rfl rfl rfl)
      (by simpa using hv)
      (by rw [deref_update_state _ _ _ _ rfl]; exact hs1)
    exact ⟨a, fun _ => b⟩

/-- `task_create` keeps the invariant on every path. -/
theorem kernel_inv_task_create (k : kernel) (name : String) (ip : Nat)
    (pager : Option task_ptr) (vm_ok stack_ok : Bool) (h : kernel_inv false k) :
    kernel_inv false (task_create k name ip pager vm_ok stack_ok).1 := by
  unfold task_create
  simp only
  split
  · exact h
  · rename_i hne
    obtain ⟨j, hj, hal, hu, -⟩ := alloc_tid_some k hne
    have hslot : (alloc_tid k - 1).toNat = j := by rw [hal]; simp
    have hv : valid k (task_ptr.slot j) := by
      simp only [valid]; rw [h.tasks_len]; exact hj
    rw [hslot]
    obtain ⟨h1, h2⟩ := kernel_inv_init_task_struct k j (alloc_tid k) name pager vm_ok stack_ok
      h hv hu
    split
    · exact h1
    · rename_i herr
      have herr2 : (init_task_struct k (task_ptr.slot j) (alloc_tid k) name pager vm_ok
          stack_ok).2 = OK := by
        by_contra hc; exact herr hc
      refine kernel_inv_task_resume _ j (kernel_inv_active_push false _ _ h1) ?_
      rw [deref_active_push]
      exact h2 herr2

/-- `hinavm_create` keeps the invariant on every path. -/
theorem kernel_inv_hinavm_create (k : kernel) (name : String)
    (pager : Option task_ptr) (page_ok vm_ok stack_ok : Bool) (h : kernel_inv false k) :
    kernel_inv false (hinavm_create k name pager page_ok vm_ok stack_ok).1 := by
  unfold hinavm_create
  simp only
  split
  · exact h
  · rename_i hne
    obtain ⟨j, hj, hal, hu, -⟩ := alloc_tid_some k hne
    have hslot : (alloc_tid k - 1).toNat = j := by rw [hal]; simp
    have hv : valid k (task_ptr.slot j) := by
      simp only [valid]; rw [h.tasks_len]; exact hj
    rw [hslot]
    split
    · exact h
    obtain ⟨h1, h2⟩ := kernel_inv_init_task_struct k j (alloc_tid k) name pager vm_ok stack_ok
      h hv hu
    split
    · exact h1
    · rename_i herr
      have herr2 : (init_task_struct k (task_ptr.slot j) (alloc_tid k) name pager vm_ok
          stack_ok).2 = OK := by
        by_contra hc; exact herr hc
      refine kernel_inv_task_resume _ j (kernel_inv_active_push false _ _ h1) ?_
      rw [deref_active_push]
      exact h2 herr2

@[simp] theorem notify_cpuvars (k : kernel) (d : task_ptr) (n : Nat) :
    (notify k d n).cpuvars = k.cpuvars := by
  unfold notify; split <;> simp

theorem foldl_notify_cpuvars (n : Nat) (l : List task_ptr) :
    ∀ k : kernel, (l.foldl (fun s sender => notify s sender n) k).cpuvars = k.cpuvars := by
  induction l with
  | nil => intro k; rfl
  | cons a l ih => intro k; rw [List.foldl_cons, ih]; simp

/-- `task_destroy` is its entry, the test of the wait loop and its tail. -/
theorem task_destroy_eq (k : kernel) (task : task_ptr) :
    task_destroy k task
      = match task_destroy_enter k task with
        | (k1, some err) => some (k1, err)
        | (k1, none) =>
          if task_destroy_ready k1 task = true then task_destroy_finish k1 task else none := by
  unfold task_destroy task_destroy_enter
  split
  · rfl
  split
  · rfl
  simp only [task_destroy_ready, decide_eq_true_eq]
  split <;> rfl

theorem kernel_inv_task_destroy_enter (k : kernel) (task : task_ptr) (h : kernel_inv false k) :
    kernel_inv false (task_destroy_enter k task).1 := by
  unfold task_destroy_enter
  split
  · exact h
  split
  · exact h
  · dsimp only
    refine kernel_inv_update_keep false k task _ h ?_ ?_ ?_ <;> rfl

/-- A task for which the wait loop of `task_destroy` ends runs on no CPU. -/
theorem ready_not_current (k : kernel) (i : Nat) (h : kernel_inv false k)
    (hready : task_destroy_ready k (task_ptr.slot i) = true) :
    ¬ is_current k (task_ptr.slot i) := by
  simp only [task_destroy_ready, decide_eq_true_eq, list_contains] at hready
  rcases hready with hs | hq
  · exact not_current_of_blocked k i h hs
  · rintro ⟨c, hc, e⟩
    exact queued_not_current false k h _ hq c hc e

/-- The tail of `task_destroy` keeps the invariant. -/
theorem kernel_inv_task_destroy_finish (k : kernel) (i : Nat) (r : kernel × Int)
    (h : kernel_inv false k) (hready : task_destroy_ready k (task_ptr.slot i) = true)
    (hfin : task_destroy_finish k (task_ptr.slot i) = some r) :
    kernel_inv false r.1 := by
  have hnc := ready_not_current k i h hready
  have h2 := kernel_inv_foldl_notify NOTIFY_ABORTED (deref k (task_ptr.slot i)).senders k h
  have h3 := kernel_inv_active_remove false _ (task_ptr.slot i) h2
  have hnc3 : ¬ is_current (active_remove ((deref k (task_ptr.slot i)).senders.foldl
      (fun s sender => notify s sender NOTIFY_ABORTED) k) (task_ptr.slot i))
      (task_ptr.slot i) := by
    rw [is_current_congr k _ _ (by
      show (List.foldl _ k _).cpuvars = k.cpuvars
      exact foldl_notify_cpuvars _ _ k)]
    exact hnc
  have h5 := kernel_inv_unlink false _ i (fun t => { t with state := TASK_UNUSED }) h3 hnc3
    (by show TASK_UNUSED ≠ TASK_RUNNABLE; decide) (fun s hs => hs)
  unfold task_destroy_finish at hfin
  simp only at hfin
  split at hfin
  · rename_i pg hpg
    simp only [Option.some.injEq] at hfin
    rw [← hfin]
    dsimp only
    refine kernel_inv_update_keep false _ pg _ h5 ?_ ?_ ?_ <;> rfl
  · cases hfin

/-- `task_destroy` keeps the invariant when it returns. -/
theorem kernel_inv_task_destroy (k : kernel) (i : Nat) (r : kernel × Int)
    (h : kernel_inv false k) (hd : task_destroy k (task_ptr.slot i) = some r) :
    kernel_inv false r.1 := by
  rw [task_destroy_eq] at hd
  have he := kernel_inv_task_destroy_enter k (task_ptr.slot i) h
  split at hd
  · rename_i k1 err heq
    simp only [Option.some.injEq] at hd
    rw [← hd]
    rw [heq] at he
    exact he
  · rename_i k1 heq
    rw [heq] at he
    split at hd
    · rename_i hready
      exact kernel_inv_task_destroy_finish k1 i r he hready hd
    · cases hd

/-- The tail of `send_message` keeps the invariant when the destination is blocked. -/
theorem kernel_inv_send_deliver (k : kernel) (current : task_ptr) (i : Nat)
    (copied_m : message) (flags : Nat) (h : kernel_inv false k)
    (hb : (deref k (task_ptr.slot i)).state = TASK_BLOCKED) :
    kernel_inv false (send_deliver k current (task_ptr.slot i) copied_m flags).1 := by
  unfold send_deliver
  dsimp only
  have h1 := kernel_inv_update_keep false k (task_ptr.slot i)
    (fun t => { t with m := copied_m }) h rfl rfl rfl
  refine kernel_inv_task_resume _ i (kernel_inv_update_keep false _ _ _ h1 rfl rfl rfl) ?_
  rw [deref_update_state _ _ _ _ rfl, deref_update_state _ _ _ _ rfl]
  exact hb

/-- Putting the caller at the tail of the sender queue of another task keeps the
invariant when that task is not in the sender queue of the caller. -/
theorem kernel_inv_park (k : kernel) (i : Nat) (h : kernel_inv false k) (hc : caller_ok k)
    (hne : task_ptr.slot i ≠ CURRENT_TASK k)
    (hnd : task_ptr.slot i ∉ (deref k (CURRENT_TASK k)).senders) :
    kernel_inv false (update k (task_ptr.slot i)
      (fun t => { t with senders := list_push_back t.senders (CURRENT_TASK k) })) := by
  have hd : ∀ q, (deref (update k (task_ptr.slot i)
      (fun t => { t with senders := list_push_back t.senders (CURRENT_TASK k) })) q).senders
      = if q = task_ptr.slot i ∧ valid k (task_ptr.slot i)
        then (deref k q).senders ++ [CURRENT_TASK k] else (deref k q).senders := by
    intro q; rw [deref_update]; split <;> rfl
  have hmem : ∀ q s, s ∈ (deref (update k (task_ptr.slot i)
      (fun t => { t with senders := list_push_back t.senders (CURRENT_TASK k) })) q).senders →
      s ∈ (deref k q).senders ∨ (q = task_ptr.slot i ∧ s = CURRENT_TASK k) := by
    intro q s hm
    rw [hd] at hm
    split at hm
    · rename_i hq
      rcases List.mem_append.1 hm with h1 | h1
      · exact Or.inl h1
      · exact Or.inr ⟨hq.1, List.mem_singleton.1 h1⟩
    · exact Or.inl hm
  refine kernel_inv_of_view false k _ h (by simp) (by simp) (by simp) (by simp)
    (fun p => deref_update_state _ _ _ _ rfl) ?_ ?_ ?_
  · intro c
    rw [deref_update_ne _ _ _ _ (by simp)]
    exact (h.idle_state c).2
  · intro p s hm
    rcases hmem p s hm with h1 | ⟨-, h1⟩
    · exact h.senders_slot p s h1
    · rw [h1]; exact caller_is_slot false k h hc
  · intro x y hx hy
    rcases hmem y x hx with h1 | ⟨hy1, hx1⟩
    · rcases hmem x y hy with h2 | ⟨hx2, hy2⟩
      · exact h.no_mutual x y h1 h2
      · rw [hx2, hy2] at h1
        exact hnd h1
    · rcases hmem x y hy with h2 | ⟨hx2, -⟩
      · rw [hx1, hy1] at h2
        exact hnd h2
      · rw [hx1] at hx2
        exact hne hx2.symm

/-- `send_message` keeps the invariant on every path. -/
theorem kernel_inv_send_message (k : kernel) (i : Nat) (m : Nat) (um : message) (flags : Nat)
    (h : kernel_inv false k) (hc : caller_ok k) :
    kernel_inv false (send_message k (task_ptr.slot i) m um flags).1 := by
  unfold send_message
  dsimp only
  split
  · exact h
  rename_i hne
  split
  · exact h
  rename_i copied_m _
  split
  · rename_i hd
    exact kernel_inv_send_deliver k _ i copied_m flags h hd.1
  split
  · exact h
  split
  · exact h
  rename_i hany
  have hnd : task_ptr.slot i ∉ (deref k (CURRENT_TASK k)).senders := by
    intro hm
    apply hany
    rw [List.any_eq_true]
    exact ⟨task_ptr.slot i, hm, by simp⟩
  have h1 := kernel_inv_park k i h hc hne hnd
  have h2 := kernel_inv_task_block _ h1 (by
    rw [CURRENT_TASK_update]; exact caller_is_slot false k h hc)
  rw [CURRENT_TASK_update] at h2
  exact kernel_inv_task_switch true _ h2

/-- `send_message` after the park keeps the invariant; `task_resume(dst)` needs `dst`
blocked. -/
theorem kernel_inv_send_message_resume (k : kernel) (i : Nat) (copied_m : message)
    (flags : Nat) (h : kernel_inv false k)
    (hdst : (deref k (CURRENT_TASK k)).notifications &&& NOTIFY_ABORTED = 0 →
      (deref k (task_ptr.slot i)).state = TASK_BLOCKED) :
    kernel_inv false
      (send_message_resume k (CURRENT_TASK k) (task_ptr.slot i) copied_m flags).1 := by
  unfold send_message_resume
  split
  · dsimp only
    refine kernel_inv_update_keep false k _ _ h ?_ ?_ ?_ <;> rfl
  · rename_i hn
    exact kernel_inv_send_deliver k _ i copied_m flags h (hdst (by simpa using hn))

theorem recv_find_sender_mem (k : kernel) (src : Int) :
    ∀ (l : List task_ptr) (s : task_ptr), recv_find_sender k src l = some s → s ∈ l := by
  intro l
  induction l with
  | nil => intro s h; cases h
  | cons a l ih =>
    intro s h
    unfold recv_find_sender at h
    split at h
    · simp only [Option.some.injEq] at h
      rw [← h]; exact List.mem_cons_self _ _
    · exact List.mem_cons_of_mem _ (ih s h)

/-- `recv_message` keeps the invariant on every path; the sender it takes from the
queue must be blocked. -/
theorem kernel_inv_recv_message (k : kernel) (src : Int) (m flags : Nat)
    (h : kernel_inv false k) (hc : caller_ok k)
    (hsender : ∀ s, recv_find_sender k src (deref k (CURRENT_TASK k)).senders = some s →
      (deref k s).state = TASK_BLOCKED) :
    kernel_inv false (recv_message k src m flags).1 := by
  obtain ⟨j, hj⟩ := caller_is_slot false k h hc
  unfold recv_message
  dsimp only
  split
  · rw [recv_copy_out_fst]
    refine kernel_inv_update_keep false k _ _ h ?_ ?_ ?_ <;> rfl
  split
  · exact h
  have hfound : ∀ (found : kernel × Int), kernel_inv false found.1 →
      CURRENT_TASK found.1 = CURRENT_TASK k →
      kernel_inv false (task_switch (task_block
        (update found.1 (CURRENT_TASK k) (fun t => { t with wait_for := found.2 }))
        (CURRENT_TASK k))) := by
    intro found hf hcur
    have h2 : kernel_inv false
        (update found.1 (CURRENT_TASK k) (fun t => { t with wait_for := found.2 })) :=
      kernel_inv_update false _ _ _ hf rfl (Or.inl ⟨j, hj⟩) (fun s hs => hs)
    have h3 := kernel_inv_task_block _ h2 (by
      rw [CURRENT_TASK_update, hcur]; exact ⟨j, hj⟩)
    rw [CURRENT_TASK_update, hcur] at h3
    exact kernel_inv_task_switch true _ h3
  cases hs : recv_find_sender k src (deref k (CURRENT_TASK k)).senders with
  | none => exact hfound (k, src) h rfl
  | some sender =>
    have hb := hsender sender hs
    obtain ⟨i, hi⟩ := h.senders_slot _ _ (recv_find_sender_mem k src _ _ hs)
    subst hi
    have hnq : task_ptr.slot i ∉ k.runqueue := fun hm => by
      have := h.rq_runnable _ hm
      rw [hb] at this
      exact absurd this (by decide)
    have h1 := kernel_inv_waitqueue_remove false k _ h hnq
    have h2 := kernel_inv_task_resume _ i h1 (by rw [deref_waitqueue_remove]; exact hb)
    exact hfound (task_resume (waitqueue_remove k (task_ptr.slot i)) (task_ptr.slot i),
      (deref (task_resume (waitqueue_remove k (task_ptr.slot i)) (task_ptr.slot i))
        (task_ptr.slot i)).tid) h2 (by simp)

/-- `recv_message` after its `task_switch` keeps the invariant. -/
theorem kernel_inv_recv_message_resume (k : kernel) (m flags : Nat) (h : kernel_inv false k) :
    kernel_inv false (recv_message_resume k (CURRENT_TASK k) m flags).1 := by
  unfold recv_message_resume
  dsimp only
  rw [recv_copy_out_fst]
  exact kernel_inv_update false k _ _ h rfl
    (Or.inr (fun _ => by show IPC_DENY ≠ IPC_ANY; decide)) (fun s hs => hs)

/-! ## The invariant holds in every reachable state -/

theorem deref_boot_kernel (p : task_ptr) :
    deref boot_kernel p = task.zero ∨ deref boot_kernel p = idle_task := by
  cases p with
  | slot i =>
    left
    simp only [deref, boot_kernel, mk_kernel, List.getD_eq_getElem?_getD, List.length_nil,
      List.nil_append, Nat.sub_zero, List.getElem?_replicate]
    split <;> rfl
  | idle c =>
    simp only [deref, boot_kernel, mk_kernel, List.getD_eq_getElem?_getD,
      List.getElem?_replicate]
    split
    · right; rfl
    · left; rfl

theorem boot_kernel_inv : kernel_inv false boot_kernel where
  tasks_len := by decide
  hart_lt := by decide
  idle_ptr := by decide
  idle_state := fun c => by
    rcases deref_boot_kernel (task_ptr.idle c) with h | h <;> rw [h] <;> decide
  rq_nodup := List.nodup_nil
  rq_runnable := fun p hp => by cases hp
  cur_ok := by decide
  cur_inj := by
    intro c c2 hc hc2
    have h4 : boot_kernel.cpuvars.length = 4 := rfl
    rw [h4] at hc hc2
    interval_cases c <;> interval_cases c2 <;> decide
  runnable_placed := fun p hp => by
    rcases deref_boot_kernel p with h | h <;> rw [h] at hp <;> exact absurd hp (by decide)
  senders_slot := fun p s hs => by
    rcases deref_boot_kernel p with h | h <;> rw [h] at hs <;> cases hs
  no_mutual := fun x y hx => by
    rcases deref_boot_kernel y with h | h <;> rw [h] at hx <;> cases hx

theorem kernel_step_inv (k k2 : kernel) (hs : kernel_step k k2) (h : kernel_inv false k) :
    kernel_inv false k2 := by
  cases hs with
  | cpu c hc => exact kernel_inv_hart k c hc h
  | create name ip pager vm_ok stack_ok _ =>
    exact kernel_inv_task_create k name ip pager vm_ok stack_ok h
  | hinavm name pager page_ok vm_ok stack_ok _ =>
    exact kernel_inv_hinavm_create k name pager page_ok vm_ok stack_ok h
  | destroy i r _ _ hd => exact kernel_inv_task_destroy k i r h hd
  | destroy_enter i _ _ => exact kernel_inv_task_destroy_enter k _ h
  | destroy_finish i r _ hready hfin => exact kernel_inv_task_destroy_finish k i r h hready hfin
  | send i m um flags hc => exact kernel_inv_send_message k i m um flags h hc
  | send_resume i copied_m flags _ hdst =>
    exact kernel_inv_send_message_resume k i copied_m flags h hdst
  | recv src m flags hc hsender => exact kernel_inv_recv_message k src m flags h hc hsender
  | recv_resume m flags _ => exact kernel_inv_recv_message_resume k m flags h
  | notify i n => exact kernel_inv_notify k _ n h
  | timer u t => exact kernel_inv_handle_timer_interrupt k u t h
  | time timeout _ => exact kernel_inv_sys_time k timeout h
  | exit hc => exact kernel_inv_task_exit_switch k h hc
  | switch => exact kernel_inv_task_switch false k h
  | resume i hb => exact kernel_inv_task_resume k i h hb

/-- Every state the kernel reaches satisfies the scheduling invariant. -/
theorem reachable_inv (k : kernel) (h : reachable k) : kernel_inv false k := by
  induction h with
  | refl => exact boot_kernel_inv
  | tail _ hstep ih => exact kernel_step_inv _ _ hstep ih

/-- The hypotheses of `task_switch_step` hold in every reachable state. -/
theorem reachable_switch_ready (k : kernel) (h : reachable k) :
    k.hart < k.cpuvars.length
    ∧ (∀ p ∈ k.runqueue, valid k p)
    ∧ ∀ c, (deref k (task_ptr.idle c)).state ≠ TASK_RUNNABLE :=
  ⟨(reachable_inv k h).hart_lt,
   fun p hp => runnable_valid k p ((reachable_inv k h).rq_runnable p hp),
   fun c => ((reachable_inv k h).idle_state c).1⟩

theorem four_tasks_reachable : reachable four_tasks_state :=
  (((((Relation.ReflTransGen.refl.tail
    (kernel_step.create boot_kernel "vm" 0x10000 none true true (by intro pg h; cases h))).tail
    (kernel_step.create _ "a" 0x10000 (some (task_ptr.slot 0)) true true
      (by intro pg h; cases h; exact ⟨0, rfl, by decide⟩))).tail
    (kernel_step.create _ "b" 0x10000 (some (task_ptr.slot 0)) true true
      (by intro pg h; cases h; exact ⟨0, rfl, by decide⟩))).tail
    (kernel_step.create _ "c" 0x10000 (some (task_ptr.slot 0)) true true
      (by intro pg h; cases h; exact ⟨0, rfl, by decide⟩))).tail
    (kernel_step.switch _)).tail
    (kernel_step.switch _)

/-- C21: in every state reachable from boot, a runnable task either runs on some CPU
and is not on the run queue, or runs on no CPU and is on the run queue exactly once. -/
theorem runqueue_invariant (k : kernel) (h : reachable k) (p : task_ptr)
    (hp : (deref k p).state = TASK_RUNNABLE) :
    (is_current k p ∧ k.runqueue.count p = 0)
    ∨ (¬ is_current k p ∧ k.runqueue.count p = 1) := by
  have hi := reachable_inv k h
  rcases hi.runnable_placed p hp with hm | hc
  · right
    refine ⟨?_, List.count_eq_one_of_mem hi.rq_nodup hm⟩
    rintro ⟨c, hc, e⟩
    exact queued_not_current false k hi p hm c hc e
  · left
    refine ⟨hc, List.count_eq_zero_of_not_mem ?_⟩
    obtain ⟨c, hc1, e⟩ := hc
    rcases hi.cur_ok c hc1 with hidle | ⟨-, hq⟩
    · rw [e] at hidle
      rw [hidle] at hp
      exact absurd hp (hi.idle_state c).1
    · rw [e] at hq; exact hq

theorem runqueue_invariant_witness :
    (deref four_tasks_state (task_ptr.slot 2)).state = TASK_RUNNABLE
    ∧ ((is_current four_tasks_state (task_ptr.slot 2)
          ∧ four_tasks_state.runqueue.count (task_ptr.slot 2) = 0)
      ∨ (¬ is_current four_tasks_state (task_ptr.slot 2)
          ∧ four_tasks_state.runqueue.count (task_ptr.slot 2) = 1)) :=
  ⟨by decide, runqueue_invariant four_tasks_state four_tasks_reachable (task_ptr.slot 2)
    (by decide)⟩

/-- C23: a cycle of three parked senders is reachable.  From boot, four tasks are
created and task 2 gets the CPU; task 2 sends to task 3, task 3 to task 4 and task 4
to task 2.  None of the destinations is receiving, so each sender looks only through
its own sender queue for its destination (`send_message` compares `task->tid` with
`dst->tid` over `current->senders`), finds it empty or holding another task, and parks:
no send returns `ERR_DEAD_LOCK`, and in the end task 2 is parked on task 3, task 3 on
task 4 and task 4 on task 2, all three blocked. -/
theorem send_cycle_of_three :
    reachable cycle_state_3
    ∧ (send_message four_tasks_state (task_ptr.slot 2) 0x1000 msg7 IPC_SEND).2 = outcome.blocked
    ∧ (send_message cycle_state_1 (task_ptr.slot 3) 0x1000 msg7 IPC_SEND).2 = outcome.blocked
    ∧ (send_message cycle_state_2 (task_ptr.slot 1) 0x1000 msg7 IPC_SEND).2 = outcome.blocked
    ∧ task_ptr.slot 1 ∈ (deref cycle_state_3 (task_ptr.slot 2)).senders
    ∧ task_ptr.slot 2 ∈ (deref cycle_state_3 (task_ptr.slot 3)).senders
    ∧ task_ptr.slot 3 ∈ (deref cycle_state_3 (task_ptr.slot 1)).senders
    ∧ (deref cycle_state_3 (task_ptr.slot 1)).state = TASK_BLOCKED
    ∧ (deref cycle_state_3 (task_ptr.slot 2)).state = TASK_BLOCKED
    ∧ (deref cycle_state_3 (task_ptr.slot 3)).state = TASK_BLOCKED :=
  ⟨((four_tasks_reachable.tail
      (kernel_step.send four_tasks_state 2 0x1000 msg7 IPC_SEND (by decide))).tail
      (kernel_step.send cycle_state_1 3 0x1000 msg7 IPC_SEND (by decide))).tail
      (kernel_step.send cycle_state_2 1 0x1000 msg7 IPC_SEND (by decide)),
    by decide, by decide, by decide, by decide, by decide, by decide, by decide, by decide,
    by decide⟩

theorem send_message_no_park (k : kernel) (dst : task_ptr) (m : Nat) (um : message)
    (flags : Nat) (hd : dst ∈ (deref k (CURRENT_TASK k)).senders) :
    (send_message k dst m um flags).2 ≠ outcome.blocked := by
  have hany : (deref k (CURRENT_TASK k)).senders.any
      (fun t => decide ((deref k t).tid = (deref k dst).tid)) = true := by
    rw [List.any_eq_true]
    exact ⟨dst, hd, by simp⟩
  unfold send_message
  dsimp only
  split
  · simp
  split
  · simp
  split
  · simp
  split
  · simp
  · simp [hany]

/-- C23, as far as it holds: in every reachable state no two tasks are parked in each
other's sender queue and no task is parked in its own; and a send to a task that is
parked in the caller's sender queue never parks the caller. -/
theorem no_mutual_parking (k : kernel) (h : reachable k) :
    (∀ x y, x ∈ (deref k y).senders → y ∉ (deref k x).senders)
    ∧ (∀ dst m um flags, dst ∈ (deref k (CURRENT_TASK k)).senders →
        (send_message k dst m um flags).2 ≠ outcome.blocked) :=
  ⟨(reachable_inv k h).no_mutual, fun dst m um flags hd => send_message_no_park k dst m um flags hd⟩

theorem no_mutual_parking_witness :
    task_ptr.slot 1 ∈ (deref cycle_state_1 (task_ptr.slot 2)).senders
    ∧ task_ptr.slot 2 ∉ (deref cycle_state_1 (task_ptr.slot 1)).senders :=
  ⟨by decide, (no_mutual_parking cycle_state_1
    (four_tasks_reachable.tail
      (kernel_step.send four_tasks_state 2 0x1000 msg7 IPC_SEND (by decide)))).1
    (task_ptr.slot 1) (task_ptr.slot 2) (by decide)⟩

theorem race_state_0_reachable : reachable race_state_0 :=
  (((((Relation.ReflTransGen.refl.tail
    (kernel_step.create boot_kernel "vm" 0x10000 none true true (by intro pg h; cases h))).tail
    (kernel_step.create _ "t" 0x10000 (some (task_ptr.slot 0)) true true
      (by intro pg h; cases h; exact ⟨0, rfl, by decide⟩))).tail
    (kernel_step.switch _)).tail
    (kernel_step.cpu _ 1 (by decide))).tail
    (kernel_step.switch _)).tail
    (kernel_step.cpu _ 0 (by decide))

/-- C22: the check `ref_count > 0` of `task_destroy` comes before its wait loop, and the
wait loop gives the kernel lock away (`arch_send_ipi`).  Task 1 runs on CPU 0 and
task 2 on CPU 1.  Task 1 calls `task_destroy` on task 2: the checks pass
(`ref_count = 0`), task 2 is runnable and not queued, so the loop sends
`IPI_RESCHEDULE`.  CPU 1 enters the kernel first with `task_create` called by task 2
with itself as pager (task 3, `ref_count` of task 2 becomes 1), then handles the IPI
with `task_switch`.  CPU 0 finds task 2 on the run queue and finishes: `task_destroy`
returns `OK` and frees the slot of task 2 while task 3, in use, names it as its pager.
The next `task_create` reuses the slot: the new task 2 has `ref_count = 0` and one
task naming it as pager, and `task_destroy` on it returns `OK` again. -/
theorem task_destroy_races_with_task_create :
    reachable race_state_5
    ∧ (task_destroy_enter race_state_0 (task_ptr.slot 1)).2 = none
    ∧ task_destroy_ready race_state_1 (task_ptr.slot 1) = false
    ∧ (task_create { race_state_1 with hart := 1 } "u" 0x10000 (some (task_ptr.slot 1))
        true true).2 = 3
    ∧ (deref race_state_3 (task_ptr.slot 1)).ref_count = 1
    ∧ task_destroy_ready race_state_3 (task_ptr.slot 1) = true
    ∧ (task_destroy_finish race_state_3 (task_ptr.slot 1)).map Prod.snd = some OK
    ∧ ¬ in_use race_state_4 1
    ∧ in_use race_state_4 2
    ∧ (deref race_state_4 (task_ptr.slot 2)).pager = some (task_ptr.slot 1)
    ∧ (task_create race_state_4 "n" 0x10000 (some (task_ptr.slot 0)) true true).2 = 2
    ∧ (deref race_state_5 (task_ptr.slot 1)).ref_count = 0
    ∧ pager_refs race_state_5 1 = 1
    ∧ (task_destroy race_state_5 (task_ptr.slot 1)).map Prod.snd = some OK :=
  ⟨((((((race_state_0_reachable.tail
      (kernel_step.destroy_enter race_state_0 1 (by decide) (by decide))).tail
      (kernel_step.cpu race_state_1 1 (by decide))).tail
      (kernel_step.create _ "u" 0x10000 (some (task_ptr.slot 1)) true true
        (by intro pg h; cases h; exact ⟨1, rfl, by decide⟩))).tail
      (kernel_step.switch race_state_2)).tail
      (kernel_step.cpu _ 0 (by decide))).tail
      (kernel_step.destroy_finish race_state_3 1 (race_state_4, OK) (by decide) (by decide)
        (by decide))).tail
      (kernel_step.create race_state_4 "n" 0x10000 (some (task_ptr.slot 0)) true true
        (by intro pg h; cases h; exact ⟨0, rfl, by decide⟩)),
    by decide, by decide, by decide, by decide, by decide, by decide, by decide, by decide,
    by decide, by decide, by decide, by decide, by decide⟩

/-! ## The pager count under one lock hold -/

theorem countP_range_congr (P Q : Nat → Bool) :
    ∀ n, (∀ l, l < n → P l = Q l) → (List.range n).countP P = (List.range n).countP Q := by
  intro n
  induction n with
  | zero => intro _; rfl
  | succ n ih =>
    intro h
    rw [List.range_succ, List.countP_append, List.countP_append,
      ih (fun l hl => h l (by omega))]
    simp [List.countP_cons, h n (by omega)]

/-- Counting over `0 .. n - 1` when the predicate changes at one index only. -/
theorem countP_range_update (P Q : Nat → Bool) (j : Nat) :
    ∀ n, j < n → (∀ l, l < n → l ≠ j → P l = Q l) →
      (List.range n).countP Q + (if P j = true then 1 else 0)
        = (List.range n).countP P + (if Q j = true then 1 else 0) := by
  intro n
  induction n with
  | zero => intro h; omega
  | succ n ih =>
    intro hj h
    rw [List.range_succ, List.countP_append, List.countP_append]
    by_cases hjn : j = n
    · subst hjn
      rw [countP_range_congr P Q j (fun l hl => h l (by omega) (by omega))]
      simp only [List.countP_cons, List.countP_nil]
      omega
    · have := ih (by omega) (fun l hl hne => h l (by omega) hne)
      simp only [List.countP_cons, List.countP_nil, h n (by omega) (fun e => hjn e.symm)]
      omega

theorem pager_refs_eq_zero (k : kernel) (i : Nat) (h : pager_refs k i = 0) (l : Nat)
    (hl : l < k.tasks.length) (hu : in_use k l)
    (hp : (deref k (task_ptr.slot l)).pager = some (task_ptr.slot i)) : l = i := by
  by_contra hne
  rw [pager_refs, List.countP_eq_zero] at h
  have := h l (List.mem_range.2 hl)
  simp only [decide_eq_true_eq, not_and] at this
  exact this hne hu hp

/-- The invariant depends only on which slots are in use and on the `pager` and
`ref_count` of the tasks in use. -/
theorem pager_inv_of_same (k k2 : kernel) (h : pager_inv k)
    (hlen : k2.tasks.length = k.tasks.length)
    (hu : ∀ l, in_use k2 l ↔ in_use k l)
    (hp : ∀ l, in_use k l →
      (deref k2 (task_ptr.slot l)).pager = (deref k (task_ptr.slot l)).pager
      ∧ (deref k2 (task_ptr.slot l)).ref_count = (deref k (task_ptr.slot l)).ref_count) :
    pager_inv k2 := by
  have hrefs : ∀ i, pager_refs k2 i = pager_refs k i := by
    intro i
    rw [pager_refs, pager_refs, hlen]
    apply countP_range_congr
    intro l _
    by_cases hl : in_use k l
    · simp only [(hu l).2 hl, hl, (hp l hl).1]
    · have hl2 : ¬ in_use k2 l := fun hh => hl ((hu l).1 hh)
      simp [hl, hl2]
  refine ⟨by rw [hlen]; exact h.tasks_len, ?_, ?_⟩
  · intro i hi
    have hi1 := (hu i).1 hi
    rw [(hp i hi1).2, hrefs]
    exact h.count i hi1
  · intro i pg hi hpg
    have hi1 := (hu i).1 hi
    rw [(hp i hi1).1] at hpg
    obtain ⟨j, hj1, hj2, hj3⟩ := h.pager_used i pg hi1 hpg
    exact ⟨j, hj1, hj2, (hu j).2 hj3⟩

/-- A new task in an unused slot, with the `ref_count` of its pager raised by one. -/
theorem pager_inv_create (k k2 : kernel) (h : pager_inv k)
    (hlen : k2.tasks.length = k.tasks.length) (j : Nat) (hj : j < NUM_TASKS_MAX)
    (hju : ¬ in_use k j) (pager : Option task_ptr) (hpo : pager_ok k pager)
    (hnew : in_use k2 j ∧ (deref k2 (task_ptr.slot j)).pager = pager
      ∧ (deref k2 (task_ptr.slot j)).ref_count = 0)
    (hold : ∀ l, l ≠ j → (in_use k2 l ↔ in_use k l)
      ∧ (deref k2 (task_ptr.slot l)).pager = (deref k (task_ptr.slot l)).pager
      ∧ (deref k2 (task_ptr.slot l)).ref_count
          = (deref k (task_ptr.slot l)).ref_count
            + (if pager = some (task_ptr.slot l) then 1 else 0)) :
    pager_inv k2 := by
  have hjl : j < k.tasks.length := by rw [h.tasks_len]; exact hj
  refine ⟨by rw [hlen]; exact h.tasks_len, ?_, ?_⟩
  · intro i hi
    by_cases hij : i = j
    · subst hij
      rw [hnew.2.2]
      have : pager_refs k2 i = 0 := by
        rw [pager_refs, List.countP_eq_zero]
        intro l _
        simp only [decide_eq_true_eq, not_and]
        intro hne hl2 hpl
        have hl1 := ((hold l hne).1).1 hl2
        rw [(hold l hne).2.1] at hpl
        obtain ⟨q, hq1, -, hq3⟩ := h.pager_used l _ hl1 hpl
        simp only [task_ptr.slot.injEq] at hq1
        rw [← hq1] at hq3
        exact hju hq3
      rw [this]; rfl
    · have hi1 := ((hold i hij).1).1 hi
      rw [(hold i hij).2.2, h.count i hi1]
      have hupd := countP_range_update
        (fun l => decide (l ≠ i ∧ in_use k l
          ∧ (deref k (task_ptr.slot l)).pager = some (task_ptr.slot i)))
        (fun l => decide (l ≠ i ∧ in_use k2 l
          ∧ (deref k2 (task_ptr.slot l)).pager = some (task_ptr.slot i)))
        j k.tasks.length hjl (by
          intro l _ hne
          by_cases hl : in_use k l
          · simp only [((hold l hne).1).2 hl, hl, (hold l hne).2.1]
          · have hl2 : ¬ in_use k2 l := fun hh => hl (((hold l hne).1).1 hh)
            simp [hl, hl2])
      have hPj : decide (j ≠ i ∧ in_use k j
          ∧ (deref k (task_ptr.slot j)).pager = some (task_ptr.slot i)) = false := by
        simp [hju]
      have hQj : decide (j ≠ i ∧ in_use k2 j
          ∧ (deref k2 (task_ptr.slot j)).pager = some (task_ptr.slot i))
          = decide (pager = some (task_ptr.slot i)) := by
        have hji : j ≠ i := fun e => hij e.symm
        simp [hji, hnew.1, hnew.2.1]
      simp only [hPj, hQj, decide_eq_true_eq, Bool.false_eq_true, if_false,
        Nat.add_zero] at hupd
      have e1 : pager_refs k2 i = (List.range k.tasks.length).countP (fun l =>
          decide (l ≠ i ∧ in_use k2 l
            ∧ (deref k2 (task_ptr.slot l)).pager = some (task_ptr.slot i))) := by
        rw [pager_refs, hlen]
      rw [e1]
      unfold pager_refs
      by_cases hc : pager = some (task_ptr.slot i)
      · rw [if_pos hc] at hupd ⊢; omega
      · rw [if_neg hc] at hupd ⊢; omega
  · intro i pg hi hpg
    by_cases hij : i = j
    · subst hij
      rw [hnew.2.1] at hpg
      obtain ⟨q, hq1, hq2⟩ := hpo pg hpg
      have hqi : q ≠ i := fun e => hju (e ▸ hq2)
      exact ⟨q, hq1, hqi, ((hold q hqi).1).2 hq2⟩
    · have hi1 := ((hold i hij).1).1 hi
      rw [(hold i hij).2.1] at hpg
      obtain ⟨q, hq1, hq2, hq3⟩ := h.pager_used i pg hi1 hpg
      have hqj : q ≠ j := fun e => hju (e ▸ hq3)
      exact ⟨q, hq1, hq2, ((hold q hqj).1).2 hq3⟩

/-- A task with `ref_count = 0` leaves, with the `ref_count` of its pager lowered by
one. -/
theorem pager_inv_destroy (k k2 : kernel) (h : pager_inv k)
    (hlen : k2.tasks.length = k.tasks.length) (i : Nat) (hi : in_use k i)
    (hrc : ¬ (deref k (task_ptr.slot i)).ref_count > 0) (p : Nat)
    (hp : (deref k (task_ptr.slot i)).pager = some (task_ptr.slot p))
    (hgone : ¬ in_use k2 i)
    (hold : ∀ l, l ≠ i → (in_use k2 l ↔ in_use k l)
      ∧ (deref k2 (task_ptr.slot l)).pager = (deref k (task_ptr.slot l)).pager
      ∧ (deref k2 (task_ptr.slot l)).ref_count
          = (deref k (task_ptr.slot l)).ref_count - (if l = p then 1 else 0)) :
    pager_inv k2 ∧ pager_refs k i = 0 := by
  have hil : i < k.tasks.length := in_use_valid k i hi
  have hz : pager_refs k i = 0 := by
    have := h.count i hi
    omega
  have hnone : ∀ l, in_use k l → (deref k (task_ptr.slot l)).pager ≠ some (task_ptr.slot i) := by
    intro l hl hpl
    have e := pager_refs_eq_zero k i hz l (in_use_valid k l hl) hl hpl
    subst e
    obtain ⟨q, hq1, hq2, -⟩ := h.pager_used l _ hl hpl
    simp only [task_ptr.slot.injEq] at hq1
    exact hq2 hq1.symm
  refine ⟨⟨by rw [hlen]; exact h.tasks_len, ?_, ?_⟩, hz⟩
  · intro l hl
    have hli : l ≠ i := fun e => hgone (e ▸ hl)
    have hl1 := ((hold l hli).1).1 hl
    rw [(hold l hli).2.2, h.count l hl1]
    have hupd := countP_range_update
      (fun x => decide (x ≠ l ∧ in_use k2 x
        ∧ (deref k2 (task_ptr.slot x)).pager = some (task_ptr.slot l)))
      (fun x => decide (x ≠ l ∧ in_use k x
        ∧ (deref k (task_ptr.slot x)).pager = some (task_ptr.slot l)))
      i k.tasks.length hil (by
        intro x _ hne
        by_cases hx : in_use k x
        · simp only [((hold x hne).1).2 hx, hx, (hold x hne).2.1]
        · have hx2 : ¬ in_use k2 x := fun hh => hx (((hold x hne).1).1 hh)
          simp [hx, hx2])
    have hPi : decide (i ≠ l ∧ in_use k2 i
        ∧ (deref k2 (task_ptr.slot i)).pager = some (task_ptr.slot l)) = false := by
      simp [hgone]
    have hQi : decide (i ≠ l ∧ in_use k i
        ∧ (deref k (task_ptr.slot i)).pager = some (task_ptr.slot l))
        = decide (l = p) := by
      have hil2 : i ≠ l := fun e => hli e.symm
      simp only [hil2, hi, hp, ne_eq, not_false_eq_true, true_and, Option.some.injEq,
        task_ptr.slot.injEq]
      by_cases e : l = p
      · simp [e]
      · have e2 : ¬ p = l := fun hh => e hh.symm
        simp [e, e2]
    simp only [hPi, hQi, decide_eq_true_eq, Bool.false_eq_true, if_false,
      Nat.add_zero] at hupd
    have e1 : pager_refs k2 l = (List.range k.tasks.length).countP (fun x =>
        decide (x ≠ l ∧ in_use k2 x
          ∧ (deref k2 (task_ptr.slot x)).pager = some (task_ptr.slot l))) := by
      rw [pager_refs, hlen]
    rw [e1]
    unfold pager_refs
    by_cases hc : l = p
    · rw [if_pos hc] at hupd ⊢; omega
    · rw [if_neg hc] at hupd ⊢; omega
  · intro l pg hl hpg
    have hli : l ≠ i := fun e => hgone (e ▸ hl)
    have hl1 := ((hold l hli).1).1 hl
    rw [(hold l hli).2.1] at hpg
    obtain ⟨q, hq1, hq2, hq3⟩ := h.pager_used l pg hl1 hpg
    have hqi : q ≠ i := by
      intro e
      rw [hq1, e] at hpg
      exact hnone l hl1 hpg
    exact ⟨q, hq1, hq2, ((hold q hqi).1).2 hq3⟩

theorem pager_ok_slot (k : kernel) (pager : Option task_ptr) (hpo : pager_ok k pager)
    (j : Nat) (hju : ¬ in_use k j) : pager ≠ some (task_ptr.slot j) := by
  intro e
  obtain ⟨q, hq1, hq2⟩ := hpo _ e
  simp only [task_ptr.slot.injEq] at hq1
  exact hju (hq1 ▸ hq2)

/-- What `init_task_struct` on an unused slot does to `state`, `pager` and `ref_count`. -/
theorem init_task_struct_view (k : kernel) (j : Nat) (tid : Int) (name : String)
    (pager : Option task_ptr) (vm_ok stack_ok : Bool)
    (hv : valid k (task_ptr.slot j)) (hju : ¬ in_use k j) (hpo : pager_ok k pager) :
    (init_task_struct k (task_ptr.slot j) tid name pager vm_ok stack_ok).1.tasks.length
      = k.tasks.length
    ∧ ((init_task_struct k (task_ptr.slot j) tid name pager vm_ok stack_ok).2 ≠ OK →
        ∀ l, (deref (init_task_struct k (task_ptr.slot j) tid name pager vm_ok stack_ok).1
            (task_ptr.slot l)).state = (deref k (task_ptr.slot l)).state
          ∧ (l ≠ j → deref (init_task_struct k (task_ptr.slot j) tid name pager vm_ok
              stack_ok).1 (task_ptr.slot l) = deref k (task_ptr.slot l)))
    ∧ ((init_task_struct k (task_ptr.slot j) tid name pager vm_ok stack_ok).2 = OK →
        (deref (init_task_struct k (task_ptr.slot j) tid name pager vm_ok stack_ok).1
            (task_ptr.slot j)).state = TASK_BLOCKED
        ∧ (deref (init_task_struct k (task_ptr.slot j) tid name pager vm_ok stack_ok).1
            (task_ptr.slot j)).pager = pager
        ∧ (deref (init_task_struct k (task_ptr.slot j) tid name pager vm_ok stack_ok).1
            (task_ptr.slot j)).ref_count = 0
        ∧ ∀ l, l ≠ j →
          (deref (init_task_struct k (task_ptr.slot j) tid name pager vm_ok stack_ok).1
              (task_ptr.slot l)).state = (deref k (task_ptr.slot l)).state
          ∧ (deref (init_task_struct k (task_ptr.slot j) tid name pager vm_ok stack_ok).1
              (task_ptr.slot l)).pager = (deref k (task_ptr.slot l)).pager
          ∧ (deref (init_task_struct k (task_ptr.slot j) tid name pager vm_ok stack_ok).1
              (task_ptr.slot l)).ref_count
            = (deref k (task_ptr.slot l)).ref_count
              + (if pager = some (task_ptr.slot l) then 1 else 0)) := by
  have hpj := pager_ok_slot k pager hpo j hju
  have hne : ∀ l, l ≠ j → task_ptr.slot l ≠ task_ptr.slot j := by
    intro l hl e; simp only [task_ptr.slot.injEq] at e; exact hl e
  have hne2 : ∀ a b : Nat, a ≠ b → task_ptr.slot a ≠ task_ptr.slot b := by
    intro a b hl e; simp only [task_ptr.slot.injEq] at e; exact hl e
  unfold init_task_struct
  dsimp only
  by_cases h1 : vm_ok = false
  · rw [if_pos h1]
    dsimp only
    refine ⟨by simp, fun _ l => ⟨deref_update_state _ _ _ _ rfl,
      fun hl => deref_update_ne _ _ _ _ (hne l hl)⟩, fun he => absurd he (by
        show ERR_NO_MEMORY ≠ OK; decide)⟩
  rw [if_neg h1]
  by_cases h2 : stack_ok = false
  · rw [if_pos h2]
    dsimp only
    refine ⟨by simp, fun _ l => ⟨deref_update_state _ _ _ _ rfl,
      fun hl => deref_update_ne _ _ _ _ (hne l hl)⟩, fun he => absurd he (by
        show ERR_NO_MEMORY ≠ OK; decide)⟩
  rw [if_neg h2]
  cases pager with
  | none =>
    dsimp only
    refine ⟨by simp, fun he => absurd rfl he, fun _ => ⟨?_, ?_, ?_, ?_⟩⟩
    · rw [deref_update_same _ _ _ (by simpa using hv)]
    · rw [deref_update_same _ _ _ (by simpa using hv), deref_update_same _ _ _ hv]
    · rw [deref_update_same _ _ _ (by simpa using hv), deref_update_same _ _ _ hv]
    · intro l hl
      rw [deref_update_ne _ _ _ _ (hne l hl), deref_update_ne _ _ _ _ (hne l hl)]
      simp
  | some pg =>
    obtain ⟨p, hp1, hp2⟩ := hpo pg rfl
    subst hp1
    have hpj2 : p ≠ j := fun e => hju (e ▸ hp2)
    have hvp : valid k (task_ptr.slot p) := in_use_valid k p hp2
    dsimp only
    refine ⟨by simp, fun he => absurd rfl he, fun _ => ⟨?_, ?_, ?_, ?_⟩⟩
    · rw [deref_update_same _ _ _ (by simpa using hv)]
    · rw [deref_update_same _ _ _ (by simpa using hv),
        deref_update_ne _ _ _ _ (hne2 j p hpj2.symm), deref_update_same _ _ _ hv]
    · rw [deref_update_same _ _ _ (by simpa using hv),
        deref_update_ne _ _ _ _ (hne2 j p hpj2.symm), deref_update_same _ _ _ hv]
    · intro l hl
      rw [deref_update_ne _ _ _ _ (hne l hl)]
      by_cases hlp : l = p
      · subst hlp
        rw [deref_update_same _ _ _ (by simpa using hvp), deref_update_ne _ _ _ _ (hne l hl)]
        simp
      · have hlp2 : task_ptr.slot l ≠ task_ptr.slot p := by
          intro e; simp only [task_ptr.slot.injEq] at e; exact hlp e
        have hlp3 : ¬ (p = l) := fun e => hlp e.symm
        rw [deref_update_ne _ _ _ _ hlp2, deref_update_ne _ _ _ _ (hne l hl)]
        simp [hlp3]

theorem resume_push_deref (k1 : kernel) (j l : Nat) :
    deref (task_resume (active_push k1 (task_ptr.slot j)) (task_ptr.slot j)) (task_ptr.slot l)
      = if l = j ∧ valid k1 (task_ptr.slot j)
        then { deref k1 (task_ptr.slot l) with state := TASK_RUNNABLE }
        else deref k1 (task_ptr.slot l) := by
  rw [deref_task_resume, deref_update, deref_active_push]
  simp only [task_ptr.slot.injEq, valid_active_push]

theorem pager_inv_created (k k1 : kernel) (j : Nat) (pager : Option task_ptr) (err : Int)
    (h : pager_inv k) (hpo : pager_ok k pager) (hj : j < NUM_TASKS_MAX) (hju : ¬ in_use k j)
    (hlen : k1.tasks.length = k.tasks.length)
    (hfail : err ≠ OK →
        ∀ l, (deref k1 (task_ptr.slot l)).state = (deref k (task_ptr.slot l)).state
          ∧ (l ≠ j → deref k1 (task_ptr.slot l) = deref k (task_ptr.slot l)))
    (hok : err = OK →
        (deref k1 (task_ptr.slot j)).state = TASK_BLOCKED
        ∧ (deref k1 (task_ptr.slot j)).pager = pager
        ∧ (deref k1 (task_ptr.slot j)).ref_count = 0
        ∧ ∀ l, l ≠ j →
          (deref k1 (task_ptr.slot l)).state = (deref k (task_ptr.slot l)).state
          ∧ (deref k1 (task_ptr.slot l)).pager = (deref k (task_ptr.slot l)).pager
          ∧ (deref k1 (task_ptr.slot l)).ref_count
            = (deref k (task_ptr.slot l)).ref_count
              + (if pager = some (task_ptr.slot l) then 1 else 0)) :
    pager_inv (if err ≠ OK then k1
      else task_resume (active_push k1 (task_ptr.slot j)) (task_ptr.slot j)) := by
  by_cases he : err ≠ OK
  · rw [if_pos he]
    have hf := hfail he
    refine pager_inv_of_same k k1 h hlen (fun l => ?_) (fun l hl => ?_)
    · unfold in_use; rw [(hf l).1]
    · have hlj : l ≠ j := fun e => hju (e ▸ hl)
      rw [(hf l).2 hlj]; exact ⟨rfl, rfl⟩
  · rw [if_neg he]
    have he2 : err = OK := by by_contra hc; exact he hc
    obtain ⟨h1, h2, h3, h4⟩ := hok he2
    have hv1 : valid k1 (task_ptr.slot j) := by
      simp only [valid]; rw [hlen, h.tasks_len]; exact hj
    refine pager_inv_create k _ h (by simp [task_resume, active_push, hlen]) j hj hju pager hpo ?_ ?_
    · rw [in_use, resume_push_deref, if_pos ⟨rfl, hv1⟩]
      exact ⟨by show TASK_RUNNABLE ≠ TASK_UNUSED; decide, h2, h3⟩
    · intro l hl
      rw [in_use, resume_push_deref, if_neg (fun hc => hl hc.1)]
      exact ⟨by rw [(h4 l hl).1]; rfl, (h4 l hl).2.1, (h4 l hl).2.2⟩

/-- `task_create` keeps the pager invariant on every path. -/
theorem pager_inv_task_create (k : kernel) (name : String) (ip : Nat)
    (pager : Option task_ptr) (vm_ok stack_ok : Bool) (h : pager_inv k)
    (hpo : pager_ok k pager) :
    pager_inv (task_create k name ip pager vm_ok stack_ok).1 := by
  unfold task_create
  dsimp only
  split
  · exact h
  · rename_i hne
    obtain ⟨j, hj, hal, hu, -⟩ := alloc_tid_some k hne
    have hslot : (alloc_tid k - 1).toNat = j := by rw [hal]; simp
    have hv : valid k (task_ptr.slot j) := by
      simp only [valid]; rw [h.tasks_len]; exact hj
    rw [hslot]
    obtain ⟨v1, v2, v3⟩ := init_task_struct_view k j (alloc_tid k) name pager vm_ok stack_ok
      hv hu hpo
    have := pager_inv_created k _ j pager _ h hpo hj hu v1 v2 v3
    split
    · rename_i he; rw [if_pos he] at this; exact this
    · rename_i he; rw [if_neg he] at this; exact this

/-- `hinavm_create` keeps the pager invariant on every path. -/
theorem pager_inv_hinavm_create (k : kernel) (name : String)
    (pager : Option task_ptr) (page_ok vm_ok stack_ok : Bool) (h : pager_inv k)
    (hpo : pager_ok k pager) :
    pager_inv (hinavm_create k name pager page_ok vm_ok stack_ok).1 := by
  unfold hinavm_create
  dsimp only
  split
  · exact h
  · rename_i hne
    obtain ⟨j, hj, hal, hu, -⟩ := alloc_tid_some k hne
    have hslot : (alloc_tid k - 1).toNat = j := by rw [hal]; simp
    have hv : valid k (task_ptr.slot j) := by
      simp only [valid]; rw [h.tasks_len]; exact hj
    rw [hslot]
    split
    · exact h
    obtain ⟨v1, v2, v3⟩ := init_task_struct_view k j (alloc_tid k) name pager vm_ok stack_ok
      hv hu hpo
    have := pager_inv_created k _ j pager _ h hpo hj hu v1 v2 v3
    split
    · rename_i he; rw [if_pos he] at this; exact this
    · rename_i he; rw [if_neg he] at this; exact this

@[simp] theorem task_resume_tasks_length (k : kernel) (p : task_ptr) :
    (task_resume k p).tasks.length = k.tasks.length := by
  simp [task_resume]

@[simp] theorem notify_tasks_length (k : kernel) (d : task_ptr) (n : Nat) :
    (notify k d n).tasks.length = k.tasks.length := by
  unfold notify; split <;> simp

/-- `notify` changes neither `pager` nor `ref_count` nor which slots are in use. -/
theorem notify_pager_view (k : kernel) (d q : task_ptr) (n : Nat) :
    (deref (notify k d n) q).pager = (deref k q).pager
    ∧ (deref (notify k d n) q).ref_count = (deref k q).ref_count
    ∧ ((deref (notify k d n) q).state = TASK_UNUSED ↔ (deref k q).state = TASK_UNUSED) := by
  unfold notify
  split
  · rename_i hc
    rw [deref_task_resume, deref_update]
    by_cases hq : q = d ∧ valid (update k d (fun t =>
        { t with m := { type := NOTIFY_MSG, src := FROM_KERNEL,
                        body := payload.notify (t.notifications ||| n) },
                 notifications := 0 })) d
    · rw [if_pos hq, deref_update]
      obtain ⟨hq1, -⟩ := hq
      subst hq1
      refine ⟨by split <;> rfl, by split <;> rfl, ?_⟩
      constructor
      · intro hh; exact absurd hh (by show TASK_RUNNABLE ≠ TASK_UNUSED; decide)
      · intro hh; rw [hc.1] at hh; exact absurd hh (by decide)
    · rw [if_neg hq, deref_update]
      refine ⟨by split <;> rfl, by split <;> rfl, by split <;> rfl⟩
  · rw [deref_update]
    refine ⟨by split <;> rfl, by split <;> rfl, by split <;> rfl⟩

theorem foldl_notify_pager_view (n : Nat) (l : List task_ptr) (q : task_ptr) :
    ∀ k : kernel,
      (l.foldl (fun s sender => notify s sender n) k).tasks.length = k.tasks.length
      ∧ (deref (l.foldl (fun s sender => notify s sender n) k) q).pager = (deref k q).pager
      ∧ (deref (l.foldl (fun s sender => notify s sender n) k) q).ref_count
          = (deref k q).ref_count
      ∧ ((deref (l.foldl (fun s sender => notify s sender n) k) q).state = TASK_UNUSED
          ↔ (deref k q).state = TASK_UNUSED) := by
  induction l with
  | nil => intro k; exact ⟨rfl, rfl, rfl, Iff.rfl⟩
  | cons a l ih =>
    intro k
    rw [List.foldl_cons]
    obtain ⟨i1, i2, i3, i4⟩ := ih (notify k a n)
    obtain ⟨n1, n2, n3⟩ := notify_pager_view k a q n
    exact ⟨by rw [i1]; simp, i2.trans n1, i3.trans n2, i4.trans n3⟩

/-- The tail of `task_destroy` keeps the pager invariant when the task has no
reference left. -/
theorem pager_inv_task_destroy_finish (k : kernel) (i : Nat) (r : kernel × Int)
    (h : pager_inv k) (hi : in_use k i)
    (hrc : ¬ (deref k (task_ptr.slot i)).ref_count > 0)
    (hfin : task_destroy_finish k (task_ptr.slot i) = some r) :
    pager_inv r.1 ∧ pager_refs k i = 0 := by
  have hvi : valid k (task_ptr.slot i) := in_use_valid k i hi
  have hne2 : ∀ a b : Nat, a ≠ b → task_ptr.slot a ≠ task_ptr.slot b := by
    intro a b hl e; simp only [task_ptr.slot.injEq] at e; exact hl e
  -- the state before the slot is marked unused
  have hk4 : ∀ q,
      (waitqueue_remove (active_remove ((deref k (task_ptr.slot i)).senders.foldl
        (fun s sender => notify s sender NOTIFY_ABORTED) k) (task_ptr.slot i))
        (task_ptr.slot i)).tasks.length = k.tasks.length
      ∧ (deref (waitqueue_remove (active_remove ((deref k (task_ptr.slot i)).senders.foldl
        (fun s sender => notify s sender NOTIFY_ABORTED) k) (task_ptr.slot i))
        (task_ptr.slot i)) q).pager = (deref k q).pager
      ∧ (deref (waitqueue_remove (active_remove ((deref k (task_ptr.slot i)).senders.foldl
        (fun s sender => notify s sender NOTIFY_ABORTED) k) (task_ptr.slot i))
        (task_ptr.slot i)) q).ref_count = (deref k q).ref_count
      ∧ ((deref (waitqueue_remove (active_remove ((deref k (task_ptr.slot i)).senders.foldl
        (fun s sender => notify s sender NOTIFY_ABORTED) k) (task_ptr.slot i))
        (task_ptr.slot i)) q).state = TASK_UNUSED ↔ (deref k q).state = TASK_UNUSED) := by
    intro q
    obtain ⟨f1, f2, f3, f4⟩ := foldl_notify_pager_view NOTIFY_ABORTED
      (deref k (task_ptr.slot i)).senders q k
    refine ⟨?_, ?_, ?_, ?_⟩
    · simp only [waitqueue_remove, active_remove, List.length_map]; exact f1
    · rw [deref_waitqueue_remove, deref_active_remove]; exact f2
    · rw [deref_waitqueue_remove, deref_active_remove]; exact f3
    · rw [deref_waitqueue_remove, deref_active_remove]; exact f4
  unfold task_destroy_finish at hfin
  dsimp only at hfin
  have hv4 : valid (waitqueue_remove (active_remove ((deref k (task_ptr.slot i)).senders.foldl
        (fun s sender => notify s sender NOTIFY_ABORTED) k) (task_ptr.slot i))
        (task_ptr.slot i)) (task_ptr.slot i) := by
    simp only [valid]; rw [(hk4 (task_ptr.slot i)).1]; exact hvi
  rw [deref_update_same _ _ _ hv4] at hfin
  dsimp only at hfin
  rw [(hk4 (task_ptr.slot i)).2.1] at hfin
  cases hpg : (deref k (task_ptr.slot i)).pager with
  | none => rw [hpg] at hfin; cases hfin
  | some pg =>
    rw [hpg] at hfin
    simp only [Option.some.injEq] at hfin
    obtain ⟨p, hp1, hp2, hp3⟩ := h.pager_used i pg hi hpg
    subst hp1
    rw [← hfin]
    dsimp only
    have hvp4 : valid (update (waitqueue_remove (active_remove
        ((deref k (task_ptr.slot i)).senders.foldl
        (fun s sender => notify s sender NOTIFY_ABORTED) k) (task_ptr.slot i))
        (task_ptr.slot i)) (task_ptr.slot i) (fun t => { t with state := TASK_UNUSED }))
        (task_ptr.slot p) := by
      rw [valid_update]
      simp only [valid]; rw [(hk4 (task_ptr.slot i)).1]; exact in_use_valid k p hp3
    refine pager_inv_destroy k _ h (by rw [update_tasks_length, update_tasks_length]; exact (hk4 (task_ptr.slot i)).1)
      i hi hrc p hpg ?_ ?_
    · rw [in_use, deref_update_ne _ _ _ _ (hne2 i p hp2.symm), deref_update_same _ _ _ hv4]
      exact fun hh => hh rfl
    · intro l hl
      by_cases hlp : l = p
      · subst hlp
        rw [in_use, deref_update_same _ _ _ hvp4, deref_update_ne _ _ _ _ (hne2 l i hl)]
        refine ⟨not_congr (hk4 _).2.2.2, (hk4 _).2.1, ?_⟩
        show (deref _ _).ref_count - 1 = _
        rw [(hk4 _).2.2.1]; simp
      · rw [in_use, deref_update_ne _ _ _ _ (hne2 l p hlp),
          deref_update_ne _ _ _ _ (hne2 l i hl)]
        refine ⟨not_congr (hk4 _).2.2.2, (hk4 _).2.1, ?_⟩
        rw [(hk4 _).2.2.1]; simp [hlp]

theorem task_destroy_enter_some (k k1 : kernel) (t : task_ptr) (err : Int)
    (h : task_destroy_enter k t = (k1, some err)) : k1 = k ∧ err ≠ OK := by
  unfold task_destroy_enter at h
  split at h
  · simp only [Prod.mk.injEq, Option.some.injEq] at h
    exact ⟨h.1.symm, by rw [← h.2]; decide⟩
  split at h
  · simp only [Prod.mk.injEq, Option.some.injEq] at h
    exact ⟨h.1.symm, by rw [← h.2]; decide⟩
  · simp at h

theorem task_destroy_enter_none (k k1 : kernel) (t : task_ptr)
    (h : task_destroy_enter k t = (k1, none)) :
    k1 = update k t (fun t => { t with destroyed := true })
    ∧ ¬ (deref k t).ref_count > 0 := by
  unfold task_destroy_enter at h
  split at h
  · simp at h
  split at h
  · simp at h
  · rename_i hrc
    simp only [Prod.mk.injEq, and_true] at h
    exact ⟨h.symm, hrc⟩

/-- `task_destroy`, when its wait loop is over at the first test, keeps the pager
invariant; and it returns `OK` only for a task that no task in use names as pager. -/
theorem pager_inv_task_destroy (k : kernel) (i : Nat) (r : kernel × Int)
    (h : pager_inv k) (hi : in_use k i) (hd : task_destroy k (task_ptr.slot i) = some r) :
    pager_inv r.1 ∧ (r.2 = OK → pager_refs k i = 0) := by
  rw [task_destroy_eq] at hd
  split at hd
  · rename_i k1 err heq
    obtain ⟨e1, e2⟩ := task_destroy_enter_some k k1 _ err heq
    simp only [Option.some.injEq] at hd
    rw [← hd, e1]
    exact ⟨h, fun he => absurd he e2⟩
  · rename_i k1 heq
    obtain ⟨e1, hrc⟩ := task_destroy_enter_none k k1 _ heq
    subst e1
    split at hd
    · have hvi : valid k (task_ptr.slot i) := in_use_valid k i hi
      have h1 : pager_inv (update k (task_ptr.slot i) (fun t => { t with destroyed := true })) := by
        refine pager_inv_of_same k _ h (by simp) (fun l => ?_) (fun l _ => ?_)
        · rw [in_use, in_use, deref_update_state _ _ _ _ rfl]
        · rw [deref_update]; split <;> exact ⟨rfl, rfl⟩
      have hi1 : in_use (update k (task_ptr.slot i) (fun t => { t with destroyed := true })) i := by
        rw [in_use, deref_update_state _ _ _ _ rfl]; exact hi
      have hrc1 : ¬ (deref (update k (task_ptr.slot i) (fun t => { t with destroyed := true }))
          (task_ptr.slot i)).ref_count > 0 := by
        rw [deref_update_same _ _ _ hvi]; exact hrc
      obtain ⟨a, b⟩ := pager_inv_task_destroy_finish _ i r h1 hi1 hrc1 hd
      refine ⟨a, fun _ => ?_⟩
      have e : pager_refs (update k (task_ptr.slot i) (fun t => { t with destroyed := true })) i
          = pager_refs k i := by
        rw [pager_refs, pager_refs, update_tasks_length]
        apply countP_range_congr
        intro l _
        have hs : (deref (update k (task_ptr.slot i) (fun t => { t with destroyed := true }))
            (task_ptr.slot l)).state = (deref k (task_ptr.slot l)).state :=
          deref_update_state _ _ _ _ rfl
        have hp : (deref (update k (task_ptr.slot i) (fun t => { t with destroyed := true }))
            (task_ptr.slot l)).pager = (deref k (task_ptr.slot l)).pager := by
          rw [deref_update]; split <;> rfl
        simp only [in_use, hs, hp]
      rw [← e]; exact b
    · cases hd

theorem boot_kernel_pager_inv : pager_inv boot_kernel := by
  have hu : ∀ i, ¬ in_use boot_kernel i := by
    intro i hi
    rcases deref_boot_kernel (task_ptr.slot i) with h | h
    · exact hi (by rw [h]; rfl)
    · have hz : deref boot_kernel (task_ptr.slot i) = task.zero := by
        simp only [deref, boot_kernel, mk_kernel, List.getD_eq_getElem?_getD, List.length_nil,
          List.nil_append, Nat.sub_zero, List.getElem?_replicate]
        split <;> rfl
      exact hi (by rw [hz]; rfl)
  exact ⟨by decide, fun i hi => absurd hi (hu i), fun i pg hi => absurd hi (hu i)⟩

theorem same_pagers_refl (k : kernel) : same_pagers k k :=
  ⟨rfl, fun _ => ⟨rfl, rfl, Iff.rfl⟩⟩

theorem same_pagers_trans (k k2 k3 : kernel) (h1 : same_pagers k k2) (h2 : same_pagers k2 k3) :
    same_pagers k k3 :=
  ⟨h2.1.trans h1.1, fun q =>
    ⟨(h2.2 q).1.trans (h1.2 q).1, (h2.2 q).2.1.trans (h1.2 q).2.1,
      (h2.2 q).2.2.trans (h1.2 q).2.2⟩⟩

theorem same_pagers_of_deref (k k2 : kernel) (hlen : k2.tasks.length = k.tasks.length)
    (hd : ∀ q, deref k2 q = deref k q) : same_pagers k k2 :=
  ⟨hlen, fun q => by rw [hd q]; exact ⟨rfl, rfl, Iff.rfl⟩⟩

theorem same_pagers_update (k : kernel) (p : task_ptr) (f : task → task)
    (hp : (f (deref k p)).pager = (deref k p).pager)
    (hr : (f (deref k p)).ref_count = (deref k p).ref_count)
    (hs : (f (deref k p)).state = TASK_UNUSED ↔ (deref k p).state = TASK_UNUSED) :
    same_pagers k (update k p f) := by
  refine ⟨by simp, fun q => ?_⟩
  rw [deref_update]
  by_cases hq : q = p ∧ valid k p
  · rw [if_pos hq, hq.1]; exact ⟨hp, hr, hs⟩
  · rw [if_neg hq]; exact ⟨rfl, rfl, Iff.rfl⟩

theorem same_pagers_task_resume (k : kernel) (p : task_ptr)
    (hb : (deref k p).state ≠ TASK_UNUSED) : same_pagers k (task_resume k p) := by
  refine ⟨by simp, fun q => ?_⟩
  rw [deref_task_resume, deref_update]
  by_cases hq : q = p ∧ valid k p
  · rw [if_pos hq, hq.1]
    refine ⟨rfl, rfl, ?_⟩
    constructor
    · intro hh; exact absurd hh (by show TASK_RUNNABLE ≠ TASK_UNUSED; decide)
    · intro hh; exact absurd hh hb
  · rw [if_neg hq]; exact ⟨rfl, rfl, Iff.rfl⟩

theorem same_pagers_task_block (k : kernel) (p : task_ptr)
    (hb : (deref k p).state ≠ TASK_UNUSED) : same_pagers k (task_block k p) := by
  refine same_pagers_update k p _ rfl rfl ?_
  constructor
  · intro hh; exact absurd hh (by show TASK_BLOCKED ≠ TASK_UNUSED; decide)
  · intro hh; exact absurd hh hb

theorem same_pagers_waitqueue_remove (k : kernel) (p : task_ptr) :
    same_pagers k (waitqueue_remove k p) :=
  ⟨by simp [waitqueue_remove], fun q => by
    rw [deref_waitqueue_remove]; exact ⟨rfl, rfl, Iff.rfl⟩⟩

theorem same_pagers_task_switch (k : kernel) : same_pagers k (task_switch k) :=
  ⟨task_switch_tasks_length k, fun q => by
    obtain ⟨x, hx⟩ := task_switch_deref k q
    rw [hx]; exact ⟨rfl, rfl, Iff.rfl⟩⟩

theorem same_pagers_notify (k : kernel) (d : task_ptr) (n : Nat) :
    same_pagers k (notify k d n) :=
  ⟨notify_tasks_length k d n, fun q => notify_pager_view k d q n⟩

theorem same_pagers_timer_tick_task (ticks : Nat) (k : kernel) (task : task_ptr) :
    same_pagers k (timer_tick_task ticks k task) := by
  unfold timer_tick_task
  split
  · have h1 := same_pagers_update k task
      (fun t => { t with timeout := t.timeout - min t.timeout ticks }) rfl rfl Iff.rfl
    dsimp only
    split
    · exact same_pagers_trans _ _ _ h1 (same_pagers_notify _ _ _)
    · exact h1
  · exact same_pagers_refl k

theorem same_pagers_foldl_timer (ticks : Nat) (l : List task_ptr) :
    ∀ k : kernel, same_pagers k (l.foldl (timer_tick_task ticks) k) := by
  induction l with
  | nil => intro k; exact same_pagers_refl k
  | cons a l ih =>
    intro k
    rw [List.foldl_cons]
    exact same_pagers_trans _ _ _ (same_pagers_timer_tick_task ticks k a) (ih _)

theorem same_pagers_handle_timer_interrupt (k : kernel) (uptime_ticks ticks : Nat) :
    same_pagers k (handle_timer_interrupt k uptime_ticks ticks).1 := by
  have h1 : same_pagers k
      (if (CPUVAR k).id = 0 then k.active_tasks.foldl (timer_tick_task ticks) k else k) := by
    split
    · exact same_pagers_foldl_timer ticks _ k
    · exact same_pagers_refl k
  have key : ∀ k1 : kernel, same_pagers k1
        (if (deref (update k1 (CURRENT_TASK k1)
              (fun t => { t with quantum := t.quantum - min ticks t.quantum }))
              (CURRENT_TASK k1)).quantum = 0
         then task_switch (update k1 (CURRENT_TASK k1)
              (fun t => { t with quantum := t.quantum - min ticks t.quantum }))
         else update k1 (CURRENT_TASK k1)
              (fun t => { t with quantum := t.quantum - min ticks t.quantum })) := by
    intro k1
    have h2 := same_pagers_update k1 (CURRENT_TASK k1)
      (fun t => { t with quantum := t.quantum - min ticks t.quantum }) rfl rfl Iff.rfl
    split
    · exact same_pagers_trans _ _ _ h2 (same_pagers_task_switch _)
    · exact h2
  exact same_pagers_trans _ _ _ h1 (key _)

theorem same_pagers_sys_time (k : kernel) (timeout : Int) :
    same_pagers k (sys_time k timeout).1 := by
  unfold sys_time
  split
  · exact same_pagers_refl k
  · dsimp only
    refine same_pagers_update k _ _ ?_ ?_ ?_ <;> rfl

theorem caller_in_use (k : kernel) (hc : caller_ok k) :
    (deref k (CURRENT_TASK k)).state ≠ TASK_UNUSED := by
  unfold caller_ok at hc
  rw [hc]; decide

theorem same_pagers_task_exit_switch (k : kernel) (hc : caller_ok k) :
    same_pagers k (task_exit_switch k) :=
  same_pagers_trans _ _ _ (same_pagers_task_block k _ (caller_in_use k hc))
    (same_pagers_task_switch _)

theorem same_pagers_send_deliver (k : kernel) (current dst : task_ptr) (copied_m : message)
    (flags : Nat) (hb : (deref k dst).state = TASK_BLOCKED) :
    same_pagers k (send_deliver k current dst copied_m flags).1 := by
  unfold send_deliver
  dsimp only
  have h1 := same_pagers_update k dst (fun t => { t with m := copied_m }) rfl rfl Iff.rfl
  have h2 := same_pagers_update (update k dst (fun t => { t with m := copied_m })) dst
    (fun t => { t with m := { t.m with src := if flags &&& IPC_KERNEL ≠ 0 then FROM_KERNEL
        else (deref (update k dst (fun t => { t with m := copied_m })) current).tid } })
    rfl rfl Iff.rfl
  refine same_pagers_trans _ _ _ (same_pagers_trans _ _ _ h1 h2) (same_pagers_task_resume _ _ ?_)
  rw [deref_update_state _ _ _ _ rfl, deref_update_state _ _ _ _ rfl, hb]
  decide

theorem same_pagers_send_message (k : kernel) (dst : task_ptr) (m : Nat) (um : message)
    (flags : Nat) (hc : caller_ok k) :
    same_pagers k (send_message k dst m um flags).1 := by
  unfold send_message
  dsimp only
  split
  · exact same_pagers_refl k
  split
  · exact same_pagers_refl k
  split
  · rename_i hd
    exact same_pagers_send_deliver k _ dst _ flags hd.1
  split
  · exact same_pagers_refl k
  split
  · exact same_pagers_refl k
  have h1 := same_pagers_update k dst
    (fun t => { t with senders := list_push_back t.senders (CURRENT_TASK k) }) rfl rfl Iff.rfl
  have h2 := same_pagers_task_block (update k dst
    (fun t => { t with senders := list_push_back t.senders (CURRENT_TASK k) })) (CURRENT_TASK k)
    (by rw [deref_update_state _ _ _ _ rfl]; exact caller_in_use k hc)
  exact same_pagers_trans _ _ _ (same_pagers_trans _ _ _ h1 h2) (same_pagers_task_switch _)

theorem same_pagers_send_message_resume (k : kernel) (dst : task_ptr) (copied_m : message)
    (flags : Nat)
    (hdst : (deref k (CURRENT_TASK k)).notifications &&& NOTIFY_ABORTED = 0 →
      (deref k dst).state = TASK_BLOCKED) :
    same_pagers k (send_message_resume k (CURRENT_TASK k) dst copied_m flags).1 := by
  unfold send_message_resume
  split
  · dsimp only
    refine same_pagers_update k _ _ ?_ ?_ ?_ <;> rfl
  · rename_i hn
    exact same_pagers_send_deliver k _ dst copied_m flags (hdst (by simpa using hn))

theorem same_pagers_recv_message (k : kernel) (src : Int) (m flags : Nat) (hc : caller_ok k)
    (hsender : ∀ s, recv_find_sender k src (deref k (CURRENT_TASK k)).senders = some s →
      (deref k s).state = TASK_BLOCKED) :
    same_pagers k (recv_message k src m flags).1 := by
  unfold recv_message
  dsimp only
  split
  · rw [recv_copy_out_fst]
    refine same_pagers_update k _ _ ?_ ?_ ?_ <;> rfl
  split
  · exact same_pagers_refl k
  have hfound : ∀ (found : kernel × Int), same_pagers k found.1 →
      (deref found.1 (CURRENT_TASK k)).state ≠ TASK_UNUSED →
      same_pagers k (task_switch (task_block
        (update found.1 (CURRENT_TASK k) (fun t => { t with wait_for := found.2 }))
        (CURRENT_TASK k))) := by
    intro found hf hcu
    have h2 := same_pagers_update found.1 (CURRENT_TASK k)
      (fun t => { t with wait_for := found.2 }) rfl rfl Iff.rfl
    have h3 := same_pagers_task_block
      (update found.1 (CURRENT_TASK k) (fun t => { t with wait_for := found.2 }))
      (CURRENT_TASK k) (by rw [deref_update_state _ _ _ _ rfl]; exact hcu)
    exact same_pagers_trans _ _ _ (same_pagers_trans _ _ _ (same_pagers_trans _ _ _ hf h2) h3)
      (same_pagers_task_switch _)
  cases hs : recv_find_sender k src (deref k (CURRENT_TASK k)).senders with
  | none => exact hfound (k, src) (same_pagers_refl k) (caller_in_use k hc)
  | some sender =>
    have hb := hsender sender hs
    have h1 := same_pagers_waitqueue_remove k sender
    have h2 := same_pagers_task_resume (waitqueue_remove k sender) sender
      (by rw [deref_waitqueue_remove]; show (deref k sender).state ≠ TASK_UNUSED; rw [hb]; decide)
    have h12 := same_pagers_trans _ _ _ h1 h2
    refine hfound (task_resume (waitqueue_remove k sender) sender,
      (deref (task_resume (waitqueue_remove k sender) sender) sender).tid) h12 ?_
    intro hh
    exact caller_in_use k hc (((h12.2 (CURRENT_TASK k)).2.2).1 hh)

theorem same_pagers_recv_message_resume (k : kernel) (m flags : Nat) :
    same_pagers k (recv_message_resume k (CURRENT_TASK k) m flags).1 := by
  unfold recv_message_resume
  dsimp only
  rw [recv_copy_out_fst]
  refine same_pagers_update k _ _ ?_ ?_ ?_ <;> rfl

theorem pager_inv_of_same_pagers (k k2 : kernel) (h : pager_inv k) (hs : same_pagers k k2) :
    pager_inv k2 :=
  pager_inv_of_same k k2 h hs.1
    (fun l => not_congr (hs.2 (task_ptr.slot l)).2.2)
    (fun l _ => ⟨(hs.2 (task_ptr.slot l)).1, (hs.2 (task_ptr.slot l)).2.1⟩)

/-- Every step keeps the pager invariant, but for one: the tail of a `task_destroy`
that had to wait, when during the wait the task got a reference (or its slot was
freed). -/
theorem kernel_step_pager_inv (k k2 : kernel) (hs : kernel_step k k2) (h : pager_inv k) :
    pager_inv k2
    ∨ ∃ i r, (deref k (task_ptr.slot i)).destroyed = true
        ∧ ((deref k (task_ptr.slot i)).ref_count > 0 ∨ ¬ in_use k i)
        ∧ task_destroy_finish k (task_ptr.slot i) = some r ∧ k2 = r.1 := by
  cases hs with
  | cpu c hc => exact Or.inl (pager_inv_of_same_pagers k _ h (same_pagers_of_deref k _ rfl (fun q => by cases q <;> rfl)))
  | create name ip pager vm_ok stack_ok hp =>
    exact Or.inl (pager_inv_task_create k name ip pager vm_ok stack_ok h hp)
  | hinavm name pager page_ok vm_ok stack_ok hp =>
    exact Or.inl (pager_inv_hinavm_create k name pager page_ok vm_ok stack_ok h hp)
  | destroy i r _ huse hd => exact Or.inl (pager_inv_task_destroy k i r h huse hd).1
  | destroy_enter i _ _ =>
    left
    refine pager_inv_of_same_pagers k _ h ?_
    unfold task_destroy_enter
    split
    · exact same_pagers_refl k
    split
    · exact same_pagers_refl k
    · dsimp only
      refine same_pagers_update k _ _ ?_ ?_ ?_ <;> rfl
  | destroy_finish i r hd _ hfin =>
    by_cases hc : in_use k i ∧ ¬ (deref k (task_ptr.slot i)).ref_count > 0
    · exact Or.inl (pager_inv_task_destroy_finish k i r h hc.1 hc.2 hfin).1
    · right
      refine ⟨i, r, hd, ?_, hfin, rfl⟩
      by_cases hu : in_use k i
      · left
        by_contra hrc
        exact hc ⟨hu, hrc⟩
      · exact Or.inr hu
  | send i m um flags hc =>
    exact Or.inl (pager_inv_of_same_pagers k _ h (same_pagers_send_message k _ m um flags hc))
  | send_resume i copied_m flags _ hdst =>
    exact Or.inl (pager_inv_of_same_pagers k _ h
      (same_pagers_send_message_resume k _ copied_m flags hdst))
  | recv src m flags hc hsender =>
    exact Or.inl (pager_inv_of_same_pagers k _ h
      (same_pagers_recv_message k src m flags hc hsender))
  | recv_resume m flags _ =>
    exact Or.inl (pager_inv_of_same_pagers k _ h (same_pagers_recv_message_resume k m flags))
  | notify i n => exact Or.inl (pager_inv_of_same_pagers k _ h (same_pagers_notify k _ n))
  | timer u t =>
    exact Or.inl (pager_inv_of_same_pagers k _ h (same_pagers_handle_timer_interrupt k u t))
  | time timeout _ =>
    exact Or.inl (pager_inv_of_same_pagers k _ h (same_pagers_sys_time k timeout))
  | exit hc =>
    exact Or.inl (pager_inv_of_same_pagers k _ h (same_pagers_task_exit_switch k hc))
  | switch => exact Or.inl (pager_inv_of_same_pagers k _ h (same_pagers_task_switch k))
  | resume i hb =>
    exact Or.inl (pager_inv_of_same_pagers k _ h
      (same_pagers_task_resume k _ (by rw [hb]; decide)))

end HinaOS
